import Mathlib

/-!
# Uintah unified scheduler, radiation solve and set-up checks

A shallow embedding of the parts of
`CCA/Components/Schedulers/UnifiedScheduler.cc` and
`CCA/Components/Arches/Radiation/DORadiationModel.cc` that the properties
below are about, followed by the properties themselves.

Conventions of the embedding:

* C++ `int` counters are `Int`; indices and sizes that are never negative
  are `Nat`.
* `std::vector` members are lists, read with `List.getD` and written with
  `List.set`.
* the compile-time switch `HAVE_CUDA` and the run-time switches of
  `Uintah::Parallel` are fields of `Config`.
* the member `dts` (class `DetailedTasks`, whose source is not part of the
  files at hand) is the record `DetailedTasks` of its queues.
-/

namespace Uintah

/-! ## Data model -/

/-- Values of `Task::TaskType` that the scheduler code tells apart. -/
inductive TaskType where
  | Normal
  | Reduction
  | Output
deriving DecidableEq, Repr

/-- What `UnifiedScheduler::runTasks` reads from a `DetailedTask` and from the
`Task` it points to. -/
structure DetailedTask where
  /-- Value of `getStaticOrder()`, used as the identity of the task. -/
  staticOrder : Nat
  /-- Value of `getTask()->getName()`. -/
  name : String
  /-- Value of `getTask()->d_phase`. -/
  d_phase : Nat
  /-- Value of `getTask()->getType()`. -/
  type : TaskType
  /-- Value of `getTask()->usesMPI()`. -/
  usesMPI : Bool
  /-- Value of `getTask()->usesDevice()`. -/
  usesDevice : Bool
  /-- Value of `getRequires().size()`. -/
  numRequires : Nat
  /-- Whether `getPatches() != NULL`. -/
  hasPatches : Bool
deriving DecidableEq, Repr

/-- Compile-time and run-time switches read by the scheduler. -/
structure Config where
  /-- The preprocessor symbol `HAVE_CUDA`. -/
  haveCuda : Bool
  /-- Value of `Uintah::Parallel::usingDevice()`. -/
  usingDevice : Bool
  /-- Value of `Uintah::Parallel::usingMPI()`. -/
  usingMPI : Bool
  /-- Whether the `ASSERT` macro is compiled in (it is defined outside the
  source files at hand). -/
  assertions : Bool
  /-- The ready-queue discipline: `before a b` says that `a` is handed out
  before `b`. -/
  before : DetailedTask → DetailedTask → Bool

/-- Modelled from the spec: the class `DetailedTasks` (member `dts`) is not
among the source files. Its queues are kept as lists in hand-out order, the
head being the task the next `getNext...`/`peekNext...` call returns. The
fields `initiated` and `awaitingExternal` stand for the per-task flag set by
`markInitiated()` and for a non-zero external dependency count. The two
`handed...` fields are history variables: they record, oldest first, what the
two ready queues have handed out. -/
structure DetailedTasks where
  externalReady : List DetailedTask
  internalReady : List DetailedTask
  verifyDataTransferCompletion : List DetailedTask
  finalizeDevicePreparation : List DetailedTask
  initiallyReadyDevice : List DetailedTask
  finalizeHostPreparation : List DetailedTask
  initiallyReadyHost : List DetailedTask
  completionPendingDevice : List DetailedTask
  initiated : List DetailedTask
  awaitingExternal : List DetailedTask
  handedInternal : List DetailedTask
  handedExternal : List DetailedTask
deriving DecidableEq, Repr

/-- The members of `UnifiedScheduler` that `execute`, `markTaskConsumed` and
`runTasks` use. `consumed` is the sequence of tasks passed to
`markTaskConsumed`, oldest first (what the `taskorder` stream prints);
`streamsDone` lists the tasks for which
`checkAllCudaStreamsDoneForThisTask()` currently answers true;
`numPendingRecvs` is what `pendingMPIRecvs()` currently returns. -/
structure UnifiedScheduler where
  ntasks : Int
  numTasksDone : Int
  currphase : Nat
  numPhases : Nat
  phaseTasks : List Int
  phaseTasksDone : List Int
  phaseSyncTask : List (Option DetailedTask)
  dts : DetailedTasks
  numPendingRecvs : Nat
  streamsDone : List DetailedTask
  consumed : List DetailedTask
deriving DecidableEq, Repr

/-- The local variables of one iteration of the outer loop of `runTasks`.
The eight flags exist only under `HAVE_CUDA`; without it they stay false. -/
structure Locals where
  readyTask : Option DetailedTask := none
  initTask : Option DetailedTask := none
  pendingMPIMsgs : Nat := 0
  havework : Bool := false
  gpuInitReady : Bool := false
  gpuVerifyDataTransferCompletion : Bool := false
  gpuFinalizeDevicePreparation : Bool := false
  gpuRunReady : Bool := false
  gpuPending : Bool := false
  cpuInitReady : Bool := false
  cpuFinalizeHostPreparation : Bool := false
  cpuRunReady : Bool := false
deriving DecidableEq, Repr

/-- The locals as declared at the top of the outer loop body. -/
def Locals.fresh : Locals := {}

/-- How one pass through the body of `while (!havework)` ends. -/
inductive Flow where
  /-- The end of the body was reached; the loop condition is tested again. -/
  | again
  /-- A `break` was executed. -/
  | leave
  /-- An `ASSERT` failed. -/
  | assertionFailed
deriving DecidableEq, Repr

/-! ## Queues of `DetailedTasks` -/

/-- Insertion of a task into a queue kept in hand-out order. -/
def enqueue (before : DetailedTask → DetailedTask → Bool) (t : DetailedTask) :
    List DetailedTask → List DetailedTask
  | [] => [t]
  | x :: xs => if before t x then t :: x :: xs else x :: enqueue before t xs

/-- Modelled from the spec: `DetailedTasks::getNextExternalReadyTask`, absent
from the sources; returns the head of the external-ready queue (`none` for
`NULL`) and removes it. -/
def DetailedTasks.getNextExternalReadyTask (d : DetailedTasks) :
    Option DetailedTask × DetailedTasks :=
  match d.externalReady with
  | [] => (none, d)
  | t :: rest => (some t, { d with externalReady := rest, handedExternal := d.handedExternal ++ [t] })

/-- Modelled from the spec: `DetailedTasks::getNextInternalReadyTask`, absent
from the sources; returns the head of the internal-ready queue and removes
it. -/
def DetailedTasks.getNextInternalReadyTask (d : DetailedTasks) :
    Option DetailedTask × DetailedTasks :=
  match d.internalReady with
  | [] => (none, d)
  | t :: rest => (some t, { d with internalReady := rest, handedInternal := d.handedInternal ++ [t] })

/-- Modelled from the spec: `DetailedTask::markInitiated`, absent from the
sources; sets the task's initiated flag. -/
def DetailedTasks.markInitiated (d : DetailedTasks) (t : DetailedTask) : DetailedTasks :=
  { d with initiated := t :: d.initiated }

/-- Modelled from the spec: `DetailedTask::checkExternalDepCount`, absent from
the sources ("where tasks get added to external ready queue"): a task whose
external dependency count is zero moves to the external-ready queue. -/
def DetailedTasks.checkExternalDepCount (c : Config) (d : DetailedTasks) (t : DetailedTask) :
    DetailedTasks :=
  if t ∈ d.awaitingExternal then d
  else { d with externalReady := enqueue c.before t d.externalReady }

/-! ## `UnifiedScheduler::execute` (counters) and `markTaskConsumed` -/

/-- The loop `for i < ntasks: phaseTasks[localTask(i)->d_phase]++` of
`execute`. -/
def countPhaseTasks (localTasks : List DetailedTask) (init : List Int) : List Int :=
  localTasks.foldl (fun acc t => acc.set t.d_phase (acc.getD t.d_phase 0 + 1)) init

/-- The counter set-up of `UnifiedScheduler::execute` (lines 657-698) for the
local tasks `localTasks` and `numPhases = tg->getNumTaskPhases()`; `d` is the
state of `dts` after `initTimestep()`. -/
def execute (localTasks : List DetailedTask) (numPhases : Nat) (d : DetailedTasks)
    (pending : Nat) : UnifiedScheduler :=
  { ntasks := (localTasks.length : Int)
    numTasksDone := 0
    currphase := 0
    numPhases := numPhases
    phaseTasks := countPhaseTasks localTasks (List.replicate numPhases 0)
    phaseTasksDone := List.replicate numPhases 0
    phaseSyncTask := List.replicate numPhases none
    dts := d
    numPendingRecvs := pending
    streamsDone := []
    consumed := [] }

/-- The loop `while (phaseTasks[currphase] == phaseTasksDone[currphase] &&
currphase + 1 < numPhases) currphase++` of `markTaskConsumed`, with `fuel`
bounding the number of iterations. -/
def advancePhase (phaseTasks phaseTasksDone : List Int) (numPhases : Nat) :
    Nat → Nat → Nat
  | 0, currphase => currphase
  | fuel + 1, currphase =>
    if phaseTasks.getD currphase 0 = phaseTasksDone.getD currphase 0 ∧ currphase + 1 < numPhases then
      advancePhase phaseTasks phaseTasksDone numPhases fuel (currphase + 1)
    else currphase

/-- The function `UnifiedScheduler::markTaskConsumed`. The phase loop gets `numPhases`
units of fuel, which it cannot use up (see `advancePhase_spec`). -/
def markTaskConsumed (s : UnifiedScheduler) (dtask : DetailedTask) : UnifiedScheduler :=
  let done := s.phaseTasksDone.set dtask.d_phase (s.phaseTasksDone.getD dtask.d_phase 0 + 1)
  { s with
    numTasksDone := s.numTasksDone + 1
    consumed := s.consumed ++ [dtask]
    phaseTasksDone := done
    currphase := advancePhase s.phaseTasks done s.numPhases s.numPhases s.currphase }

/-! ## The selection loop of `UnifiedScheduler::runTasks` (Part 1) -/

/-- The test of step (1.1): `phaseSyncTask[currphase] != NULL &&
phaseTasksDone[currphase] == phaseTasks[currphase] - 1`; the answer is the
sync task when the test holds. -/
def syncTaskReady (s : UnifiedScheduler) : Option DetailedTask :=
  match s.phaseSyncTask.getD s.currphase none with
  | some t =>
    if s.phaseTasksDone.getD s.currphase 0 = s.phaseTasks.getD s.currphase 0 - 1 then some t
    else none
  | none => none

/-- The test `usingDevice == true && dts->numX() > 0 &&
dts->peekNextX()->checkAllCudaStreamsDoneForThisTask()` of the steps (1.4) to
(1.5), for the queue `q`; compiled only under `HAVE_CUDA`. The answer is the
task `getNextX()` then returns, with the rest of the queue. -/
def deviceHead (c : Config) (s : UnifiedScheduler) (q : List DetailedTask) :
    Option (DetailedTask × List DetailedTask) :=
  match q with
  | t :: rest => if c.haveCuda ∧ c.usingDevice ∧ t ∈ s.streamsDone then some (t, rest) else none
  | [] => none

/-- The statement `if (numTasksDone == ntasks) break;` that ends the loop
body. -/
def endOfPass (s : UnifiedScheduler) (l : Locals) : UnifiedScheduler × Locals × Flow :=
  (s, l, if s.numTasksDone = s.ntasks then Flow.leave else Flow.again)

/-- Step (1.2) of the selection pass once `getNextExternalReadyTask` has
returned the task `t` and left `dts` as `d` (lines 930-965). -/
def externalReadyStep (c : Config) (s : UnifiedScheduler) (l : Locals) (t : DetailedTask)
    (d : DetailedTasks) : UnifiedScheduler × Locals × Flow :=
  let s1 := { s with dts := d }
  let l1 := { l with readyTask := some t, havework := true }
  if c.haveCuda then
    if t.usesDevice then (s1, { l1 with gpuInitReady := true }, Flow.leave)
    else if c.usingDevice = false ∨ t.hasPatches = false then
      (markTaskConsumed s1 t, { l1 with cpuRunReady := true }, Flow.leave)
    else if t.usesDevice = false ∧ c.usingDevice = true then
      (s1, { l1 with cpuInitReady := true }, Flow.leave)
    else (markTaskConsumed s1 t, { l1 with cpuRunReady := true }, Flow.leave)
  else (markTaskConsumed s1 t, l1, Flow.leave)

/-- Step (1.3) of the selection pass once `getNextInternalReadyTask` has
returned the task `t` and left `dts` as `d` (lines 978-999). -/
def internalReadyStep (c : Config) (s : UnifiedScheduler) (l : Locals) (t : DetailedTask)
    (d : DetailedTasks) : UnifiedScheduler × Locals × Flow :=
  let s1 := { s with dts := d }
  if t.type = TaskType.Reduction ∨ t.usesMPI = true then
    let s2 := { s1 with phaseSyncTask := s1.phaseSyncTask.set t.d_phase (some t) }
    if c.assertions = true ∧ t.numRequires ≠ 0 then
      (s2, { l with initTask := some t }, Flow.assertionFailed)
    else endOfPass s2 { l with initTask := none }
  else if t.numRequires = 0 then
    endOfPass { s1 with dts := (d.markInitiated t).checkExternalDepCount c t }
      { l with initTask := none }
  else (s1, { l with initTask := some t, havework := true }, Flow.leave)

/-- Steps (1.4) to (1.6) of the selection pass (lines 1012-1136): the device
queues, latest test last, and then the pending receives. -/
def deviceAndRecvStep (c : Config) (s : UnifiedScheduler) (l : Locals) :
    UnifiedScheduler × Locals × Flow :=
  match deviceHead c s s.dts.verifyDataTransferCompletion with
  | some (t, rest) =>
    -- (1.4)
    ({ s with dts := { s.dts with verifyDataTransferCompletion := rest } },
      { l with readyTask := some t, gpuVerifyDataTransferCompletion := true, havework := true },
      Flow.leave)
  | none =>
  match deviceHead c s s.dts.finalizeDevicePreparation with
  | some (t, rest) =>
    -- (1.4.1)
    ({ s with dts := { s.dts with finalizeDevicePreparation := rest } },
      { l with readyTask := some t, gpuFinalizeDevicePreparation := true, havework := true },
      Flow.leave)
  | none =>
  match deviceHead c s s.dts.initiallyReadyDevice with
  | some (t, rest) =>
    -- (1.4.2)
    ({ s with dts := { s.dts with initiallyReadyDevice := rest } },
      { l with readyTask := some t, gpuRunReady := true, havework := true },
      Flow.leave)
  | none =>
  match deviceHead c s s.dts.finalizeHostPreparation with
  | some (t, rest) =>
    -- (1.4.3)
    ({ s with dts := { s.dts with finalizeHostPreparation := rest } },
      { l with readyTask := some t, cpuFinalizeHostPreparation := true, havework := true },
      Flow.leave)
  | none =>
  match deviceHead c s s.dts.initiallyReadyHost with
  | some (t, rest) =>
    -- (1.4.4); the stream pool touched by `reclaimCudaStreamsIntoPool` is
    -- not part of this state
    (markTaskConsumed { s with dts := { s.dts with initiallyReadyHost := rest } } t,
      { l with readyTask := some t, cpuRunReady := true, havework := true },
      Flow.leave)
  | none =>
  match deviceHead c s s.dts.completionPendingDevice with
  | some (t, rest) =>
    -- (1.5)
    (markTaskConsumed { s with dts := { s.dts with completionPendingDevice := rest } } t,
      { l with readyTask := some t, havework := true, gpuPending := true },
      Flow.leave)
  | none =>
    -- (1.6)
    if s.numPendingRecvs > 0 then
      (s, { l with pendingMPIMsgs := s.numPendingRecvs, havework := true }, Flow.leave)
    else endOfPass s { l with pendingMPIMsgs := s.numPendingRecvs }

/-- One pass through the body of `while (!havework)` in
`UnifiedScheduler::runTasks` (lines 899-1140), executed while
`g_scheduler_mutex` is held. -/
def selectionPass (c : Config) (s : UnifiedScheduler) (l : Locals) :
    UnifiedScheduler × Locals × Flow :=
  match syncTaskReady s with
  | some t =>
    -- (1.1)
    (markTaskConsumed s t,
      { l with readyTask := some t, havework := true, cpuRunReady := c.haveCuda || l.cpuRunReady },
      Flow.leave)
  | none =>
    if s.dts.externalReady.length > 0 then
      -- (1.2)
      match s.dts.getNextExternalReadyTask with
      | (some t, d) => externalReadyStep c s l t d
      | (none, d) => endOfPass { s with dts := d } { l with readyTask := none }
    else if s.dts.internalReady.length > 0 then
      -- (1.3)
      match s.dts.getNextInternalReadyTask with
      | (some t, d) => internalReadyStep c s l t d
      | (none, d) => endOfPass { s with dts := d } { l with initTask := none }
    else deviceAndRecvStep c s l

/-- The loop `while (!havework) ...` of `runTasks` run by one thread with
nothing else changing the scheduler in between; `fuel` bounds the number of
passes, and `none` means the bound was reached while the loop was still
spinning. -/
def selectionLoop (c : Config) : Nat → UnifiedScheduler → Locals →
    Option (UnifiedScheduler × Locals × Flow)
  | 0, _, _ => none
  | fuel + 1, s, l =>
    if l.havework then some (s, l, Flow.leave)
    else
      match selectionPass c s l with
      | (s1, l1, Flow.again) => selectionLoop c fuel s1 l1
      | r => some r

/-- Nothing was selected by the loop: no task to initiate, no task to run and
no pending receive (the conditions of the three `if`s that open Part 2 all
fail). -/
def Locals.nothingSelected (l : Locals) : Prop :=
  l.initTask = none ∧ l.readyTask = none ∧ ¬ l.pendingMPIMsgs > 0

instance (l : Locals) : Decidable l.nothingSelected := by
  unfold Locals.nothingSelected; infer_instance

/-! ## Part 2 of `UnifiedScheduler::runTasks` -/

/-- Values of `Task::CallBackEvent` passed to `runTask`. -/
inductive CallBackEvent where
  | CPU
  | GPU
  | postGPU
deriving DecidableEq, Repr

/-- The calls Part 2 of `runTasks` makes on behalf of the selected task, in the
order in which it makes them. -/
inductive Call where
  | initiateTask (t : DetailedTask)
  | initiateReduction (t : DetailedTask)
  | assignDevicesAndStreams (t : DetailedTask)
  | initiateH2DCopies (t : DetailedTask)
  | syncTaskGpuDWs (t : DetailedTask)
  | markDeviceRequiresDataAsValid (t : DetailedTask)
  | performInternalGhostCellCopies (t : DetailedTask)
  | markDeviceGhostsAsValid (t : DetailedTask)
  | markDeviceComputesDataAsValid (t : DetailedTask)
  | deleteTaskGpuDataWarehouses (t : DetailedTask)
  | reclaimCudaStreamsIntoPool (t : DetailedTask)
  | initiateD2H (t : DetailedTask)
  | markHostRequiresDataAsValid (t : DetailedTask)
  | runTask (t : DetailedTask) (event : CallBackEvent)
  | printTaskLevels (t : DetailedTask)
  | processMPIRecvs
deriving DecidableEq, Repr

/-- What the helper predicates called by Part 2 answer for the selected
task. -/
structure Answers where
  ghostCellsProcessingReady : Bool
  allGPUVarsProcessingReady : Bool
  allHostVarsProcessingReady : Bool
  isOutputTimestep : Bool
deriving DecidableEq, Repr

/-- The queues of the device pipeline, named as in `DetailedTasks`. -/
inductive DeviceQueue where
  | verifyDataTransferCompletion
  | finalizeDevicePreparation
  | initiallyReadyDevice
  | completionPendingDevice
  | finalizeHostPreparation
  | initiallyReadyHost
deriving DecidableEq, Repr

/-- Modelled from the spec: the queue operations `dts->addX(task)` of
`DetailedTasks` (absent from the sources), one per device queue: insertion by
the queue discipline. -/
def DetailedTasks.add (c : Config) (d : DetailedTasks) (q : DeviceQueue) (t : DetailedTask) :
    DetailedTasks :=
  match q with
  | DeviceQueue.verifyDataTransferCompletion =>
    { d with verifyDataTransferCompletion := enqueue c.before t d.verifyDataTransferCompletion }
  | DeviceQueue.finalizeDevicePreparation =>
    { d with finalizeDevicePreparation := enqueue c.before t d.finalizeDevicePreparation }
  | DeviceQueue.initiallyReadyDevice =>
    { d with initiallyReadyDevice := enqueue c.before t d.initiallyReadyDevice }
  | DeviceQueue.completionPendingDevice =>
    { d with completionPendingDevice := enqueue c.before t d.completionPendingDevice }
  | DeviceQueue.finalizeHostPreparation =>
    { d with finalizeHostPreparation := enqueue c.before t d.finalizeHostPreparation }
  | DeviceQueue.initiallyReadyHost =>
    { d with initiallyReadyHost := enqueue c.before t d.initiallyReadyHost }

/-- The branch `else if (readyTask != NULL)` of Part 2 of `runTasks` (lines
1162-1292) for the selected task `t`: the calls made, in order, and the device
queue the task is added to at the end of the branch, if any. -/
def readyTaskPart (c : Config) (a : Answers) (l : Locals) (t : DetailedTask) :
    List Call × Option DeviceQueue :=
  if t.type = TaskType.Reduction then ([Call.initiateReduction t], none)
  else if c.haveCuda = true ∧ l.gpuInitReady = true then
    ([Call.assignDevicesAndStreams t, Call.initiateH2DCopies t, Call.syncTaskGpuDWs t],
      some DeviceQueue.verifyDataTransferCompletion)
  else if c.haveCuda = true ∧ l.gpuVerifyDataTransferCompletion = true then
    if a.ghostCellsProcessingReady = false then
      ([Call.markDeviceRequiresDataAsValid t], some DeviceQueue.verifyDataTransferCompletion)
    else
      ([Call.markDeviceRequiresDataAsValid t, Call.performInternalGhostCellCopies t],
        some DeviceQueue.finalizeDevicePreparation)
  else if c.haveCuda = true ∧ l.gpuFinalizeDevicePreparation = true then
    if a.allGPUVarsProcessingReady = false then
      ([Call.markDeviceGhostsAsValid t], some DeviceQueue.finalizeDevicePreparation)
    else ([Call.markDeviceGhostsAsValid t], some DeviceQueue.initiallyReadyDevice)
  else if c.haveCuda = true ∧ l.gpuRunReady = true then
    ([Call.runTask t CallBackEvent.GPU], some DeviceQueue.completionPendingDevice)
  else if c.haveCuda = true ∧ l.gpuPending = true then
    ([Call.markDeviceComputesDataAsValid t, Call.deleteTaskGpuDataWarehouses t,
      Call.runTask t CallBackEvent.postGPU, Call.reclaimCudaStreamsIntoPool t], none)
  else if c.haveCuda = false then
    ([Call.runTask t CallBackEvent.CPU, Call.printTaskLevels t], none)
  else if l.cpuInitReady = true then
    (if a.isOutputTimestep = true ∨
        (t.name ≠ "DataArchiver::outputVariables" ∧
          t.name ≠ "DataArchiver::outputVariables(checkpoint)") then
      [Call.assignDevicesAndStreams t, Call.initiateD2H t]
    else [], some DeviceQueue.finalizeHostPreparation)
  else if l.cpuFinalizeHostPreparation = true then
    if a.allHostVarsProcessingReady = false then
      ([Call.markHostRequiresDataAsValid t], some DeviceQueue.finalizeHostPreparation)
    else
      ([Call.markHostRequiresDataAsValid t, Call.reclaimCudaStreamsIntoPool t],
        some DeviceQueue.initiallyReadyHost)
  else if l.cpuRunReady = true then
    ([Call.runTask t CallBackEvent.CPU, Call.printTaskLevels t], none)
  else ([], none)

/-- What Part 2 of `runTasks` (lines 1150-1299) does with the locals `l` left by
Part 1: the new scheduler state, the calls made, and whether the final
`ASSERT(numTasksDone == ntasks)` held (true when it was not reached or is
compiled out). -/
def part2 (c : Config) (a : Answers) (s : UnifiedScheduler) (l : Locals) :
    UnifiedScheduler × List Call × Bool :=
  match l.initTask with
  | some t =>
    ({ s with dts := (s.dts.markInitiated t).checkExternalDepCount c t }, [Call.initiateTask t], true)
  | none =>
  match l.readyTask with
  | some t =>
    match readyTaskPart c a l t with
    | (calls, some q) => ({ s with dts := s.dts.add c q t }, calls, true)
    | (calls, none) => (s, calls, true)
  | none =>
    if l.pendingMPIMsgs > 0 then (s, [Call.processMPIRecvs], true)
    else (s, [], decide (c.assertions = false ∨ s.numTasksDone = s.ntasks))

/-! ## What the rest of the program does to the scheduler's queues -/

/-- Changes made to the state read by the selection loop by code outside
`runTasks`: `DetailedTask::done()` of a finished task, the delivery of an MPI
message (`DependencyBatch::received`), the posting and completion of receives,
and the progress of device streams. None of them touches the counters. -/
inductive Outside where
  /-- A task whose local predecessors are all done enters the internal-ready
  queue. -/
  | internallyReady (t : DetailedTask)
  /-- The external dependency count of `t` is set to a non-zero value. -/
  | awaits (t : DetailedTask)
  /-- The last message `t` waits for is delivered: its external dependency
  count reaches zero and `checkExternalDepCount` is called. -/
  | received (t : DetailedTask)
  /-- The number of posted, incomplete receives becomes `n`. -/
  | pendingRecvs (n : Nat)
  /-- The tasks whose device streams are all done are now those of `done`. -/
  | streams (done : List DetailedTask)
deriving DecidableEq, Repr

/-- The effect of one outside change on the scheduler. -/
def Outside.apply (c : Config) (s : UnifiedScheduler) : Outside → UnifiedScheduler
  | Outside.internallyReady t =>
    { s with dts := { s.dts with internalReady := enqueue c.before t s.dts.internalReady } }
  | Outside.awaits t =>
    { s with dts := { s.dts with awaitingExternal := t :: s.dts.awaitingExternal } }
  | Outside.received t =>
    let d : DetailedTasks :=
      { s.dts with awaitingExternal := s.dts.awaitingExternal.filter (fun x => x ≠ t) }
    { s with dts := d.checkExternalDepCount c t }
  | Outside.pendingRecvs n => { s with numPendingRecvs := n }
  | Outside.streams done => { s with streamsDone := done }

/-- The function `UnifiedScheduler::runTasks` run by one thread alone. The
changes made by the helpers called in Part 2 (and by anything else in the
meantime) are given by `outside`, consulted once per outer iteration;
`fuel` bounds the number of outer iterations and of passes of each inner
loop. The result is `none` when the bound is reached, `some (s, false)` when
an `ASSERT` failed in state `s`, and `some (s, true)` when `runTasks` returned
in state `s`. -/
def runTasks (c : Config) (a : Answers) (outside : UnifiedScheduler → Locals → List Outside) :
    Nat → UnifiedScheduler → Option (UnifiedScheduler × Bool)
  | 0, _ => none
  | fuel + 1, s =>
    if s.numTasksDone < s.ntasks then
      match selectionLoop c (fuel + 1) s Locals.fresh with
      | none => none
      | some (s1, _, Flow.assertionFailed) => some (s1, false)
      | some (s1, l1, _) =>
        match part2 c a s1 l1 with
        | (s2, _, true) => runTasks c a outside fuel ((outside s2 l1).foldl (Outside.apply c) s2)
        | (s2, _, false) => some (s2, false)
    else some (s, true)

/-! ## Several threads running `runTasks` -/

/-- Where a thread stands in `runTasks`. -/
inductive Pc where
  /-- About to test `numTasksDone < ntasks`. -/
  | top
  /-- Past the test, inside `g_scheduler_mutex.lock()`. -/
  | waiting
  /-- Inside `while (!havework)`, holding `g_scheduler_mutex`. -/
  | selecting (l : Locals)
  /-- Past `g_scheduler_mutex.unlock()`, before Part 2. -/
  | acting (l : Locals)
  /-- The function `runTasks` has returned. -/
  | returned
  /-- An `ASSERT` has failed; `inLoop` says that it failed inside the selection
  loop, where the exception leaves `g_scheduler_mutex` locked. -/
  | failed (inLoop : Bool)
deriving DecidableEq, Repr

/-- The scheduler shared by the threads, and the position of each thread. -/
structure System where
  sched : UnifiedScheduler
  threads : List Pc
deriving DecidableEq, Repr

/-- Whether some thread holds `g_scheduler_mutex`. -/
def System.locked (sys : System) : Bool :=
  sys.threads.any (fun pc =>
    match pc with
    | Pc.selecting _ => true
    | Pc.failed inLoop => inLoop
    | _ => false)

/-- The steps of the threads and of the rest of the program. -/
inductive Event where
  /-- Thread `tid` tests the outer loop condition `numTasksDone < ntasks`. -/
  | enter (tid : Nat)
  /-- Thread `tid` gets `g_scheduler_mutex`, if no thread holds it. -/
  | lock (tid : Nat)
  /-- Thread `tid` makes one pass through the body of the selection loop. -/
  | pass (tid : Nat)
  /-- Thread `tid` performs Part 2. -/
  | act (tid : Nat) (a : Answers)
  /-- Something outside `runTasks` changes the queues. -/
  | outside (o : Outside)
deriving DecidableEq, Repr

/-- One step of the system; an event that is not enabled leaves the system as
it is. -/
def System.step (c : Config) (sys : System) : Event → System
  | Event.enter tid =>
    match sys.threads.getD tid Pc.returned with
    | Pc.top =>
      if sys.sched.numTasksDone < sys.sched.ntasks then
        { sys with threads := sys.threads.set tid Pc.waiting }
      else { sys with threads := sys.threads.set tid Pc.returned }
    | _ => sys
  | Event.lock tid =>
    match sys.threads.getD tid Pc.returned with
    | Pc.waiting =>
      if sys.locked then sys
      else { sys with threads := sys.threads.set tid (Pc.selecting Locals.fresh) }
    | _ => sys
  | Event.pass tid =>
    match sys.threads.getD tid Pc.returned with
    | Pc.selecting l =>
      match selectionPass c sys.sched l with
      | (s1, l1, Flow.again) =>
        { sched := s1, threads := sys.threads.set tid (if l1.havework then Pc.acting l1 else Pc.selecting l1) }
      | (s1, l1, Flow.leave) => { sched := s1, threads := sys.threads.set tid (Pc.acting l1) }
      | (s1, _, Flow.assertionFailed) =>
        { sched := s1, threads := sys.threads.set tid (Pc.failed true) }
    | _ => sys
  | Event.act tid a =>
    match sys.threads.getD tid Pc.returned with
    | Pc.acting l =>
      match part2 c a sys.sched l with
      | (s1, _, true) => { sched := s1, threads := sys.threads.set tid Pc.top }
      | (s1, _, false) => { sched := s1, threads := sys.threads.set tid (Pc.failed false) }
    | _ => sys
  | Event.outside o => { sys with sched := o.apply c sys.sched }

/-- The system after the events `es`, in order. -/
def System.run (c : Config) (sys : System) (es : List Event) : System :=
  es.foldl (System.step c) sys

/-- The system when `execute` calls `runTasks` and activates the workers:
`n` threads at the top of `runTasks`. -/
def System.start (localTasks : List DetailedTask) (numPhases : Nat) (d : DetailedTasks)
    (pending : Nat) (n : Nat) : System :=
  { sched := execute localTasks numPhases d pending, threads := List.replicate n Pc.top }

/-! ## Notions used to state the properties -/

/-- The task is of the kind step (1.3) records as a phase's sync task: a
reduction task or a task that uses MPI. -/
def DetailedTask.syncKind (t : DetailedTask) : Prop :=
  t.type = TaskType.Reduction ∨ t.usesMPI = true

instance (t : DetailedTask) : Decidable t.syncKind := by
  unfold DetailedTask.syncKind; infer_instance

/-- No device-pipeline queue has a head whose streams are done. -/
def noDeviceWork (c : Config) (s : UnifiedScheduler) : Prop :=
  deviceHead c s s.dts.verifyDataTransferCompletion = none ∧
  deviceHead c s s.dts.finalizeDevicePreparation = none ∧
  deviceHead c s s.dts.initiallyReadyDevice = none ∧
  deviceHead c s s.dts.finalizeHostPreparation = none ∧
  deviceHead c s s.dts.initiallyReadyHost = none ∧
  deviceHead c s s.dts.completionPendingDevice = none

instance (c : Config) (s : UnifiedScheduler) : Decidable (noDeviceWork c s) := by
  unfold noDeviceWork; infer_instance

/-- The state has nothing for a selection pass to pick up: no sync task is
eligible, both ready queues are empty, no device-stage task has finished and
no receive is pending. -/
def nothingToDo (c : Config) (s : UnifiedScheduler) : Prop :=
  syncTaskReady s = none ∧ s.dts.externalReady = [] ∧ s.dts.internalReady = [] ∧
  noDeviceWork c s ∧ s.numPendingRecvs = 0

instance (c : Config) (s : UnifiedScheduler) : Decidable (nothingToDo c s) := by
  unfold nothingToDo; infer_instance

/-- Locals in which nothing has been chosen yet, as at the start of every pass
of the selection loop. -/
def Locals.idle (l : Locals) : Prop := l.havework = false ∧ l.nothingSelected

instance (l : Locals) : Decidable l.idle := by
  unfold Locals.idle; infer_instance

/-! ## Small concrete schedules, used as instances of the properties -/

/-- Queues with nothing in them and no history. -/
def DetailedTasks.nothing : DetailedTasks :=
  { externalReady := [], internalReady := [], verifyDataTransferCompletion := [],
    finalizeDevicePreparation := [], initiallyReadyDevice := [], finalizeHostPreparation := [],
    initiallyReadyHost := [], completionPendingDevice := [], initiated := [],
    awaitingExternal := [], handedInternal := [], handedExternal := [] }

/-- A build without `HAVE_CUDA`, first come first served. -/
def Config.hostOnly : Config :=
  { haveCuda := false, usingDevice := false, usingMPI := true, assertions := true,
    before := fun _ _ => false }

/-- A build with `HAVE_CUDA` and a device in use, first come first served. -/
def Config.withDevice : Config :=
  { haveCuda := true, usingDevice := true, usingMPI := true, assertions := true,
    before := fun _ _ => false }

/-- An ordinary host task without requires. -/
def plainTask (n phase : Nat) : DetailedTask :=
  { staticOrder := n, name := "plain", d_phase := phase, type := TaskType.Normal,
    usesMPI := false, usesDevice := false, numRequires := 0, hasPatches := true }

/-- A device task without requires. -/
def deviceTask (n phase : Nat) : DetailedTask :=
  { staticOrder := n, name := "device", d_phase := phase, type := TaskType.Normal,
    usesMPI := false, usesDevice := true, numRequires := 0, hasPatches := true }

/-- A reduction task. -/
def reductionTask (n phase : Nat) : DetailedTask :=
  { staticOrder := n, name := "reduction", d_phase := phase, type := TaskType.Reduction,
    usesMPI := false, usesDevice := false, numRequires := 0, hasPatches := false }

/-- The answers of the Part 2 helpers used in the instances. -/
def Answers.yes : Answers :=
  { ghostCellsProcessingReady := true, allGPUVarsProcessingReady := true,
    allHostVarsProcessingReady := true, isOutputTimestep := true }

/-- A scheduler in which the sync task of phase 0 is eligible while both ready
queues hold a task: two of the three tasks of the phase are consumed. -/
def busyScheduler : UnifiedScheduler :=
  { ntasks := 4, numTasksDone := 2, currphase := 0, numPhases := 1
    phaseTasks := [4], phaseTasksDone := [3]
    phaseSyncTask := [some (reductionTask 3 0)]
    dts := { DetailedTasks.nothing with
      externalReady := [plainTask 1 0], internalReady := [plainTask 2 0] }
    numPendingRecvs := 1, streamsDone := [], consumed := [plainTask 0 0, plainTask 4 0] }

/-- The scheduler after `execute` for one plain task without requires, which
waits in the internal-ready queue. -/
def onePlainTask : UnifiedScheduler :=
  execute [plainTask 0 0] 1 { DetailedTasks.nothing with internalReady := [plainTask 0 0] } 0

/-- The scheduler after `execute` for one device task without requires, which
waits in the internal-ready queue. -/
def oneDeviceTask : UnifiedScheduler :=
  execute [deviceTask 0 0] 1 { DetailedTasks.nothing with internalReady := [deviceTask 0 0] } 0

/-- The scheduler after `execute` for a plain task and a reduction task of the
same phase, both in the internal-ready queue. -/
def plainAndReduction : UnifiedScheduler :=
  execute [plainTask 0 0, reductionTask 1 0] 1
    { DetailedTasks.nothing with internalReady := [plainTask 0 0, reductionTask 1 0] } 0

/-- A scheduler with one task of two consumed and nothing in any queue: the
other task still awaits a message that has not been posted as a receive. -/
def waitingScheduler : UnifiedScheduler :=
  { ntasks := 2, numTasksDone := 1, currphase := 0, numPhases := 1
    phaseTasks := [2], phaseTasksDone := [1], phaseSyncTask := [none]
    dts := { DetailedTasks.nothing with awaitingExternal := [plainTask 1 0] }
    numPendingRecvs := 0, streamsDone := [], consumed := [plainTask 0 0] }

/-- The scheduler `plainAndReduction` once both of its tasks are consumed. -/
def plainAndReductionDone : UnifiedScheduler :=
  { ntasks := 2, numTasksDone := 2, currphase := 0, numPhases := 1
    phaseTasks := [2], phaseTasksDone := [2]
    phaseSyncTask := [some (reductionTask 1 0)]
    dts := { DetailedTasks.nothing with
      initiated := [plainTask 0 0]
      handedInternal := [plainTask 0 0, reductionTask 1 0]
      handedExternal := [plainTask 0 0] }
    numPendingRecvs := 0, streamsDone := []
    consumed := [plainTask 0 0, reductionTask 1 0] }

/-! ## Worker threads: `UnifiedSchedulerWorker::run` and `thread_driver` -/

/-- What can leave `runTasks` as an exception, as far as the handlers of
`UnifiedSchedulerWorker::run` and `thread_driver` tell exceptions apart. -/
inductive Thrown where
  /-- An object of class `Exception` or of a class derived from it
  (`InternalError`, `ProblemSetupException`, ...), with its `message()`. -/
  | uintahException (message : String)
  /-- A `std::exception` that is not an `Exception`, with its `what()`. -/
  | stdException (what : String)
  /-- Anything else. -/
  | other
deriving DecidableEq, Repr

/-- What one call of `runTasks` made by a worker does. -/
inductive CallResult where
  | returns
  | throws (e : Thrown)
deriving DecidableEq, Repr

/-- What a call of `UnifiedSchedulerWorker::run` has done when it ends: the
number of calls of `runTasks` it made, what it wrote to `std::cerr`, and the
exception that left it, if any. -/
structure WorkerRun where
  calls : Nat
  cerr : List String
  escaped : Option Thrown
deriving DecidableEq, Repr

/-- The function `UnifiedSchedulerWorker::run` (lines 5166-5185). The list says
what the successive calls of `runTasks` do; `g_run_tasks` reads non-zero as
long as the list has elements left. -/
def UnifiedSchedulerWorker.run : List CallResult → WorkerRun
  | [] => { calls := 0, cerr := [], escaped := none }
  | CallResult.returns :: rest =>
    let r := UnifiedSchedulerWorker.run rest
    { r with calls := r.calls + 1 }
  | CallResult.throws (Thrown.uintahException m) :: rest =>
    let r := UnifiedSchedulerWorker.run rest
    { r with calls := r.calls + 1, cerr := ("Caught exception: " ++ m) :: r.cerr }
  | CallResult.throws e :: _ => { calls := 1, cerr := [], escaped := some e }

/-- How `thread_driver` ends. -/
inductive DriverEnd where
  /-- The thread state is no longer `Active`: the loop is left. -/
  | stopped
  /-- A handler called `std::abort()` after writing the message. -/
  | aborted (message : String)
deriving DecidableEq, Repr

/-- The function `thread_driver` (lines 143-177): one call of
`g_runners[tid]->run()` for every activation of the thread, inside
`try ... catch (const std::exception &) ... catch (...)`. -/
def thread_driver : List (List CallResult) → DriverEnd
  | [] => DriverEnd.stopped
  | activation :: rest =>
    match (UnifiedSchedulerWorker.run activation).escaped with
    | none => thread_driver rest
    | some (Thrown.stdException w) =>
      DriverEnd.aborted ("Exception thrown from worker thread: " ++ w)
    | some _ => DriverEnd.aborted "Unknown Exception thrown from worker thread"

/-! ## The thread-count checks of `UnifiedScheduler::problemSetup` -/

/-- What the thread-count checks of `problemSetup` read. `MAX_THREADS` is a
macro defined outside the source files at hand. -/
structure ThreadSetup where
  /-- Value of `Uintah::Parallel::getNumThreads()`. -/
  numThreads : Int
  usingMPI : Bool
  usingDevice : Bool
  /-- Value of `d_myworld->myrank()`. -/
  myrank : Nat
  MAX_THREADS : Int
deriving DecidableEq, Repr

/-- How the thread set-up of `problemSetup` ends. -/
inductive SetupResult where
  /-- A `ProblemSetupException` with this message was thrown; `init_threads`
  was not reached. -/
  | ProblemSetupException (message : String)
  /-- The call `init_threads(this, numThreads_)` was reached: `g_num_threads`
  is `numThreads_` and `spawned` worker threads were created. -/
  | threads (numThreads_ : Int) (spawned : Nat)
deriving DecidableEq, Repr

/-- The loop `for (i = 1; i < g_num_threads; ++i) std::thread(...)` of
`init_threads` (lines 199-223): the number of threads it creates. -/
def init_threads (num_threads : Int) : Nat := (num_threads - 1).toNat

/-- The thread-count part of `UnifiedScheduler::problemSetup` (lines 384-401
and 462-463). The code in between is taken to raise nothing. -/
def problemSetup (p : ThreadSetup) : SetupResult :=
  let numThreads_ := p.numThreads - 1
  if numThreads_ < 1 ∧ (p.usingMPI = true ∨ p.usingDevice = true) then
    if p.myrank = 0 then
      SetupResult.ProblemSetupException
        "This scheduler requires number of threads to be in the range [2, 64],\n.... please use -nthreads <num>, and -gpu if using GPUs"
    else SetupResult.threads numThreads_ (init_threads numThreads_)
  else if numThreads_ > p.MAX_THREADS then
    if p.myrank = 0 then
      SetupResult.ProblemSetupException "Too many threads. Reduce MAX_THREADS and recompile."
    else SetupResult.threads numThreads_ (init_threads numThreads_)
  else SetupResult.threads numThreads_ (init_threads numThreads_)

/-- One thread requested under MPI, as seen on the given rank, with
`MAX_THREADS` being 64. -/
def oneThreadUnderMPI (rank : Nat) : ThreadSetup :=
  { numThreads := 1, usingMPI := true, usingDevice := false, myrank := rank, MAX_THREADS := 64 }

/-- A worker whose first call of `runTasks` raises an `Exception`. -/
def exceptionThenWork : List CallResult :=
  [CallResult.throws (Thrown.uintahException "Radiation solver not converged"),
    CallResult.returns, CallResult.returns]

/-- A worker whose second call of `runTasks` raises a `std::exception`. -/
def badAllocOnSecondCall : List CallResult :=
  [CallResult.returns, CallResult.throws (Thrown.stdException "bad_alloc"), CallResult.returns]

/-! ## The ordinate loop of `DORadiationModel::intensitysolve` -/

/-- The switches and sizes of `DORadiationModel` read by `intensitysolve`. -/
structure DORadiationModel where
  /-- Number of spectral bands. -/
  d_lambda : Nat
  /-- Number of ordinate directions, `sn * (sn + 2)`. -/
  d_totalOrds : Nat
  _usePreviousIntensity : Bool
  _scatteringOn : Bool
  _zeroInitialGuess : Bool
deriving DecidableEq, Repr

/-- The steps of `intensitysolve` that work on the solver, on the intensity
field `cenint` and on the accumulated fields, tagged with the band and the
direction they are made for. Field values are not modelled. -/
inductive RadStep where
  | matrixInit
  | computeIntensitySource (band : Nat)
  /-- The statement `vars->cenint.initialize(0.0)` before the solve. -/
  | zeroInitialGuess (band direcn : Nat)
  | gridSetup (band direcn : Nat)
  | computeScatteringIntensities (band direcn : Nat)
  /-- The statements `parallel_for(range, doMakeMatrixA)` and `setMatrix`. -/
  | setMatrix (band direcn : Nat)
  | radLinearSolve (band direcn : Nat)
  /-- The statement `vars->cenint.initialize(0.0)` after the solve. -/
  | resetIntensity (band direcn : Nat)
  | copyRadSoln (band direcn : Nat)
  /-- The statement `parallel_for(range, doFlux)`: the direction's share of
  the six fluxes and of the incident radiation `volq`. -/
  | accumulateFlux (band direcn : Nat)
  | computeDivQ (band : Nat)
  | destroyMatrix
deriving DecidableEq, Repr

/-- The steps of one trip through the ordinate loop up to and including the
linear solve and the reset that follows it (lines 765-840). -/
def solveSteps (m : DORadiationModel) (band direcn : Nat) : List RadStep :=
  (if m._zeroInitialGuess then [RadStep.zeroInitialGuess band direcn] else []) ++
  [RadStep.gridSetup band direcn] ++
  (if m._scatteringOn then [RadStep.computeScatteringIntensities band direcn] else []) ++
  [RadStep.setMatrix band direcn, RadStep.radLinearSolve band direcn] ++
  (if m._usePreviousIntensity then [RadStep.resetIntensity band direcn] else [])

/-- The ordinate loop `for (direcn = 1; direcn <= d_totalOrds; direcn++)` (lines
764-865) over the directions still to do: the steps made, and whether the loop
ran to its end (`false`: `InternalError` was thrown).
`converged band direcn` is what `radLinearSolve` returns. -/
def ordinateLoop (m : DORadiationModel) (converged : Nat → Nat → Bool) (band : Nat) :
    List Nat → List RadStep × Bool
  | [] => ([], true)
  | direcn :: later =>
    if converged band direcn then
      let r := ordinateLoop m converged band later
      (solveSteps m band direcn ++
        [RadStep.copyRadSoln band direcn, RadStep.accumulateFlux band direcn] ++ r.1, r.2)
    else (solveSteps m band direcn, false)

/-- The band loop `for (bands = 1; bands <= d_lambda; bands++)` (lines 758-877)
over the bands still to do. -/
def bandLoop (m : DORadiationModel) (converged : Nat → Nat → Bool) :
    List Nat → List RadStep × Bool
  | [] => ([], true)
  | band :: later =>
    let r := ordinateLoop m converged band (List.range' 1 m.d_totalOrds)
    if r.2 then
      let r2 := bandLoop m converged later
      ([RadStep.computeIntensitySource band] ++ r.1 ++ [RadStep.computeDivQ band] ++ r2.1, r2.2)
    else ([RadStep.computeIntensitySource band] ++ r.1, false)

/-- The solver-related steps of `DORadiationModel::intensitysolve` (lines
639-879) and how the call ends: normally, or with the message of the
`InternalError` thrown. -/
def DORadiationModel.intensitysolve (m : DORadiationModel) (converged : Nat → Nat → Bool) :
    List RadStep × Except String Unit :=
  let r := bandLoop m converged (List.range' 1 m.d_lambda)
  if r.2 then ([RadStep.matrixInit] ++ r.1 ++ [RadStep.destroyMatrix], Except.ok ())
  else ([RadStep.matrixInit] ++ r.1, Except.error "Radiation solver not converged")

/-- A model with two bands and three directions that uses the previous
intensity as initial guess. -/
def smallRadiationModel : DORadiationModel :=
  { d_lambda := 2, d_totalOrds := 3, _usePreviousIntensity := true, _scatteringOn := false,
    _zeroInitialGuess := false }

/-- A solver that fails to converge for direction 2 of band 1 only. -/
def failsAtBand1Direction2 (band direcn : Nat) : Bool := !(band = 1 && direcn = 2)

/-! ## Invariants of the running system -/

/-- Number of tasks of phase `p` in a list, as an `Int` like the counters. -/
def phaseCount (p : Nat) (l : List DetailedTask) : Int :=
  ((l.countP (fun t => decide (t.d_phase = p)) : Nat) : Int)

/-- The counters agree with the record of consumed tasks, and the values set
up by `execute` for the local tasks `localTasks` are still in place. -/
def CountersOk (localTasks : List DetailedTask) (numPhases : Nat) (s : UnifiedScheduler) : Prop :=
  s.ntasks = (localTasks.length : Int) ∧ s.numPhases = numPhases ∧
  s.phaseTasks = countPhaseTasks localTasks (List.replicate numPhases 0) ∧
  s.numTasksDone = (s.consumed.length : Int) ∧
  s.phaseTasksDone.length = numPhases ∧ s.phaseSyncTask.length = numPhases ∧
  ∀ p, p < numPhases → s.phaseTasksDone.getD p 0 = phaseCount p s.consumed

/-- Every recorded sync task is a reduction or MPI task handed out by the
internal-ready queue, and sits in the slot of its own phase. -/
def SyncOk (s : UnifiedScheduler) : Prop :=
  ∀ p t, s.phaseSyncTask.getD p none = some t →
    t ∈ s.dts.handedInternal ∧ t.syncKind ∧ t.d_phase = p

/-- The tasks waiting in the six queues of the device pipeline. -/
def DetailedTasks.queued (d : DetailedTasks) : List DetailedTask :=
  d.verifyDataTransferCompletion ++ d.finalizeDevicePreparation ++ d.initiallyReadyDevice ++
  d.finalizeHostPreparation ++ d.initiallyReadyHost ++ d.completionPendingDevice

/-- One of the flags that send the selected task on to a device queue is
set. -/
def Locals.stage (l : Locals) : Bool :=
  l.gpuInitReady || l.gpuVerifyDataTransferCompletion || l.gpuFinalizeDevicePreparation ||
  l.gpuRunReady || l.cpuInitReady || l.cpuFinalizeHostPreparation

/-- How often the locals hold `x` as a task on its way through the device
pipeline. -/
def Locals.held (l : Locals) (x : DetailedTask) : Nat :=
  if l.stage then (match l.readyTask with | some t => if t = x then 1 else 0 | none => 0) else 0

/-- How often a thread holds `x` as a task on its way through the device
pipeline: only between Part 1 and Part 2. -/
def Pc.held (x : DetailedTask) : Pc → Nat
  | Pc.acting l => l.held x
  | _ => 0

/-- How often the threads hold `x` as a task on its way through the device
pipeline. -/
def System.held (sys : System) (x : DetailedTask) : Nat :=
  (sys.threads.map (Pc.held x)).sum

/-- How often `x` was marked consumed by a step other than (1.1), given that
sync tasks are consumed by (1.1) only. -/
def plainConsumed (s : UnifiedScheduler) (x : DetailedTask) : Nat :=
  if x.syncKind then 0 else s.consumed.count x

/-- Every task in the device pipeline, and every task consumed that is not a
sync task, was handed out by the external-ready queue, once per time it is
met; a thread inside the selection loop holds no such task. -/
def TokensOk (sys : System) : Prop :=
  (∀ tid l, sys.threads.getD tid Pc.returned = Pc.selecting l → l.stage = false) ∧
  ∀ x, sys.sched.dts.queued.count x + sys.held x + plainConsumed sys.sched x
    ≤ sys.sched.dts.handedExternal.count x

/-- Every consumed task was handed out by a ready queue: a sync task by the
internal-ready queue, any other by the external-ready queue. -/
def OriginOk (s : UnifiedScheduler) : Prop :=
  ∀ t ∈ s.consumed, (t.syncKind ∧ t ∈ s.dts.handedInternal) ∨ t ∈ s.dts.handedExternal

/-- A thread on which `runTasks` has returned saw `numTasksDone < ntasks`
fail. -/
def ReturnedOk (sys : System) : Prop :=
  ∀ tid, sys.threads.getD tid Pc.top = Pc.returned →
    ¬ sys.sched.numTasksDone < sys.sched.ntasks

/-- The external-ready queue has handed out no reduction or MPI task. -/
def ExternalPlain (s : UnifiedScheduler) : Prop :=
  ∀ t ∈ s.dts.handedExternal, ¬ t.syncKind

/-- Whenever a sync task was marked consumed, all tasks of its phase but one
had been marked consumed before. -/
def SyncLast (s : UnifiedScheduler) : Prop :=
  ∀ pre t post, s.consumed = pre ++ t :: post → t.syncKind →
    t.d_phase < s.numPhases ∧ phaseCount t.d_phase pre = s.phaseTasks.getD t.d_phase 0 - 1

/-- The invariant of the running system for the local tasks `localTasks` and
`numPhases` phases. -/
def Inv (localTasks : List DetailedTask) (numPhases : Nat) (sys : System) : Prop :=
  CountersOk localTasks numPhases sys.sched ∧ SyncOk sys.sched ∧ TokensOk sys ∧
  OriginOk sys.sched ∧ ReturnedOk sys ∧ (ExternalPlain sys.sched → SyncLast sys.sched)

/-- The fields of the scheduler that the invariants read, apart from the
device queues, are the same in both states. -/
def SameRecords (s s1 : UnifiedScheduler) : Prop :=
  s1.ntasks = s.ntasks ∧ s1.numPhases = s.numPhases ∧ s1.phaseTasks = s.phaseTasks ∧
  s1.numTasksDone = s.numTasksDone ∧ s1.consumed = s.consumed ∧
  s1.phaseTasksDone = s.phaseTasksDone ∧ s1.phaseSyncTask = s.phaseSyncTask ∧
  s1.dts.handedInternal = s.dts.handedInternal ∧ s1.dts.handedExternal = s.dts.handedExternal

/-- The state of `dts` when `execute` calls `runTasks`: nothing is in the
device pipeline and the ready queues have handed out nothing yet. -/
def DetailedTasks.atStart (d : DetailedTasks) : Prop :=
  d.queued = [] ∧ d.handedInternal = [] ∧ d.handedExternal = []

instance (d : DetailedTasks) : Decidable d.atStart := by
  unfold DetailedTasks.atStart; infer_instance

/-- Every reduction or MPI task that the internal-ready queue has handed out
is still the recorded sync task of its phase. -/
def Recorded (s : UnifiedScheduler) : Prop :=
  ∀ t ∈ s.dts.handedInternal, t.syncKind → t.d_phase < s.phaseSyncTask.length →
    s.phaseSyncTask.getD t.d_phase none = some t

/-- The reduction and MPI tasks that the internal-ready queue has handed out
have pairwise different phases (so none was handed out twice). -/
def OnePerPhase (s : UnifiedScheduler) : Prop :=
  (s.dts.handedInternal.filter (fun t => decide t.syncKind)).Pairwise
    (fun a b => a.d_phase ≠ b.d_phase)

instance (s : UnifiedScheduler) : Decidable (OnePerPhase s) := by
  unfold OnePerPhase; infer_instance

instance (s : UnifiedScheduler) : Decidable (ExternalPlain s) := by
  unfold ExternalPlain; infer_instance

/-- The system reached from the call of `runTasks` in `execute` by the events
`es`. -/
def reached (c : Config) (localTasks : List DetailedTask) (numPhases : Nat) (d : DetailedTasks)
    (pending n : Nat) (es : List Event) : System :=
  (System.start localTasks numPhases d pending n).run c es

/-- The ready queues have handed out local tasks only, and the external-ready
queue has handed out no task twice and no reduction or MPI task. -/
def HandedOutOnce (localTasks : List DetailedTask) (s : UnifiedScheduler) : Prop :=
  (∀ t ∈ s.dts.handedInternal ++ s.dts.handedExternal, t ∈ localTasks) ∧
  s.dts.handedExternal.Nodup ∧ ExternalPlain s

instance (localTasks : List DetailedTask) (s : UnifiedScheduler) :
    Decidable (HandedOutOnce localTasks s) := by
  unfold HandedOutOnce; infer_instance

/-- Two threads work off a plain task and a reduction task of the same phase:
thread 0 initiates and takes the plain task, thread 1 enters while thread 0
runs it, records the reduction task and takes it as the sync task; then both
threads find `numTasksDone < ntasks` false and return. -/
def twoThreadRun : List Event :=
  [Event.enter 0, Event.enter 1, Event.lock 0, Event.pass 0, Event.pass 0, Event.lock 1,
    Event.act 0 Answers.yes, Event.pass 1, Event.pass 1, Event.act 1 Answers.yes,
    Event.enter 0, Event.enter 1]

/-- The queues at the start of `twoThreadRun`. -/
def twoThreadQueues : DetailedTasks :=
  { DetailedTasks.nothing with internalReady := [plainTask 0 0, reductionTask 1 0] }

/-- One thread takes two reduction tasks of the same phase from the
internal-ready queue, one after the other. -/
def twoReductionsRun : List Event :=
  [Event.enter 0, Event.lock 0, Event.pass 0, Event.pass 0]

/-- The queues at the start of `twoReductionsRun`. -/
def twoReductionsQueues : DetailedTasks :=
  { DetailedTasks.nothing with
    internalReady := [reductionTask 1 0, reductionTask 2 0, plainTask 0 0] }

/-! ## The ready-queue discipline chosen by `UnifiedScheduler::problemSetup` -/

/-- The values of the enumeration `QueueAlg` (declared outside the source
files at hand) that `problemSetup` assigns to `taskQueueAlg_`. -/
inductive QueueAlg where
  | FCFS
  | Stack
  | Random
  | MostChildren
  | LeastChildren
  | MostMessages
  | LeastMessages
  | MostL2Children
  | LeastL2Children
  | PatchOrder
  | PatchOrderRandom
deriving DecidableEq, Repr

/-- The chain `if (taskQueueAlg == "FCFS") ... else if ...` of `problemSetup`
(lines 338-376): the new value of `taskQueueAlg_`, which is `MostMessages`
before the chain. -/
def problemSetup.chain (taskQueueAlg : String) : QueueAlg :=
  if taskQueueAlg = "FCFS" then QueueAlg.FCFS
  else if taskQueueAlg = "Random" then QueueAlg.Random
  else if taskQueueAlg = "Stack" then QueueAlg.Stack
  else if taskQueueAlg = "MostChildren" then QueueAlg.MostChildren
  else if taskQueueAlg = "LeastChildren" then QueueAlg.LeastChildren
  else if taskQueueAlg = "MostAllChildren" then QueueAlg.MostChildren
  else if taskQueueAlg = "LeastAllChildren" then QueueAlg.LeastChildren
  else if taskQueueAlg = "MostL2Children" then QueueAlg.MostL2Children
  else if taskQueueAlg = "LeastL2Children" then QueueAlg.LeastL2Children
  else if taskQueueAlg = "MostMessages" then QueueAlg.MostMessages
  else if taskQueueAlg = "LeastMessages" then QueueAlg.LeastMessages
  else if taskQueueAlg = "PatchOrder" then QueueAlg.PatchOrder
  else if taskQueueAlg = "PatchOrderRandom" then QueueAlg.PatchOrderRandom
  else QueueAlg.MostMessages

/-- The ready-queue part of `UnifiedScheduler::problemSetup` (lines 332-382).
The argument is `none` when `prob_spec` has no `Scheduler` block, and
otherwise the entry `taskReadyQueueAlg` of that block (`none` when the block
has no such entry, in which case `get` leaves the string as it is). The
result is the value of `taskQueueAlg_` and the name written to the log. -/
def problemSetup.queueAlg (scheduler : Option (Option String)) : QueueAlg × String :=
  match scheduler with
  | none => (QueueAlg.MostMessages, "MostMessages")
  | some entry =>
    let taskQueueAlg := entry.getD "MostMessages"
    (problemSetup.chain taskQueueAlg, taskQueueAlg)

/-- The names of the disciplines that the chain of `problemSetup` compares
the string with. -/
def knownQueueAlgNames : List String :=
  ["FCFS", "Random", "Stack", "MostChildren", "LeastChildren", "MostAllChildren",
    "LeastAllChildren", "MostL2Children", "LeastL2Children", "MostMessages", "LeastMessages",
    "PatchOrder", "PatchOrderRandom"]

/-! ## `UnifiedScheduler::runTask` -/

/-- What `runTask` reads besides the task, the event and the switches of
`Config`. -/
structure RunTaskEnv where
  /-- Value of `waitout.active()`. -/
  waitoutActive : Bool
  /-- Whether `trackingVarsPrintLocation_ & PRINT_BEFORE_EXEC` is non-zero. -/
  printBeforeExec : Bool
  /-- Whether `trackingVarsPrintLocation_ & PRINT_AFTER_EXEC` is non-zero. -/
  printAfterExec : Bool
  /-- Value of `task->getTask()->getHasSubScheduler()`. -/
  hasSubScheduler : Bool
  /-- Value of `d_sharedState->isCopyDataTimestep()`. -/
  isCopyDataTimestep : Bool
  /-- Whether `parentScheduler_` is not null. -/
  hasParentScheduler : Bool
deriving DecidableEq, Repr

/-- The calls `runTask` makes, in the order in which it makes them. -/
inductive RunTaskStep where
  /-- The update of `waittimes` under `waittimesLock`. -/
  | recordWaitTime
  | printTrackedVarsBefore
  /-- The task body: `task->doit(d_myworld, dws, plain_old_dws, event)`. -/
  | doit (event : CallBackEvent)
  | printTrackedVarsAfter
  | addContribution
  | findIntAndExtGpuDependencies
  | assignDevicesAndStreamsFromGhostVars
  | createTaskGpuDWs
  | prepareDeviceVars
  | prepareTaskVarsIntoTaskDW
  | prepareGhostCellsIntoTaskDW
  | syncTaskGpuDWs
  | performInternalGhostCellCopies
  | markDeviceRequiresDataAsValid
  | copyAllGpuToGpuDependences
  | copyAllExtGpuDependenciesToHost
  | postMPISends
  | deleteTaskGpuDataWarehouses
  /-- The call `task->done(dws)`. -/
  | done
  /-- The call `sends_[thread_id].testsome(d_myworld)`. -/
  | testsome
  /-- The timings are added to those of the parent scheduler and reset. -/
  | addTimingsToParent
deriving DecidableEq, Repr

/-- The first half of `runTask` (lines 503-536), executed for the events
`CPU` and `GPU`. -/
def runTask.execute (e : RunTaskEnv) (t : DetailedTask) (event : CallBackEvent) :
    List RunTaskStep :=
  (if e.printBeforeExec then [RunTaskStep.printTrackedVarsBefore] else []) ++
  [RunTaskStep.doit event] ++
  (if e.printAfterExec then [RunTaskStep.printTrackedVarsAfter] else []) ++
  (if e.hasSubScheduler = false ∧ e.isCopyDataTimestep = false ∧ t.type ≠ TaskType.Output then
    [RunTaskStep.addContribution] else [])

/-- The second half of `runTask` (lines 539-610), executed for the events
`CPU` and `postGPU`. -/
def runTask.finish (c : Config) (e : RunTaskEnv) : List RunTaskStep :=
  (if c.haveCuda = true ∧ c.usingDevice = true then
    [RunTaskStep.findIntAndExtGpuDependencies, RunTaskStep.assignDevicesAndStreamsFromGhostVars,
      RunTaskStep.createTaskGpuDWs, RunTaskStep.prepareDeviceVars,
      RunTaskStep.prepareTaskVarsIntoTaskDW, RunTaskStep.prepareGhostCellsIntoTaskDW,
      RunTaskStep.syncTaskGpuDWs, RunTaskStep.performInternalGhostCellCopies,
      RunTaskStep.markDeviceRequiresDataAsValid, RunTaskStep.copyAllGpuToGpuDependences,
      RunTaskStep.copyAllExtGpuDependenciesToHost]
  else []) ++
  (if c.usingMPI = true then [RunTaskStep.postMPISends] else []) ++
  (if c.haveCuda = true ∧ c.usingDevice = true then [RunTaskStep.deleteTaskGpuDataWarehouses]
  else []) ++
  [RunTaskStep.done] ++
  (if c.usingMPI = true then [RunTaskStep.testsome] else []) ++
  (if e.hasParentScheduler then [RunTaskStep.addTimingsToParent] else [])

/-- The function `UnifiedScheduler::runTask` (lines 487-611): the calls it
makes for the task `t` and the event `event`, in order. -/
def runTask (c : Config) (e : RunTaskEnv) (t : DetailedTask) (event : CallBackEvent) :
    List RunTaskStep :=
  (if e.waitoutActive then [RunTaskStep.recordWaitTime] else []) ++
  (if event = CallBackEvent.CPU ∨ event = CallBackEvent.GPU then runTask.execute e t event
  else []) ++
  (if event = CallBackEvent.CPU ∨ event = CallBackEvent.postGPU then runTask.finish c e else [])

/-- The three kinds of call that the property of `runTask` is about. -/
def RunTaskStep.core : RunTaskStep → Bool
  | RunTaskStep.doit _ => true
  | RunTaskStep.postMPISends => true
  | RunTaskStep.done => true
  | _ => false

/-- An environment of `runTask` with every optional output switched off. -/
def RunTaskEnv.quiet : RunTaskEnv :=
  { waitoutActive := false, printBeforeExec := false, printAfterExec := false,
    hasSubScheduler := false, isCopyDataTimestep := false, hasParentScheduler := false }

/-- A build without `HAVE_CUDA` that runs without MPI. -/
def Config.serial : Config :=
  { haveCuda := false, usingDevice := false, usingMPI := false, assertions := true,
    before := fun _ _ => false }

/-! ## `UnifiedScheduler::createTaskGpuDWs` -/

/-- The two data warehouses `createTaskGpuDWs` makes tables for
(`Task::OldDW`, `Task::NewDW`). -/
inductive WhichDW where
  | OldDW
  | NewDW
deriving DecidableEq, Repr

/-- The sizes `createTaskGpuDWs` computes with. `GPUDataWarehouse`, its member
type `dataItem` and the macro `MAX_VARDB_ITEMS` are declared outside the source
files at hand. -/
structure GpuDWSizes where
  /-- Value of `sizeof(GPUDataWarehouse)`. -/
  sizeofGPUDataWarehouse : Nat
  /-- Value of `sizeof(GPUDataWarehouse::dataItem)`. -/
  sizeofDataItem : Nat
  MAX_VARDB_ITEMS : Nat
deriving DecidableEq, Repr

/-- What `createTaskGpuDWs` reads from the task. -/
structure TaskGpuInfo where
  /-- The set `dtask->getDeviceNums()`, in the order of iteration. -/
  deviceNums : List Nat
  /-- Value of `dtask->getTaskVars().getTotalVars(device, dw)`. -/
  getTotalVars : Nat → WhichDW → Nat
  /-- Value of `dtask->getGhostVars().getNumGhostCellCopies(device, dw)`. -/
  getNumGhostCellCopies : Nat → WhichDW → Nat

/-- A table made by `createTaskGpuDWs`: the device and data warehouse it is
registered for with `setTaskGpuDataWarehouse`, the byte count passed to
`malloc` and to `init_device`, and the item count passed to `init_device`. -/
structure TaskGpuDW where
  device : Nat
  dw : WhichDW
  objectSizeInBytes : Nat
  numItems : Nat
deriving DecidableEq, Repr

/-- The sum `getTotalVars(...) + getNumGhostCellCopies(...)` assigned to the
`unsigned int numItemsInDW`. -/
def numItemsInDW (info : TaskGpuInfo) (device : Nat) (dw : WhichDW) : Nat :=
  (info.getTotalVars device dw + info.getNumGhostCellCopies device dw) % 2 ^ 32

/-- The expression `sizeof(GPUDataWarehouse) - sizeof(GPUDataWarehouse::dataItem)
* MAX_VARDB_ITEMS + sizeof(GPUDataWarehouse::dataItem) * numItemsInDW`, computed
in `size_t` (64 bits). -/
def objectSizeInBytes (sz : GpuDWSizes) (numItems : Nat) : Nat :=
  (((sz.sizeofGPUDataWarehouse : Int) - (sz.sizeofDataItem : Int) * (sz.MAX_VARDB_ITEMS : Int) +
    (sz.sizeofDataItem : Int) * (numItems : Int)) % (2 : Int) ^ 64).toNat

/-- The part of `createTaskGpuDWs` for one device and one data warehouse (lines
4439-4470 and 4472-4505): the table made, if any. -/
def createTaskGpuDW (sz : GpuDWSizes) (info : TaskGpuInfo) (device : Nat) (dw : WhichDW) :
    List TaskGpuDW :=
  if numItemsInDW info device dw > 0 then
    [{ device := device, dw := dw,
       objectSizeInBytes := objectSizeInBytes sz (numItemsInDW info device dw),
       numItems := numItemsInDW info device dw }]
  else []

/-- The function `UnifiedScheduler::createTaskGpuDWs` (lines 4430-4509): the
tables it makes, in order. -/
def createTaskGpuDWs (sz : GpuDWSizes) (info : TaskGpuInfo) : List TaskGpuDW :=
  info.deviceNums.flatMap (fun device =>
    createTaskGpuDW sz info device WhichDW.OldDW ++ createTaskGpuDW sz info device WhichDW.NewDW)

/-- Sizes used in the instances: an object of 1000 bytes that holds 9 items of
100 bytes each. -/
def GpuDWSizes.small : GpuDWSizes :=
  { sizeofGPUDataWarehouse := 1000, sizeofDataItem := 100, MAX_VARDB_ITEMS := 9 }

/-- A task on device 0 with 3 task variables and 2 ghost-cell copies in the
new data warehouse and nothing in the old one. -/
def TaskGpuInfo.small : TaskGpuInfo :=
  { deviceNums := [0]
    getTotalVars := fun _ dw => if dw = WhichDW.NewDW then 3 else 0
    getNumGhostCellCopies := fun _ dw => if dw = WhichDW.NewDW then 2 else 0 }

/-! ## The pool of idle CUDA streams -/

/-- The state of the stream pool: the queues `idleStreams[device]` (oldest
first), and the number of streams created so far with `cudaStreamCreate`, which
serves as the identity of the next stream created. -/
structure StreamPool where
  idleStreams : Nat → List Nat
  created : Nat

/-- The function `UnifiedScheduler::getCudaStreamFromPool` (lines 4324-4361):
the stream handed out and the pool afterwards. -/
def getCudaStreamFromPool (pool : StreamPool) (device : Nat) : Nat × StreamPool :=
  match pool.idleStreams device with
  | stream :: rest =>
    (stream,
      { pool with idleStreams := fun d => if d = device then rest else pool.idleStreams d })
  | [] => (pool.created, { pool with created := pool.created + 1 })

/-- Modelled from the spec: the class `DetailedTask` is not among the source
files; this is the part of it that `reclaimCudaStreamsIntoPool` uses: the set of
its devices and the map `d_cudaStreams` from device to stream. -/
structure TaskStreams where
  deviceNums : List Nat
  d_cudaStreams : List (Nat × Nat)
deriving DecidableEq, Repr

/-- Modelled from the spec: `DetailedTask::getCudaStreamForThisTask`, absent
from the sources; the stream recorded for the device (`none` for `NULL`). -/
def TaskStreams.getCudaStreamForThisTask (t : TaskStreams) (device : Nat) : Option Nat :=
  t.d_cudaStreams.lookup device

/-- Modelled from the spec: `DetailedTask::clearCudaStreamsForThisTask`, absent
from the sources; it takes no argument and, as the comment at its call says
("remove all knowledge of any formerly used streams"), empties the map. -/
def TaskStreams.clearCudaStreamsForThisTask (t : TaskStreams) : TaskStreams :=
  { t with d_cudaStreams := [] }

/-- The body of the loop of `reclaimCudaStreamsIntoPool` for one device. -/
def reclaimStep (st : StreamPool × TaskStreams) (device : Nat) : StreamPool × TaskStreams :=
  match st.2.getCudaStreamForThisTask device with
  | some stream =>
    ({ st.1 with
        idleStreams := fun d => if d = device then st.1.idleStreams d ++ [stream]
          else st.1.idleStreams d },
      st.2.clearCudaStreamsForThisTask)
  | none => st

/-- The function `UnifiedScheduler::reclaimCudaStreamsIntoPool` (lines
4366-4407): the loop runs over a copy of the task's device set. -/
def reclaimCudaStreamsIntoPool (pool : StreamPool) (dtask : TaskStreams) :
    StreamPool × TaskStreams :=
  dtask.deviceNums.foldl reclaimStep (pool, dtask)

/-- A pool without idle streams in which two streams have been created. -/
def StreamPool.drained : StreamPool := { idleStreams := fun _ => [], created := 2 }

/-- A task that holds stream 0 on device 0 and stream 1 on device 1. -/
def TaskStreams.onTwoDevices : TaskStreams :=
  { deviceNums := [0, 1], d_cudaStreams := [(0, 0), (1, 1)] }

/-- A task that holds stream 0 on device 0. -/
def TaskStreams.onOneDevice : TaskStreams :=
  { deviceNums := [0], d_cudaStreams := [(0, 0)] }

/-! ## `DORadiationModel::problemSetup` -/

/-- The block `<particles>` of a `<calculator>`, as far as `problemSetup` reads
it. -/
structure ParticlesBlock where
  part_temp_label : Option String
  radiateAtGasTemp : Option Bool
  /-- The attribute `label` of the block `<abskp>`: `none` when there is no such
  block, `some none` when the block has no such attribute. -/
  abskp : Option (Option String)
deriving DecidableEq, Repr

/-- The block `<calculator>` of a property model. -/
structure Calculator where
  particles : Option ParticlesBlock
deriving DecidableEq, Repr

/-- A block `<model>` of `<PropertyModels>`: its attribute `type`, if it has
one, and its block `<calculator>`, if it has one. -/
structure PropertyModel where
  type : Option String
  calculator : Option Calculator
deriving DecidableEq, Repr

/-- What `DORadiationModel::problemSetup` reads up to line 188: the entries of
the block `<DORadiationModel>`, the `<model>` blocks of `<PropertyModels>` in
document order, the answers of `ParticleTools` (whose source is not part of the
files at hand), and the value of the member `_nQn_part` before the call (the
constructor does not set it). -/
structure RadiationSpec where
  initialGuess : Option String
  ScatteringOn : Option Bool
  models : List PropertyModel
  /-- Value of `ParticleTools::check_for_particle_method(db, DQMOM)`. -/
  doing_dqmom : Bool
  /-- Value of `ParticleTools::check_for_particle_method(db, CQMOM)`. -/
  doing_cqmom : Bool
  /-- Value of `ParticleTools::get_num_env(db, DQMOM)`. -/
  num_env_dqmom : Int
  /-- Value of `ParticleTools::get_num_env(db, CQMOM)`. -/
  num_env_cqmom : Int
  _nQn_part : Int
deriving DecidableEq, Repr

/-- How `DORadiationModel::problemSetup`, or a part of it, ends. -/
inductive SetupOutcome (α : Type) where
  /-- The end was reached. -/
  | ok (value : α)
  | ProblemSetupException (message : String)
  /-- A member was called through an empty `ProblemSpecP` handle. -/
  | nullHandle
deriving DecidableEq, Repr

/-- What the loop over the `<model>` blocks leaves behind. -/
structure ModelLoopEnd where
  _nQn_part : Int
  baseNameAbskp : String
  baseNameTemperature : String
  _radiateAtGasTemp : Bool
deriving DecidableEq, Repr

/-- The members of `DORadiationModel` set by `problemSetup` up to line 188. -/
structure RadiationSetup where
  _zeroInitialGuess : Bool
  _usePreviousIntensity : Bool
  _scatteringOn : Bool
  _nQn_part : Int
  _radiateAtGasTemp : Bool
  _abskp_name_vector : List String
  _temperature_name_vector : List String
deriving DecidableEq, Repr

/-- The branch of the loop body for a model of type `radiation_properties`
(lines 145-170). -/
def radiationPropertiesModel (p : RadiationSpec) (db_model : PropertyModel) :
    SetupOutcome ModelLoopEnd :=
  match db_model.calculator with
  | none =>
    (SetupOutcome.ProblemSetupException
      "Error: <calculator> for DO-radiation node not found.")
  | some calculator =>
    match calculator.particles with
    | none =>
      SetupOutcome.ok
        { _nQn_part := 0, baseNameAbskp := "", baseNameTemperature := "",
          _radiateAtGasTemp := true }
    | some particles =>
      if p.doing_dqmom = false ∧ p.doing_cqmom = false then
        (SetupOutcome.ProblemSetupException
          "Error: This method only working for DQMOM/CQMOM.")
      else
        match particles.abskp with
        | none => SetupOutcome.nullHandle
        | some label =>
          SetupOutcome.ok
            { _nQn_part := if p.doing_dqmom then p.num_env_dqmom else p.num_env_cqmom
              baseNameAbskp := label.getD ""
              baseNameTemperature := particles.part_temp_label.getD "heat_pT"
              _radiateAtGasTemp := particles.radiateAtGasTemp.getD true }

/-- The loop `for (db_model = db_prop->findBlock("model"); db_model != 0;
db_model = db_model->findNextBlock("model"))` of `problemSetup` (lines 141-175)
over the blocks still to visit. `modelName` is the string that `getAttribute`
overwrites when the block has the attribute `type`. The test `db_model == 0`
at the end of the body is made on the block the body is run for. -/
def modelLoop (p : RadiationSpec) : String → List PropertyModel → SetupOutcome ModelLoopEnd
  | _, [] =>
    SetupOutcome.ok
      { _nQn_part := p._nQn_part, baseNameAbskp := "", baseNameTemperature := "",
        _radiateAtGasTemp := true }
  | modelName, db_model :: later =>
    if db_model.type.getD modelName = "radiation_properties" then
      radiationPropertiesModel p db_model
    else if (some db_model).isNone then
      (SetupOutcome.ProblemSetupException
        "Error: <radiation_properties> for DO-radiation node not found.")
    else modelLoop p (db_model.type.getD modelName) later

/-- The names `base_0`, `base_1`, ... made by the loop `for (qn = 0; qn <
_nQn_part; qn++)` (lines 177-184). -/
def quadratureNames (base : String) (nQn_part : Int) : List String :=
  (List.range nQn_part.toNat).map (fun qn => base ++ "_" ++ toString qn)

/-- The function `DORadiationModel::problemSetup` up to line 188: the initial
guess, the scattering switch, the loop over the property models and the test
that scattering has a particle model. -/
def DORadiationModel.problemSetup (p : RadiationSpec) : SetupOutcome RadiationSetup :=
  let initialGuessType := p.initialGuess.getD "zeros"
  if initialGuessType ≠ "zeros" ∧ initialGuessType ≠ "prevDir" ∧
      initialGuessType ≠ "prevRadSolve" then
    (SetupOutcome.ProblemSetupException "Error:DO-radiation initial guess not set!.")
  else
    let _scatteringOn := p.ScatteringOn.getD false
    match modelLoop p "" p.models with
    | SetupOutcome.ProblemSetupException message => SetupOutcome.ProblemSetupException message
    | SetupOutcome.nullHandle => SetupOutcome.nullHandle
    | SetupOutcome.ok r =>
      if _scatteringOn = true ∧ r._nQn_part = 0 then
        (SetupOutcome.ProblemSetupException
          "Error: No particle model found in DO-radiation! When scattering is turned on, a particle model is required!")
      else
        SetupOutcome.ok
          { _zeroInitialGuess := decide (initialGuessType = "zeros")
            _usePreviousIntensity := decide (initialGuessType = "prevRadSolve")
            _scatteringOn := _scatteringOn
            _nQn_part := r._nQn_part
            _radiateAtGasTemp := r._radiateAtGasTemp
            _abskp_name_vector := quadratureNames r.baseNameAbskp r._nQn_part
            _temperature_name_vector := quadratureNames r.baseNameTemperature r._nQn_part }

/-- An input whose `<PropertyModels>` block has one model, of type `heat_loss`,
and no model of type `radiation_properties`; everything else is left to the
defaults. -/
def noRadiationProperties : RadiationSpec :=
  { initialGuess := none, ScatteringOn := none
    models := [{ type := some "heat_loss", calculator := none }]
    doing_dqmom := false, doing_cqmom := false, num_env_dqmom := 0, num_env_cqmom := 0
    _nQn_part := 0 }

/-- An input whose first model of type `radiation_properties` has no
`<calculator>` block. -/
def noCalculator : RadiationSpec :=
  { noRadiationProperties with
    models := [{ type := some "heat_loss", calculator := none },
               { type := some "radiation_properties", calculator := none }] }

/-! ## The size check of `UnifiedScheduler::initiateD2H` -/

/-- The classes `IntVector` and `int3`: three `int` components. -/
structure IntVector where
  x : Int
  y : Int
  z : Int
deriving DecidableEq, Repr

instance : Sub IntVector where
  sub a b := { x := a.x - b.x, y := a.y - b.y, z := a.z - b.z }

/-- The values of `Ghost::GhostType` (declared outside the source files at
hand). -/
inductive GhostType where
  | None
  | AroundNodes
  | AroundCells
  | AroundFacesX
  | AroundFacesY
  | AroundFacesZ
  | AroundFaces
deriving DecidableEq, Repr

/-- The constant `SHRT_MAX`. -/
def SHRT_MAX : Int := 32767

/-- How `initiateD2H` gets the host variable it copies into. -/
inductive HostAlloc where
  | allocateAndPut (gtype : GhostType) (numGhostCells : Int)
  | getRegion (low high : IntVector)
deriving DecidableEq, Repr

/-- What `initiateD2H` reads for a grid variable it has decided to copy to the
host (lines 3909-3967). -/
structure D2HGridVar where
  /-- The offset of the device array, as `getArray3` reports it. -/
  device_offset : IntVector
  /-- The size of the device array. -/
  device_size : IntVector
  /-- The ghost type recorded for the variable on the device. -/
  gtype : GhostType
  /-- The number of ghost cells recorded for the variable on the device. -/
  numGhostCells : Int
  /-- The values of `host_low` and `host_high` that `Patch::getGhostOffsets`
  followed by `patch->computeExtents` give for a ghost type and a number of
  ghost cells. -/
  computeExtents : GhostType → Int → IntVector × IntVector
  /-- The values that `level->findCellIndexRange` gives. -/
  findCellIndexRange : IntVector × IntVector
  /-- Value of `dw->isFinalized()`. -/
  isFinalized : Bool
  /-- Value of `gridVar->getDataSize()` for the host variable obtained. -/
  getDataSize : HostAlloc → Nat
  /-- Whether `gridVar->getBasePointer()` is null for the host variable. -/
  basePointerNull : HostAlloc → Bool
  /-- Whether `cudaMemcpyAsync` returns `cudaSuccess`. -/
  copyAccepted : Bool

/-- The calls `initiateD2H` makes for the variable, in order. -/
inductive D2HStep where
  | unfinalize
  | alloc (how : HostAlloc)
  | refinalize
  | cudaMemcpyAsync (host_bytes : Nat)
  /-- The call `dtask->getVarsBeingCopiedByTask().add(...)`. -/
  | addVarBeingCopied
deriving DecidableEq, Repr

/-- How the treatment of the variable ends. -/
inductive D2HEnd where
  | done
  | InternalError (message : String)
  /-- The macro `CUDA_RT_SAFE_CALL` (defined outside the sources) met an
  error code. -/
  | cudaError
deriving DecidableEq, Repr

/-- The test `device_offset == host_low && device_size == host_high - host_low`,
component by component. -/
def D2HGridVar.fits (v : D2HGridVar) (host : IntVector × IntVector) : Bool :=
  decide (v.device_offset.x = host.1.x ∧ v.device_offset.y = host.1.y ∧
    v.device_offset.z = host.1.z ∧ v.device_size.x = (host.2 - host.1).x ∧
    v.device_size.y = (host.2 - host.1).y ∧ v.device_size.z = (host.2 - host.1).z)

/-- The host extents computed first (lines 3925-3936): the level's cell index
range when the recorded number of ghost cells is `SHRT_MAX`, and otherwise the
extents for the recorded ghost type and number of ghost cells. -/
def D2HGridVar.firstExtents (v : D2HGridVar) : IntVector × IntVector :=
  if v.numGhostCells = SHRT_MAX then v.findCellIndexRange
  else v.computeExtents v.gtype v.numGhostCells

/-- The three size tests of `initiateD2H` (lines 3970-4046): the way the host
variable is obtained, or `none` when no test succeeds. -/
def D2HGridVar.hostAlloc (v : D2HGridVar) : Option HostAlloc :=
  if v.fits v.firstExtents then
    if v.numGhostCells = SHRT_MAX then
      some (HostAlloc.getRegion v.firstExtents.1 v.firstExtents.2)
    else some (HostAlloc.allocateAndPut v.gtype v.numGhostCells)
  else if v.fits (v.computeExtents GhostType.None 0) then
    some (HostAlloc.allocateAndPut GhostType.None 0)
  else if v.fits v.findCellIndexRange then
    some (HostAlloc.getRegion v.findCellIndexRange.1 v.findCellIndexRange.2)
  else none

/-- The part of `initiateD2H` that copies one grid variable to the host (lines
3970-4107): the calls made and how it ends. -/
def initiateD2H.gridVar (v : D2HGridVar) : List D2HStep × D2HEnd :=
  match v.hostAlloc with
  | none =>
    ([], D2HEnd.InternalError
      "UnifiedScheduler::initiateD2H() - Device and host sizes didn't match.")
  | some how =>
    let got : List D2HStep :=
      if v.isFinalized then [D2HStep.unfinalize, D2HStep.alloc how, D2HStep.refinalize]
      else [D2HStep.alloc how]
    if v.getDataSize how = 0 then
      (got, D2HEnd.InternalError
        "UnifiedScheduler::initiateD2H() - Transfer bytes is listed as zero.")
    else if v.basePointerNull how then
      (got, D2HEnd.InternalError
        "UnifiedScheduler::initiateD2H() - Invalid host pointer, it was NULL.")
    else if v.copyAccepted then
      (got ++ [D2HStep.cudaMemcpyAsync (v.getDataSize how), D2HStep.addVarBeingCopied],
        D2HEnd.done)
    else (got ++ [D2HStep.cudaMemcpyAsync (v.getDataSize how)], D2HEnd.cudaError)

/-- The extents of a patch of 4 x 4 x 4 cells with `n` ghost cells around it
(none for `Ghost::None`). -/
def cubeExtents (gtype : GhostType) (n : Int) : IntVector × IntVector :=
  if gtype = GhostType.None then ({ x := 0, y := 0, z := 0 }, { x := 4, y := 4, z := 4 })
  else ({ x := -n, y := -n, z := -n }, { x := 4 + n, y := 4 + n, z := 4 + n })

/-- A device variable on the patch of `cubeExtents` in a level of 8 x 8 x 8
cells, recorded with one layer of ghost cells around cells, whose device array
has the given offset and size. -/
def cubeVar (offset size : IntVector) : D2HGridVar :=
  { device_offset := offset, device_size := size, gtype := GhostType.AroundCells
    numGhostCells := 1, computeExtents := cubeExtents
    findCellIndexRange := ({ x := 0, y := 0, z := 0 }, { x := 8, y := 8, z := 8 })
    isFinalized := true, getDataSize := fun _ => 512, basePointerNull := fun _ => false
    copyAccepted := true }

/-! ## The device pipeline -/

/-- The queues of the host side of the pipeline hold no device task, and
neither does a thread that is about to put its task into one of them. -/
def HostSideOk (sys : System) : Prop :=
  (∀ t ∈ sys.sched.dts.finalizeHostPreparation ++ sys.sched.dts.initiallyReadyHost,
    t.usesDevice = false) ∧
  ∀ tid l t, sys.threads.getD tid Pc.returned = Pc.acting l → l.readyTask = some t →
    (l.cpuInitReady = true ∨ l.cpuFinalizeHostPreparation = true) → t.usesDevice = false

/-- A scheduler with device support in which two device tasks whose streams
are done wait in the pipeline: task 1 in the completion-pending queue and task
2 in the verify-transfer queue. -/
def laterStageWaits : UnifiedScheduler :=
  { ntasks := 2, numTasksDone := 0, currphase := 0, numPhases := 1
    phaseTasks := [2], phaseTasksDone := [0], phaseSyncTask := [none]
    dts := { DetailedTasks.nothing with
      verifyDataTransferCompletion := [deviceTask 2 0]
      completionPendingDevice := [deviceTask 1 0]
      handedInternal := [deviceTask 1 0, deviceTask 2 0]
      handedExternal := [deviceTask 1 0, deviceTask 2 0] }
    numPendingRecvs := 0, streamsDone := [deviceTask 1 0, deviceTask 2 0], consumed := [] }

/-- The queues at the start of `deviceTaskRun`. -/
def deviceTaskQueues : DetailedTasks :=
  { DetailedTasks.nothing with internalReady := [deviceTask 0 0] }

/-- One thread takes a device task through the pipeline, up to the moment at
which it holds the scheduler lock with the task waiting in the
completion-pending queue: the task is initiated, taken from the external-ready
queue, and then taken in turn from the verify-transfer, the
finalize-device-preparation and the initially-ready queue, its streams being
done all along. -/
def deviceTaskRun : List Event :=
  [Event.enter 0, Event.lock 0, Event.pass 0, Event.pass 0, Event.act 0 Answers.yes,
    Event.outside (Outside.streams [deviceTask 0 0]),
    Event.enter 0, Event.lock 0, Event.pass 0, Event.act 0 Answers.yes,
    Event.enter 0, Event.lock 0, Event.pass 0, Event.act 0 Answers.yes,
    Event.enter 0, Event.lock 0, Event.pass 0, Event.act 0 Answers.yes,
    Event.enter 0, Event.lock 0]

/-! ## Ghost cells on the device: who assembles them -/

/-- The identity of a variable instance on the device: the data warehouse it
belongs to (`mapDataWarehouse()`; the device follows from the patch), its
label, patch, material and level. -/
structure VarKey where
  dwIndex : Nat
  label : String
  patchID : Int
  matlIndx : Int
  levelIndx : Int
deriving DecidableEq, Repr

/-- Modelled from the spec: the status that a `GPUDataWarehouse` (whose source
is not among the files at hand) keeps for a variable: the offset and size of
its device array, if one is allocated, and the flags "valid", "awaiting ghost
data" and "valid with ghost cells". -/
structure VarStatus where
  allocated : Option (IntVector × IntVector)
  validOnGPU : Bool
  awaitingGhostData : Bool
  validWithGhosts : Bool
deriving DecidableEq, Repr

/-- Modelled from the spec: the device-side data warehouses
(`dws[dwIndex]->getGPUDW(device)`), as the map from variable instances to
their status; `none` means that there is no entry. -/
abbrev GPUDataWarehouse := VarKey → Option VarStatus

/-- The map with the entry of `k` replaced. -/
def GPUDataWarehouse.put (g : GPUDataWarehouse) (k : VarKey) (st : Option VarStatus) :
    GPUDataWarehouse :=
  fun k1 => if k1 = k then st else g k1

/-- Modelled from the spec: `GPUDataWarehouse::isAllocatedOnGPU(label, patch,
matl, level)`. -/
def GPUDataWarehouse.isAllocatedOnGPU (g : GPUDataWarehouse) (k : VarKey) : Bool :=
  match g k with
  | some st => st.allocated.isSome
  | none => false

/-- Modelled from the spec: `GPUDataWarehouse::isAllocatedOnGPU(label, patch,
matl, level, offset, size)`: allocated with this offset and size. -/
def GPUDataWarehouse.isAllocatedWith (g : GPUDataWarehouse) (k : VarKey)
    (offset size : IntVector) : Bool :=
  match g k with
  | some st => decide (st.allocated = some (offset, size))
  | none => false

/-- Modelled from the spec: `GPUDataWarehouse::isValidOnGPU`. -/
def GPUDataWarehouse.isValidOnGPU (g : GPUDataWarehouse) (k : VarKey) : Bool :=
  match g k with
  | some st => st.validOnGPU
  | none => false

/-- Modelled from the spec: `GPUDataWarehouse::putUnallocatedIfNotExists`: "if
an entry doesn't already exist, make an empty unallocated variable". -/
def GPUDataWarehouse.putUnallocatedIfNotExists (g : GPUDataWarehouse) (k : VarKey) :
    GPUDataWarehouse :=
  match g k with
  | some _ => g
  | none =>
    g.put k (some { allocated := none, validOnGPU := false, awaitingGhostData := false,
                    validWithGhosts := false })

/-- Whether the ghost cells of the variable are spoken for: some task is
assembling them or they are assembled. -/
def GPUDataWarehouse.ghostsClaimed (g : GPUDataWarehouse) (k : VarKey) : Bool :=
  match g k with
  | some st => st.awaitingGhostData || st.validWithGhosts
  | none => false

/-- Modelled from the spec: `GPUDataWarehouse::testAndSetAwaitingGhostDataOnGPU`,
the atomic test-and-set by which a task claims the assembly of the ghost cells:
it "changes a var's status to valid awaiting ghost data if this task claims
ownership of managing ghost cells; otherwise the var's status is left alone
(perhaps the ghost cells were already processed by another task)". The result
says whether the caller has got the claim. -/
def GPUDataWarehouse.testAndSetAwaitingGhostDataOnGPU (g : GPUDataWarehouse) (k : VarKey) :
    Bool × GPUDataWarehouse :=
  match g k with
  | some st =>
    if st.awaitingGhostData = true ∨ st.validWithGhosts = true then (false, g)
    else (true, g.put k (some { st with awaitingGhostData := true }))
  | none => (false, g)

/-- Modelled from the spec: `GPUDataWarehouse::setValidWithGhostsOnGPU`: the
ghost cells are assembled. -/
def GPUDataWarehouse.setValidWithGhostsOnGPU (g : GPUDataWarehouse) (k : VarKey) :
    GPUDataWarehouse :=
  match g k with
  | some st => g.put k (some { st with awaitingGhostData := false, validWithGhosts := true })
  | none => g

/-- The values of `TypeDescription::Type` of the variables that
`initiateH2DCopies` handles; the loop body does nothing for a variable of any
other type (line 1719). -/
inductive VarType where
  | CCVariable
  | NCVariable
  | SFCXVariable
  | SFCYVariable
  | SFCZVariable
  | PerPatch
  | ReductionVariable
deriving DecidableEq, Repr

/-- The test `type == CCVariable || type == NCVariable || type == SFCXVariable
|| type == SFCYVariable || type == SFCZVariable`. -/
def VarType.isGrid : VarType → Bool
  | VarType.CCVariable => true
  | VarType.NCVariable => true
  | VarType.SFCXVariable => true
  | VarType.SFCYVariable => true
  | VarType.SFCZVariable => true
  | _ => false

/-- An entry of the map `vars` of `initiateH2DCopies` that stands for a
`Requires` dependency, with what the loop body reads for it: the variable
instance, its type, the ghost cells required, and the extents `low` and
`host_size` computed for it. -/
structure RequiresVar where
  key : VarKey
  type : VarType
  gtype : GhostType
  numGhostCells : Int
  low : IntVector
  host_size : IntVector
deriving DecidableEq, Repr

/-- What `initiateH2DCopies` adds to the collections of the task for a
variable. -/
inductive H2DStep where
  /-- The call `dtask->getTaskVars().addTaskGpuDWVar(...)`. -/
  | addTaskGpuDWVar (k : VarKey)
  /-- The call `dtask->getDeviceVars().add(...)`. -/
  | addDeviceVar (k : VarKey)
  /-- The call `dtask->getVarsToBeGhostReady().addVarToBeGhostReady(...)`. -/
  | addVarToBeGhostReady (k : VarKey)
  /-- The loop over the valid neighbours (lines 1818-2269), which queues the
  ghost cell copies into the variable; what it queues, and its own ways of
  ending the process, are not looked into here. -/
  | queueGhostCopies (k : VarKey)
deriving DecidableEq, Repr

/-- The claim of lines 1780-1791: `gatherGhostCells` and the data warehouse
afterwards. -/
def claimGhostCells (g : GPUDataWarehouse) (v : RequiresVar) : Bool × GPUDataWarehouse :=
  if v.gtype ≠ GhostType.None ∧ v.numGhostCells > 0 then
    (g.putUnallocatedIfNotExists v.key).testAndSetAwaitingGhostDataOnGPU v.key
  else (false, g)

/-- The body of the loop of `initiateH2DCopies` for a `Requires` dependency on
a variable of one of the seven supported types (lines 1758-2364): the data
warehouse afterwards, what is added to the collections of the task, and
whether the function went on (`false`: it called `exit(-1)`). -/
def initiateH2DCopies.requires (g : GPUDataWarehouse) (v : RequiresVar) :
    GPUDataWarehouse × List H2DStep × Bool :=
  let allocated := g.isAllocatedOnGPU v.key
  let allocatedCorrectSize :=
    if v.type.isGrid then g.isAllocatedWith v.key v.low v.host_size else allocated
  let gatherGhostCells := (claimGhostCells g v).1
  let g1 := (claimGhostCells g v).2
  let validOnGpu := g1.isValidOnGPU v.key
  if allocated = true ∧ allocatedCorrectSize = true ∧ validOnGpu = true then
    (g1, [H2DStep.addTaskGpuDWVar v.key] ++
      (if gatherGhostCells then
        [H2DStep.addVarToBeGhostReady v.key, H2DStep.queueGhostCopies v.key] else []), true)
  else if allocated = true ∧ allocatedCorrectSize = false then
    (g1.put v.key none, [], false)
  else if allocated = false ∨
      (allocated = true ∧ allocatedCorrectSize = true ∧ validOnGpu = false) then
    if v.type.isGrid then
      (g1, [H2DStep.addDeviceVar v.key, H2DStep.addTaskGpuDWVar v.key] ++
        (if gatherGhostCells then [H2DStep.addVarToBeGhostReady v.key] else []), true)
    else if v.type = VarType.PerPatch ∨ v.type = VarType.ReductionVariable then
      (g1, [H2DStep.addDeviceVar v.key, H2DStep.addTaskGpuDWVar v.key], true)
    else (g1, [], true)
  else (g1, [], true)

/-- The function `UnifiedScheduler::markDeviceGhostsAsValid` (lines 3404-3421)
for a task whose collection `varsToBeGhostReady` holds the given variables. -/
def markDeviceGhostsAsValid (g : GPUDataWarehouse) (varsToBeGhostReady : List VarKey) :
    GPUDataWarehouse :=
  varsToBeGhostReady.foldl GPUDataWarehouse.setValidWithGhostsOnGPU g

/-- The device-side state shared by the tasks, and what each task has recorded.
`claims` is a history variable: the successful claims, as pairs of task and
variable, oldest first. -/
structure GhostState where
  gpudw : GPUDataWarehouse
  /-- The collection `varsToBeGhostReady` of each task. -/
  varsToBeGhostReady : Nat → List VarKey
  claims : List (Nat × VarKey)
  /-- The process has called `exit(-1)`. -/
  exited : Bool

/-- The steps of the tasks on the device-side state. -/
inductive GhostEvent where
  /-- Task `task` runs the loop body of `initiateH2DCopies` for the variable. -/
  | requires (task : Nat) (v : RequiresVar)
  /-- Task `task` runs `markDeviceGhostsAsValid`. -/
  | markDeviceGhostsAsValid (task : Nat)
deriving DecidableEq, Repr

/-- The variables among the steps that are added to `varsToBeGhostReady`. -/
def ghostReadyOf : List H2DStep → List VarKey
  | [] => []
  | H2DStep.addVarToBeGhostReady k :: rest => k :: ghostReadyOf rest
  | _ :: rest => ghostReadyOf rest

/-- One step of a task on the device-side state. -/
def GhostState.step (st : GhostState) : GhostEvent → GhostState
  | GhostEvent.requires task v =>
    if st.exited then st
    else
      let r := initiateH2DCopies.requires st.gpudw v
      { gpudw := r.1
        varsToBeGhostReady := fun i =>
          if i = task then st.varsToBeGhostReady i ++ ghostReadyOf r.2.1
          else st.varsToBeGhostReady i
        claims := if (claimGhostCells st.gpudw v).1 then st.claims ++ [(task, v.key)]
          else st.claims
        exited := !r.2.2 }
  | GhostEvent.markDeviceGhostsAsValid task =>
    if st.exited then st
    else { st with gpudw := markDeviceGhostsAsValid st.gpudw (st.varsToBeGhostReady task) }

/-- The device-side state after the events, in order. -/
def GhostState.run (st : GhostState) (es : List GhostEvent) : GhostState :=
  es.foldl GhostState.step st

/-- The state in which no task has recorded or claimed anything yet. -/
def GhostState.start (g : GPUDataWarehouse) : GhostState :=
  { gpudw := g, varsToBeGhostReady := fun _ => [], claims := [], exited := false }

/-- Every variable has been claimed at most once; as long as the process
runs, a variable that has been claimed is marked as such in the data
warehouse; and no task has recorded a variable more often than it has claimed
it. -/
def GhostOk (st : GhostState) : Prop :=
  (∀ k, st.claims.countP (fun p => decide (p.2 = k)) ≤ 1) ∧
  (st.exited = false → ∀ k, st.claims.countP (fun p => decide (p.2 = k))
    ≤ if st.gpudw.ghostsClaimed k then 1 else 0) ∧
  (∀ i k, (st.varsToBeGhostReady i).count k ≤ st.claims.count (i, k))

/-! ## Concurrent claims on the ghost cells of one variable -/

/-- The state of `n` tasks that each execute lines 1787-1789 of
`initiateH2DCopies` for the same variable, on different threads: the
device-side data warehouse, where each task stands (0: before
`putUnallocatedIfNotExists`, 1: before `testAndSetAwaitingGhostDataOnGPU`, 2:
after it), and the value of `gatherGhostCells` that each task has got, in the
order in which the claims took effect. -/
structure ClaimRace where
  gpudw : GPUDataWarehouse
  pc : Nat → Nat
  gathered : List (Nat × Bool)

/-- Task `tid` of `n` executes its next call, as one atomic step. -/
def ClaimRace.step (n : Nat) (k : VarKey) (r : ClaimRace) (tid : Nat) : ClaimRace :=
  if tid < n then
    if r.pc tid = 0 then
      { r with gpudw := r.gpudw.putUnallocatedIfNotExists k
               pc := fun i => if i = tid then 1 else r.pc i }
    else if r.pc tid = 1 then
      { gpudw := (r.gpudw.testAndSetAwaitingGhostDataOnGPU k).2
        pc := fun i => if i = tid then 2 else r.pc i
        gathered := r.gathered ++ [(tid, (r.gpudw.testAndSetAwaitingGhostDataOnGPU k).1)] }
    else r
  else r

/-- The state after the steps of the tasks named by the schedule, in order. -/
def ClaimRace.run (n : Nat) (k : VarKey) (r : ClaimRace) (schedule : List Nat) : ClaimRace :=
  schedule.foldl (ClaimRace.step n k) r

/-- The tasks are dispatched: none has made a call yet. -/
def ClaimRace.start (g : GPUDataWarehouse) : ClaimRace :=
  { gpudw := g, pc := fun _ => 0, gathered := [] }

/-- Number of claims that succeeded. -/
def ClaimRace.successes (r : ClaimRace) : Nat := r.gathered.countP (fun p => p.2)

/-- Number of claims that failed. -/
def ClaimRace.failures (r : ClaimRace) : Nat := r.gathered.countP (fun p => !p.2)

/-- The invariant of the race of `n` tasks for the ghost cells of `k`, started
on the data warehouse `g0`: a task past `putUnallocatedIfNotExists` finds an
entry; the tasks that have got an answer are those past the test-and-set, each
once; and a claim has succeeded exactly when the variable has become claimed
during the race. -/
def RaceOk (n : Nat) (k : VarKey) (g0 : GPUDataWarehouse) (r : ClaimRace) : Prop :=
  ((∃ tid, 1 ≤ r.pc tid) → (r.gpudw k).isSome = true) ∧
  (∀ tid, r.pc tid = 2 ↔ tid ∈ r.gathered.map Prod.fst) ∧
  (r.gathered.map Prod.fst).Nodup ∧
  (∀ tid ∈ r.gathered.map Prod.fst, tid < n) ∧
  (r.successes + (if g0.ghostsClaimed k then 1 else 0)
    = if r.gpudw.ghostsClaimed k then 1 else 0) ∧
  (r.gathered ≠ [] → r.gpudw.ghostsClaimed k = true)

/-- A variable of the new data warehouse, used in the instances. -/
def phiOnPatch0 : VarKey :=
  { dwIndex := 1, label := "phi", patchID := 0, matlIndx := 0, levelIndx := 0 }

/-- A `Requires` dependency on `phiOnPatch0` with one layer of ghost cells. -/
def phiWithGhosts : RequiresVar :=
  { key := phiOnPatch0, type := VarType.CCVariable, gtype := GhostType.AroundCells
    numGhostCells := 1, low := { x := -1, y := -1, z := -1 }
    host_size := { x := 6, y := 6, z := 6 } }

/-- A device-side data warehouse without entries. -/
def GPUDataWarehouse.empty : GPUDataWarehouse := fun _ => none

/-- Eight tasks interleaved: all call `putUnallocatedIfNotExists` in the order
0 to 7 and then `testAndSetAwaitingGhostDataOnGPU` in the order 7 to 0. -/
def eightTasks : List Nat := [0, 1, 2, 3, 4, 5, 6, 7, 7, 6, 5, 4, 3, 2, 1, 0]

/-- Three tasks require `phiOnPatch0` with ghost cells one after the other;
the first marks its ghost cells valid before the third starts. -/
def threeTasks : List GhostEvent :=
  [GhostEvent.requires 0 phiWithGhosts, GhostEvent.requires 1 phiWithGhosts,
    GhostEvent.markDeviceGhostsAsValid 0, GhostEvent.markDeviceGhostsAsValid 1,
    GhostEvent.requires 2 phiWithGhosts]

/-! ## The current phase -/

/-- The current phase is a phase of the graph (or 0 in a graph without
phases), and in every phase below it at least as many tasks were marked
consumed as the phase has. -/
def PhaseOk (s : UnifiedScheduler) : Prop :=
  (s.currphase = 0 ∨ s.currphase < s.numPhases) ∧
  ∀ p, p < s.currphase → s.phaseTasks.getD p 0 ≤ s.phaseTasksDone.getD p 0

/-- Two tasks of phase 0 and one of phase 1; the task of phase 1 is the first
to become ready. -/
def laterPhaseFirstQueues : DetailedTasks :=
  { DetailedTasks.nothing with externalReady := [plainTask 2 1, plainTask 0 0, plainTask 1 0] }

/-- One thread takes and runs the three tasks of `laterPhaseFirstQueues`, one
after the other. -/
def laterPhaseFirstRun : List Event :=
  [Event.enter 0, Event.lock 0, Event.pass 0, Event.act 0 Answers.yes,
    Event.enter 0, Event.lock 0, Event.pass 0, Event.act 0 Answers.yes,
    Event.enter 0, Event.lock 0, Event.pass 0, Event.act 0 Answers.yes]

/-! ## The start-up message of `UnifiedScheduler::problemSetup` -/

/-- What `problemSetup` writes to `std::cout` on rank 0 (lines 403-409), for
the value `numThreads_ = getNumThreads() - 1`, without the final
`std::endl`. -/
def problemSetup.message (numThreads_ : Int) : String :=
  let plural := if numThreads_ = 1 then " thread" else " threads"
  "   WARNING: Multi-threaded Unified scheduler is EXPERIMENTAL, not all tasks are thread safe yet.\n"
    ++ "   Creating " ++ toString numThreads_ ++ " additional "
    ++ (plural ++ " for task execution (total task execution threads = ")
    ++ toString (numThreads_ + 1) ++ ")."

/-- The output of `problemSetup` about the threads: the message on rank 0 and
nothing on the other ranks, when no exception was thrown before. -/
def problemSetup.output (p : ThreadSetup) : Option String :=
  match problemSetup p with
  | SetupResult.ProblemSetupException _ => none
  | SetupResult.threads numThreads_ _ =>
    if p.myrank = 0 then some (problemSetup.message numThreads_) else none

/-- The threads that execute tasks after `init_threads(sched, num_threads)`:
the `init_threads num_threads` workers, each of which runs
`UnifiedSchedulerWorker::run`, and the main thread, which calls `runTasks` in
`execute`. -/
def taskExecutionThreads (num_threads : Int) : Nat := init_threads num_threads + 1

/-- A run with `-nthreads n` on rank 0 of an MPI run, with `MAX_THREADS`
being 64. -/
def threadsRequested (n : Int) : ThreadSetup :=
  { numThreads := n, usingMPI := true, usingDevice := false, myrank := 0, MAX_THREADS := 64 }

/-! ## The source of a neighbour's ghost cells in `initiateH2DCopies` -/

/-- What the tests of lines 1850-1923 read for one neighbour of a required
variable: whether a staging variable exists on the destination device, the two
device numbers, and the answers of the source device's GPU data warehouse
about the source variable, one for each call in the source (the number in a
name is the line of the call). The warehouse is shared with other threads, so
two calls of the same function need not give the same answer. -/
structure GhostSourceQuery where
  useGpuStaging : Bool
  sourceDeviceNum : Nat
  destDeviceNum : Nat
  isValidOnCPU_1883 : Bool
  isAllocatedOnGPU_1904 : Bool
  isValidOnGPU_1907 : Bool
  isValidOnCPU_1911 : Bool
  isValidOnCPU_1916 : Bool
  isValidOnGPU_1919 : Bool
deriving DecidableEq, Repr

/-- How the decision of lines 1881-1928 ends. -/
inductive GhostSource where
  /-- The test of line 1881 failed: nothing is done for this neighbour. -/
  | skipped
  | useCpuGhostCells
  | useGpuGhostCells
  | useGpuStaging
  /-- The message was printed and `exit(-1)` was called. -/
  | exit (message : String)
deriving DecidableEq, Repr

/-- The decision of `initiateH2DCopies` where to take a neighbour's ghost cells
from (lines 1881-1928). -/
def initiateH2DCopies.ghostSource (q : GhostSourceQuery) : GhostSource :=
  if q.useGpuStaging = true ∨ q.sourceDeviceNum = q.destDeviceNum ∨
      q.isValidOnCPU_1883 = true then
    if q.useGpuStaging = false then
      if q.isAllocatedOnGPU_1904 = false ∨ q.isValidOnGPU_1907 = false then
        GhostSource.useCpuGhostCells
      else if q.isValidOnCPU_1911 = true ∧ q.sourceDeviceNum ≠ q.destDeviceNum then
        GhostSource.useCpuGhostCells
      else if q.isValidOnCPU_1916 = false ∧ q.isValidOnGPU_1919 = false then
        GhostSource.exit "ERROR: Needed ghost cell data not found on the CPU or a GPU\n"
      else GhostSource.useGpuGhostCells
    else GhostSource.useGpuStaging
  else GhostSource.skipped

/-- The answers when nothing changes the state of the source variable during
the decision: it is allocated on the GPU, valid on the GPU and valid in host
memory as given, at every call. -/
def GhostSourceQuery.ofState (useGpuStaging : Bool) (sourceDeviceNum destDeviceNum : Nat)
    (isAllocatedOnGPU isValidOnGPU isValidOnCPU : Bool) : GhostSourceQuery :=
  { useGpuStaging := useGpuStaging
    sourceDeviceNum := sourceDeviceNum
    destDeviceNum := destDeviceNum
    isValidOnCPU_1883 := isValidOnCPU
    isAllocatedOnGPU_1904 := isAllocatedOnGPU
    isValidOnGPU_1907 := isValidOnGPU
    isValidOnCPU_1911 := isValidOnCPU
    isValidOnCPU_1916 := isValidOnCPU
    isValidOnGPU_1919 := isValidOnGPU }

/-- A neighbour on the same device as the destination whose source variable
is allocated on the GPU but valid neither there nor in host memory. -/
def GhostSourceQuery.validNowhere : GhostSourceQuery :=
  GhostSourceQuery.ofState false 0 0 true false false

/-- A neighbour on another device than the destination whose source variable
is allocated and valid on its GPU and not valid in host memory. -/
def GhostSourceQuery.otherDeviceOnly : GhostSourceQuery :=
  GhostSourceQuery.ofState false 1 0 true true false

/-- A neighbour on the destination's device whose source variable is valid on
the GPU at the call of line 1907 and no longer at the call of line 1919, and
never valid in host memory. -/
def GhostSourceQuery.invalidatedMeanwhile : GhostSourceQuery :=
  { GhostSourceQuery.ofState false 0 0 true true false with isValidOnGPU_1919 := false }

/-! ## The control flow of `UnifiedScheduler::execute` -/

/-- The values of `Impl::ThreadState`. -/
inductive ThreadState where
  | Inactive
  | Active
  | Exit
deriving DecidableEq, Repr

/-- The steps of `execute` that matter for the worker threads. -/
inductive ExecuteStep where
  /-- The call `MPIScheduler::execute(tgnum, iteration)`. -/
  | mpiSchedulerExecute
  /-- The output "UnifiedScheduler skipping execute, no tasks". -/
  | skipping
  /-- The set-up of lines 650-698, which ends with the counters as given by
  the function `execute` above. -/
  | setCounters
  /-- The assignment `Impl::g_run_tasks = v`. -/
  | setRunTasks (v : Nat)
  /-- The assignment `Impl::g_thread_states[i] = st`. -/
  | setThreadState (i : Nat) (st : ThreadState)
  /-- The call `runTasks(Impl::t_tid)` on the calling thread. -/
  | runTasks
  | thread_fence
deriving DecidableEq, Repr

/-- What a call of `execute` depends on, as far as the worker threads go. -/
structure ExecuteCall where
  usingMPI : Bool
  isCopyDataTimestep : Bool
  /-- Whether `tg->getDetailedTasks()` is not 0. -/
  hasDetailedTasks : Bool
  numThreads_ : Int
deriving DecidableEq, Repr

/-- The indices of the loops `for (int i = 1; i < numThreads_; ++i)`. -/
def workerIndices (numThreads_ : Int) : List Nat := List.range' 1 (numThreads_ - 1).toNat

/-- The steps of `UnifiedScheduler::execute` (lines 626-754), in order. -/
def execute.steps (p : ExecuteCall) : List ExecuteStep :=
  if p.usingMPI = true ∧ p.isCopyDataTimestep = true then [ExecuteStep.mpiSchedulerExecute]
  else if p.hasDetailedTasks = false then [ExecuteStep.skipping]
  else
    [ExecuteStep.setCounters]
    ++ (if p.isCopyDataTimestep = false then
          ExecuteStep.setRunTasks 1 ::
            (workerIndices p.numThreads_).map (fun i =>
              ExecuteStep.setThreadState i ThreadState.Active)
        else [])
    ++ [ExecuteStep.runTasks]
    ++ (if p.isCopyDataTimestep = false then
          [ExecuteStep.setRunTasks 0, ExecuteStep.thread_fence] ++
            (workerIndices p.numThreads_).map (fun i =>
              ExecuteStep.setThreadState i ThreadState.Inactive)
        else [])

/-- An ordinary timestep of an MPI run with `numThreads_ = 3`. -/
def ExecuteCall.ordinary : ExecuteCall :=
  { usingMPI := true, isCopyDataTimestep := false, hasDetailedTasks := true, numThreads_ := 3 }

/-- A copy-data timestep of a run without MPI, with `numThreads_ = 3`. -/
def ExecuteCall.copyData : ExecuteCall :=
  { usingMPI := false, isCopyDataTimestep := true, hasDetailedTasks := true, numThreads_ := 3 }

/-- An ordinary timestep for a task graph without detailed tasks, with
`numThreads_ = 4`. -/
def ExecuteCall.noTasks : ExecuteCall :=
  { usingMPI := false, isCopyDataTimestep := false, hasDetailedTasks := false, numThreads_ := 4 }

/-! ## Ordinates and intensity labels of `DORadiationModel::problemSetup` -/

/-- The value of an `int` expression whose exact value is `x`: wrap-around in
32 bits. (In the range of `int` this is `x`; outside of it C++ leaves the
result open, and no `int` equals `x`.) -/
def wrapInt (x : Int) : Int := (x + 2 ^ 31) % 2 ^ 32 - 2 ^ 31

/-- The statement `d_totalOrds = d_sn*(d_sn+2)` of
`DORadiationModel::computeOrdinatesOPL` (line 258), in `int` arithmetic. -/
def computeOrdinatesOPL (d_sn : Int) : Int := wrapInt (d_sn * wrapInt (d_sn + 2))

/-- The function `DORadiationModel::needIntensitiesBool`. -/
def RadiationSetup.needIntensitiesBool (s : RadiationSetup) : Bool :=
  s._usePreviousIntensity || s._scatteringOn

/-- What `stream << setfill('0') << setw(4) << ix` writes for `ix >= 0`: the
decimal digits of `ix`, with zeros in front of them up to a width of 4. -/
def setw4 (ix : Nat) : String :=
  String.mk (List.replicate (4 - (toString ix).length) '0') ++ toString ix

/-- The name made in the loop body (lines 236-237). -/
def intensityLabel (ix : Nat) : String := "Intensity" ++ setw4 ix

/-- The loop `for (ix = 0; ix < d_totalOrds; ix++) { push_back(label ix); if
(needIntensitiesBool() == false) break; }` (lines 235-242), from `ix` on, with
`fuel` bounding the number of iterations: the names of the labels pushed. -/
def intensityLabelsLoop (d_totalOrds : Int) (needIntensities : Bool) : Nat → Nat → List String
  | 0, _ => []
  | fuel + 1, ix =>
    if (ix : Int) < d_totalOrds then
      intensityLabel ix ::
        (if needIntensities = false then []
         else intensityLabelsLoop d_totalOrds needIntensities fuel (ix + 1))
    else []

/-- The members of `DORadiationModel` set by `problemSetup` from line 191 on,
with the names of the labels in `_IntensityLabels`. -/
structure OrdinateSetup where
  setup : RadiationSetup
  d_sn : Int
  d_totalOrds : Int
  _IntensityLabels : List String
deriving DecidableEq, Repr

/-- The function `DORadiationModel::getIntOrdinates`. -/
def OrdinateSetup.getIntOrdinates (r : OrdinateSetup) : Int := r.d_totalOrds

/-- The function `DORadiationModel::problemSetup` as a whole, for the value
`ordinates` of `<ordinates>` (`none` when it is not given, in which case
`getWithDefault` yields 2): the part up to line 188, then the ordinates and the
intensity labels. The handle `db` has been used before line 192, so the
branch that throws "Error: <DORadiation> node not found." is not taken. The
choice and set-up of the linear solver in between (lines 216-229) is taken to
complete. The loop gets `d_totalOrds` units of fuel, which it cannot use
up. -/
def DORadiationModel.problemSetup.labels (p : RadiationSpec) (ordinates : Option Int) :
    SetupOutcome OrdinateSetup :=
  match DORadiationModel.problemSetup p with
  | SetupOutcome.ProblemSetupException message => SetupOutcome.ProblemSetupException message
  | SetupOutcome.nullHandle => SetupOutcome.nullHandle
  | SetupOutcome.ok s =>
    let d_sn := ordinates.getD 2
    let d_totalOrds := computeOrdinatesOPL d_sn
    SetupOutcome.ok
      { setup := s
        d_sn := d_sn
        d_totalOrds := d_totalOrds
        _IntensityLabels :=
          intensityLabelsLoop d_totalOrds s.needIntensitiesBool d_totalOrds.toNat 0 }

/-- An input that asks for the previous radiation solve as initial guess and
leaves the rest to the defaults. -/
def prevRadSolveGuess : RadiationSpec :=
  { noRadiationProperties with initialGuess := some "prevRadSolve" }

/-! ## Boundary conditions: `WBCHelper` -/

/-- The enumeration `BndCondTypeEnum` of `WBCHelper.h` (which is not among the
source files), with the values that `WBCHelper.cc` names. -/
inductive BndCondTypeEnum where
  | DIRICHLET
  | NEUMANN
  | UNSUPPORTED
deriving DecidableEq, Repr

/-- The enumeration `BndTypeEnum` of `WBCHelper.h`, with the values that
`WBCHelper.cc` names. -/
inductive BndTypeEnum where
  | WALL
  | VELOCITY
  | OPEN
  | OUTFLOW
  | USER
  | INVALID
deriving DecidableEq, Repr

/-- The enumeration `BCValueTypeEnum` of `WBCHelper.h`, with the values that
`WBCHelper.cc` names. -/
inductive BCValueTypeEnum where
  | DOUBLE_TYPE
  | FUNCTOR_TYPE
  | INVALID_TYPE
deriving DecidableEq, Repr

/-- The function `select_bc_type_enum` (lines 58-65). -/
def select_bc_type_enum (bcTypeStr : String) : BndCondTypeEnum :=
  if bcTypeStr = "Dirichlet" then BndCondTypeEnum.DIRICHLET
  else if bcTypeStr = "Neumann" then BndCondTypeEnum.NEUMANN
  else BndCondTypeEnum.UNSUPPORTED

/-- The function `select_bnd_type_enum` (lines 67-78). -/
def select_bnd_type_enum (bndTypeStr : String) : BndTypeEnum :=
  if bndTypeStr = "Wall" then BndTypeEnum.WALL
  else if bndTypeStr = "Velocity" then BndTypeEnum.VELOCITY
  else if bndTypeStr = "Open" then BndTypeEnum.OPEN
  else if bndTypeStr = "Outflow" then BndTypeEnum.OUTFLOW
  else if bndTypeStr = "None" ∨ bndTypeStr = "User" then BndTypeEnum.USER
  else BndTypeEnum.INVALID

/-- The function `bc_type_enum_to_string` (lines 80-95). -/
def bc_type_enum_to_string (bcTypeEnum : BndCondTypeEnum) : String :=
  match bcTypeEnum with
  | BndCondTypeEnum.DIRICHLET => "Dirichlet"
  | BndCondTypeEnum.NEUMANN => "Neumann"
  | _ => "Unsupported"

/-- The function `bnd_type_enum_to_string` (lines 97-121). -/
def bnd_type_enum_to_string (bndTypeEnum : BndTypeEnum) : String :=
  match bndTypeEnum with
  | BndTypeEnum.WALL => "Wall"
  | BndTypeEnum.VELOCITY => "Velocity"
  | BndTypeEnum.OPEN => "Open"
  | BndTypeEnum.OUTFLOW => "Outflow"
  | BndTypeEnum.USER => "User"
  | _ => "Invalid"

/-- The structure `BndCondSpec` of `WBCHelper.h`, with its members in the order
of the initialiser `{varName, functorName, doubleVal, atomBCTypeEnum,
bcValType}` (line 599). The member `value` is a `double` there; here it has a
type `V` with a comparison `==` of its own, of which nothing is taken for
granted (a `double` that is not a number is not `==` to itself). -/
structure BndCondSpec (V : Type) where
  varName : String
  functorName : String
  value : V
  bcType : BndCondTypeEnum
  bcValType : BCValueTypeEnum
deriving DecidableEq, Repr

/-- The operator `BndCondSpec::operator==(const BndCondSpec& l)` (lines
228-235). -/
def BndCondSpec.eq {V : Type} [BEq V] (self l : BndCondSpec V) : Bool :=
  decide (l.varName = self.varName) && decide (l.functorName = self.functorName) &&
    (l.value == self.value) && decide (l.bcType = self.bcType) &&
    decide (l.bcValType = self.bcValType)

/-- The operator `BndCondSpec::operator==(const std::string& varNameNew)`
(lines 237-240). -/
def BndCondSpec.eqName {V : Type} (self : BndCondSpec V) (varNameNew : String) : Bool :=
  decide (varNameNew = self.varName)

/-- The values of `Patch::FaceType` (declared in `Patch.h`, which is not among
the source files). -/
inductive FaceType where
  | xminus
  | xplus
  | yminus
  | yplus
  | zminus
  | zplus
deriving DecidableEq, Repr

/-- The values of `BCGeomBase::ParticleBndSpec::bndType` (declared in
`BCGeomBase.h`, which is not among the source files): the two that
`WBCHelper.cc` names, and `other` for any further value. -/
inductive ParticleBndTypeEnum where
  | WALL
  | NOTSET
  | other (code : Nat)
deriving DecidableEq, Repr

/-- The values of `BCGeomBase::ParticleBndSpec::wallType`: the one that
`WBCHelper.cc` names, and `other` for any further value. -/
inductive ParticleWallTypeEnum where
  | ELASTIC
  | other (code : Nat)
deriving DecidableEq, Repr

/-- The members of `BCGeomBase::ParticleBndSpec` that `add_boundary` writes.
The restitution coefficient is a `double`; nothing is computed from it
here. -/
structure ParticleBndSpec where
  bndType : ParticleBndTypeEnum
  wallType : ParticleWallTypeEnum
  restitutionCoef : Rat
deriving DecidableEq, Repr

/-- The structure `BndSpec` of `WBCHelper.h`, with its members in the order of
the initialiser `{bndName, face, bndType, std::vector<int>(1, patchID),
myPBndSpec}` (line 394), which leaves `bcSpecVec` empty. -/
structure BndSpec (V : Type) where
  name : String
  face : FaceType
  type : BndTypeEnum
  patchIDs : List Int
  particleBndSpec : ParticleBndSpec
  bcSpecVec : List (BndCondSpec V)
deriving DecidableEq, Repr

/-- The function `BndSpec::has_patch` (lines 259-263). -/
def BndSpec.has_patch {V : Type} (b : BndSpec V) (patchID : Int) : Bool :=
  (b.patchIDs.find? (fun p => decide (p = patchID))).isSome

/-- The function `BndSpec::find` (lines 265-274): `std::find` with
`operator==(const std::string&)`; `none` for `NULL`. -/
def BndSpec.find {V : Type} (b : BndSpec V) (varName : String) : Option (BndCondSpec V) :=
  b.bcSpecVec.find? (fun s => s.eqName varName)

/-- The map `bndNameBndSpecMap_` of `WBCHelper`, from boundary names to
boundaries. -/
abbrev BndMapT (V : Type) := String → Option (BndSpec V)

/-- The map of a `WBCHelper` without boundaries. -/
def BndMapT.empty (V : Type) : BndMapT V := fun _ => none

/-- The function `WBCHelper::add_boundary_condition(bndName, bcSpec)` (lines
340-357), on the map `bndNameBndSpecMap_`. -/
def WBCHelper.add_boundary_condition {V : Type} [BEq V] (bndNameBndSpecMap_ : BndMapT V)
    (bndName : String) (bcSpec : BndCondSpec V) : BndMapT V :=
  match bndNameBndSpecMap_ bndName with
  | some existingBCSpec =>
    match existingBCSpec.bcSpecVec.find? (fun e => e.eq bcSpec) with
    | none =>
      fun k =>
        if k = bndName then
          some { existingBCSpec with bcSpecVec := existingBCSpec.bcSpecVec ++ [bcSpec] }
        else bndNameBndSpecMap_ k
    | some _ => bndNameBndSpecMap_
  | none => bndNameBndSpecMap_

/-- The function `WBCHelper::add_boundary` (lines 371-397), on the map
`bndNameBndSpecMap_`. -/
def WBCHelper.add_boundary {V : Type} (bndNameBndSpecMap_ : BndMapT V) (bndName : String)
    (face : FaceType) (bndType : BndTypeEnum) (patchID : Int) (pBndSpec : ParticleBndSpec) :
    BndMapT V :=
  let myPBndSpec : ParticleBndSpec :=
    if bndType = BndTypeEnum.WALL ∧ pBndSpec.bndType = ParticleBndTypeEnum.NOTSET then
      { pBndSpec with
        bndType := ParticleBndTypeEnum.WALL
        wallType := ParticleWallTypeEnum.ELASTIC
        restitutionCoef := 1 }
    else pBndSpec
  match bndNameBndSpecMap_ bndName with
  | some existingBndSpec =>
    fun k =>
      if k = bndName then
        some { existingBndSpec with patchIDs := existingBndSpec.patchIDs ++ [patchID] }
      else bndNameBndSpecMap_ k
  | none =>
    fun k =>
      if k = bndName then
        some
          { name := bndName
            face := face
            type := bndType
            patchIDs := [patchID]
            particleBndSpec := myPBndSpec
            bcSpecVec := [] }
      else bndNameBndSpecMap_ k

/-- The calls that change `bndNameBndSpecMap_`; the other functions of
`WBCHelper` change it through these two only. -/
inductive BndCall (V : Type) where
  | add_boundary (bndName : String) (face : FaceType) (bndType : BndTypeEnum) (patchID : Int)
      (pBndSpec : ParticleBndSpec)
  | add_boundary_condition (bndName : String) (bcSpec : BndCondSpec V)

/-- The map after one call. -/
def BndCall.apply {V : Type} [BEq V] (m : BndMapT V) : BndCall V → BndMapT V
  | BndCall.add_boundary bndName face bndType patchID pBndSpec =>
    WBCHelper.add_boundary m bndName face bndType patchID pBndSpec
  | BndCall.add_boundary_condition bndName bcSpec =>
    WBCHelper.add_boundary_condition m bndName bcSpec

/-- The map of a `WBCHelper` after the calls `calls`, in order, starting
without boundaries. -/
def BndMapT.after {V : Type} [BEq V] (calls : List (BndCall V)) : BndMapT V :=
  calls.foldl BndCall.apply (BndMapT.empty V)

/-- No spec list of the map holds two specs of which the earlier is `==` to
the later. -/
def NoEqualSpecs {V : Type} [BEq V] (m : BndMapT V) : Prop :=
  ∀ name b, m name = some b → b.bcSpecVec.Pairwise (fun e l => e.eq l = false)

/-- A Dirichlet condition on the variable `varName` with the value `value`. -/
def dirichletSpec (varName : String) (value : Int) : BndCondSpec Int :=
  { varName := varName, functorName := "none", value := value
    bcType := BndCondTypeEnum.DIRICHLET, bcValType := BCValueTypeEnum.DOUBLE_TYPE }

/-- A particle boundary spec that has not been set, with restitution
coefficient 0. -/
def ParticleBndSpec.notSet : ParticleBndSpec :=
  { bndType := ParticleBndTypeEnum.NOTSET, wallType := ParticleWallTypeEnum.other 0
    restitutionCoef := 0 }

/-- The map with the one boundary `inlet`, of type `VELOCITY`, on patch 3. -/
def inletOnly : BndMapT Int :=
  WBCHelper.add_boundary (BndMapT.empty Int) "inlet" FaceType.xminus BndTypeEnum.VELOCITY 3
    ParticleBndSpec.notSet

/-- The calls that make the boundary `inlet` and give it a condition on `u`,
the same condition again, a condition on `v` and another condition on `u`. -/
def inletCalls : List (BndCall Int) :=
  [BndCall.add_boundary "inlet" FaceType.xminus BndTypeEnum.VELOCITY 3 ParticleBndSpec.notSet,
    BndCall.add_boundary_condition "inlet" (dirichletSpec "u" 1),
    BndCall.add_boundary_condition "inlet" (dirichletSpec "u" 1),
    BndCall.add_boundary_condition "inlet" (dirichletSpec "v" 0),
    BndCall.add_boundary_condition "inlet" (dirichletSpec "u" 2),
    BndCall.add_boundary_condition "outlet" (dirichletSpec "u" 1)]

/-! ## The transfer matrix of `Interp2TransferAlgoT::execute` -/

/-- The function `Interp2TransferAlgo::pair_less` (lines 56-59). -/
def pair_less {W : Type} (a b : Int × W) : Bool := decide (a.1 < b.1)

/-- What `execute` reads of the interpolant field: the property
"interp-source-range" (`none` when the field does not have it) and, for the
elements of the mesh from `begin` to `end`, the values `fitp->value(vtmp,
*iter)`, each a vector of (index, weight) pairs; the mesh's `size` is the
number of these elements. `I` is the index type and `W` the type of the
weights (`double` in the source). -/
structure InterpField (I W : Type) where
  range : Option Nat
  values : List (List (I × W))

/-- The arguments of the constructor call `SparseRowMatrix(itrsize, range,
rowdata, coldata, datav.size(), data)` (lines 133-135). Sizes and row pointers
are taken to stay in the range of `int`. -/
structure SparseRowMatrix (W : Type) where
  nrows : Nat
  ncols : Nat
  rowdata : List Int
  coldata : List Int
  nnz : Nat
  data : List W
deriving DecidableEq, Repr

/-- The variables of the loop over the elements (lines 98-119); `rowdata`
holds the entries written so far. -/
structure TransferState (W : Type) where
  counter : Nat
  rowdata : List Int
  coldatav : List Int
  datav : List W

/-- The body of the loop over the elements (lines 105-118), for the value
`vtmp` of the current element. `toInt` is the cast `(int)(vtmp[i].first)`, and
`sort` stands for `std::sort(v.begin(), v.end(), pair_less)`. -/
def Interp2TransferAlgoT.element {I W : Type} (toInt : I → Int)
    (sort : List (Int × W) → List (Int × W)) (st : TransferState W) (vtmp : List (I × W)) :
    TransferState W :=
  let v := vtmp.map (fun p => (toInt p.1, p.2))
  let rowdata := st.rowdata ++ [st.rowdata.getD st.counter 0 + (v.length : Int)]
  let v := sort v
  { counter := st.counter + 1
    rowdata := rowdata
    coldatav := st.coldatav ++ v.map Prod.fst
    datav := st.datav ++ v.map Prod.snd }

/-- The function `Interp2TransferAlgoT::execute` (lines 72-138); `none` stands
for the return value 0, which goes with the two error messages about the
missing column size. -/
def Interp2TransferAlgoT.execute {I W : Type} (toInt : I → Int)
    (sort : List (Int × W) → List (Int × W)) (fitp : InterpField I W) :
    Option (SparseRowMatrix W) :=
  match fitp.range with
  | none => none
  | some range =>
    let st := fitp.values.foldl (Interp2TransferAlgoT.element toInt sort)
      { counter := 0, rowdata := [0], coldatav := [], datav := [] }
    some
      { nrows := fitp.values.length
        ncols := range
        rowdata := st.rowdata
        coldata := st.coldatav
        nnz := st.datav.length
        data := st.datav }

/-- The stored (column, weight) pairs of row `k` of a matrix in compressed-row
form: those at the positions from `rowdata[k]` up to `rowdata[k+1]`. -/
def SparseRowMatrix.row {W : Type} (m : SparseRowMatrix W) (k : Nat) : List (Int × W) :=
  ((m.coldata.zip m.data).drop (m.rowdata.getD k 0).toNat).take
    (m.rowdata.getD (k + 1) 0 - m.rowdata.getD k 0).toNat

/-- A sorting procedure that meets what `std::sort` with `pair_less` promises:
insertion sort on the first components. -/
def sortByFirst {W : Type} (l : List (Int × W)) : List (Int × W) :=
  l.insertionSort (fun a b => a.1 ≤ b.1)

/-- A field of three elements with range 4; the second element has no
pairs. Weights are whole numbers here. -/
def smallInterpField : InterpField Nat Int :=
  { range := some 4, values := [[(3, 5), (0, 7), (3, 1)], [], [(2, 9), (1, 8)]] }

/-! ## Debug streams: `Dout` -/

/-- Whether the characters of `needle` stand at the start of `haystack`. -/
def startsWith : List Char → List Char → Bool
  | _, [] => true
  | [], _ :: _ => false
  | h :: hs, n :: ns => decide (h = n) && startsWith hs ns

/-- The C library function `strstr`: the offset of the first occurrence of
`needle` in `haystack`, or `none` for `NULL`. -/
def strstr : List Char → List Char → Option Nat
  | [], needle => if needle = [] then some 0 else none
  | h :: hs, needle =>
    if startsWith (h :: hs) needle then some 0 else (strstr hs needle).map (fun k => k + 1)

/-- The character `s[i]` of a C string with the characters `s`, for `i` up to
the terminating NUL. -/
def charAt (s : List Char) (i : Nat) : Char := s.getD i (Char.ofNat 0)

/-- The function `Dout::is_active` (lines 104-125), for the value
`sci_debug` of `std::getenv("SCI_DEBUG")` (`none` when the variable is not
set). Names are taken to hold no NUL character, so that `tmp.c_str()` has all
of `tmp`. -/
def Dout.is_active (sci_debug : Option String) (arg_name : String) (default_active : Bool) :
    Bool :=
  let tmp := "," ++ arg_name ++ ":"
  let name := tmp.data
  let n := tmp.length
  match sci_debug with
  | none => default_active
  | some env =>
    match strstr env.data name with
    | some sub => decide (charAt env.data (sub + n) = '+')
    | none =>
      match strstr env.data (name.drop 1) with
      | none => default_active
      | some sub =>
        if sub ≠ 0 then default_active else decide (charAt env.data (sub + (n - 1)) = '+')

/-- The members of `Dout`. -/
structure Dout where
  m_active : Bool
  m_name : String
deriving DecidableEq, Repr

/-- The constructor `Dout(name, default_active)` (lines 87-90). -/
def Dout.new (sci_debug : Option String) (name : String) (default_active : Bool) : Dout :=
  let m_active := Dout.is_active sci_debug name default_active
  { m_active := m_active, m_name := name ++ (if m_active then ":+" else ":-") }

/-- The function `Dout::name`. -/
def Dout.name (d : Dout) : String := d.m_name

/-- The conversion `explicit operator bool()`. -/
def Dout.toBool (d : Dout) : Bool := d.m_active

/-- The characters `needle` occur in `s`. -/
def Occurs (needle s : List Char) : Prop := ∃ pre post, s = pre ++ needle ++ post

/-! ## Properties -/

/-! ### One selection pass, case by case -/

theorem selectionPass_sync (c : Config) (s : UnifiedScheduler) (l : Locals) (t : DetailedTask)
    (h : syncTaskReady s = some t) :
    selectionPass c s l = (markTaskConsumed s t,
      { l with readyTask := some t, havework := true, cpuRunReady := c.haveCuda || l.cpuRunReady },
      Flow.leave) := by
  simp [selectionPass, h]

theorem selectionPass_ext (c : Config) (s : UnifiedScheduler) (l : Locals)
    (t : DetailedTask) (rest : List DetailedTask)
    (h : syncTaskReady s = none) (hq : s.dts.externalReady = t :: rest) :
    selectionPass c s l = externalReadyStep c s l t
      { s.dts with externalReady := rest, handedExternal := s.dts.handedExternal ++ [t] } := by
  simp [selectionPass, h, hq, DetailedTasks.getNextExternalReadyTask]

theorem selectionPass_int (c : Config) (s : UnifiedScheduler) (l : Locals)
    (t : DetailedTask) (rest : List DetailedTask)
    (h : syncTaskReady s = none) (he : s.dts.externalReady = [])
    (hq : s.dts.internalReady = t :: rest) :
    selectionPass c s l = internalReadyStep c s l t
      { s.dts with internalReady := rest, handedInternal := s.dts.handedInternal ++ [t] } := by
  simp [selectionPass, h, he, hq, DetailedTasks.getNextInternalReadyTask]

theorem selectionPass_dev (c : Config) (s : UnifiedScheduler) (l : Locals)
    (h : syncTaskReady s = none) (he : s.dts.externalReady = [])
    (hq : s.dts.internalReady = []) :
    selectionPass c s l = deviceAndRecvStep c s l := by
  simp [selectionPass, h, he, hq]

/-- Case analysis of a selection pass along the priority chain of the
source. -/
theorem selectionPass_cases (c : Config) (s : UnifiedScheduler) (l : Locals)
    (P : UnifiedScheduler × Locals × Flow → Prop)
    (h1 : ∀ t, syncTaskReady s = some t → P (markTaskConsumed s t,
      { l with readyTask := some t, havework := true, cpuRunReady := c.haveCuda || l.cpuRunReady },
      Flow.leave))
    (h2 : ∀ t rest, syncTaskReady s = none → s.dts.externalReady = t :: rest →
      P (externalReadyStep c s l t
        { s.dts with externalReady := rest, handedExternal := s.dts.handedExternal ++ [t] }))
    (h3 : ∀ t rest, syncTaskReady s = none → s.dts.externalReady = [] →
      s.dts.internalReady = t :: rest →
      P (internalReadyStep c s l t
        { s.dts with internalReady := rest, handedInternal := s.dts.handedInternal ++ [t] }))
    (h4 : syncTaskReady s = none → s.dts.externalReady = [] → s.dts.internalReady = [] →
      P (deviceAndRecvStep c s l)) :
    P (selectionPass c s l) := by
  cases hs : syncTaskReady s with
  | some t => rw [selectionPass_sync c s l t hs]; exact h1 t hs
  | none =>
    cases he : s.dts.externalReady with
    | cons t rest => rw [selectionPass_ext c s l t rest hs he]; exact h2 t rest hs he
    | nil =>
      cases hi : s.dts.internalReady with
      | cons t rest => rw [selectionPass_int c s l t rest hs he hi]; exact h3 t rest hs he hi
      | nil => rw [selectionPass_dev c s l hs he hi]; exact h4 hs he hi

theorem selectionPass_idle (c : Config) (s : UnifiedScheduler) (l : Locals)
    (h : nothingToDo c s) :
    selectionPass c s l = endOfPass s { l with pendingMPIMsgs := 0 } := by
  obtain ⟨h1, h2, h3, ⟨h4, h5, h6, h7, h8, h9⟩, h10⟩ := h
  rw [selectionPass_dev c s l h1 h2 h3]
  simp [deviceAndRecvStep, h4, h5, h6, h7, h8, h9, h10]

theorem selectionPass_polls (c : Config) (s : UnifiedScheduler) (l : Locals)
    (h : (selectionPass c s l).2.1.pendingMPIMsgs ≠ l.pendingMPIMsgs) :
    syncTaskReady s = none ∧ s.dts.externalReady = [] ∧ s.dts.internalReady = [] ∧
    noDeviceWork c s := by
  revert h
  refine selectionPass_cases c s l (fun r => r.2.1.pendingMPIMsgs ≠ l.pendingMPIMsgs → _)
    ?_ ?_ ?_ ?_
  · intro t _; simp
  · intro t rest _ _; unfold externalReadyStep; repeat' split
    all_goals simp
  · intro t rest _ _ _; unfold internalReadyStep; repeat' split
    all_goals simp [endOfPass]
  · intro h1 h2 h3; unfold deviceAndRecvStep noDeviceWork; repeat' split
    all_goals simp_all [endOfPass]

theorem selectionPass_polled (c : Config) (s : UnifiedScheduler) (l : Locals)
    (h1 : syncTaskReady s = none) (h2 : s.dts.externalReady = []) (h3 : s.dts.internalReady = [])
    (h4 : noDeviceWork c s) :
    (selectionPass c s l).2.1.pendingMPIMsgs = s.numPendingRecvs := by
  obtain ⟨h4, h5, h6, h7, h8, h9⟩ := h4
  rw [selectionPass_dev c s l h1 h2 h3]
  simp only [deviceAndRecvStep, h4, h5, h6, h7, h8, h9]
  split_ifs <;> simp [endOfPass]

theorem selectionPass_keeps (c : Config) (s : UnifiedScheduler) (l : Locals) (hl : l.idle) :
    ((selectionPass c s l).2.2 = Flow.again → (selectionPass c s l).2.1.idle) ∧
    ((selectionPass c s l).2.2 = Flow.leave → (selectionPass c s l).2.1.nothingSelected →
      (selectionPass c s l).1.numTasksDone = (selectionPass c s l).1.ntasks) := by
  obtain ⟨h1, h2, h3, h4⟩ := hl
  refine selectionPass_cases c s l (fun r => (r.2.2 = Flow.again → r.2.1.idle) ∧
    (r.2.2 = Flow.leave → r.2.1.nothingSelected → r.1.numTasksDone = r.1.ntasks)) ?_ ?_ ?_ ?_
  · intro t _; simp [Locals.nothingSelected]
  · intro t rest _ _; unfold externalReadyStep; repeat' split
    all_goals simp [Locals.nothingSelected]
  · intro t rest _ _ _; unfold internalReadyStep; repeat' split
    all_goals simp_all [endOfPass, Locals.idle, Locals.nothingSelected]
  · intro _ _ _; unfold deviceAndRecvStep; repeat' split
    all_goals simp_all [endOfPass, Locals.idle, Locals.nothingSelected]

theorem selectionPass_assertion (c : Config) (s : UnifiedScheduler) (l : Locals)
    (h : (selectionPass c s l).2.2 = Flow.assertionFailed) :
    c.assertions = true ∧ ∃ t, (selectionPass c s l).1.dts.handedInternal.getLast? = some t ∧
      t.syncKind ∧ t.numRequires ≠ 0 := by
  revert h
  refine selectionPass_cases c s l (fun r => r.2.2 = Flow.assertionFailed →
    c.assertions = true ∧ ∃ t, r.1.dts.handedInternal.getLast? = some t ∧
      t.syncKind ∧ t.numRequires ≠ 0) ?_ ?_ ?_ ?_
  · intro t _; simp
  · intro t rest _ _; unfold externalReadyStep; repeat' split
    all_goals simp
  · intro t rest _ _ _; unfold internalReadyStep; repeat' split
    all_goals simp_all [endOfPass, DetailedTask.syncKind]
    all_goals (try split_ifs) <;> simp_all
  · intro _ _ _; unfold deviceAndRecvStep; repeat' split
    all_goals simp_all [endOfPass]
    all_goals (try split_ifs) <;> simp_all

/-! ### The selection loop and `runTasks` on one thread -/

theorem fresh_idle : Locals.fresh.idle := by
  simp [Locals.idle, Locals.nothingSelected, Locals.fresh]

theorem selectionLoop_exit (c : Config) :
    ∀ (fuel : Nat) (s : UnifiedScheduler) (l : Locals) (s1 : UnifiedScheduler) (l1 : Locals)
      (flow : Flow), l.idle → selectionLoop c fuel s l = some (s1, l1, flow) →
      flow ≠ Flow.again ∧
      (flow = Flow.leave → l1.nothingSelected → s1.numTasksDone = s1.ntasks) ∧
      (flow = Flow.assertionFailed → c.assertions = true ∧
        ∃ t, s1.dts.handedInternal.getLast? = some t ∧ t.syncKind ∧ t.numRequires ≠ 0) := by
  intro fuel
  induction fuel with
  | zero => intro s l s1 l1 flow _ h; simp [selectionLoop] at h
  | succ n ih =>
    intro s l s1 l1 flow hl h
    have hw : l.havework = false := hl.1
    have hk := selectionPass_keeps c s l hl
    have ha := selectionPass_assertion c s l
    rw [selectionLoop] at h
    simp only [hw, Bool.false_eq_true, if_false] at h
    rcases hr : selectionPass c s l with ⟨s2, l2, f2⟩
    rw [hr] at h hk ha
    cases f2 with
    | again => exact ih s2 l2 s1 l1 flow (hk.1 rfl) h
    | leave =>
      simp only [Option.some.injEq, Prod.mk.injEq] at h
      obtain ⟨rfl, rfl, rfl⟩ := h
      exact ⟨by simp, fun _ hn => hk.2 rfl hn, by simp⟩
    | assertionFailed =>
      simp only [Option.some.injEq, Prod.mk.injEq] at h
      obtain ⟨rfl, rfl, rfl⟩ := h
      exact ⟨by simp, by simp, fun _ => ha rfl⟩

theorem part2_assert (c : Config) (a : Answers) (s : UnifiedScheduler) (l : Locals)
    (h : l.nothingSelected → s.numTasksDone = s.ntasks) : (part2 c a s l).2.2 = true := by
  unfold part2
  cases hi : l.initTask with
  | some t => rfl
  | none =>
    cases hr : l.readyTask with
    | some t =>
      rcases hq : readyTaskPart c a l t with ⟨calls, _ | q⟩ <;> simp [hq]
    | none =>
      by_cases hp : l.pendingMPIMsgs > 0
      · simp [hp]
      · simp [hp, h ⟨hi, hr, hp⟩]

theorem runTasks_result (c : Config) (a : Answers)
    (outside : UnifiedScheduler → Locals → List Outside) :
    ∀ (fuel : Nat) (s s1 : UnifiedScheduler) (ok : Bool),
      runTasks c a outside fuel s = some (s1, ok) →
      (ok = true → ¬ s1.numTasksDone < s1.ntasks) ∧
      (ok = false → c.assertions = true ∧
        ∃ t, s1.dts.handedInternal.getLast? = some t ∧ t.syncKind ∧ t.numRequires ≠ 0) := by
  intro fuel
  induction fuel with
  | zero => intro s s1 ok h; simp [runTasks] at h
  | succ n ih =>
    intro s s1 ok h
    rw [runTasks] at h
    by_cases hlt : s.numTasksDone < s.ntasks
    · simp only [hlt, if_true] at h
      cases hloop : selectionLoop c (n + 1) s Locals.fresh with
      | none => simp [hloop] at h
      | some r =>
        obtain ⟨s2, l2, f2⟩ := r
        have hex := selectionLoop_exit c (n + 1) s Locals.fresh s2 l2 f2 fresh_idle hloop
        rw [hloop] at h
        cases f2 with
        | again => exact absurd rfl hex.1
        | assertionFailed =>
          simp only [Option.some.injEq, Prod.mk.injEq] at h
          obtain ⟨rfl, rfl⟩ := h
          exact ⟨by simp, fun _ => hex.2.2 rfl⟩
        | leave =>
          have hp := part2_assert c a s2 l2 (hex.2.1 rfl)
          rcases hq : part2 c a s2 l2 with ⟨s3, calls, b⟩
          rw [hq] at hp
          simp only at hp
          subst hp
          simp only [hq] at h
          exact ih _ s1 ok h
    · simp only [hlt, if_false, Option.some.injEq, Prod.mk.injEq] at h
      obtain ⟨rfl, rfl⟩ := h
      exact ⟨fun _ => hlt, by simp⟩

/-! ### Claims about one selection pass -/

/-- Claim C2: a selection pass chooses by fixed priority, first match wins.
(1) When the sync task of the current phase is eligible it is the task
selected and no queue is touched, whatever the ready queues hold. (2) Otherwise,
when the external-ready queue is not empty its next task is selected and the
internal-ready queue is not touched. (3) Otherwise, when the internal-ready
queue is not empty its next task is taken from it and no task is selected for
running. (4) The pending receives are polled (`pendingMPIMsgs` is assigned)
only when the sync task is not eligible, both ready queues are empty and no
device queue has a finished head, and in that case they are polled. -/
theorem selectionPass_priority (c : Config) (s : UnifiedScheduler) (l : Locals) :
    (∀ t, syncTaskReady s = some t →
      (selectionPass c s l).2.1.readyTask = some t ∧ (selectionPass c s l).2.2 = Flow.leave ∧
      (selectionPass c s l).1.consumed = s.consumed ++ [t] ∧
      (selectionPass c s l).1.dts = s.dts) ∧
    (∀ t rest, syncTaskReady s = none → s.dts.externalReady = t :: rest →
      (selectionPass c s l).2.1.readyTask = some t ∧ (selectionPass c s l).2.2 = Flow.leave ∧
      (selectionPass c s l).1.dts.externalReady = rest ∧
      (selectionPass c s l).1.dts.handedExternal = s.dts.handedExternal ++ [t] ∧
      (selectionPass c s l).1.dts.internalReady = s.dts.internalReady ∧
      (selectionPass c s l).1.dts.handedInternal = s.dts.handedInternal) ∧
    (∀ t rest, syncTaskReady s = none → s.dts.externalReady = [] →
      s.dts.internalReady = t :: rest →
      (selectionPass c s l).1.dts.internalReady = rest ∧
      (selectionPass c s l).1.dts.handedInternal = s.dts.handedInternal ++ [t] ∧
      (selectionPass c s l).2.1.readyTask = l.readyTask) ∧
    ((selectionPass c s l).2.1.pendingMPIMsgs ≠ l.pendingMPIMsgs →
      syncTaskReady s = none ∧ s.dts.externalReady = [] ∧ s.dts.internalReady = [] ∧
      noDeviceWork c s) ∧
    (syncTaskReady s = none → s.dts.externalReady = [] → s.dts.internalReady = [] →
      noDeviceWork c s → (selectionPass c s l).2.1.pendingMPIMsgs = s.numPendingRecvs) := by
  refine ⟨?_, ?_, ?_, selectionPass_polls c s l, selectionPass_polled c s l⟩
  · intro t h
    rw [selectionPass_sync c s l t h]
    simp [markTaskConsumed]
  · intro t rest h hq
    rw [selectionPass_ext c s l t rest h hq]
    unfold externalReadyStep
    repeat' split
    all_goals simp [markTaskConsumed]
  · intro t rest h he hq
    rw [selectionPass_int c s l t rest h he hq]
    unfold internalReadyStep
    repeat' split
    all_goals simp [endOfPass, DetailedTasks.checkExternalDepCount, DetailedTasks.markInitiated]
    all_goals (try split_ifs) <;> simp

/-- An instance of `selectionPass_priority`: with the sync task eligible, one
task in each ready queue and a receive pending, the pass selects the sync
task and leaves both queues and the poll result alone. -/
theorem selectionPass_priority_witness :
    syncTaskReady busyScheduler = some (reductionTask 3 0) ∧
    busyScheduler.dts.externalReady = [plainTask 1 0] ∧
    busyScheduler.dts.internalReady = [plainTask 2 0] ∧
    (selectionPass Config.hostOnly busyScheduler Locals.fresh).2.1.readyTask
      = some (reductionTask 3 0) ∧
    (selectionPass Config.hostOnly busyScheduler Locals.fresh).1.dts = busyScheduler.dts :=
  ⟨by decide, by decide, by decide,
    ((selectionPass_priority Config.hostOnly busyScheduler Locals.fresh).1
      (reductionTask 3 0) (by decide)).1,
    ((selectionPass_priority Config.hostOnly busyScheduler Locals.fresh).1
      (reductionTask 3 0) (by decide)).2.2.2⟩

/-- Claim C7: a selection pass that finds nothing to do changes no scheduler
state (counters, current phase, sync tasks, queues and histories are those of
before), selects nothing, and leaves the state in which there is again
nothing to do; so the pass repeated right away gives the same result and again
no task. -/
theorem selectionPass_nothing_to_do (c : Config) (s : UnifiedScheduler) (l : Locals)
    (h : nothingToDo c s) :
    (selectionPass c s l).1 = s ∧
    (selectionPass c s l).2.1.readyTask = l.readyTask ∧
    (selectionPass c s l).2.1.initTask = l.initTask ∧
    (selectionPass c s l).2.1.havework = l.havework ∧
    (selectionPass c s l).2.1.pendingMPIMsgs = 0 ∧
    nothingToDo c (selectionPass c s l).1 ∧
    selectionPass c (selectionPass c s l).1 (selectionPass c s l).2.1 = selectionPass c s l := by
  have e := selectionPass_idle c s l h
  have e2 := selectionPass_idle c s { l with pendingMPIMsgs := 0 } h
  rw [e]
  refine ⟨rfl, rfl, rfl, rfl, rfl, h, ?_⟩
  simpa [endOfPass] using e2

/-- An instance of `selectionPass_nothing_to_do`: a scheduler that waits for a
message with every queue empty. -/
theorem selectionPass_nothing_to_do_witness :
    nothingToDo Config.hostOnly waitingScheduler ∧
    (selectionPass Config.hostOnly waitingScheduler Locals.fresh).1 = waitingScheduler ∧
    (selectionPass Config.hostOnly waitingScheduler Locals.fresh).2.1.readyTask = none :=
  ⟨by decide,
    (selectionPass_nothing_to_do Config.hostOnly waitingScheduler Locals.fresh (by decide)).1,
    (selectionPass_nothing_to_do Config.hostOnly waitingScheduler Locals.fresh (by decide)).2.1⟩

/-! ### The internally-ready task without requires, and the exit of the loop -/

theorem selectionPass_noRequires (c : Config) (s : UnifiedScheduler) (l : Locals)
    (t : DetailedTask) (rest : List DetailedTask)
    (hs : syncTaskReady s = none) (he : s.dts.externalReady = [])
    (hi : s.dts.internalReady = t :: rest) (hk : ¬ t.syncKind) (hr : t.numRequires = 0) :
    selectionPass c s l = endOfPass
      { s with dts := (DetailedTasks.checkExternalDepCount c (DetailedTasks.markInitiated
          { s.dts with internalReady := rest, handedInternal := s.dts.handedInternal ++ [t] }
          t) t) }
      { l with initTask := none } := by
  rw [selectionPass_int c s l t rest hs he hi]
  unfold DetailedTask.syncKind at hk
  simp [internalReadyStep, hk, hr]


/-- Claim C5, as the code has it: a selection pass that takes from the
internal-ready queue a task that is neither a reduction nor an MPI task and
has an empty requires list does not mark it consumed. The pass marks the task
initiated and, when the task awaits no message, puts it in the (until then
empty) external-ready queue; `numTasksDone`, `phaseTasksDone`, the current
phase and the list of consumed tasks are unchanged and nothing is selected. In
a build without `HAVE_CUDA` the task is marked consumed by the next pass, which
takes it from the external-ready queue: only then do `numTasksDone` and
`phaseTasksDone[its phase]` grow by one. -/
theorem selectionPass_noRequires_not_consumed (c : Config) (s : UnifiedScheduler) (l : Locals)
    (t : DetailedTask) (rest : List DetailedTask)
    (hs : syncTaskReady s = none) (he : s.dts.externalReady = [])
    (hi : s.dts.internalReady = t :: rest) (hk : ¬ t.syncKind) (hr : t.numRequires = 0) :
    (selectionPass c s l).1.numTasksDone = s.numTasksDone ∧
    (selectionPass c s l).1.phaseTasksDone = s.phaseTasksDone ∧
    (selectionPass c s l).1.currphase = s.currphase ∧
    (selectionPass c s l).1.consumed = s.consumed ∧
    t ∈ (selectionPass c s l).1.dts.initiated ∧
    (selectionPass c s l).2.1.initTask = none ∧
    (selectionPass c s l).2.1.readyTask = l.readyTask ∧
    (t ∉ s.dts.awaitingExternal → (selectionPass c s l).1.dts.externalReady = [t]) ∧
    (t ∉ s.dts.awaitingExternal → c.haveCuda = false →
      (selectionPass c (selectionPass c s l).1 (selectionPass c s l).2.1).2.1.readyTask = some t ∧
      (selectionPass c (selectionPass c s l).1 (selectionPass c s l).2.1).1.numTasksDone
        = s.numTasksDone + 1 ∧
      (selectionPass c (selectionPass c s l).1 (selectionPass c s l).2.1).1.phaseTasksDone
        = s.phaseTasksDone.set t.d_phase (s.phaseTasksDone.getD t.d_phase 0 + 1) ∧
      (selectionPass c (selectionPass c s l).1 (selectionPass c s l).2.1).1.consumed
        = s.consumed ++ [t]) := by
  have e := selectionPass_noRequires c s l t rest hs he hi hk hr
  rw [e]
  by_cases ha : t ∈ s.dts.awaitingExternal
  · simp [endOfPass, DetailedTasks.checkExternalDepCount, DetailedTasks.markInitiated, ha]
  · simp only [endOfPass, DetailedTasks.checkExternalDepCount, DetailedTasks.markInitiated, ha,
      if_false, he, enqueue, List.mem_cons, true_or, not_false_eq_true, true_implies, true_and]
    intro hc
    rw [selectionPass_ext c _ _ t [] (by simpa [syncTaskReady] using hs) rfl]
    simp [externalReadyStep, hc, markTaskConsumed]

/-- An instance of `selectionPass_noRequires_not_consumed`: one plain task in a
build without `HAVE_CUDA`; the first pass leaves `numTasksDone` at 0, the
second pass raises it to 1. -/
theorem selectionPass_noRequires_not_consumed_witness :
    (selectionPass Config.hostOnly onePlainTask Locals.fresh).1.numTasksDone = 0 ∧
    (selectionPass Config.hostOnly onePlainTask Locals.fresh).1.dts.externalReady
      = [plainTask 0 0] ∧
    (selectionPass Config.hostOnly (selectionPass Config.hostOnly onePlainTask Locals.fresh).1
      (selectionPass Config.hostOnly onePlainTask Locals.fresh).2.1).1.numTasksDone = 0 + 1 :=
  ⟨(selectionPass_noRequires_not_consumed Config.hostOnly onePlainTask Locals.fresh
      (plainTask 0 0) [] (by decide) (by decide) (by decide) (by decide) (by decide)).1,
    (selectionPass_noRequires_not_consumed Config.hostOnly onePlainTask Locals.fresh
      (plainTask 0 0) [] (by decide) (by decide) (by decide) (by decide) (by decide)).2.2.2.2.2.2.2.1
      (by decide),
    ((selectionPass_noRequires_not_consumed Config.hostOnly onePlainTask Locals.fresh
      (plainTask 0 0) [] (by decide) (by decide) (by decide) (by decide)
      (by decide)).2.2.2.2.2.2.2.2 (by decide) (by decide)).2.1⟩

/-- Claim C5 fails as stated. One plain task without requires is internally
ready (no sync task, empty external-ready queue): the pass that takes it leaves
`numTasksDone` and `phaseTasksDone` as they were. With a device task in a
build with `HAVE_CUDA` even the whole selection loop ends with the task
selected for its host-to-device copies and still not consumed. -/
theorem selectionPass_noRequires_counterexample :
    onePlainTask.dts.internalReady = [plainTask 0 0] ∧
    ¬ (plainTask 0 0).syncKind ∧ (plainTask 0 0).numRequires = 0 ∧
    (selectionPass Config.hostOnly onePlainTask Locals.fresh).1.dts.internalReady = [] ∧
    (selectionPass Config.hostOnly onePlainTask Locals.fresh).1.numTasksDone
      = onePlainTask.numTasksDone ∧
    (selectionPass Config.hostOnly onePlainTask Locals.fresh).1.phaseTasksDone
      = onePlainTask.phaseTasksDone ∧
    oneDeviceTask.dts.internalReady = [deviceTask 0 0] ∧
    ¬ (deviceTask 0 0).syncKind ∧ (deviceTask 0 0).numRequires = 0 ∧
    (selectionLoop Config.withDevice 2 oneDeviceTask Locals.fresh).map
      (fun r => (r.1.numTasksDone, r.1.phaseTasksDone, r.2.1.readyTask, r.2.1.gpuInitReady, r.2.2))
      = some (0, [0], some (deviceTask 0 0), true, Flow.leave) := by
  decide

/-- Claim C6: `runTasks` leaves its selection loop with nothing selected only
when `numTasksDone == ntasks`. (1) A pass that starts with nothing selected and
ends in a `break` with still nothing selected ends with
`numTasksDone = ntasks`. (2) Hence when the loop, entered with fresh locals,
is left by a `break`, nothing selected implies `numTasksDone = ntasks`, and the
final `ASSERT` of Part 2 holds. (3) When `runTasks` returns,
`numTasksDone < ntasks` is false. (4) The only `ASSERT` that can stop
`runTasks` is the one on the requires of a sync task in step (1.3). -/
theorem runTasks_exit (c : Config) (a : Answers)
    (outside : UnifiedScheduler → Locals → List Outside) :
    (∀ s l, l.idle → (selectionPass c s l).2.2 = Flow.leave →
      (selectionPass c s l).2.1.nothingSelected →
      (selectionPass c s l).1.numTasksDone = (selectionPass c s l).1.ntasks) ∧
    (∀ fuel s s1 l1, selectionLoop c fuel s Locals.fresh = some (s1, l1, Flow.leave) →
      (l1.nothingSelected → s1.numTasksDone = s1.ntasks) ∧ (part2 c a s1 l1).2.2 = true) ∧
    (∀ fuel s s1, runTasks c a outside fuel s = some (s1, true) →
      ¬ s1.numTasksDone < s1.ntasks) ∧
    (∀ fuel s s1, runTasks c a outside fuel s = some (s1, false) →
      c.assertions = true ∧
      ∃ t, s1.dts.handedInternal.getLast? = some t ∧ t.syncKind ∧ t.numRequires ≠ 0) := by
  refine ⟨fun s l hl => (selectionPass_keeps c s l hl).2, ?_, ?_, ?_⟩
  · intro fuel s s1 l1 h
    have hex := selectionLoop_exit c fuel s Locals.fresh s1 l1 Flow.leave fresh_idle h
    exact ⟨hex.2.1 rfl, part2_assert c a s1 l1 (hex.2.1 rfl)⟩
  · intro fuel s s1 h
    exact (runTasks_result c a outside fuel s s1 true h).1 rfl
  · intro fuel s s1 h
    exact (runTasks_result c a outside fuel s s1 false h).2 rfl

/-- An instance of `runTasks_exit`: a plain task and a reduction task; the
loop entered when both are consumed is left with nothing selected, and
`runTasks` returns with `numTasksDone = ntasks = 2`. -/
theorem runTasks_exit_witness :
    selectionLoop Config.hostOnly 1 plainAndReductionDone Locals.fresh
      = some (plainAndReductionDone, Locals.fresh, Flow.leave) ∧
    Locals.fresh.nothingSelected ∧
    plainAndReductionDone.numTasksDone = plainAndReductionDone.ntasks ∧
    runTasks Config.hostOnly Answers.yes (fun _ _ => []) 4 plainAndReduction
      = some (plainAndReductionDone, true) ∧
    ¬ plainAndReductionDone.numTasksDone < plainAndReductionDone.ntasks :=
  ⟨by decide, by decide,
    ((runTasks_exit Config.hostOnly Answers.yes (fun _ _ => [])).2.1 1 plainAndReductionDone
      plainAndReductionDone Locals.fresh (by decide)).1 (by decide),
    by decide,
    (runTasks_exit Config.hostOnly Answers.yes (fun _ _ => [])).2.2.1 4 plainAndReduction
      plainAndReductionDone (by decide)⟩

/-! ### Exceptions on worker threads -/

/-- Claim C8, as the code has it: an `Exception` of Uintah raised by `runTasks`
on a worker thread is caught in `UnifiedSchedulerWorker::run`, which reports
it on `std::cerr` and goes on with its loop as long as `g_run_tasks` is set;
only an exception that is not an `Exception` ends the loop at once and
leaves `run`, and whatever leaves `run` makes `thread_driver` abort the
process. -/
theorem worker_run_exceptions :
    (∀ (m : String) (rest : List CallResult),
      (UnifiedSchedulerWorker.run (CallResult.throws (Thrown.uintahException m) :: rest)).calls
        = (UnifiedSchedulerWorker.run rest).calls + 1 ∧
      (UnifiedSchedulerWorker.run (CallResult.throws (Thrown.uintahException m) :: rest)).cerr
        = ("Caught exception: " ++ m) :: (UnifiedSchedulerWorker.run rest).cerr ∧
      (UnifiedSchedulerWorker.run (CallResult.throws (Thrown.uintahException m) :: rest)).escaped
        = (UnifiedSchedulerWorker.run rest).escaped) ∧
    (∀ (e : Thrown) (rest : List CallResult), (∀ m, e ≠ Thrown.uintahException m) →
      UnifiedSchedulerWorker.run (CallResult.throws e :: rest)
        = { calls := 1, cerr := [], escaped := some e }) ∧
    (∀ (script : List CallResult) (e : Thrown),
      (UnifiedSchedulerWorker.run script).escaped = some e → ∀ m, e ≠ Thrown.uintahException m) ∧
    (∀ (script : List CallResult) (later : List (List CallResult)) (e : Thrown),
      (UnifiedSchedulerWorker.run script).escaped = some e →
      ∃ msg, thread_driver (script :: later) = DriverEnd.aborted msg) := by
  have h3 : ∀ (script : List CallResult) (e : Thrown),
      (UnifiedSchedulerWorker.run script).escaped = some e →
      ∀ m, e ≠ Thrown.uintahException m := by
    intro script
    induction script with
    | nil => intro e h; simp [UnifiedSchedulerWorker.run] at h
    | cons x xs ih =>
      intro e h
      cases x with
      | returns => exact ih e (by simpa [UnifiedSchedulerWorker.run] using h)
      | throws t =>
        cases t with
        | uintahException m => exact ih e (by simpa [UnifiedSchedulerWorker.run] using h)
        | stdException w =>
          simp only [UnifiedSchedulerWorker.run, Option.some.injEq] at h
          subst h; intro m; simp
        | other =>
          simp only [UnifiedSchedulerWorker.run, Option.some.injEq] at h
          subst h; intro m; simp
  refine ⟨?_, ?_, h3, ?_⟩
  · intro m rest
    simp [UnifiedSchedulerWorker.run]
  · intro e rest he
    cases e with
    | uintahException m => exact absurd rfl (he m)
    | stdException w => simp [UnifiedSchedulerWorker.run]
    | other => simp [UnifiedSchedulerWorker.run]
  · intro script later e h
    cases e with
    | uintahException m => exact absurd rfl (h3 script _ h m)
    | stdException w =>
      exact ⟨"Exception thrown from worker thread: " ++ w, by simp [thread_driver, h]⟩
    | other => exact ⟨"Unknown Exception thrown from worker thread", by simp [thread_driver, h]⟩

/-- An instance of `worker_run_exceptions`: a `std::exception` on the second
call of `runTasks` leaves `run` after two calls and aborts the process. -/
theorem worker_run_exceptions_witness :
    (UnifiedSchedulerWorker.run badAllocOnSecondCall).escaped
      = some (Thrown.stdException "bad_alloc") ∧
    (UnifiedSchedulerWorker.run badAllocOnSecondCall).calls = 2 ∧
    ∃ msg, thread_driver [badAllocOnSecondCall] = DriverEnd.aborted msg :=
  ⟨by decide, by decide,
    worker_run_exceptions.2.2.2 badAllocOnSecondCall [] (Thrown.stdException "bad_alloc")
      (by decide)⟩

/-- Claim C8 fails as stated: `runTasks` raises an `Exception` on the first
call; `run` catches it, writes the message, calls `runTasks` two more times and
returns normally, and `thread_driver` does not abort. -/
theorem worker_run_counterexample :
    UnifiedSchedulerWorker.run exceptionThenWork
      = { calls := 3, cerr := ["Caught exception: Radiation solver not converged"],
          escaped := none } ∧
    thread_driver [exceptionThenWork] = DriverEnd.stopped := by
  decide

/-! ### The thread-count checks of `problemSetup` -/

/-- Claim C10, as the code has it: on MPI rank 0 `problemSetup` throws
`ProblemSetupException`, before any worker thread is created, whenever MPI or a
device is in use and the requested thread count is below 2, and whenever the
worker count `numThreads_` exceeds `MAX_THREADS`; on every other rank the
checks throw nothing and `init_threads` is reached; on every rank every
thread count from 2 to `MAX_THREADS` is accepted. -/
theorem problemSetup_thread_checks (p : ThreadSetup) :
    (p.myrank = 0 → (p.usingMPI = true ∨ p.usingDevice = true) → p.numThreads < 2 →
      problemSetup p = SetupResult.ProblemSetupException
        "This scheduler requires number of threads to be in the range [2, 64],\n.... please use -nthreads <num>, and -gpu if using GPUs") ∧
    (p.myrank = 0 → p.numThreads - 1 > p.MAX_THREADS →
      ∃ msg, problemSetup p = SetupResult.ProblemSetupException msg) ∧
    (p.myrank ≠ 0 →
      problemSetup p = SetupResult.threads (p.numThreads - 1) (init_threads (p.numThreads - 1))) ∧
    (2 ≤ p.numThreads → p.numThreads ≤ p.MAX_THREADS →
      problemSetup p = SetupResult.threads (p.numThreads - 1) (init_threads (p.numThreads - 1))) := by
  refine ⟨?_, ?_, ?_, ?_⟩
  · intro hr hm hn
    have h1 : p.numThreads - 1 < 1 := by omega
    simp [problemSetup, hr, hm, h1]
  · intro hr hn
    unfold problemSetup
    simp only [hr, if_true]
    split_ifs <;> exact ⟨_, rfl⟩
  · intro hr
    unfold problemSetup
    simp only [hr, if_false]
    split_ifs <;> rfl
  · intro h2 hm
    have h1 : ¬ p.numThreads - 1 < 1 := by omega
    have h3 : ¬ p.numThreads - 1 > p.MAX_THREADS := by omega
    simp [problemSetup, h1, h3]

/-- An instance of `problemSetup_thread_checks`: rank 0 under MPI with one
thread requested gets the exception. -/
theorem problemSetup_thread_checks_witness :
    problemSetup (oneThreadUnderMPI 0) = SetupResult.ProblemSetupException
      "This scheduler requires number of threads to be in the range [2, 64],\n.... please use -nthreads <num>, and -gpu if using GPUs" :=
  (problemSetup_thread_checks (oneThreadUnderMPI 0)).1 (by decide) (by decide) (by decide)

/-- Claim C10 fails as stated: on rank 1, with MPI in use and one thread
requested, `problemSetup` throws nothing and reaches `init_threads`, which
creates no worker thread. -/
theorem problemSetup_counterexample :
    problemSetup (oneThreadUnderMPI 1) = SetupResult.threads 0 0 := by
  decide

/-! ### The radiation solve -/

/-- What follows the linear solve of a direction that did not converge. -/
theorem solveSteps_split (m : DORadiationModel) (band direcn : Nat) :
    ∃ pre, solveSteps m band direcn = pre ++ RadStep.radLinearSolve band direcn ::
      (if m._usePreviousIntensity then [RadStep.resetIntensity band direcn] else []) := by
  refine ⟨(if m._zeroInitialGuess then [RadStep.zeroInitialGuess band direcn] else []) ++
    [RadStep.gridSetup band direcn] ++
    (if m._scatteringOn then [RadStep.computeScatteringIntensities band direcn] else []) ++
    [RadStep.setMatrix band direcn], ?_⟩
  simp [solveSteps]

theorem mem_solveSteps_solve (m : DORadiationModel) (band direcn b d : Nat)
    (h : RadStep.radLinearSolve b d ∈ solveSteps m band direcn) : b = band ∧ d = direcn := by
  unfold solveSteps at h
  split_ifs at h <;> simp at h <;> exact h

theorem not_mem_solveSteps_copy (m : DORadiationModel) (band direcn b d : Nat) :
    RadStep.copyRadSoln b d ∉ solveSteps m band direcn := by
  unfold solveSteps
  split_ifs <;> simp

theorem not_mem_solveSteps_flux (m : DORadiationModel) (band direcn b d : Nat) :
    RadStep.accumulateFlux b d ∉ solveSteps m band direcn := by
  unfold solveSteps
  split_ifs <;> simp

theorem ordinateLoop_copy (m : DORadiationModel) (converged : Nat → Nat → Bool) (band : Nat) :
    ∀ (dirs : List Nat) (b d : Nat),
      (RadStep.copyRadSoln b d ∈ (ordinateLoop m converged band dirs).1 ∨
        RadStep.accumulateFlux b d ∈ (ordinateLoop m converged band dirs).1) →
      converged b d = true := by
  intro dirs
  induction dirs with
  | nil => intro b d h; simp [ordinateLoop] at h
  | cons x xs ih =>
    intro b d h
    unfold ordinateLoop at h
    by_cases hc : converged band x = true
    · simp only [hc, if_true, List.mem_append, List.mem_cons, List.mem_singleton,
        RadStep.copyRadSoln.injEq, RadStep.accumulateFlux.injEq, List.not_mem_nil,
        reduceCtorEq, or_false, false_or] at h
      have h1 := not_mem_solveSteps_copy m band x b d
      have h2 := not_mem_solveSteps_flux m band x b d
      rcases h with h | h
      · rcases h with (h | h) | h
        · exact absurd h h1
        · obtain ⟨rfl, rfl⟩ := h; exact hc
        · exact ih b d (Or.inl h)
      · rcases h with (h | h) | h
        · exact absurd h h2
        · obtain ⟨rfl, rfl⟩ := h; exact hc
        · exact ih b d (Or.inr h)
    · simp only [hc, if_false, Bool.false_eq_true] at h
      rcases h with h | h
      · exact absurd h (not_mem_solveSteps_copy m band x b d)
      · exact absurd h (not_mem_solveSteps_flux m band x b d)

theorem ordinateLoop_solve (m : DORadiationModel) (converged : Nat → Nat → Bool) (band : Nat) :
    ∀ (dirs : List Nat) (b d : Nat),
      RadStep.radLinearSolve b d ∈ (ordinateLoop m converged band dirs).1 →
      converged b d = false →
      (ordinateLoop m converged band dirs).2 = false ∧
      ∃ pre, (ordinateLoop m converged band dirs).1 = pre ++ RadStep.radLinearSolve b d ::
        (if m._usePreviousIntensity then [RadStep.resetIntensity b d] else []) := by
  intro dirs
  induction dirs with
  | nil => intro b d h; simp [ordinateLoop] at h
  | cons x xs ih =>
    intro b d h hc
    unfold ordinateLoop at h ⊢
    by_cases hx : converged band x = true
    · simp only [hx, if_true, List.mem_append, List.mem_cons, List.mem_singleton,
        List.not_mem_nil, reduceCtorEq, or_false, false_or] at h ⊢
      rcases h with h | h
      · obtain ⟨rfl, rfl⟩ := mem_solveSteps_solve m band x b d h
        rw [hx] at hc; exact absurd hc (by simp)
      · obtain ⟨h2, pre, hp⟩ := ih b d h hc
        refine ⟨h2, solveSteps m band x ++
          [RadStep.copyRadSoln band x, RadStep.accumulateFlux band x] ++ pre, ?_⟩
        rw [hp]; simp
    · simp only [hx, if_false, Bool.false_eq_true] at h ⊢
      obtain ⟨rfl, rfl⟩ := mem_solveSteps_solve m band x b d h
      exact ⟨trivial, solveSteps_split m b d⟩

theorem ordinateLoop_fails (m : DORadiationModel) (converged : Nat → Nat → Bool) (band : Nat) :
    ∀ (dirs : List Nat), (∃ d ∈ dirs, converged band d = false) →
      (ordinateLoop m converged band dirs).2 = false := by
  intro dirs
  induction dirs with
  | nil => intro h; simp at h
  | cons x xs ih =>
    intro h
    unfold ordinateLoop
    by_cases hx : converged band x = true
    · simp only [hx, if_true]
      obtain ⟨d, hd, hc⟩ := h
      rcases List.mem_cons.mp hd with rfl | hd
      · rw [hx] at hc; exact absurd hc (by simp)
      · exact ih ⟨d, hd, hc⟩
    · simp [hx]

theorem bandLoop_copy (m : DORadiationModel) (converged : Nat → Nat → Bool) :
    ∀ (bands : List Nat) (b d : Nat),
      (RadStep.copyRadSoln b d ∈ (bandLoop m converged bands).1 ∨
        RadStep.accumulateFlux b d ∈ (bandLoop m converged bands).1) →
      converged b d = true := by
  intro bands
  induction bands with
  | nil => intro b d h; simp [bandLoop] at h
  | cons x xs ih =>
    intro b d h
    have ho := ordinateLoop_copy m converged x (List.range' 1 m.d_totalOrds) b d
    unfold bandLoop at h
    by_cases hx : (ordinateLoop m converged x (List.range' 1 m.d_totalOrds)).2 = true
    · simp only [hx, if_true, List.mem_append, List.mem_cons, List.mem_singleton,
        List.not_mem_nil, reduceCtorEq, or_false, false_or] at h
      rcases h with (h | h) | (h | h)
      · exact ho (Or.inl h)
      · exact ih b d (Or.inl h)
      · exact ho (Or.inr h)
      · exact ih b d (Or.inr h)
    · simp only [hx, if_false, Bool.false_eq_true, List.mem_append, List.mem_cons,
        List.mem_singleton, List.not_mem_nil, reduceCtorEq, or_false, false_or] at h
      exact ho h

theorem bandLoop_solve (m : DORadiationModel) (converged : Nat → Nat → Bool) :
    ∀ (bands : List Nat) (b d : Nat),
      RadStep.radLinearSolve b d ∈ (bandLoop m converged bands).1 →
      converged b d = false →
      (bandLoop m converged bands).2 = false ∧
      ∃ pre, (bandLoop m converged bands).1 = pre ++ RadStep.radLinearSolve b d ::
        (if m._usePreviousIntensity then [RadStep.resetIntensity b d] else []) := by
  intro bands
  induction bands with
  | nil => intro b d h; simp [bandLoop] at h
  | cons x xs ih =>
    intro b d h hc
    have ho := ordinateLoop_solve m converged x (List.range' 1 m.d_totalOrds) b d
    unfold bandLoop at h ⊢
    by_cases hx : (ordinateLoop m converged x (List.range' 1 m.d_totalOrds)).2 = true
    · simp only [hx, if_true, List.mem_append, List.mem_cons, List.mem_singleton,
        List.not_mem_nil, reduceCtorEq, or_false, false_or] at h ⊢
      rcases h with h | h
      · have := (ho h hc).1
        rw [hx] at this; exact absurd this (by simp)
      · obtain ⟨h2, pre, hp⟩ := ih b d h hc
        refine ⟨h2, [RadStep.computeIntensitySource x] ++
          (ordinateLoop m converged x (List.range' 1 m.d_totalOrds)).1 ++
          [RadStep.computeDivQ x] ++ pre, ?_⟩
        rw [hp]; simp
    · simp only [hx, if_false, Bool.false_eq_true, List.mem_append, List.mem_cons,
        List.mem_singleton, List.not_mem_nil, reduceCtorEq, or_false, false_or] at h ⊢
      obtain ⟨_, pre, hp⟩ := ho h hc
      refine ⟨trivial, [RadStep.computeIntensitySource x] ++ pre, ?_⟩
      rw [hp]; simp

theorem bandLoop_fails (m : DORadiationModel) (converged : Nat → Nat → Bool) :
    ∀ (bands : List Nat),
      (∃ b ∈ bands, ∃ d ∈ List.range' 1 m.d_totalOrds, converged b d = false) →
      (bandLoop m converged bands).2 = false := by
  intro bands
  induction bands with
  | nil => intro h; simp at h
  | cons x xs ih =>
    intro h
    unfold bandLoop
    by_cases hx : (ordinateLoop m converged x (List.range' 1 m.d_totalOrds)).2 = true
    · simp only [hx, if_true]
      obtain ⟨b, hb, d, hd, hc⟩ := h
      rcases List.mem_cons.mp hb with rfl | hb
      · have := ordinateLoop_fails m converged b _ ⟨d, hd, hc⟩
        rw [hx] at this; exact absurd this (by simp)
      · exact ih ⟨b, hb, d, hd, hc⟩
    · simp [hx]

/-- Claim C9: in `DORadiationModel::intensitysolve` the solution is copied back
and the fluxes and the incident radiation are accumulated only for directions
whose linear solve converged. When the solve of a direction that is processed
does not converge, the call ends with `InternalError("Radiation solver not
converged")` and the solve is its last step but for the reset of the
intensity field made when the previous intensity is the initial guess: no
copy, no accumulation and no later solve follow. The call ends with that
error whenever some direction of some band does not converge. -/
theorem intensitysolve_not_converged (m : DORadiationModel) (converged : Nat → Nat → Bool) :
    (∀ b d, RadStep.copyRadSoln b d ∈ (m.intensitysolve converged).1 → converged b d = true) ∧
    (∀ b d, RadStep.accumulateFlux b d ∈ (m.intensitysolve converged).1 →
      converged b d = true) ∧
    (∀ b d, RadStep.radLinearSolve b d ∈ (m.intensitysolve converged).1 →
      converged b d = false →
      (m.intensitysolve converged).2 = Except.error "Radiation solver not converged" ∧
      ∃ pre, (m.intensitysolve converged).1 = pre ++ RadStep.radLinearSolve b d ::
        (if m._usePreviousIntensity then [RadStep.resetIntensity b d] else [])) ∧
    ((∃ b ∈ List.range' 1 m.d_lambda, ∃ d ∈ List.range' 1 m.d_totalOrds,
        converged b d = false) →
      (m.intensitysolve converged).2 = Except.error "Radiation solver not converged") := by
  have hc := bandLoop_copy m converged (List.range' 1 m.d_lambda)
  have hs := bandLoop_solve m converged (List.range' 1 m.d_lambda)
  have hf := bandLoop_fails m converged (List.range' 1 m.d_lambda)
  unfold DORadiationModel.intensitysolve
  by_cases hx : (bandLoop m converged (List.range' 1 m.d_lambda)).2 = true
  · simp only [hx, if_true, List.mem_append, List.mem_cons, List.mem_singleton,
      List.not_mem_nil, reduceCtorEq, or_false, false_or]
    refine ⟨fun b d h => hc b d (Or.inl h), fun b d h => hc b d (Or.inr h), ?_, ?_⟩
    · intro b d h hcv
      have := (hs b d h hcv).1
      rw [hx] at this; exact absurd this (by simp)
    · intro h
      have := hf h
      rw [hx] at this; exact absurd this (by simp)
  · simp only [hx, if_false, Bool.false_eq_true, List.mem_append, List.mem_cons,
      List.mem_singleton, List.not_mem_nil, reduceCtorEq, or_false, false_or]
    refine ⟨fun b d h => hc b d (Or.inl h), fun b d h => hc b d (Or.inr h), ?_, fun _ => trivial⟩
    intro b d h hcv
    obtain ⟨_, pre, hp⟩ := hs b d h hcv
    refine ⟨trivial, [RadStep.matrixInit] ++ pre, ?_⟩
    rw [hp]; simp

/-- An instance of `intensitysolve_not_converged`: two bands, three directions,
the solve of direction 2 of band 1 does not converge; the call ends with the
error and the steps end with that solve and the reset. -/
theorem intensitysolve_not_converged_witness :
    RadStep.radLinearSolve 1 2 ∈ (smallRadiationModel.intensitysolve failsAtBand1Direction2).1 ∧
    failsAtBand1Direction2 1 2 = false ∧
    (smallRadiationModel.intensitysolve failsAtBand1Direction2).2
      = Except.error "Radiation solver not converged" ∧
    RadStep.copyRadSoln 1 2 ∉ (smallRadiationModel.intensitysolve failsAtBand1Direction2).1 ∧
    RadStep.radLinearSolve 1 3 ∉ (smallRadiationModel.intensitysolve failsAtBand1Direction2).1 :=
  ⟨by decide, by decide,
    ((intensitysolve_not_converged smallRadiationModel failsAtBand1Direction2).2.2.1 1 2
      (by decide) (by decide)).1,
    by decide, by decide⟩

/-! ### Lists as vectors -/

theorem getD_set_self {α : Type} (l : List α) (i : Nat) (v d : α) (h : i < l.length) :
    (l.set i v).getD i d = v := by
  simp [List.getD_eq_getElem?_getD, List.getElem?_set, h]

theorem getD_set_other {α : Type} (l : List α) (i j : Nat) (v d : α) (h : j ≠ i) :
    (l.set i v).getD j d = l.getD j d := by
  simp [List.getD_eq_getElem?_getD, List.getElem?_set, h.symm]

theorem set_beyond {α : Type} (l : List α) (i : Nat) (v : α) (h : l.length ≤ i) :
    l.set i v = l := by
  induction l generalizing i with
  | nil => rfl
  | cons x xs ih =>
    cases i with
    | zero => simp at h
    | succ n => simp only [List.set_cons_succ, List.cons.injEq, true_and]; exact ih n (by simpa using h)

theorem getD_some_lt {α : Type} (l : List (Option α)) (i : Nat) (a : α)
    (h : l.getD i none = some a) : i < l.length := by
  by_contra hn
  have : l.getD i none = none := by
    simp [List.getD_eq_getElem?_getD, List.getElem?_eq_none (Nat.le_of_not_lt hn)]
  rw [this] at h
  exact absurd h (by simp)

theorem phaseCount_append_singleton (p : Nat) (l : List DetailedTask) (t : DetailedTask) :
    phaseCount p (l ++ [t]) = phaseCount p l + (if t.d_phase = p then 1 else 0) := by
  unfold phaseCount
  rw [List.countP_append]
  by_cases h : t.d_phase = p <;> simp [List.countP_cons, h]

theorem phaseCount_append (p : Nat) (l1 l2 : List DetailedTask) :
    phaseCount p (l1 ++ l2) = phaseCount p l1 + phaseCount p l2 := by
  unfold phaseCount
  rw [List.countP_append]
  push_cast
  rfl

theorem phaseCount_cons (p : Nat) (t : DetailedTask) (l : List DetailedTask) :
    phaseCount p (t :: l) = phaseCount p l + (if t.d_phase = p then 1 else 0) := by
  unfold phaseCount
  by_cases h : t.d_phase = p <;> simp [List.countP_cons, h]

theorem phaseCount_nonneg (p : Nat) (l : List DetailedTask) : 0 ≤ phaseCount p l := by
  unfold phaseCount
  exact Int.ofNat_nonneg _

theorem countPhaseTasks_length (localTasks : List DetailedTask) :
    ∀ init : List Int, (countPhaseTasks localTasks init).length = init.length := by
  induction localTasks with
  | nil => intro init; rfl
  | cons t ts ih =>
    intro init
    simp only [countPhaseTasks, List.foldl_cons] at ih ⊢
    rw [ih]
    simp

theorem countPhaseTasks_getD (localTasks : List DetailedTask) :
    ∀ (init : List Int) (p : Nat), p < init.length →
      (countPhaseTasks localTasks init).getD p 0 = init.getD p 0 + phaseCount p localTasks := by
  induction localTasks with
  | nil => intro init p _; simp [countPhaseTasks, phaseCount]
  | cons t ts ih =>
    intro init p hp
    simp only [countPhaseTasks, List.foldl_cons] at ih ⊢
    rw [ih _ p (by simpa using hp), phaseCount_cons]
    by_cases h : t.d_phase = p
    · subst h
      rw [getD_set_self _ _ _ _ hp]
      simp; ring
    · rw [getD_set_other _ _ _ _ _ (Ne.symm h)]
      simp [h]

theorem execute_phaseTasks (localTasks : List DetailedTask) (numPhases : Nat)
    (d : DetailedTasks) (pending p : Nat) (hp : p < numPhases) :
    (execute localTasks numPhases d pending).phaseTasks.getD p 0 = phaseCount p localTasks := by
  unfold execute
  simp only
  rw [countPhaseTasks_getD _ _ p (by simpa using hp)]
  simp [List.getD_eq_getElem?_getD, hp]

/-! ### The counters -/

theorem markTaskConsumed_counters (localTasks : List DetailedTask) (numPhases : Nat)
    (s : UnifiedScheduler) (t : DetailedTask) (h : CountersOk localTasks numPhases s) :
    CountersOk localTasks numPhases (markTaskConsumed s t) := by
  obtain ⟨h1, h2, h3, h4, h5, h6, h7⟩ := h
  refine ⟨h1, h2, h3, ?_, ?_, h6, ?_⟩
  · simp [markTaskConsumed, h4]
  · simp [markTaskConsumed, h5]
  · intro p hp
    simp only [markTaskConsumed]
    rw [phaseCount_append_singleton]
    by_cases hq : t.d_phase = p
    · subst hq
      rw [getD_set_self _ _ _ _ (by omega), h7 _ hp]
      simp
    · rw [getD_set_other _ _ _ _ _ (Ne.symm hq), h7 _ hp]
      simp [hq]

theorem countersOk_congr (localTasks : List DetailedTask) (numPhases : Nat)
    (s s1 : UnifiedScheduler) (h : CountersOk localTasks numPhases s)
    (e1 : s1.ntasks = s.ntasks) (e2 : s1.numPhases = s.numPhases)
    (e3 : s1.phaseTasks = s.phaseTasks) (e4 : s1.numTasksDone = s.numTasksDone)
    (e5 : s1.consumed = s.consumed) (e6 : s1.phaseTasksDone = s.phaseTasksDone)
    (e7 : s1.phaseSyncTask.length = s.phaseSyncTask.length) :
    CountersOk localTasks numPhases s1 := by
  unfold CountersOk at h ⊢
  rw [e1, e2, e3, e4, e5, e6, e7]
  exact h

/-! ### What a selection pass does to the counters and the records -/

theorem deviceHead_some (c : Config) (s : UnifiedScheduler) (q : List DetailedTask)
    (t : DetailedTask) (rest : List DetailedTask) :
    deviceHead c s q = some (t, rest) ↔
      q = t :: rest ∧ c.haveCuda = true ∧ c.usingDevice = true ∧ t ∈ s.streamsDone := by
  unfold deviceHead
  cases q with
  | nil => simp
  | cons x xs =>
    constructor
    · intro h
      simp only at h
      split_ifs at h with hc
      simp only [Option.some.injEq, Prod.mk.injEq] at h
      obtain ⟨rfl, rfl⟩ := h
      exact ⟨rfl, hc.1, hc.2.1, hc.2.2⟩
    · rintro ⟨h, h1, h2, h3⟩
      simp only [List.cons.injEq] at h
      obtain ⟨rfl, rfl⟩ := h
      simp only [h1, h2, h3, and_self, if_true]

theorem selectionPass_counters (c : Config) (localTasks : List DetailedTask) (numPhases : Nat)
    (s : UnifiedScheduler) (l : Locals) (h : CountersOk localTasks numPhases s) :
    CountersOk localTasks numPhases (selectionPass c s l).1 := by
  refine selectionPass_cases c s l (fun r => CountersOk localTasks numPhases r.1) ?_ ?_ ?_ ?_
  · intro t _
    exact markTaskConsumed_counters _ _ _ _ h
  · intro t rest _ _
    have h0 : CountersOk localTasks numPhases { s with dts := { s.dts with
        externalReady := rest, handedExternal := s.dts.handedExternal ++ [t] } } :=
      countersOk_congr _ _ s _ h rfl rfl rfl rfl rfl rfl rfl
    unfold externalReadyStep
    repeat' split
    all_goals first | exact h0 | exact markTaskConsumed_counters _ _ _ _ h0
  · intro t rest _ _ _
    unfold internalReadyStep
    repeat' split
    all_goals simp only [endOfPass]
    all_goals exact countersOk_congr _ _ s _ h rfl rfl rfl rfl rfl rfl (by simp)
  · intro _ _ _
    unfold deviceAndRecvStep
    repeat' split
    all_goals simp only [endOfPass]
    all_goals first
      | exact h
      | exact countersOk_congr _ _ s _ h rfl rfl rfl rfl rfl rfl rfl
      | exact markTaskConsumed_counters _ _ _ _
          (countersOk_congr _ _ s _ h rfl rfl rfl rfl rfl rfl rfl)

@[simp] theorem markTaskConsumed_dts (s : UnifiedScheduler) (t : DetailedTask) :
    (markTaskConsumed s t).dts = s.dts := rfl

@[simp] theorem markTaskConsumed_phaseSyncTask (s : UnifiedScheduler) (t : DetailedTask) :
    (markTaskConsumed s t).phaseSyncTask = s.phaseSyncTask := rfl

@[simp] theorem markTaskConsumed_consumed (s : UnifiedScheduler) (t : DetailedTask) :
    (markTaskConsumed s t).consumed = s.consumed ++ [t] := rfl

@[simp] theorem markTaskConsumed_numTasksDone (s : UnifiedScheduler) (t : DetailedTask) :
    (markTaskConsumed s t).numTasksDone = s.numTasksDone + 1 := rfl

@[simp] theorem markTaskConsumed_ntasks (s : UnifiedScheduler) (t : DetailedTask) :
    (markTaskConsumed s t).ntasks = s.ntasks := rfl

@[simp] theorem markTaskConsumed_numPhases (s : UnifiedScheduler) (t : DetailedTask) :
    (markTaskConsumed s t).numPhases = s.numPhases := rfl

@[simp] theorem markTaskConsumed_phaseTasks (s : UnifiedScheduler) (t : DetailedTask) :
    (markTaskConsumed s t).phaseTasks = s.phaseTasks := rfl

/-- What a pass does to the record of consumed tasks: nothing, or it adds one
task, which is the eligible sync task, or was just handed out by the
external-ready queue, or waited in a device queue. -/
theorem selectionPass_consumes (c : Config) (s : UnifiedScheduler) (l : Locals) :
    (selectionPass c s l).1.consumed = s.consumed ∨
    ∃ u, (selectionPass c s l).1.consumed = s.consumed ++ [u] ∧
      (syncTaskReady s = some u ∨ u ∈ (selectionPass c s l).1.dts.handedExternal ∨
        u ∈ s.dts.queued) := by
  refine selectionPass_cases c s l (fun r => r.1.consumed = s.consumed ∨
    ∃ u, r.1.consumed = s.consumed ++ [u] ∧
      (syncTaskReady s = some u ∨ u ∈ r.1.dts.handedExternal ∨ u ∈ s.dts.queued)) ?_ ?_ ?_ ?_
  · intro t h
    exact Or.inr ⟨t, rfl, Or.inl h⟩
  · intro t rest _ _
    unfold externalReadyStep
    repeat' split
    all_goals first
      | exact Or.inl rfl
      | exact Or.inr ⟨t, rfl, Or.inr (Or.inl (by simp))⟩
  · intro t rest _ _ _
    unfold internalReadyStep
    repeat' split
    all_goals exact Or.inl rfl
  · intro _ _ _
    unfold deviceAndRecvStep
    repeat' split
    all_goals first
      | exact Or.inl rfl
      | (rename_i t rest heq
         rw [deviceHead_some] at heq
         exact Or.inr ⟨t, rfl, Or.inr (Or.inr (by simp [DetailedTasks.queued, heq.1]))⟩)

@[simp] theorem checkExternalDepCount_handedExternal (c : Config) (d : DetailedTasks)
    (t : DetailedTask) : (d.checkExternalDepCount c t).handedExternal = d.handedExternal := by
  unfold DetailedTasks.checkExternalDepCount; split_ifs <;> rfl

@[simp] theorem checkExternalDepCount_handedInternal (c : Config) (d : DetailedTasks)
    (t : DetailedTask) : (d.checkExternalDepCount c t).handedInternal = d.handedInternal := by
  unfold DetailedTasks.checkExternalDepCount; split_ifs <;> rfl

@[simp] theorem checkExternalDepCount_queued (c : Config) (d : DetailedTasks)
    (t : DetailedTask) : (d.checkExternalDepCount c t).queued = d.queued := by
  unfold DetailedTasks.checkExternalDepCount; split_ifs <;> rfl

@[simp] theorem markInitiated_handedExternal (d : DetailedTasks) (t : DetailedTask) :
    (d.markInitiated t).handedExternal = d.handedExternal := rfl

@[simp] theorem markInitiated_handedInternal (d : DetailedTasks) (t : DetailedTask) :
    (d.markInitiated t).handedInternal = d.handedInternal := rfl

@[simp] theorem markInitiated_queued (d : DetailedTasks) (t : DetailedTask) :
    (d.markInitiated t).queued = d.queued := rfl

/-- The histories of the two ready queues only grow in a pass, by at most one
task each, and the constants set by `execute` stay. -/
theorem selectionPass_histories (c : Config) (s : UnifiedScheduler) (l : Locals) :
    (∃ e, (selectionPass c s l).1.dts.handedExternal = s.dts.handedExternal ++ e) ∧
    (∃ i, (selectionPass c s l).1.dts.handedInternal = s.dts.handedInternal ++ i) ∧
    (selectionPass c s l).1.ntasks = s.ntasks ∧
    s.numTasksDone ≤ (selectionPass c s l).1.numTasksDone := by
  refine selectionPass_cases c s l (fun r =>
    (∃ e, r.1.dts.handedExternal = s.dts.handedExternal ++ e) ∧
    (∃ i, r.1.dts.handedInternal = s.dts.handedInternal ++ i) ∧
    r.1.ntasks = s.ntasks ∧ s.numTasksDone ≤ r.1.numTasksDone) ?_ ?_ ?_ ?_
  · intro t _
    exact ⟨⟨[], by simp⟩, ⟨[], by simp⟩, rfl, by simp⟩
  · intro t rest _ _
    unfold externalReadyStep
    repeat' split
    all_goals exact ⟨⟨[t], rfl⟩, ⟨[], by simp⟩, rfl, by simp⟩
  · intro t rest _ _ _
    unfold internalReadyStep
    repeat' split
    all_goals exact ⟨⟨[], by simp [endOfPass]⟩, ⟨[t], by simp [endOfPass]⟩, rfl, le_refl _⟩
  · intro _ _ _
    unfold deviceAndRecvStep
    repeat' split
    all_goals exact ⟨⟨[], by simp [endOfPass]⟩, ⟨[], by simp [endOfPass]⟩, rfl,
      by simp [endOfPass]⟩

/-! ### The sync-task slots -/

theorem syncTaskReady_some (s : UnifiedScheduler) (t : DetailedTask)
    (h : syncTaskReady s = some t) :
    s.phaseSyncTask.getD s.currphase none = some t ∧
    s.phaseTasksDone.getD s.currphase 0 = s.phaseTasks.getD s.currphase 0 - 1 := by
  unfold syncTaskReady at h
  cases hq : s.phaseSyncTask.getD s.currphase none with
  | none =>
    simp only [hq] at h
    exact absurd h (by simp)
  | some u =>
    simp only [hq] at h
    split_ifs at h with hc
    simp only [Option.some.injEq] at h
    subst h
    exact ⟨rfl, hc⟩

theorem syncOk_of_eq (s s1 : UnifiedScheduler) (h : SyncOk s)
    (e1 : s1.phaseSyncTask = s.phaseSyncTask)
    (e2 : ∀ t ∈ s.dts.handedInternal, t ∈ s1.dts.handedInternal) : SyncOk s1 := by
  intro p t hp
  rw [e1] at hp
  obtain ⟨h1, h2, h3⟩ := h p t hp
  exact ⟨e2 t h1, h2, h3⟩

theorem syncOk_record (s s1 : UnifiedScheduler) (t : DetailedTask) (h : SyncOk s)
    (hk : t.syncKind) (e1 : s1.phaseSyncTask = s.phaseSyncTask.set t.d_phase (some t))
    (e2 : ∀ x ∈ s.dts.handedInternal, x ∈ s1.dts.handedInternal)
    (e3 : t ∈ s1.dts.handedInternal) : SyncOk s1 := by
  intro p u hp
  rw [e1] at hp
  by_cases hq : p = t.d_phase
  · subst hq
    by_cases hlt : t.d_phase < s.phaseSyncTask.length
    · rw [getD_set_self _ _ _ _ hlt] at hp
      simp only [Option.some.injEq] at hp
      subst hp
      exact ⟨e3, hk, rfl⟩
    · rw [set_beyond _ _ _ (Nat.le_of_not_lt hlt)] at hp
      obtain ⟨h1, h2, h3⟩ := h _ u hp
      exact ⟨e2 u h1, h2, h3⟩
  · rw [getD_set_other _ _ _ _ _ hq] at hp
    obtain ⟨h1, h2, h3⟩ := h p u hp
    exact ⟨e2 u h1, h2, h3⟩

theorem selectionPass_syncOk (c : Config) (s : UnifiedScheduler) (l : Locals) (h : SyncOk s) :
    SyncOk (selectionPass c s l).1 := by
  refine selectionPass_cases c s l (fun r => SyncOk r.1) ?_ ?_ ?_ ?_
  · intro t _
    exact syncOk_of_eq s _ h rfl (fun _ hx => hx)
  · intro t rest _ _
    unfold externalReadyStep
    repeat' split
    all_goals exact syncOk_of_eq s _ h rfl (fun _ hx => hx)
  · intro t rest _ _ _
    unfold internalReadyStep
    repeat' split
    all_goals first
      | exact syncOk_of_eq s _ h rfl (fun x hx => by simp [endOfPass, hx])
      | (rename_i hk _
         exact syncOk_record s _ t h hk rfl (fun x hx => by simp [endOfPass, hx])
           (by simp [endOfPass]))
  · intro _ _ _
    unfold deviceAndRecvStep
    repeat' split
    all_goals exact syncOk_of_eq s _ h rfl (fun _ hx => hx)

/-! ### Tasks on their way through the device pipeline -/

theorem stage_false (l : Locals) (h : l.stage = false) :
    l.gpuInitReady = false ∧ l.gpuVerifyDataTransferCompletion = false ∧
    l.gpuFinalizeDevicePreparation = false ∧ l.gpuRunReady = false ∧
    l.cpuInitReady = false ∧ l.cpuFinalizeHostPreparation = false := by
  simp only [Locals.stage, Bool.or_eq_false_iff] at h
  obtain ⟨⟨⟨⟨⟨h1, h2⟩, h3⟩, h4⟩, h5⟩, h6⟩ := h
  exact ⟨h1, h2, h3, h4, h5, h6⟩

theorem held_of_stage_false (l : Locals) (x : DetailedTask) (h : l.stage = false) :
    l.held x = 0 := by
  simp [Locals.held, h]

theorem plainConsumed_append_sync (s s1 : UnifiedScheduler) (t x : DetailedTask)
    (e : s1.consumed = s.consumed ++ [t]) (hk : t.syncKind) :
    plainConsumed s1 x = plainConsumed s x := by
  unfold plainConsumed
  by_cases hx : x.syncKind
  · simp [hx]
  · have : t ≠ x := fun h => hx (h ▸ hk)
    simp [hx, e, List.count_append, List.count_cons, this]

theorem plainConsumed_append (s s1 : UnifiedScheduler) (t x : DetailedTask)
    (e : s1.consumed = s.consumed ++ [t]) :
    plainConsumed s1 x ≤ plainConsumed s x + (if t = x then 1 else 0) := by
  unfold plainConsumed
  by_cases hx : x.syncKind
  · simp [hx]
  · simp [hx, e, List.count_append, List.count_cons]

theorem plainConsumed_same (s s1 : UnifiedScheduler) (x : DetailedTask)
    (e : s1.consumed = s.consumed) : plainConsumed s1 x = plainConsumed s x := by
  unfold plainConsumed
  rw [e]

theorem count_append_singleton (l : List DetailedTask) (t x : DetailedTask) :
    (l ++ [t]).count x = l.count x + (if t = x then 1 else 0) := by
  simp [List.count_append, List.count_cons]

/-- The account of a pass: what it adds to the device queues, to the locals and
to the consumed tasks that are not sync tasks, it has taken from the
external-ready queue or from a device queue. -/
theorem selectionPass_tokens (c : Config) (s : UnifiedScheduler) (l : Locals)
    (hl : l.stage = false) (hs : SyncOk s) (x : DetailedTask) :
    (selectionPass c s l).1.dts.queued.count x + (selectionPass c s l).2.1.held x +
        plainConsumed (selectionPass c s l).1 x + s.dts.handedExternal.count x
      ≤ s.dts.queued.count x + plainConsumed s x +
        (selectionPass c s l).1.dts.handedExternal.count x ∧
    ((selectionPass c s l).2.2 ≠ Flow.leave → (selectionPass c s l).2.1.stage = false) := by
  obtain ⟨f1, f2, f3, f4, f5, f6⟩ := stage_false l hl
  refine selectionPass_cases c s l (fun r =>
    r.1.dts.queued.count x + r.2.1.held x + plainConsumed r.1 x + s.dts.handedExternal.count x
      ≤ s.dts.queued.count x + plainConsumed s x + r.1.dts.handedExternal.count x ∧
    (r.2.2 ≠ Flow.leave → r.2.1.stage = false)) ?_ ?_ ?_ ?_
  · intro t ht
    have hk : t.syncKind := (hs _ t (syncTaskReady_some s t ht).1).2.1
    have hp := plainConsumed_append_sync s (markTaskConsumed s t) t x rfl hk
    refine ⟨?_, by simp⟩
    simp only [markTaskConsumed_dts, hp]
    simp [Locals.held, Locals.stage, f1, f2, f3, f4, f5, f6]
  · intro t rest _ _
    unfold externalReadyStep
    repeat' split
    all_goals refine ⟨?_, by simp⟩
    all_goals simp [Locals.held, Locals.stage, plainConsumed, DetailedTasks.queued,
      List.count_append, List.count_cons, f1, f2, f3, f4, f5, f6]
    all_goals (try split_ifs) <;> (try omega)
  · intro t rest _ _ _
    unfold internalReadyStep
    repeat' split
    all_goals simp only [endOfPass, checkExternalDepCount_queued, markInitiated_queued,
      checkExternalDepCount_handedExternal, markInitiated_handedExternal]
    all_goals simp [ Locals.held, Locals.stage, plainConsumed, DetailedTasks.queued,
      List.count_append, List.count_cons, f1, f2, f3, f4, f5, f6]
  · intro _ _ _
    unfold deviceAndRecvStep
    repeat' split
    all_goals try simp only [deviceHead_some] at *
    all_goals simp_all [endOfPass, Locals.held, Locals.stage, plainConsumed,
      DetailedTasks.queued, List.count_append, List.count_cons]
    all_goals (try split_ifs) <;> (try omega)

/-! ### What Part 2 and the rest of the program leave alone -/

theorem enqueue_count (before : DetailedTask → DetailedTask → Bool) (t x : DetailedTask) :
    ∀ q : List DetailedTask, (enqueue before t q).count x = q.count x + (if t = x then 1 else 0) := by
  intro q
  induction q with
  | nil => simp [enqueue, List.count_cons]
  | cons y ys ih =>
    unfold enqueue
    by_cases hb : before t y = true
    · simp only [hb, if_true, List.count_cons, beq_iff_eq]
    · simp only [hb, if_false, List.count_cons, ih, beq_iff_eq, Bool.false_eq_true]; omega

theorem add_queued_count (c : Config) (d : DetailedTasks) (q : DeviceQueue) (t x : DetailedTask) :
    (d.add c q t).queued.count x = d.queued.count x + (if t = x then 1 else 0) := by
  cases q <;>
    simp only [DetailedTasks.add, DetailedTasks.queued, List.count_append, enqueue_count] <;>
    omega

@[simp] theorem add_handedExternal (c : Config) (d : DetailedTasks) (q : DeviceQueue)
    (t : DetailedTask) : (d.add c q t).handedExternal = d.handedExternal := by
  cases q <;> rfl

@[simp] theorem add_handedInternal (c : Config) (d : DetailedTasks) (q : DeviceQueue)
    (t : DetailedTask) : (d.add c q t).handedInternal = d.handedInternal := by
  cases q <;> rfl

theorem readyTaskPart_stage (c : Config) (a : Answers) (l : Locals) (t : DetailedTask)
    (q : DeviceQueue) (h : (readyTaskPart c a l t).2 = some q) : l.stage = true := by
  by_contra hn
  obtain ⟨f1, f2, f3, f4, f5, f6⟩ := stage_false l (by simpa using hn)
  simp only [readyTaskPart, f1, f2, f3, f4, f5, f6, Bool.false_eq_true, and_false, if_false] at h
  split_ifs at h

theorem part2_records (c : Config) (a : Answers) (s : UnifiedScheduler) (l : Locals) :
    SameRecords s (part2 c a s l).1 := by
  unfold part2
  cases hi : l.initTask with
  | some t => simp [SameRecords]
  | none =>
    cases hr : l.readyTask with
    | some t =>
      rcases hq : readyTaskPart c a l t with ⟨calls, _ | q⟩ <;> simp [SameRecords, hq]
    | none =>
      by_cases hp : l.pendingMPIMsgs > 0 <;> simp [hp, SameRecords]

theorem part2_tokens (c : Config) (a : Answers) (s : UnifiedScheduler) (l : Locals)
    (x : DetailedTask) :
    (part2 c a s l).1.dts.queued.count x ≤ s.dts.queued.count x + l.held x := by
  unfold part2
  cases hi : l.initTask with
  | some t => simp
  | none =>
    cases hr : l.readyTask with
    | some t =>
      rcases hq : readyTaskPart c a l t with ⟨calls, _ | q⟩
      · simp [hq]
      · have hst := readyTaskPart_stage c a l t q (by rw [hq])
        simp [hq, add_queued_count, Locals.held, hst, hr]
    | none =>
      by_cases hp : l.pendingMPIMsgs > 0 <;> simp [hp]

theorem outside_records (c : Config) (s : UnifiedScheduler) (o : Outside) :
    SameRecords s (o.apply c s) ∧ (o.apply c s).dts.queued = s.dts.queued := by
  cases o with
  | received t =>
    refine ⟨?_, ?_⟩
    · simp [Outside.apply, SameRecords]
    · simp only [Outside.apply, checkExternalDepCount_queued]
      rfl
  | _ => simp [Outside.apply, SameRecords, DetailedTasks.queued]

/-! ### The invariants and states with the same records -/

theorem sameRecords_counters (localTasks : List DetailedTask) (numPhases : Nat)
    (s s1 : UnifiedScheduler) (e : SameRecords s s1) (h : CountersOk localTasks numPhases s) :
    CountersOk localTasks numPhases s1 := by
  obtain ⟨e1, e2, e3, e4, e5, e6, e7, _, _⟩ := e
  exact countersOk_congr _ _ s s1 h e1 e2 e3 e4 e5 e6 (by rw [e7])

theorem sameRecords_syncOk (s s1 : UnifiedScheduler) (e : SameRecords s s1) (h : SyncOk s) :
    SyncOk s1 := by
  obtain ⟨_, _, _, _, _, _, e7, e8, _⟩ := e
  exact syncOk_of_eq s s1 h e7 (fun t ht => by rw [e8]; exact ht)

theorem sameRecords_origin (s s1 : UnifiedScheduler) (e : SameRecords s s1) (h : OriginOk s) :
    OriginOk s1 := by
  obtain ⟨_, _, _, _, e5, _, _, e8, e9⟩ := e
  unfold OriginOk
  rw [e5, e8, e9]
  exact h

theorem sameRecords_plainConsumed (s s1 : UnifiedScheduler) (e : SameRecords s s1)
    (x : DetailedTask) : plainConsumed s1 x = plainConsumed s x :=
  plainConsumed_same s s1 x e.2.2.2.2.1

theorem sameRecords_syncLast (s s1 : UnifiedScheduler) (e : SameRecords s s1)
    (h : ExternalPlain s → SyncLast s) : ExternalPlain s1 → SyncLast s1 := by
  obtain ⟨_, e2, e3, _, e5, _, _, _, e9⟩ := e
  unfold ExternalPlain SyncLast
  rw [e2, e3, e5, e9]
  exact h

/-! ### Threads -/

theorem sum_map_set (f : Pc → Nat) :
    ∀ (threads : List Pc) (tid : Nat) (pc d : Pc), tid < threads.length →
      ((threads.set tid pc).map f).sum + f (threads.getD tid d) = (threads.map f).sum + f pc := by
  intro threads
  induction threads with
  | nil => intro tid pc d h; simp at h
  | cons y ys ih =>
    intro tid pc d h
    cases tid with
    | zero => simp; omega
    | succ n =>
      have := ih n pc d (by simpa using h)
      simp only [List.set_cons_succ, List.map_cons, List.sum_cons, List.getD_cons_succ]
      omega

theorem getD_lt_of_ne {α : Type} (l : List α) (i : Nat) (d : α) (h : l.getD i d ≠ d) :
    i < l.length := by
  by_contra hn
  apply h
  simp [List.getD_eq_getElem?_getD, List.getElem?_eq_none (Nat.le_of_not_lt hn)]

theorem getD_set {α : Type} (l : List α) (i j : Nat) (v d : α) :
    (l.set i v).getD j d = if j = i ∧ i < l.length then v else l.getD j d := by
  by_cases h : j = i
  · subst h
    by_cases hl : j < l.length
    · simp [getD_set_self _ _ _ _ hl, hl]
    · simp [set_beyond _ _ _ (Nat.le_of_not_lt hl), hl]
  · rw [getD_set_other _ _ _ _ _ h]
    simp [h]

/-! ### Origin of the consumed tasks, and the sync task as last of its phase -/

theorem append_singleton_split {α : Type} (pre post l : List α) (t u : α)
    (h : l ++ [u] = pre ++ t :: post) :
    (post = [] ∧ pre = l ∧ t = u) ∨ ∃ post1, post = post1 ++ [u] ∧ l = pre ++ t :: post1 := by
  rcases List.eq_nil_or_concat post with rfl | ⟨L, b, hLb⟩
  · left
    have h2 : l ++ [u] = pre ++ [t] := h
    obtain ⟨h3, h4⟩ := List.append_inj' h2 rfl
    simp only [List.cons.injEq, and_true] at h4
    exact ⟨rfl, h3.symm, h4.symm⟩
  · right
    rw [List.concat_eq_append] at hLb
    subst hLb
    have h2 : l ++ [u] = (pre ++ t :: L) ++ [b] := by simpa using h
    obtain ⟨h3, h4⟩ := List.append_inj' h2 rfl
    simp only [List.cons.injEq, and_true] at h4
    subst h4
    exact ⟨L, rfl, h3⟩

theorem selectionPass_origin (c : Config) (s : UnifiedScheduler) (l : Locals)
    (hs : SyncOk s) (ho : OriginOk s) (hq : ∀ u ∈ s.dts.queued, u ∈ s.dts.handedExternal) :
    OriginOk (selectionPass c s l).1 := by
  obtain ⟨⟨e, he⟩, ⟨i, hi⟩, _, _⟩ := selectionPass_histories c s l
  have mono : ∀ t, ((t.syncKind ∧ t ∈ s.dts.handedInternal) ∨ t ∈ s.dts.handedExternal) →
      ((t.syncKind ∧ t ∈ (selectionPass c s l).1.dts.handedInternal) ∨
        t ∈ (selectionPass c s l).1.dts.handedExternal) := by
    intro t ht
    rw [he, hi]
    rcases ht with ⟨h1, h2⟩ | h3
    · exact Or.inl ⟨h1, List.mem_append_left _ h2⟩
    · exact Or.inr (List.mem_append_left _ h3)
  intro t ht
  rcases selectionPass_consumes c s l with hc | ⟨u, hc, hu⟩
  · rw [hc] at ht
    exact mono t (ho t ht)
  · rw [hc] at ht
    rcases List.mem_append.mp ht with ht | ht
    · exact mono t (ho t ht)
    · simp only [List.mem_singleton] at ht
      subst ht
      rcases hu with hu | hu | hu
      · obtain ⟨h1, h2, _⟩ := hs _ t (syncTaskReady_some s t hu).1
        exact mono t (Or.inl ⟨h2, h1⟩)
      · exact Or.inr hu
      · exact mono t (Or.inr (hq t hu))

theorem selectionPass_syncLast (c : Config) (localTasks : List DetailedTask) (numPhases : Nat)
    (s : UnifiedScheduler) (l : Locals) (hc : CountersOk localTasks numPhases s)
    (hs : SyncOk s) (hq : ∀ u ∈ s.dts.queued, u ∈ s.dts.handedExternal)
    (h : ExternalPlain s → SyncLast s) :
    ExternalPlain (selectionPass c s l).1 → SyncLast (selectionPass c s l).1 := by
  intro hE1
  obtain ⟨⟨e, he⟩, _, _, _⟩ := selectionPass_histories c s l
  have hE : ExternalPlain s := by
    intro t ht
    exact hE1 t (by rw [he]; exact List.mem_append_left _ ht)
  have hL := h hE
  have hc1 := selectionPass_counters c localTasks numPhases s l hc
  have en : (selectionPass c s l).1.numPhases = s.numPhases := by rw [hc1.2.1, hc.2.1]
  have ep : (selectionPass c s l).1.phaseTasks = s.phaseTasks := by rw [hc1.2.2.1, hc.2.2.1]
  intro pre t post hsplit hk
  rw [en, ep]
  rcases selectionPass_consumes c s l with hcons | ⟨u, hcons, hu⟩
  · rw [hcons] at hsplit
    exact hL pre t post hsplit hk
  · rw [hcons] at hsplit
    rcases append_singleton_split pre post s.consumed t u hsplit with
      ⟨_, hpre, htu⟩ | ⟨post1, _, hl⟩
    · subst htu
      subst hpre
      rcases hu with hu | hu | hu
      · obtain ⟨h1, h2⟩ := syncTaskReady_some s t hu
        obtain ⟨_, _, h5⟩ := hs _ t h1
        have hlt : s.currphase < s.phaseSyncTask.length := getD_some_lt _ _ _ h1
        rw [hc.2.2.2.2.2.1] at hlt
        rw [h5]
        refine ⟨by rw [hc.2.1]; exact hlt, ?_⟩
        rw [← hc.2.2.2.2.2.2 _ hlt]
        exact h2
      · exact absurd hk (hE1 t hu)
      · exact absurd hk (hE t (hq t hu))
    · exact hL pre t post1 hl hk

/-! ### The invariant is kept by every step -/

theorem queued_handed (sys : System) (h : TokensOk sys) :
    ∀ u ∈ sys.sched.dts.queued, u ∈ sys.sched.dts.handedExternal := by
  intro u hu
  have h1 := h.2 u
  have h2 : 0 < sys.sched.dts.queued.count u := List.count_pos_iff.mpr hu
  exact List.count_pos_iff.mp (by omega)

theorem inv_update (localTasks : List DetailedTask) (numPhases : Nat) (sys : System)
    (tid : Nat) (P X : Pc) (s1 : UnifiedScheduler)
    (h : Inv localTasks numPhases sys)
    (hP : sys.threads.getD tid Pc.returned = P) (hPne : P ≠ Pc.returned)
    (h1 : CountersOk localTasks numPhases s1) (h2 : SyncOk s1) (h3 : OriginOk s1)
    (h4 : ExternalPlain s1 → SyncLast s1)
    (hsel : ∀ l, X = Pc.selecting l → l.stage = false)
    (hret : X = Pc.returned → ¬ s1.numTasksDone < s1.ntasks)
    (hmono : s1.ntasks = sys.sched.ntasks ∧ sys.sched.numTasksDone ≤ s1.numTasksDone)
    (htok : ∀ x, s1.dts.queued.count x + Pc.held x X + plainConsumed s1 x +
        sys.sched.dts.handedExternal.count x
      ≤ sys.sched.dts.queued.count x + Pc.held x P + plainConsumed sys.sched x +
        s1.dts.handedExternal.count x) :
    Inv localTasks numPhases { sched := s1, threads := sys.threads.set tid X } := by
  obtain ⟨_, _, ⟨ht1, ht2⟩, _, hr, _⟩ := h
  have hlt : tid < sys.threads.length := getD_lt_of_ne _ _ _ (by rw [hP]; exact hPne)
  refine ⟨h1, h2, ⟨?_, ?_⟩, h3, ?_, h4⟩
  · intro tid1 l hl
    simp only [getD_set] at hl
    split_ifs at hl with hc
    · exact hsel l hl
    · exact ht1 tid1 l hl
  · intro x
    have hs := sum_map_set (Pc.held x) sys.threads tid X Pc.returned hlt
    rw [hP] at hs
    have := ht2 x
    have := htok x
    simp only [System.held] at *
    omega
  · intro tid1 hl
    simp only [getD_set] at hl
    split_ifs at hl with hc
    · exact hret hl
    · have := hr tid1 hl
      show ¬ s1.numTasksDone < s1.ntasks
      rw [hmono.1]
      omega

theorem inv_sameRecords (localTasks : List DetailedTask) (numPhases : Nat) (sys : System)
    (s1 : UnifiedScheduler) (h : Inv localTasks numPhases sys) (e : SameRecords sys.sched s1)
    (eq : s1.dts.queued = sys.sched.dts.queued) :
    Inv localTasks numPhases { sys with sched := s1 } := by
  obtain ⟨h1, h2, ⟨ht1, ht2⟩, h3, hr, h4⟩ := h
  refine ⟨sameRecords_counters _ _ _ _ e h1, sameRecords_syncOk _ _ e h2, ⟨ht1, ?_⟩,
    sameRecords_origin _ _ e h3, ?_, sameRecords_syncLast _ _ e h4⟩
  · intro x
    have := ht2 x
    simp only [System.held] at *
    rw [eq, sameRecords_plainConsumed _ _ e, e.2.2.2.2.2.2.2.2]
    exact this
  · intro tid hl
    have := hr tid hl
    rw [e.1, e.2.2.2.1]
    exact this

theorem step_inv (c : Config) (localTasks : List DetailedTask) (numPhases : Nat) (sys : System)
    (e : Event) (h : Inv localTasks numPhases sys) :
    Inv localTasks numPhases (sys.step c e) := by
  have hI := h
  obtain ⟨h1, h2, ⟨ht1, ht2⟩, h3, hr, h4⟩ := h
  cases e with
  | enter tid =>
    simp only [System.step]
    cases hpc : sys.threads.getD tid Pc.returned with
    | top =>
      simp only
      by_cases hlt : sys.sched.numTasksDone < sys.sched.ntasks
      · simp only [hlt, if_true]
        refine inv_update _ _ sys tid Pc.top _ sys.sched hI hpc (by simp) h1 h2 h3 h4
          (by simp) (by simp) ⟨rfl, le_refl _⟩ ?_
        intro x
        simp [Pc.held]
      · simp only [hlt, if_false]
        refine inv_update _ _ sys tid Pc.top _ sys.sched hI hpc (by simp) h1 h2 h3 h4
          (by simp) (fun _ => hlt) ⟨rfl, le_refl _⟩ ?_
        intro x
        simp [Pc.held]
    | waiting => simpa using hI
    | selecting l => simpa using hI
    | acting l => simpa using hI
    | returned => simpa using hI
    | failed b => simpa using hI
  | lock tid =>
    simp only [System.step]
    cases hpc : sys.threads.getD tid Pc.returned with
    | waiting =>
      simp only
      by_cases hlock : sys.locked = true
      · simpa [hlock] using hI
      · simp only [hlock, Bool.false_eq_true, if_false]
        refine inv_update _ _ sys tid Pc.waiting _ sys.sched hI hpc (by simp) h1 h2 h3 h4 ?_
          (by simp) ⟨rfl, le_refl _⟩ ?_
        · intro l hl
          simp only [Pc.selecting.injEq] at hl
          subst hl
          rfl
        · intro x
          simp [Pc.held]
    | top => simpa using hI
    | selecting l => simpa using hI
    | acting l => simpa using hI
    | returned => simpa using hI
    | failed b => simpa using hI
  | pass tid =>
    simp only [System.step]
    cases hpc : sys.threads.getD tid Pc.returned with
    | selecting l =>
      simp only
      have hst : l.stage = false := ht1 tid l hpc
      have hq := queued_handed sys ⟨ht1, ht2⟩
      have k1 := selectionPass_counters c localTasks numPhases sys.sched l h1
      have k2 := selectionPass_syncOk c sys.sched l h2
      have k3 := selectionPass_origin c sys.sched l h2 h3 hq
      have k4 := selectionPass_syncLast c localTasks numPhases sys.sched l h1 h2 hq h4
      have k5 := selectionPass_histories c sys.sched l
      have k6 := fun x => selectionPass_tokens c sys.sched l hst h2 x
      rcases hr : selectionPass c sys.sched l with ⟨s1, l1, flow⟩
      rw [hr] at k1 k2 k3 k4 k5 k6
      simp only at k1 k2 k3 k4 k5 k6
      cases flow with
      | again =>
        simp only
        refine inv_update _ _ sys tid (Pc.selecting l) _ s1 hI hpc (by simp) k1 k2 k3 k4 ?_ ?_
          ⟨k5.2.2.1, k5.2.2.2⟩ ?_
        · intro l2 hl2
          split_ifs at hl2
          simp only [Pc.selecting.injEq] at hl2
          subst hl2
          exact (k6 (plainTask 0 0)).2 (by simp)
        · intro hX
          split_ifs at hX
        · intro x
          have := (k6 x).1
          have hz : l1.held x = 0 := held_of_stage_false l1 x ((k6 x).2 (by simp))
          split_ifs <;> simp only [Pc.held, hz] <;> omega
      | leave =>
        simp only
        refine inv_update _ _ sys tid (Pc.selecting l) _ s1 hI hpc (by simp) k1 k2 k3 k4
          (by simp) (by simp) ⟨k5.2.2.1, k5.2.2.2⟩ ?_
        intro x
        have := (k6 x).1
        simp only [Pc.held]
        omega
      | assertionFailed =>
        simp only
        refine inv_update _ _ sys tid (Pc.selecting l) _ s1 hI hpc (by simp) k1 k2 k3 k4
          (by simp) (by simp) ⟨k5.2.2.1, k5.2.2.2⟩ ?_
        intro x
        have := (k6 x).1
        simp only [Pc.held]
        omega
    | top => simpa using hI
    | waiting => simpa using hI
    | acting l => simpa using hI
    | returned => simpa using hI
    | failed b => simpa using hI
  | act tid a =>
    simp only [System.step]
    cases hpc : sys.threads.getD tid Pc.returned with
    | acting l =>
      simp only
      have e := part2_records c a sys.sched l
      have k6 := fun x => part2_tokens c a sys.sched l x
      rcases hr : part2 c a sys.sched l with ⟨s1, calls, ok⟩
      rw [hr] at e k6
      simp only at e k6
      have key : ∀ X : Pc, (∀ x, Pc.held x X = 0) → (∀ l2, X ≠ Pc.selecting l2) →
          X ≠ Pc.returned →
          Inv localTasks numPhases { sched := s1, threads := sys.threads.set tid X } := by
        intro X hX0 hXs hXr
        refine inv_update _ _ sys tid (Pc.acting l) X s1 hI hpc (by simp)
          (sameRecords_counters _ _ _ _ e h1) (sameRecords_syncOk _ _ e h2)
          (sameRecords_origin _ _ e h3) (sameRecords_syncLast _ _ e h4)
          (fun l2 hl2 => absurd hl2 (hXs l2)) (fun hh => absurd hh hXr)
          ⟨e.1, le_of_eq e.2.2.2.1.symm⟩ ?_
        intro x
        have := k6 x
        rw [hX0 x, sameRecords_plainConsumed _ _ e, e.2.2.2.2.2.2.2.2]
        simp only [Pc.held]
        omega
      cases ok with
      | true => exact key Pc.top (fun _ => rfl) (by simp) (by simp)
      | false => exact key (Pc.failed false) (fun _ => rfl) (by simp) (by simp)
    | top => simpa using hI
    | waiting => simpa using hI
    | selecting l => simpa using hI
    | returned => simpa using hI
    | failed b => simpa using hI
  | outside o =>
    simp only [System.step]
    exact inv_sameRecords _ _ sys _ hI (outside_records c sys.sched o).1
      (outside_records c sys.sched o).2

theorem run_inv (c : Config) (localTasks : List DetailedTask) (numPhases : Nat) :
    ∀ (es : List Event) (sys : System), Inv localTasks numPhases sys →
      Inv localTasks numPhases (sys.run c es) := by
  intro es
  induction es with
  | nil => intro sys h; exact h
  | cons e es ih =>
    intro sys h
    simp only [System.run, List.foldl_cons]
    exact ih _ (step_inv c localTasks numPhases sys e h)

/-! ### The invariant holds when `execute` calls `runTasks` -/

theorem getD_replicate {α : Type} (n i : Nat) (a : α) : (List.replicate n a).getD i a = a := by
  by_cases h : i < n
  · simp [List.getD_eq_getElem?_getD, h]
  · simp [List.getD_eq_getElem?_getD, h]

theorem start_inv (localTasks : List DetailedTask) (numPhases : Nat) (d : DetailedTasks)
    (pending n : Nat) (hd : d.atStart) :
    Inv localTasks numPhases (System.start localTasks numPhases d pending n) := by
  obtain ⟨hq, hi, he⟩ := hd
  refine ⟨⟨rfl, rfl, rfl, rfl, by simp [System.start, execute], by simp [System.start, execute],
    ?_⟩, ?_, ⟨?_, ?_⟩, ?_, ?_, ?_⟩
  · intro p _
    simp only [System.start, execute]
    rw [getD_replicate]
    simp [phaseCount]
  · intro p t h
    simp only [System.start, execute] at h
    rw [getD_replicate] at h
    exact absurd h (by simp)
  · intro tid l h
    simp only [System.start] at h
    by_cases hlt : tid < n
    · simp [List.getD_eq_getElem?_getD, hlt] at h
    · rw [List.getD_eq_getElem?_getD, List.getElem?_eq_none (by simpa using hlt)] at h
      exact absurd h (by simp)
  · intro x
    have h0 : (System.start localTasks numPhases d pending n).held x = 0 := by
      simp [System.held, System.start, Pc.held]
    rw [h0]
    simp [System.start, execute, hq, plainConsumed]
  · intro t ht
    simp [System.start, execute] at ht
  · intro tid h
    simp only [System.start] at h
    rw [getD_replicate] at h
    exact absurd h (by simp)
  · intro _ pre t post h
    simp [System.start, execute] at h

theorem reach_inv (c : Config) (localTasks : List DetailedTask) (numPhases : Nat)
    (d : DetailedTasks) (pending n : Nat) (es : List Event) (hd : d.atStart) :
    Inv localTasks numPhases
      ((System.start localTasks numPhases d pending n).run c es) :=
  run_inv c localTasks numPhases es _ (start_inv localTasks numPhases d pending n hd)

/-! ### Consequences of the invariant -/

theorem syncLast_not_later (s : UnifiedScheduler) (h : SyncLast s)
    (pre post : List DetailedTask) (t : DetailedTask)
    (e : s.consumed = pre ++ t :: post) (hk : t.syncKind) : t ∉ post := by
  intro hm
  obtain ⟨mid, post1, hp⟩ := List.append_of_mem hm
  have h1 := (h pre t post e hk).2
  have e2 : s.consumed = (pre ++ t :: mid) ++ t :: post1 := by rw [e, hp]; simp
  have h2 := (h _ t post1 e2 hk).2
  rw [phaseCount_append, phaseCount_cons] at h2
  have := phaseCount_nonneg t.d_phase mid
  simp only [if_true] at h2
  omega

theorem syncLast_count (s : UnifiedScheduler) (h : SyncLast s) (x : DetailedTask)
    (hk : x.syncKind) : s.consumed.count x ≤ 1 := by
  by_cases hm : x ∈ s.consumed
  · obtain ⟨pre, post, e⟩ := List.append_of_mem hm
    have h1 : x ∉ post := syncLast_not_later s h pre post x e hk
    have h2 : x ∉ pre := by
      intro hp
      obtain ⟨a, b, ep⟩ := List.append_of_mem hp
      have e2 : s.consumed = a ++ x :: (b ++ x :: post) := by rw [e, ep]; simp
      exact syncLast_not_later s h a _ x e2 hk (by simp)
    rw [e, List.count_append, List.count_cons, List.count_eq_zero_of_not_mem h1,
      List.count_eq_zero_of_not_mem h2]
    simp
  · rw [List.count_eq_zero_of_not_mem hm]
    omega

/-- Under the invariant, when the external-ready queue has handed out every
task at most once and no sync task, and the ready queues have handed out local
tasks only, no task was marked consumed twice and every consumed task is
local. -/
theorem consumed_nodup (localTasks : List DetailedTask) (numPhases : Nat) (sys : System)
    (h : Inv localTasks numPhases sys)
    (hlocal : ∀ t ∈ sys.sched.dts.handedInternal ++ sys.sched.dts.handedExternal,
      t ∈ localTasks)
    (honce : sys.sched.dts.handedExternal.Nodup) (hplain : ExternalPlain sys.sched) :
    sys.sched.consumed.Nodup ∧ (∀ t ∈ sys.sched.consumed, t ∈ localTasks) := by
  obtain ⟨_, _, ⟨_, ht2⟩, h3, _, h4⟩ := h
  constructor
  · rw [List.nodup_iff_count_le_one]
    intro x
    by_cases hk : x.syncKind
    · exact syncLast_count _ (h4 hplain) x hk
    · have h1 := ht2 x
      have h2 := List.nodup_iff_count_le_one.mp honce x
      simp only [plainConsumed, hk, if_false] at h1
      omega
  · intro t ht
    rcases h3 t ht with ⟨_, h1⟩ | h1
    · exact hlocal t (List.mem_append_left _ h1)
    · exact hlocal t (List.mem_append_right _ h1)

theorem phaseCount_le_of_subperm (p : Nat) (l1 l2 : List DetailedTask) (h : l1.Subperm l2) :
    phaseCount p l1 ≤ phaseCount p l2 := by
  unfold phaseCount
  exact_mod_cast h.countP_le _

theorem phaseCount_perm (p : Nat) (l1 l2 : List DetailedTask) (h : l1.Perm l2) :
    phaseCount p l1 = phaseCount p l2 := by
  unfold phaseCount
  rw [h.countP_eq]

theorem phaseCount_zero_iff (p : Nat) (l : List DetailedTask) (h : phaseCount p l ≤ 0) :
    ∀ u ∈ l, u.d_phase ≠ p := by
  unfold phaseCount at h
  have h0 : l.countP (fun t => decide (t.d_phase = p)) = 0 := by omega
  rw [List.countP_eq_zero] at h0
  intro u hu
  simpa using h0 u hu

/-! ### The slot of a phase's sync task -/

theorem step_sched (c : Config) (sys : System) (e : Event) :
    (sys.step c e).sched = sys.sched ∨
    (∃ l, (sys.step c e).sched = (selectionPass c sys.sched l).1) ∨
    (∃ a l, (sys.step c e).sched = (part2 c a sys.sched l).1) ∨
    ∃ o : Outside, (sys.step c e).sched = o.apply c sys.sched := by
  cases e with
  | enter tid =>
    left
    simp only [System.step]
    cases sys.threads.getD tid Pc.returned <;> simp only
    split_ifs <;> rfl
  | lock tid =>
    left
    simp only [System.step]
    cases sys.threads.getD tid Pc.returned <;> simp only
    split_ifs <;> rfl
  | pass tid =>
    simp only [System.step]
    cases hpc : sys.threads.getD tid Pc.returned with
    | selecting l =>
      right; left
      refine ⟨l, ?_⟩
      simp only
      rcases hr : selectionPass c sys.sched l with ⟨s1, l1, flow⟩
      cases flow <;> rfl
    | _ => left; rfl
  | act tid a =>
    simp only [System.step]
    cases hpc : sys.threads.getD tid Pc.returned with
    | acting l =>
      right; right; left
      refine ⟨a, l, ?_⟩
      simp only
      rcases hr : part2 c a sys.sched l with ⟨s1, calls, ok⟩
      cases ok <;> rfl
    | _ => left; rfl
  | outside o =>
    right; right; right
    exact ⟨o, rfl⟩

/-- What a pass does to the slots of the sync tasks: nothing, unless it takes
a reduction or MPI task from the internal-ready queue, which it writes into
the slot of the task's phase. -/
theorem selectionPass_records (c : Config) (s : UnifiedScheduler) (l : Locals) :
    ((selectionPass c s l).1.phaseSyncTask = s.phaseSyncTask ∧
      ∃ i, (selectionPass c s l).1.dts.handedInternal = s.dts.handedInternal ++ i ∧
        ∀ t ∈ i, ¬ t.syncKind) ∨
    ∃ t rest, s.dts.internalReady = t :: rest ∧ t.syncKind ∧
      (selectionPass c s l).1.dts.handedInternal = s.dts.handedInternal ++ [t] ∧
      (selectionPass c s l).1.phaseSyncTask = s.phaseSyncTask.set t.d_phase (some t) := by
  refine selectionPass_cases c s l (fun r =>
    (r.1.phaseSyncTask = s.phaseSyncTask ∧
      ∃ i, r.1.dts.handedInternal = s.dts.handedInternal ++ i ∧ ∀ t ∈ i, ¬ t.syncKind) ∨
    ∃ t rest, s.dts.internalReady = t :: rest ∧ t.syncKind ∧
      r.1.dts.handedInternal = s.dts.handedInternal ++ [t] ∧
      r.1.phaseSyncTask = s.phaseSyncTask.set t.d_phase (some t)) ?_ ?_ ?_ ?_
  · intro t _
    exact Or.inl ⟨rfl, [], by simp, by simp⟩
  · intro t rest _ _
    unfold externalReadyStep
    repeat' split
    all_goals exact Or.inl ⟨rfl, [], by simp, by simp⟩
  · intro t rest _ _ hq
    unfold internalReadyStep
    by_cases hk : t.type = TaskType.Reduction ∨ t.usesMPI = true
    · right
      refine ⟨t, rest, hq, hk, ?_⟩
      simp only [hk, if_true]
      split_ifs <;> exact ⟨rfl, rfl⟩
    · left
      simp only [hk, if_false]
      split_ifs
      · exact ⟨rfl, [t], by simp [endOfPass], by simpa [DetailedTask.syncKind] using hk⟩
      · exact ⟨rfl, [t], rfl, by simpa [DetailedTask.syncKind] using hk⟩
  · intro _ _ _
    unfold deviceAndRecvStep
    repeat' split
    all_goals exact Or.inl ⟨rfl, [], by simp [endOfPass], by simp⟩

theorem onePerPhase_split (s : UnifiedScheduler) (h : OnePerPhase s)
    (pre post : List DetailedTask) (t : DetailedTask)
    (e : s.dts.handedInternal = pre ++ t :: post) (hk : t.syncKind) :
    ∀ u ∈ pre, u.syncKind → u.d_phase ≠ t.d_phase := by
  unfold OnePerPhase at h
  rw [e, List.filter_append, List.pairwise_append] at h
  intro u hu hku
  exact h.2.2 u (List.mem_filter.mpr ⟨hu, by simpa using hku⟩) t
    (List.mem_filter.mpr ⟨by simp, by simpa using hk⟩)

theorem onePerPhase_earlier (s s1 : UnifiedScheduler) (i : List DetailedTask)
    (e : s1.dts.handedInternal = s.dts.handedInternal ++ i) (h : OnePerPhase s1) :
    OnePerPhase s := by
  unfold OnePerPhase at h ⊢
  rw [e, List.filter_append, List.pairwise_append] at h
  exact h.1

theorem selectionPass_recorded (c : Config) (s : UnifiedScheduler) (l : Locals)
    (h : OnePerPhase s → Recorded s) :
    OnePerPhase (selectionPass c s l).1 → Recorded (selectionPass c s l).1 := by
  intro h1
  rcases selectionPass_records c s l with ⟨e1, i, e2, hi⟩ | ⟨t, rest, _, hk, e2, e1⟩
  · have hR := h (onePerPhase_earlier s _ i e2 h1)
    intro u hu hku hlt
    rw [e1] at hlt ⊢
    rw [e2] at hu
    rcases List.mem_append.mp hu with hu | hu
    · exact hR u hu hku hlt
    · exact absurd hku (hi u hu)
  · have hR := h (onePerPhase_earlier s _ [t] e2 h1)
    have hne := onePerPhase_split _ h1 s.dts.handedInternal [] t (by rw [e2]) hk
    intro u hu hku hlt
    rw [e1] at hlt ⊢
    rw [e2] at hu
    simp only [List.length_set] at hlt
    rcases List.mem_append.mp hu with hu | hu
    · rw [getD_set_other _ _ _ _ _ (hne u hu hku)]
      exact hR u hu hku hlt
    · simp only [List.mem_singleton] at hu
      subst hu
      exact getD_set_self _ _ _ _ hlt

theorem sameRecords_recorded (s s1 : UnifiedScheduler) (e : SameRecords s s1)
    (h : OnePerPhase s → Recorded s) : OnePerPhase s1 → Recorded s1 := by
  obtain ⟨_, _, _, _, _, _, e7, e8, _⟩ := e
  unfold OnePerPhase Recorded
  rw [e7, e8]
  exact h

theorem run_recorded (c : Config) :
    ∀ (es : List Event) (sys : System), (OnePerPhase sys.sched → Recorded sys.sched) →
      OnePerPhase (sys.run c es).sched → Recorded (sys.run c es).sched := by
  intro es
  induction es with
  | nil => intro sys h; exact h
  | cons e es ih =>
    intro sys h
    simp only [System.run, List.foldl_cons]
    refine ih _ ?_
    rcases step_sched c sys e with h1 | ⟨l, h1⟩ | ⟨a, l, h1⟩ | ⟨o, h1⟩
    · rw [h1]; exact h
    · rw [h1]; exact selectionPass_recorded c _ l h
    · rw [h1]; exact sameRecords_recorded _ _ (part2_records c a _ l) h
    · rw [h1]; exact sameRecords_recorded _ _ (outside_records c _ o).1 h

/-- Claim C4, as the code has it: each phase has one slot `phaseSyncTask[phase]`,
and a pass changes a slot only by writing into the slot of its phase the
reduction or MPI task it has just taken from the internal-ready queue,
whatever the slot held before. So in every run, as long as the reduction and
MPI tasks handed out by the internal-ready queue have pairwise different
phases, every one of them (with a phase below `numPhases`) is still the
recorded sync task of its phase: none was discarded or replaced. -/
theorem phaseSyncTask_kept (c : Config) (localTasks : List DetailedTask) (numPhases : Nat)
    (d : DetailedTasks) (pending n : Nat) (es : List Event) :
    (∀ (s : UnifiedScheduler) (l : Locals) (p : Nat),
      (selectionPass c s l).1.phaseSyncTask.getD p none = s.phaseSyncTask.getD p none ∨
      ∃ t rest, s.dts.internalReady = t :: rest ∧ t.syncKind ∧ t.d_phase = p ∧
        (selectionPass c s l).1.phaseSyncTask.getD p none = some t) ∧
    (d.atStart → OnePerPhase (reached c localTasks numPhases d pending n es).sched →
      ∀ t ∈ (reached c localTasks numPhases d pending n es).sched.dts.handedInternal,
        t.syncKind → t.d_phase < numPhases →
        (reached c localTasks numPhases d pending n es).sched.phaseSyncTask.getD t.d_phase none
          = some t) := by
  constructor
  · intro s l p
    rcases selectionPass_records c s l with ⟨e1, _⟩ | ⟨t, rest, hq, hk, _, e1⟩
    · left; rw [e1]
    · rw [e1]
      by_cases hp : p = t.d_phase
      · subst hp
        by_cases hlt : t.d_phase < s.phaseSyncTask.length
        · right
          exact ⟨t, rest, hq, hk, rfl, getD_set_self _ _ _ _ hlt⟩
        · left
          rw [set_beyond _ _ _ (Nat.le_of_not_lt hlt)]
      · left
        exact getD_set_other _ _ _ _ _ hp
  · intro hd h1 t ht hk hlt
    have hI := reach_inv c localTasks numPhases d pending n es hd
    have hR := run_recorded c es (System.start localTasks numPhases d pending n)
      (by
        intro _ u hu
        simp only [System.start, execute] at hu
        rw [hd.2.1] at hu
        exact absurd hu (by simp)) h1
    have hlen := hI.1.2.2.2.2.2.1
    exact hR t ht hk (by rw [hlen]; exact hlt)

/-- An instance of `phaseSyncTask_kept`: in the run of two threads over a plain
task and a reduction task the reduction task, once taken from the
internal-ready queue, stays the sync task of phase 0. -/
theorem phaseSyncTask_kept_witness :
    twoThreadQueues.atStart ∧
    OnePerPhase (reached Config.hostOnly [plainTask 0 0, reductionTask 1 0] 1 twoThreadQueues 0 2
      twoThreadRun).sched ∧
    (reached Config.hostOnly [plainTask 0 0, reductionTask 1 0] 1 twoThreadQueues 0 2
      twoThreadRun).sched.phaseSyncTask.getD 0 none = some (reductionTask 1 0) :=
  ⟨by decide, by decide,
    (phaseSyncTask_kept Config.hostOnly [plainTask 0 0, reductionTask 1 0] 1 twoThreadQueues 0 2
      twoThreadRun).2 (by decide) (by decide) (reductionTask 1 0) (by decide) (by decide)
      (by decide)⟩

/-- Claim C4 fails as stated: two reduction tasks of phase 0 become internally
ready. The first is recorded as the sync task of phase 0; the pass that takes
the second one replaces it, although neither has been marked consumed. -/
theorem phaseSyncTask_counterexample :
    (reached Config.hostOnly [reductionTask 1 0, reductionTask 2 0, plainTask 0 0] 1
      twoReductionsQueues 0 1 [Event.enter 0, Event.lock 0, Event.pass 0]).sched.phaseSyncTask
      = [some (reductionTask 1 0)] ∧
    (reached Config.hostOnly [reductionTask 1 0, reductionTask 2 0, plainTask 0 0] 1
      twoReductionsQueues 0 1 twoReductionsRun).sched.phaseSyncTask
      = [some (reductionTask 2 0)] ∧
    (reached Config.hostOnly [reductionTask 1 0, reductionTask 2 0, plainTask 0 0] 1
      twoReductionsQueues 0 1 twoReductionsRun).sched.consumed = [] := by
  decide

/-! ### Every local task is consumed exactly once -/

/-- Claim C3: in every run of the threads' selection steps from the state set
up by `execute` (where `numTasksDone` and every `phaseTasksDone[p]` are 0 and
`phaseTasks[p]` is the number of local tasks of phase `p`): (1) a consumed task
was handed out before by the external-ready queue, unless it is a reduction or
MPI task recorded from the internal-ready queue and consumed as sync task; (2)
when the ready queues have handed out local tasks only and the external-ready
queue no task twice and no sync task, no task is marked consumed twice, and as
soon as `runTasks` has returned on some thread `numTasksDone = ntasks`,
`phaseTasksDone[p] = phaseTasks[p]` for every phase `p`, and the consumed
tasks are the local tasks, each once. -/
theorem each_task_consumed_once (c : Config) (localTasks : List DetailedTask) (numPhases : Nat)
    (d : DetailedTasks) (pending n : Nat) (es : List Event) (hd : d.atStart) :
    ((execute localTasks numPhases d pending).numTasksDone = 0 ∧
      ∀ p, p < numPhases →
        (execute localTasks numPhases d pending).phaseTasksDone.getD p 0 = 0 ∧
        (execute localTasks numPhases d pending).phaseTasks.getD p 0
          = phaseCount p localTasks) ∧
    (∀ t ∈ (reached c localTasks numPhases d pending n es).sched.consumed,
      t ∈ (reached c localTasks numPhases d pending n es).sched.dts.handedExternal ∨
      (t.syncKind ∧
        t ∈ (reached c localTasks numPhases d pending n es).sched.dts.handedInternal)) ∧
    (localTasks.Nodup →
      HandedOutOnce localTasks (reached c localTasks numPhases d pending n es).sched →
      (reached c localTasks numPhases d pending n es).sched.consumed.Nodup ∧
      ((∃ tid, (reached c localTasks numPhases d pending n es).threads.getD tid Pc.top
          = Pc.returned) →
        (reached c localTasks numPhases d pending n es).sched.numTasksDone
          = (reached c localTasks numPhases d pending n es).sched.ntasks ∧
        (∀ p, p < numPhases →
          (reached c localTasks numPhases d pending n es).sched.phaseTasksDone.getD p 0
            = (reached c localTasks numPhases d pending n es).sched.phaseTasks.getD p 0) ∧
        (reached c localTasks numPhases d pending n es).sched.consumed.Perm localTasks)) := by
  have hI := reach_inv c localTasks numPhases d pending n es hd
  have hI2 := hI
  obtain ⟨⟨c1, c2, c3, c4, c5, c6, c7⟩, _, _, h3, hr, _⟩ := hI
  refine ⟨⟨rfl, ?_⟩, ?_, ?_⟩
  · intro p hp
    refine ⟨?_, execute_phaseTasks localTasks numPhases d pending p hp⟩
    simp only [execute]
    exact getD_replicate _ _ _
  · intro t ht
    rcases h3 t ht with h | h
    · exact Or.inr h
    · exact Or.inl h
  · intro hnd ⟨hlocal, honce, hplain⟩
    obtain ⟨hN, hS⟩ := consumed_nodup localTasks numPhases _ hI2 hlocal honce hplain
    refine ⟨hN, ?_⟩
    rintro ⟨tid, htid⟩
    have hsub : ((System.start localTasks numPhases d pending n).run c es).sched.consumed.Subperm
        localTasks := List.subperm_of_subset hN hS
    have hle := hsub.length_le
    have hge := hr tid htid
    have hlen : localTasks.length ≤
        ((System.start localTasks numPhases d pending n).run c es).sched.consumed.length := by
      rw [c1, c4] at hge
      omega
    have hperm := hsub.perm_of_length_le hlen
    refine ⟨?_, ?_, hperm⟩
    · show ((System.start localTasks numPhases d pending n).run c es).sched.numTasksDone
        = ((System.start localTasks numPhases d pending n).run c es).sched.ntasks
      rw [c1, c4]
      omega
    · intro p hp
      show ((System.start localTasks numPhases d pending n).run c es).sched.phaseTasksDone.getD p 0
        = ((System.start localTasks numPhases d pending n).run c es).sched.phaseTasks.getD p 0
      rw [c7 p hp, c3, countPhaseTasks_getD _ _ p (by simpa using hp), getD_replicate,
        phaseCount_perm p _ _ hperm]
      simp

/-- An instance of `each_task_consumed_once`: two threads, a plain task and a
reduction task; both threads return with both tasks consumed once. -/
theorem each_task_consumed_once_witness :
    twoThreadQueues.atStart ∧ [plainTask 0 0, reductionTask 1 0].Nodup ∧
    HandedOutOnce [plainTask 0 0, reductionTask 1 0]
      (reached Config.hostOnly [plainTask 0 0, reductionTask 1 0] 1 twoThreadQueues 0 2
        twoThreadRun).sched ∧
    (reached Config.hostOnly [plainTask 0 0, reductionTask 1 0] 1 twoThreadQueues 0 2
        twoThreadRun).threads = [Pc.returned, Pc.returned] ∧
    (reached Config.hostOnly [plainTask 0 0, reductionTask 1 0] 1 twoThreadQueues 0 2
        twoThreadRun).sched.numTasksDone
      = (reached Config.hostOnly [plainTask 0 0, reductionTask 1 0] 1 twoThreadQueues 0 2
        twoThreadRun).sched.ntasks :=
  ⟨by decide, by decide, by decide, by decide,
    (((each_task_consumed_once Config.hostOnly [plainTask 0 0, reductionTask 1 0] 1
      twoThreadQueues 0 2 twoThreadRun (by decide)).2.2 (by decide) (by decide)).2
      ⟨0, by decide⟩).1⟩

/-! ### The sync task is the last task of its phase -/

theorem selectionPass_picks (c : Config) (s : UnifiedScheduler) (l : Locals) (t : DetailedTask)
    (hl : l.readyTask = none) (h : (selectionPass c s l).2.1.readyTask = some t)
    (hx : t ∉ s.dts.externalReady) (hq : t ∉ s.dts.queued) :
    syncTaskReady s = some t := by
  revert h
  refine selectionPass_cases c s l (fun r => r.2.1.readyTask = some t → syncTaskReady s = some t)
    ?_ ?_ ?_ ?_
  · intro u hu h
    simp only [Option.some.injEq] at h
    rw [hu, h]
  · intro u rest _ he h
    exfalso
    apply hx
    rw [he]
    unfold externalReadyStep at h
    split_ifs at h <;> simp_all
  · intro u rest _ _ _ h
    exfalso
    unfold internalReadyStep at h
    split_ifs at h <;> simp_all [endOfPass]
  · intro _ _ _ h
    exfalso
    apply hq
    unfold deviceAndRecvStep at h
    revert h
    repeat' split
    all_goals try simp only [deviceHead_some] at *
    all_goals simp_all [endOfPass, DetailedTasks.queued]

/-- Claim C1: (1) a selection pass that selects a task which was in neither the
external-ready queue nor a device queue (where sync tasks are never put)
selects the registered sync task of the current phase, and
`phaseTasksDone[currphase] == phaseTasks[currphase] - 1` holds. (2) Hence, in
every run from the state set up by `execute` in which the ready queues hand
out local tasks only and the external-ready queue no task twice and no sync
task: whenever a reduction or MPI task `t` is marked consumed, the tasks
consumed before it number all tasks of its phase but one, every other local
task of its phase is among them, and no task of its phase is consumed after
`t`. -/
theorem syncTask_last_of_phase (c : Config) (localTasks : List DetailedTask) (numPhases : Nat)
    (d : DetailedTasks) (pending n : Nat) (es : List Event) :
    (∀ (s : UnifiedScheduler) (l : Locals) (t : DetailedTask), l.readyTask = none →
      (selectionPass c s l).2.1.readyTask = some t →
      t ∉ s.dts.externalReady → t ∉ s.dts.queued →
      s.phaseSyncTask.getD s.currphase none = some t ∧
      s.phaseTasksDone.getD s.currphase 0 = s.phaseTasks.getD s.currphase 0 - 1) ∧
    (d.atStart → localTasks.Nodup →
      HandedOutOnce localTasks (reached c localTasks numPhases d pending n es).sched →
      ∀ pre t post,
        (reached c localTasks numPhases d pending n es).sched.consumed = pre ++ t :: post →
        t.syncKind →
        t.d_phase < numPhases ∧
        phaseCount t.d_phase pre = phaseCount t.d_phase localTasks - 1 ∧
        (∀ u ∈ localTasks, u.d_phase = t.d_phase → u ≠ t → u ∈ pre) ∧
        (∀ u ∈ post, u.d_phase ≠ t.d_phase)) := by
  constructor
  · intro s l t hl h hx hq
    exact syncTaskReady_some s t (selectionPass_picks c s l t hl h hx hq)
  · intro hd hnd ⟨hlocal, honce, hplain⟩ pre t post e hk
    have hI := reach_inv c localTasks numPhases d pending n es hd
    obtain ⟨hN, hS⟩ := consumed_nodup localTasks numPhases _ hI hlocal honce hplain
    obtain ⟨⟨_, c2, c3, _, _, _, _⟩, _, _, _, _, h4⟩ := hI
    have e1 : ((System.start localTasks numPhases d pending n).run c es).sched.consumed
        = pre ++ t :: post := e
    obtain ⟨hlt, hcnt⟩ := h4 hplain pre t post e1 hk
    rw [c2] at hlt
    rw [c3, countPhaseTasks_getD _ _ _ (by simpa using hlt), getD_replicate] at hcnt
    simp only [zero_add] at hcnt
    rw [e1] at hN hS
    have hsub : (pre ++ t :: post).Subperm localTasks := List.subperm_of_subset hN hS
    have hle := phaseCount_le_of_subperm t.d_phase _ _ hsub
    rw [phaseCount_append, phaseCount_cons] at hle
    simp only [if_true] at hle
    refine ⟨hlt, hcnt, ?_, ?_⟩
    · intro u hu hp hne
      by_contra hnot
      have hN2 : (u :: t :: pre).Nodup := by
        have h1 : (pre ++ [t]).Nodup := by
          have : (pre ++ t :: post) = (pre ++ [t]) ++ post := by simp
          rw [this] at hN
          exact (List.nodup_append.mp hN).1
        have h2 : t ∉ pre := by
          intro hm
          have := List.nodup_append.mp h1
          exact this.2.2 hm (by simp)
        have h3 : pre.Nodup := (List.nodup_append.mp h1).1
        simp only [List.nodup_cons, List.mem_cons, not_or]
        exact ⟨⟨hne, hnot⟩, h2, h3⟩
      have hS2 : ∀ x ∈ u :: t :: pre, x ∈ localTasks := by
        intro x hx
        rcases List.mem_cons.mp hx with rfl | hx
        · exact hu
        · exact hS x (by
            rcases List.mem_cons.mp hx with rfl | hx
            · simp
            · simp [hx])
      have hle2 := phaseCount_le_of_subperm t.d_phase _ _ (List.subperm_of_subset hN2 hS2)
      rw [phaseCount_cons, phaseCount_cons] at hle2
      simp only [hp, if_true] at hle2
      omega
    · have := phaseCount_nonneg t.d_phase post
      exact phaseCount_zero_iff t.d_phase post (by omega)

/-- An instance of `syncTask_last_of_phase`: in the run of two threads over a
plain task and a reduction task of phase 0, the reduction task is consumed
after the plain task. -/
theorem syncTask_last_of_phase_witness :
    (reached Config.hostOnly [plainTask 0 0, reductionTask 1 0] 1 twoThreadQueues 0 2
        twoThreadRun).sched.consumed = [plainTask 0 0] ++ reductionTask 1 0 :: [] ∧
    (reductionTask 1 0).syncKind ∧
    ∀ u ∈ [plainTask 0 0, reductionTask 1 0], u.d_phase = (reductionTask 1 0).d_phase →
      u ≠ reductionTask 1 0 → u ∈ [plainTask 0 0] :=
  ⟨by decide, by decide,
    ((syncTask_last_of_phase Config.hostOnly [plainTask 0 0, reductionTask 1 0] 1
      twoThreadQueues 0 2 twoThreadRun).2 (by decide) (by decide) (by decide)
      [plainTask 0 0] (reductionTask 1 0) [] (by decide) (by decide)).2.2.1⟩

/-! ### The ready-queue discipline -/

/-- Claim C18: `problemSetup` selects the ready-queue discipline from the string
`taskReadyQueueAlg`. Each of the eleven names of a discipline selects the
discipline of that name; `MostAllChildren` and `LeastAllChildren` select
`MostChildren` and `LeastChildren`; without a `Scheduler` block, without the
entry and for every other string the default `MostMessages` stays in effect.
The function has no failing outcome. -/
theorem problemSetup_queueAlg :
    (problemSetup.queueAlg (some (some "FCFS"))).1 = QueueAlg.FCFS ∧
    (problemSetup.queueAlg (some (some "Random"))).1 = QueueAlg.Random ∧
    (problemSetup.queueAlg (some (some "Stack"))).1 = QueueAlg.Stack ∧
    (problemSetup.queueAlg (some (some "MostChildren"))).1 = QueueAlg.MostChildren ∧
    (problemSetup.queueAlg (some (some "LeastChildren"))).1 = QueueAlg.LeastChildren ∧
    (problemSetup.queueAlg (some (some "MostL2Children"))).1 = QueueAlg.MostL2Children ∧
    (problemSetup.queueAlg (some (some "LeastL2Children"))).1 = QueueAlg.LeastL2Children ∧
    (problemSetup.queueAlg (some (some "MostMessages"))).1 = QueueAlg.MostMessages ∧
    (problemSetup.queueAlg (some (some "LeastMessages"))).1 = QueueAlg.LeastMessages ∧
    (problemSetup.queueAlg (some (some "PatchOrder"))).1 = QueueAlg.PatchOrder ∧
    (problemSetup.queueAlg (some (some "PatchOrderRandom"))).1 = QueueAlg.PatchOrderRandom ∧
    (problemSetup.queueAlg (some (some "MostAllChildren"))).1 = QueueAlg.MostChildren ∧
    (problemSetup.queueAlg (some (some "LeastAllChildren"))).1 = QueueAlg.LeastChildren ∧
    (problemSetup.queueAlg none).1 = QueueAlg.MostMessages ∧
    (problemSetup.queueAlg (some none)).1 = QueueAlg.MostMessages ∧
    ∀ s : String, s ∉ knownQueueAlgNames →
      (problemSetup.queueAlg (some (some s))).1 = QueueAlg.MostMessages := by
  refine ⟨by decide, by decide, by decide, by decide, by decide, by decide, by decide, by decide,
    by decide, by decide, by decide, by decide, by decide, by decide, by decide, ?_⟩
  intro s hs
  simp only [knownQueueAlgNames, List.mem_cons, List.mem_singleton, not_or, List.not_mem_nil,
    not_false_eq_true, and_true] at hs
  obtain ⟨h1, h2, h3, h4, h5, h6, h7, h8, h9, h10, h11, h12, h13⟩ := hs
  simp [problemSetup.queueAlg, problemSetup.chain, h1, h2, h3, h4, h5, h6, h7, h8, h9, h11, h12,
    h13]

/-- An instance of `problemSetup_queueAlg`: the string `Fastest` names no
discipline and leaves `MostMessages` in effect. -/
theorem problemSetup_queueAlg_witness :
    "Fastest" ∉ knownQueueAlgNames ∧
    (problemSetup.queueAlg (some (some "Fastest"))).1 = QueueAlg.MostMessages :=
  ⟨by decide, problemSetup_queueAlg.2.2.2.2.2.2.2.2.2.2.2.2.2.2.2 "Fastest" (by decide)⟩

/-! ### The calls of `runTask` -/

theorem runTask_execute_core (e : RunTaskEnv) (t : DetailedTask) (event : CallBackEvent) :
    (runTask.execute e t event).filter RunTaskStep.core = [RunTaskStep.doit event] := by
  unfold runTask.execute
  split_ifs <;> simp [RunTaskStep.core]

theorem runTask_finish_core (c : Config) (e : RunTaskEnv) :
    (runTask.finish c e).filter RunTaskStep.core =
      (if c.usingMPI = true then [RunTaskStep.postMPISends] else []) ++ [RunTaskStep.done] := by
  unfold runTask.finish
  split_ifs <;> simp [RunTaskStep.core]

theorem runTask_core (c : Config) (e : RunTaskEnv) (t : DetailedTask) (event : CallBackEvent) :
    (runTask c e t event).filter RunTaskStep.core =
      (if event = CallBackEvent.CPU ∨ event = CallBackEvent.GPU then [RunTaskStep.doit event]
        else []) ++
      (if event = CallBackEvent.CPU ∨ event = CallBackEvent.postGPU then
        (if c.usingMPI = true then [RunTaskStep.postMPISends] else []) ++ [RunTaskStep.done]
        else []) := by
  have h0 : (if e.waitoutActive then [RunTaskStep.recordWaitTime] else []).filter
      RunTaskStep.core = [] := by
    split_ifs <;> simp [RunTaskStep.core]
  unfold runTask
  rw [List.filter_append, List.filter_append, h0]
  cases event <;> simp [runTask_execute_core, runTask_finish_core]

theorem mem_filter_core (x : RunTaskStep) (l : List RunTaskStep) (hx : x.core = true) :
    x ∈ l ↔ x ∈ l.filter RunTaskStep.core := by
  simp [List.mem_filter, hx]

/-- Claim C20, as the code has it: `runTask` runs the task body (`doit`) if and
only if the event is `CPU` or `GPU`, calls `done` if and only if the event is
`CPU` or `postGPU`, and posts the sends if and only if the event is `CPU` or
`postGPU` and MPI is in use; the order is body, sends, `done`. So a `GPU` call
followed by a `postGPU` call runs the body once, posts the sends (under MPI)
once and calls `done` once, in this order, as a single `CPU` call does. -/
theorem runTask_body_sends_done (c : Config) (e : RunTaskEnv) (t : DetailedTask)
    (event : CallBackEvent) :
    ((∃ ev, RunTaskStep.doit ev ∈ runTask c e t event) ↔
      (event = CallBackEvent.CPU ∨ event = CallBackEvent.GPU)) ∧
    (RunTaskStep.done ∈ runTask c e t event ↔
      (event = CallBackEvent.CPU ∨ event = CallBackEvent.postGPU)) ∧
    (RunTaskStep.postMPISends ∈ runTask c e t event ↔
      ((event = CallBackEvent.CPU ∨ event = CallBackEvent.postGPU) ∧ c.usingMPI = true)) ∧
    (runTask c e t event).filter RunTaskStep.core =
      (if event = CallBackEvent.CPU ∨ event = CallBackEvent.GPU then [RunTaskStep.doit event]
        else []) ++
      (if event = CallBackEvent.CPU ∨ event = CallBackEvent.postGPU then
        (if c.usingMPI = true then [RunTaskStep.postMPISends] else []) ++ [RunTaskStep.done]
        else []) ∧
    (runTask c e t CallBackEvent.GPU ++ runTask c e t CallBackEvent.postGPU).filter
        RunTaskStep.core =
      [RunTaskStep.doit CallBackEvent.GPU] ++
        (if c.usingMPI = true then [RunTaskStep.postMPISends] else []) ++ [RunTaskStep.done] ∧
    (runTask c e t CallBackEvent.CPU).filter RunTaskStep.core =
      [RunTaskStep.doit CallBackEvent.CPU] ++
        (if c.usingMPI = true then [RunTaskStep.postMPISends] else []) ++ [RunTaskStep.done] := by
  refine ⟨?_, ?_, ?_, runTask_core c e t event, ?_, ?_⟩
  · constructor
    · rintro ⟨ev, h⟩
      rw [mem_filter_core (RunTaskStep.doit ev) _ rfl, runTask_core] at h
      cases event <;> simp at h ⊢
    · intro h
      refine ⟨event, ?_⟩
      rw [mem_filter_core (RunTaskStep.doit event) _ rfl, runTask_core]
      rcases h with h | h <;> subst h <;> simp
  · rw [mem_filter_core RunTaskStep.done _ rfl, runTask_core]
    cases event <;> simp
  · rw [mem_filter_core RunTaskStep.postMPISends _ rfl, runTask_core]
    cases event <;> simp
  · rw [List.filter_append, runTask_core, runTask_core]
    simp
  · rw [runTask_core]
    simp

/-- An instance of `runTask_body_sends_done`: under MPI a `CPU` call runs the
body, posts the sends and calls `done`, in this order. -/
theorem runTask_body_sends_done_witness :
    (runTask Config.hostOnly RunTaskEnv.quiet (plainTask 0 0) CallBackEvent.CPU).filter
        RunTaskStep.core =
      [RunTaskStep.doit CallBackEvent.CPU, RunTaskStep.postMPISends, RunTaskStep.done] :=
  (runTask_body_sends_done Config.hostOnly RunTaskEnv.quiet (plainTask 0 0)
    CallBackEvent.CPU).2.2.2.2.2

/-- Claim C20 fails as stated: in a run without MPI a `CPU` call of `runTask`
runs the body and calls `done` but posts no sends. -/
theorem runTask_sends_counterexample :
    runTask Config.serial RunTaskEnv.quiet (plainTask 0 0) CallBackEvent.CPU =
      [RunTaskStep.doit CallBackEvent.CPU, RunTaskStep.addContribution, RunTaskStep.done] ∧
    RunTaskStep.postMPISends ∉
      runTask Config.serial RunTaskEnv.quiet (plainTask 0 0) CallBackEvent.CPU := by
  decide

/-! ### The size of a task's device-side table -/

theorem mem_createTaskGpuDW (sz : GpuDWSizes) (info : TaskGpuInfo) (device : Nat) (dw : WhichDW)
    (tbl : TaskGpuDW) :
    tbl ∈ createTaskGpuDW sz info device dw ↔
      (numItemsInDW info device dw > 0 ∧
        tbl = { device := device, dw := dw,
                objectSizeInBytes := objectSizeInBytes sz (numItemsInDW info device dw),
                numItems := numItemsInDW info device dw }) := by
  unfold createTaskGpuDW
  split_ifs with h <;> simp [h]

theorem mem_createTaskGpuDWs (sz : GpuDWSizes) (info : TaskGpuInfo) (tbl : TaskGpuDW) :
    tbl ∈ createTaskGpuDWs sz info ↔
      (tbl.device ∈ info.deviceNums ∧ numItemsInDW info tbl.device tbl.dw > 0 ∧
        tbl.numItems = numItemsInDW info tbl.device tbl.dw ∧
        tbl.objectSizeInBytes = objectSizeInBytes sz (numItemsInDW info tbl.device tbl.dw)) := by
  unfold createTaskGpuDWs
  simp only [List.mem_flatMap, List.mem_append, mem_createTaskGpuDW]
  constructor
  · rintro ⟨device, hd, ⟨h1, rfl⟩ | ⟨h1, rfl⟩⟩
    · exact ⟨hd, h1, rfl, rfl⟩
    · exact ⟨hd, h1, rfl, rfl⟩
  · rintro ⟨hd, h1, h2, h3⟩
    refine ⟨tbl.device, hd, ?_⟩
    obtain ⟨device, dw, size, n⟩ := tbl
    simp only at h1 h2 h3 ⊢
    subst h2 h3
    cases dw
    · exact Or.inl ⟨h1, rfl⟩
    · exact Or.inr ⟨h1, rfl⟩

/-- Claim C16: for every device of the task and both data warehouses,
`createTaskGpuDWs` makes a table exactly when the item count `n` is positive,
where `n` is the number of task variables plus the number of ghost-cell copies
(as long as the sum fits the `unsigned int` it is stored in); the table is
initialised with item count `n` and its byte count is
`sizeof(GPUDataWarehouse) - sizeof(dataItem) * MAX_VARDB_ITEMS + sizeof(dataItem) * n`
(as long as the object holds its `MAX_VARDB_ITEMS` items and the result fits
`size_t`). -/
theorem createTaskGpuDWs_sized (sz : GpuDWSizes) (info : TaskGpuInfo) :
    (∀ tbl ∈ createTaskGpuDWs sz info,
      tbl.device ∈ info.deviceNums ∧ tbl.numItems > 0 ∧
      tbl.numItems = numItemsInDW info tbl.device tbl.dw ∧
      tbl.objectSizeInBytes = objectSizeInBytes sz tbl.numItems) ∧
    (∀ device ∈ info.deviceNums, ∀ dw, numItemsInDW info device dw > 0 →
      ({ device := device, dw := dw,
         objectSizeInBytes := objectSizeInBytes sz (numItemsInDW info device dw),
         numItems := numItemsInDW info device dw } : TaskGpuDW) ∈ createTaskGpuDWs sz info) ∧
    (∀ device dw, numItemsInDW info device dw = 0 →
      ∀ tbl ∈ createTaskGpuDWs sz info, ¬ (tbl.device = device ∧ tbl.dw = dw)) ∧
    (∀ device dw,
      info.getTotalVars device dw + info.getNumGhostCellCopies device dw < 2 ^ 32 →
      numItemsInDW info device dw
        = info.getTotalVars device dw + info.getNumGhostCellCopies device dw) ∧
    (∀ n, sz.sizeofDataItem * sz.MAX_VARDB_ITEMS ≤ sz.sizeofGPUDataWarehouse →
      sz.sizeofGPUDataWarehouse - sz.sizeofDataItem * sz.MAX_VARDB_ITEMS + sz.sizeofDataItem * n
        < 2 ^ 64 →
      objectSizeInBytes sz n
        = sz.sizeofGPUDataWarehouse - sz.sizeofDataItem * sz.MAX_VARDB_ITEMS
          + sz.sizeofDataItem * n) := by
  refine ⟨?_, ?_, ?_, ?_, ?_⟩
  · intro tbl h
    obtain ⟨h1, h2, h3, h4⟩ := (mem_createTaskGpuDWs sz info tbl).mp h
    exact ⟨h1, by omega, h3, by rw [h4, h3]⟩
  · intro device hd dw h
    exact (mem_createTaskGpuDWs sz info _).mpr ⟨hd, h, rfl, rfl⟩
  · intro device dw h0 tbl h ⟨e1, e2⟩
    obtain ⟨_, h2, _, _⟩ := (mem_createTaskGpuDWs sz info tbl).mp h
    rw [e1, e2] at h2
    omega
  · intro device dw h
    unfold numItemsInDW
    exact Nat.mod_eq_of_lt h
  · intro n h1 h2
    unfold objectSizeInBytes
    have e : ((sz.sizeofGPUDataWarehouse : Int) -
        (sz.sizeofDataItem : Int) * (sz.MAX_VARDB_ITEMS : Int) +
        (sz.sizeofDataItem : Int) * (n : Int))
        = ((sz.sizeofGPUDataWarehouse - sz.sizeofDataItem * sz.MAX_VARDB_ITEMS
          + sz.sizeofDataItem * n : Nat) : Int) := by
      push_cast [Nat.cast_sub h1]
      ring
    rw [e]
    have h3 : (((sz.sizeofGPUDataWarehouse - sz.sizeofDataItem * sz.MAX_VARDB_ITEMS
          + sz.sizeofDataItem * n : Nat) : Int)) % (2 : Int) ^ 64
        = ((sz.sizeofGPUDataWarehouse - sz.sizeofDataItem * sz.MAX_VARDB_ITEMS
          + sz.sizeofDataItem * n : Nat) : Int) := by
      apply Int.emod_eq_of_lt
      · exact Int.natCast_nonneg _
      · exact_mod_cast h2
    rw [h3]
    exact Int.toNat_natCast _

/-- An instance of `createTaskGpuDWs_sized`: with 3 task variables and 2
ghost-cell copies in the new data warehouse and nothing in the old one, the one
table made is that of the new data warehouse, with 5 items and
1000 - 100 * 9 + 100 * 5 = 600 bytes. -/
theorem createTaskGpuDWs_sized_witness :
    createTaskGpuDWs GpuDWSizes.small TaskGpuInfo.small
      = [{ device := 0, dw := WhichDW.NewDW, objectSizeInBytes := 600, numItems := 5 }] ∧
    numItemsInDW TaskGpuInfo.small 0 WhichDW.NewDW = 3 + 2 ∧
    objectSizeInBytes GpuDWSizes.small 5 = 1000 - 100 * 9 + 100 * 5 :=
  ⟨by decide,
    (createTaskGpuDWs_sized GpuDWSizes.small TaskGpuInfo.small).2.2.2.1 0 WhichDW.NewDW
      (by decide),
    (createTaskGpuDWs_sized GpuDWSizes.small TaskGpuInfo.small).2.2.2.2 5 (by decide)
      (by decide)⟩

/-! ### The stream pool -/

/-- What `getCudaStreamFromPool` does: with an idle stream on the device it
hands out the oldest one and removes it from the pool, creating nothing; with
none it creates a stream and leaves the pool as it is. The pools of the other
devices are not touched. -/
theorem getCudaStreamFromPool_spec (pool : StreamPool) (device : Nat) :
    (∀ stream rest, pool.idleStreams device = stream :: rest →
      (getCudaStreamFromPool pool device).1 = stream ∧
      (getCudaStreamFromPool pool device).2.idleStreams device = rest ∧
      (getCudaStreamFromPool pool device).2.created = pool.created) ∧
    ((getCudaStreamFromPool pool device).2.created ≠ pool.created →
      pool.idleStreams device = []) ∧
    (∀ d, d ≠ device → (getCudaStreamFromPool pool device).2.idleStreams d = pool.idleStreams d) := by
  unfold getCudaStreamFromPool
  refine ⟨?_, ?_, ?_⟩
  · intro stream rest h
    simp [h]
  · intro h
    cases hq : pool.idleStreams device with
    | nil => rfl
    | cons x xs => simp [hq] at h
  · intro d hd
    cases hq : pool.idleStreams device with
    | nil => simp
    | cons x xs => simp [hd]

/-- Claim C17 at a task with streams on two devices: `reclaimCudaStreamsIntoPool`
puts the stream of device 0 back into the pool and clears the task's streams;
the stream of device 1 is then no longer found and does not come back to the
pool of device 1, which stays empty. With one device the stream comes back. -/
theorem reclaimCudaStreamsIntoPool_two_devices :
    (reclaimCudaStreamsIntoPool StreamPool.drained TaskStreams.onTwoDevices).1.idleStreams 0
      = [0] ∧
    (reclaimCudaStreamsIntoPool StreamPool.drained TaskStreams.onTwoDevices).1.idleStreams 1
      = [] ∧
    (reclaimCudaStreamsIntoPool StreamPool.drained TaskStreams.onTwoDevices).2.d_cudaStreams
      = [] ∧
    (reclaimCudaStreamsIntoPool StreamPool.drained TaskStreams.onOneDevice).1.idleStreams 0
      = [0] ∧
    (reclaimCudaStreamsIntoPool StreamPool.drained TaskStreams.onOneDevice).2.d_cudaStreams
      = [] := by
  decide

/-! ### The set-up of the radiation model -/

theorem radiationPropertiesModel_ne (p : RadiationSpec) (m : PropertyModel) :
    radiationPropertiesModel p m ≠ (SetupOutcome.ProblemSetupException
      "Error: <radiation_properties> for DO-radiation node not found.") := by
  unfold radiationPropertiesModel
  intro h
  split at h
  · exact absurd h (by decide)
  · split at h
    · exact absurd h (by simp)
    · split_ifs at h
      · exact absurd h (by decide)
      all_goals
        split at h
        · exact absurd h (by simp)
        · exact absurd h (by simp)

theorem modelLoop_ne (p : RadiationSpec) (models : List PropertyModel) :
    ∀ modelName, modelLoop p modelName models ≠ (SetupOutcome.ProblemSetupException
      "Error: <radiation_properties> for DO-radiation node not found.") := by
  induction models with
  | nil => intro modelName; simp [modelLoop]
  | cons m later ih =>
    intro modelName
    unfold modelLoop
    split_ifs with h1 h2
    · exact radiationPropertiesModel_ne p m
    · simp at h2
    · exact ih _

/-- Claim C11 on the code: no input makes `problemSetup` throw the
`ProblemSetupException` with the message "<radiation_properties> for
DO-radiation node not found", because the `throw` stands inside the loop over
the models under the test `db_model == 0`, which the loop condition excludes.
With a `<PropertyModels>` block that has no model of type
`radiation_properties` the loop ends, `_nQn_part` keeps its value and the
set-up goes on. A first model of type `radiation_properties` without
`<calculator>` does make `problemSetup` throw. -/
theorem problemSetup_radiation_properties_missing :
    (∀ p, DORadiationModel.problemSetup p ≠ (SetupOutcome.ProblemSetupException
      "Error: <radiation_properties> for DO-radiation node not found.")) ∧
    DORadiationModel.problemSetup noRadiationProperties =
      SetupOutcome.ok
        { _zeroInitialGuess := true, _usePreviousIntensity := false, _scatteringOn := false
          _nQn_part := 0, _radiateAtGasTemp := true, _abskp_name_vector := []
          _temperature_name_vector := [] } ∧
    DORadiationModel.problemSetup { noRadiationProperties with models := [] } =
      DORadiationModel.problemSetup noRadiationProperties ∧
    DORadiationModel.problemSetup noCalculator =
      (SetupOutcome.ProblemSetupException
        "Error: <calculator> for DO-radiation node not found.") := by
  refine ⟨?_, by decide, by decide, by decide⟩
  intro p h
  unfold DORadiationModel.problemSetup at h
  simp only at h
  split_ifs at h with h1
  · exact absurd h (by decide)
  · split at h
    · rename_i message he
      simp only [SetupOutcome.ProblemSetupException.injEq] at h
      rw [h] at he
      exact modelLoop_ne p p.models "" he
    · exact absurd h (by simp)
    · split_ifs at h
      · exact absurd h (by decide)

/-! ### The size check before a device-to-host copy -/

theorem hostAlloc_some (v : D2HGridVar) (how : HostAlloc) (h : v.hostAlloc = some how) :
    v.fits v.firstExtents = true ∨ v.fits (v.computeExtents GhostType.None 0) = true ∨
      v.fits v.findCellIndexRange = true := by
  unfold D2HGridVar.hostAlloc at h
  split_ifs at h with h1 h2 h3 h4
  · exact Or.inl h1
  · exact Or.inl h1
  · exact Or.inr (Or.inl h3)
  · exact Or.inr (Or.inr h4)

theorem gridVar_copy (v : D2HGridVar) (bytes : Nat)
    (h : D2HStep.cudaMemcpyAsync bytes ∈ (initiateD2H.gridVar v).1) :
    ∃ how, v.hostAlloc = some how := by
  unfold initiateD2H.gridVar at h
  cases hq : v.hostAlloc with
  | none => simp [hq] at h
  | some how => exact ⟨how, rfl⟩

/-- Claim C12: `initiateD2H` issues the copy of a grid variable only when the
offset and size of the device array equal the host extents computed with the
recorded ghost type and number of ghost cells, or the extents without ghost
cells, or the level's whole cell index range; the tests are made in this order
(with `SHRT_MAX` recorded ghost cells the first test is made against the
level's range), the host variable is obtained the way of the first test that
succeeds, and when none of the three matches it throws `InternalError` and
makes no call at all. -/
theorem initiateD2H_size_check (v : D2HGridVar) :
    (∀ bytes, D2HStep.cudaMemcpyAsync bytes ∈ (initiateD2H.gridVar v).1 →
      v.fits (v.computeExtents v.gtype v.numGhostCells) = true ∨
      v.fits (v.computeExtents GhostType.None 0) = true ∨
      v.fits v.findCellIndexRange = true) ∧
    (v.fits (v.computeExtents v.gtype v.numGhostCells) = false →
      v.fits (v.computeExtents GhostType.None 0) = false →
      v.fits v.findCellIndexRange = false →
      initiateD2H.gridVar v = ([], D2HEnd.InternalError
        "UnifiedScheduler::initiateD2H() - Device and host sizes didn't match.")) ∧
    (v.numGhostCells ≠ SHRT_MAX → v.fits (v.computeExtents v.gtype v.numGhostCells) = true →
      v.hostAlloc = some (HostAlloc.allocateAndPut v.gtype v.numGhostCells)) ∧
    (v.fits v.firstExtents = false → v.fits (v.computeExtents GhostType.None 0) = true →
      v.hostAlloc = some (HostAlloc.allocateAndPut GhostType.None 0)) ∧
    (v.fits v.firstExtents = false → v.fits (v.computeExtents GhostType.None 0) = false →
      v.fits v.findCellIndexRange = true →
      v.hostAlloc = some (HostAlloc.getRegion v.findCellIndexRange.1 v.findCellIndexRange.2)) ∧
    (∀ how, D2HStep.alloc how ∈ (initiateD2H.gridVar v).1 → v.hostAlloc = some how) := by
  refine ⟨?_, ?_, ?_, ?_, ?_, ?_⟩
  · intro bytes h
    obtain ⟨how, hq⟩ := gridVar_copy v bytes h
    rcases hostAlloc_some v how hq with h1 | h1 | h1
    · unfold D2HGridVar.firstExtents at h1
      split_ifs at h1
      · exact Or.inr (Or.inr h1)
      · exact Or.inl h1
    · exact Or.inr (Or.inl h1)
    · exact Or.inr (Or.inr h1)
  · intro h1 h2 h3
    have hf : v.fits v.firstExtents = false := by
      unfold D2HGridVar.firstExtents
      split_ifs
      · exact h3
      · exact h1
    have hq : v.hostAlloc = none := by
      unfold D2HGridVar.hostAlloc
      simp [hf, h2, h3]
    unfold initiateD2H.gridVar
    simp [hq]
  · intro hn h1
    have hf : v.firstExtents = v.computeExtents v.gtype v.numGhostCells := by
      unfold D2HGridVar.firstExtents
      simp [hn]
    unfold D2HGridVar.hostAlloc
    simp [hf, h1, hn]
  · intro h1 h2
    unfold D2HGridVar.hostAlloc
    simp [h1, h2]
  · intro h1 h2 h3
    unfold D2HGridVar.hostAlloc
    simp [h1, h2, h3]
  · intro how h
    unfold initiateD2H.gridVar at h
    cases hq : v.hostAlloc with
    | none => simp [hq] at h
    | some how2 =>
      simp only [hq] at h
      split_ifs at h <;> simp at h <;> simp [h]

/-- An instance of `initiateD2H_size_check`: a device array of 5 x 5 x 5 cells at
offset (0, 0, 0) fits neither the patch with one layer of ghost cells (6 x 6 x 6
at (-1, -1, -1)) nor the patch without ghost cells (4 x 4 x 4) nor the level
(8 x 8 x 8): `InternalError`, and no call is made. -/
theorem initiateD2H_size_check_witness :
    initiateD2H.gridVar (cubeVar { x := 0, y := 0, z := 0 } { x := 5, y := 5, z := 5 })
      = ([], D2HEnd.InternalError
        "UnifiedScheduler::initiateD2H() - Device and host sizes didn't match.") :=
  (initiateD2H_size_check (cubeVar { x := 0, y := 0, z := 0 } { x := 5, y := 5, z := 5 })).2.1
    (by decide) (by decide) (by decide)

/-! ### The order in which the device queues are served -/

/-- Claim C14, as the code has it: a selection pass that gets as far as the
device queues (no sync task eligible, both ready queues empty) serves the
queue of the earliest pipeline stage that has a task with finished streams at
its head: verify-transfer, then finalize-device-preparation, then
initially-ready (device), then finalize-host-preparation, then initially-ready
(host), and the completion-pending queue last. The task taken from the
completion-pending queue is marked consumed; it is taken only when none of the
five other queues has a finished task at its head. -/
theorem devicePass_earliest_first (c : Config) (s : UnifiedScheduler) (l : Locals)
    (hs : syncTaskReady s = none) (he : s.dts.externalReady = [])
    (hi : s.dts.internalReady = []) :
    (∀ t rest, deviceHead c s s.dts.verifyDataTransferCompletion = some (t, rest) →
      selectionPass c s l =
        ({ s with dts := { s.dts with verifyDataTransferCompletion := rest } },
          { l with readyTask := some t, gpuVerifyDataTransferCompletion := true,
                   havework := true }, Flow.leave)) ∧
    (∀ t rest, deviceHead c s s.dts.verifyDataTransferCompletion = none →
      deviceHead c s s.dts.finalizeDevicePreparation = some (t, rest) →
      selectionPass c s l =
        ({ s with dts := { s.dts with finalizeDevicePreparation := rest } },
          { l with readyTask := some t, gpuFinalizeDevicePreparation := true,
                   havework := true }, Flow.leave)) ∧
    (∀ t rest, deviceHead c s s.dts.verifyDataTransferCompletion = none →
      deviceHead c s s.dts.finalizeDevicePreparation = none →
      deviceHead c s s.dts.initiallyReadyDevice = some (t, rest) →
      selectionPass c s l =
        ({ s with dts := { s.dts with initiallyReadyDevice := rest } },
          { l with readyTask := some t, gpuRunReady := true, havework := true },
          Flow.leave)) ∧
    (∀ t rest, deviceHead c s s.dts.verifyDataTransferCompletion = none →
      deviceHead c s s.dts.finalizeDevicePreparation = none →
      deviceHead c s s.dts.initiallyReadyDevice = none →
      deviceHead c s s.dts.finalizeHostPreparation = some (t, rest) →
      selectionPass c s l =
        ({ s with dts := { s.dts with finalizeHostPreparation := rest } },
          { l with readyTask := some t, cpuFinalizeHostPreparation := true,
                   havework := true }, Flow.leave)) ∧
    (∀ t rest, deviceHead c s s.dts.verifyDataTransferCompletion = none →
      deviceHead c s s.dts.finalizeDevicePreparation = none →
      deviceHead c s s.dts.initiallyReadyDevice = none →
      deviceHead c s s.dts.finalizeHostPreparation = none →
      deviceHead c s s.dts.initiallyReadyHost = some (t, rest) →
      selectionPass c s l =
        (markTaskConsumed { s with dts := { s.dts with initiallyReadyHost := rest } } t,
          { l with readyTask := some t, cpuRunReady := true, havework := true },
          Flow.leave)) ∧
    (∀ t rest, deviceHead c s s.dts.verifyDataTransferCompletion = none →
      deviceHead c s s.dts.finalizeDevicePreparation = none →
      deviceHead c s s.dts.initiallyReadyDevice = none →
      deviceHead c s s.dts.finalizeHostPreparation = none →
      deviceHead c s s.dts.initiallyReadyHost = none →
      deviceHead c s s.dts.completionPendingDevice = some (t, rest) →
      selectionPass c s l =
        (markTaskConsumed { s with dts := { s.dts with completionPendingDevice := rest } } t,
          { l with readyTask := some t, havework := true, gpuPending := true },
          Flow.leave)) ∧
    ((selectionPass c s l).2.1.gpuPending = true → l.gpuPending = false →
      deviceHead c s s.dts.verifyDataTransferCompletion = none ∧
      deviceHead c s s.dts.finalizeDevicePreparation = none ∧
      deviceHead c s s.dts.initiallyReadyDevice = none ∧
      deviceHead c s s.dts.finalizeHostPreparation = none ∧
      deviceHead c s s.dts.initiallyReadyHost = none) := by
  rw [selectionPass_dev c s l hs he hi]
  refine ⟨?_, ?_, ?_, ?_, ?_, ?_, ?_⟩
  · intro t rest h1
    simp [deviceAndRecvStep, h1]
  · intro t rest h1 h2
    simp [deviceAndRecvStep, h1, h2]
  · intro t rest h1 h2 h3
    simp [deviceAndRecvStep, h1, h2, h3]
  · intro t rest h1 h2 h3 h4
    simp [deviceAndRecvStep, h1, h2, h3, h4]
  · intro t rest h1 h2 h3 h4 h5
    simp [deviceAndRecvStep, h1, h2, h3, h4, h5]
  · intro t rest h1 h2 h3 h4 h5 h6
    simp [deviceAndRecvStep, h1, h2, h3, h4, h5, h6]
  · intro h hl
    unfold deviceAndRecvStep at h
    cases h1 : deviceHead c s s.dts.verifyDataTransferCompletion with
    | some p => simp [h1, hl] at h
    | none =>
    cases h2 : deviceHead c s s.dts.finalizeDevicePreparation with
    | some p => simp [h1, h2, hl] at h
    | none =>
    cases h3 : deviceHead c s s.dts.initiallyReadyDevice with
    | some p => simp [h1, h2, h3, hl] at h
    | none =>
    cases h4 : deviceHead c s s.dts.finalizeHostPreparation with
    | some p => simp [h1, h2, h3, h4, hl] at h
    | none =>
    cases h5 : deviceHead c s s.dts.initiallyReadyHost with
    | some p => simp [h1, h2, h3, h4, h5, hl] at h
    | none => exact ⟨rfl, rfl, rfl, rfl, rfl⟩

/-- An instance of `devicePass_earliest_first`: with finished tasks at the
heads of the verify-transfer and the completion-pending queue, the pass takes
the task of the verify-transfer queue. -/
theorem devicePass_earliest_first_witness :
    (selectionPass Config.withDevice laterStageWaits Locals.fresh).2.1.readyTask
      = some (deviceTask 2 0) :=
  congrArg (fun r => r.2.1.readyTask)
    ((devicePass_earliest_first Config.withDevice laterStageWaits Locals.fresh (by decide)
      (by decide) (by decide)).1 (deviceTask 2 0) [] (by decide))

/-- Claim C14 fails as stated: task 1 waits in the completion-pending queue and
task 2 in the verify-transfer queue, both with their streams done. The pass
takes task 2, of the earlier stage; task 1 stays in the completion-pending
queue and nothing is marked consumed. -/
theorem devicePass_counterexample :
    deviceHead Config.withDevice laterStageWaits laterStageWaits.dts.completionPendingDevice
      = some (deviceTask 1 0, []) ∧
    deviceHead Config.withDevice laterStageWaits
      laterStageWaits.dts.verifyDataTransferCompletion = some (deviceTask 2 0, []) ∧
    (selectionPass Config.withDevice laterStageWaits Locals.fresh).2.1.readyTask
      = some (deviceTask 2 0) ∧
    (selectionPass Config.withDevice laterStageWaits Locals.fresh).2.1.gpuPending = false ∧
    (selectionPass Config.withDevice laterStageWaits Locals.fresh).1.dts.completionPendingDevice
      = [deviceTask 1 0] ∧
    (selectionPass Config.withDevice laterStageWaits Locals.fresh).1.consumed = [] := by
  decide

/-! ### Device tasks never enter the host side of the pipeline -/

theorem mem_enqueue (before : DetailedTask → DetailedTask → Bool) (t x : DetailedTask) :
    ∀ q : List DetailedTask, x ∈ enqueue before t q ↔ x = t ∨ x ∈ q := by
  intro q
  induction q with
  | nil => simp [enqueue]
  | cons y ys ih =>
    unfold enqueue
    by_cases hb : before t y = true
    · simp [hb]
    · simp only [hb, if_false, List.mem_cons, ih, Bool.false_eq_true]
      tauto

theorem readyTaskPart_host (c : Config) (a : Answers) (l : Locals) (t : DetailedTask)
    (h : (readyTaskPart c a l t).2 = some DeviceQueue.finalizeHostPreparation ∨
      (readyTaskPart c a l t).2 = some DeviceQueue.initiallyReadyHost) :
    l.cpuInitReady = true ∨ l.cpuFinalizeHostPreparation = true := by
  by_contra hn
  simp only [not_or, Bool.not_eq_true] at hn
  obtain ⟨f1, f2⟩ := hn
  simp only [readyTaskPart, f1, f2, Bool.false_eq_true, if_false] at h
  rcases h with h | h <;> split_ifs at h <;> simp at h

theorem selectionPass_hostSide (c : Config) (s : UnifiedScheduler) (l : Locals)
    (hl : l.stage = false)
    (hq : ∀ t ∈ s.dts.finalizeHostPreparation ++ s.dts.initiallyReadyHost,
      t.usesDevice = false) :
    (∀ t ∈ (selectionPass c s l).1.dts.finalizeHostPreparation ++
        (selectionPass c s l).1.dts.initiallyReadyHost, t.usesDevice = false) ∧
    (∀ t, (selectionPass c s l).2.1.readyTask = some t →
      ((selectionPass c s l).2.1.cpuInitReady = true ∨
        (selectionPass c s l).2.1.cpuFinalizeHostPreparation = true) →
      t.usesDevice = false) := by
  obtain ⟨f1, f2, f3, f4, f5, f6⟩ := stage_false l hl
  refine selectionPass_cases c s l (fun r =>
    (∀ t ∈ r.1.dts.finalizeHostPreparation ++ r.1.dts.initiallyReadyHost,
      t.usesDevice = false) ∧
    (∀ t, r.2.1.readyTask = some t →
      (r.2.1.cpuInitReady = true ∨ r.2.1.cpuFinalizeHostPreparation = true) →
      t.usesDevice = false)) ?_ ?_ ?_ ?_
  · intro t _
    simp only [markTaskConsumed_dts]
    refine ⟨hq, ?_⟩
    intro u _ hu
    simp [f5, f6] at hu
  · intro t rest _ _
    unfold externalReadyStep
    repeat' split
    all_goals simp only [markTaskConsumed_dts]
    all_goals refine ⟨hq, ?_⟩
    all_goals intro u hu hf
    all_goals simp [f5, f6] at hu hf
    all_goals simp_all
  · intro t rest _ _ _
    unfold internalReadyStep
    repeat' split
    all_goals try simp only [endOfPass, DetailedTasks.checkExternalDepCount,
      DetailedTasks.markInitiated]
    all_goals (try split_ifs)
    all_goals refine ⟨hq, ?_⟩
    all_goals intro u hu hf
    all_goals simp [f5, f6] at hf
  · intro _ _ _
    unfold deviceAndRecvStep
    repeat' split
    all_goals try simp only [deviceHead_some] at *
    all_goals try simp only [endOfPass, markTaskConsumed_dts]
    all_goals constructor
    all_goals intro u hu
    all_goals simp_all
    all_goals exact hq u (by tauto)

theorem add_hostSide (c : Config) (d : DetailedTasks) (q : DeviceQueue) (t u : DetailedTask)
    (hu : u ∈ (d.add c q t).finalizeHostPreparation ++ (d.add c q t).initiallyReadyHost) :
    (u = t ∧ (q = DeviceQueue.finalizeHostPreparation ∨ q = DeviceQueue.initiallyReadyHost)) ∨
      u ∈ d.finalizeHostPreparation ++ d.initiallyReadyHost := by
  cases q <;> simp only [DetailedTasks.add, List.mem_append, mem_enqueue] at hu ⊢ <;>
    simp <;> tauto

theorem part2_hostSide (c : Config) (a : Answers) (s : UnifiedScheduler) (l : Locals)
    (hq : ∀ t ∈ s.dts.finalizeHostPreparation ++ s.dts.initiallyReadyHost,
      t.usesDevice = false)
    (hl : ∀ t, l.readyTask = some t →
      (l.cpuInitReady = true ∨ l.cpuFinalizeHostPreparation = true) → t.usesDevice = false) :
    ∀ t ∈ (part2 c a s l).1.dts.finalizeHostPreparation ++
      (part2 c a s l).1.dts.initiallyReadyHost, t.usesDevice = false := by
  unfold part2
  cases hi : l.initTask with
  | some t =>
    simp only [DetailedTasks.checkExternalDepCount, DetailedTasks.markInitiated]
    split_ifs <;> exact hq
  | none =>
    simp only
    cases hr : l.readyTask with
    | some t =>
      simp only
      rcases hp : readyTaskPart c a l t with ⟨calls, _ | q⟩
      · exact hq
      · simp only
        intro u hu
        rcases add_hostSide c s.dts q t u hu with ⟨rfl, h | h⟩ | h
        · exact hl u hr (readyTaskPart_host c a l u (Or.inl (by rw [hp, h])))
        · exact hl u hr (readyTaskPart_host c a l u (Or.inr (by rw [hp, h])))
        · exact hq u h
    | none =>
      simp only
      by_cases hp : l.pendingMPIMsgs > 0 <;> simp only [hp, if_true, if_false] <;> exact hq

theorem outside_hostSide (c : Config) (s : UnifiedScheduler) (o : Outside) :
    (o.apply c s).dts.finalizeHostPreparation = s.dts.finalizeHostPreparation ∧
    (o.apply c s).dts.initiallyReadyHost = s.dts.initiallyReadyHost := by
  cases o <;> simp only [Outside.apply, DetailedTasks.checkExternalDepCount] <;>
    (try split_ifs) <;> simp

theorem hostSide_threads (threads : List Pc) (tid : Nat) (X : Pc)
    (h : ∀ tid l t, threads.getD tid Pc.returned = Pc.acting l → l.readyTask = some t →
      (l.cpuInitReady = true ∨ l.cpuFinalizeHostPreparation = true) → t.usesDevice = false)
    (hX : ∀ l t, X = Pc.acting l → l.readyTask = some t →
      (l.cpuInitReady = true ∨ l.cpuFinalizeHostPreparation = true) → t.usesDevice = false) :
    ∀ tid1 l t, (threads.set tid X).getD tid1 Pc.returned = Pc.acting l → l.readyTask = some t →
      (l.cpuInitReady = true ∨ l.cpuFinalizeHostPreparation = true) → t.usesDevice = false := by
  intro tid1 l t hpc hr hf
  rw [getD_set] at hpc
  split_ifs at hpc
  · exact hX l t hpc hr hf
  · exact h tid1 l t hpc hr hf

theorem step_hostSide (c : Config) (sys : System) (e : Event)
    (ht : ∀ tid l, sys.threads.getD tid Pc.returned = Pc.selecting l → l.stage = false)
    (h : HostSideOk sys) : HostSideOk (sys.step c e) := by
  obtain ⟨hq, hth⟩ := h
  cases e with
  | enter tid =>
    simp only [System.step]
    cases hpc : sys.threads.getD tid Pc.returned <;> simp only <;> try exact ⟨hq, hth⟩
    split_ifs
    · exact ⟨hq, hostSide_threads _ _ _ hth (by intro l t hx; cases hx)⟩
    · exact ⟨hq, hostSide_threads _ _ _ hth (by intro l t hx; cases hx)⟩
  | lock tid =>
    simp only [System.step]
    cases hpc : sys.threads.getD tid Pc.returned <;> simp only <;> try exact ⟨hq, hth⟩
    split_ifs
    · exact ⟨hq, hth⟩
    · exact ⟨hq, hostSide_threads _ _ _ hth (by intro l t hx; cases hx)⟩
  | pass tid =>
    simp only [System.step]
    cases hpc : sys.threads.getD tid Pc.returned <;> simp only <;> try exact ⟨hq, hth⟩
    rename_i l
    have hp := selectionPass_hostSide c sys.sched l (ht tid l hpc) hq
    rcases hr : selectionPass c sys.sched l with ⟨s1, l1, flow⟩
    rw [hr] at hp
    cases flow <;> simp only
    · refine ⟨hp.1, hostSide_threads _ _ _ hth ?_⟩
      intro l2 t hx
      split_ifs at hx
      cases hx
      exact hp.2 t
    · refine ⟨hp.1, hostSide_threads _ _ _ hth ?_⟩
      intro l2 t hx
      cases hx
      exact hp.2 t
    · exact ⟨hp.1, hostSide_threads _ _ _ hth (by intro l t hx; cases hx)⟩
  | act tid a =>
    simp only [System.step]
    cases hpc : sys.threads.getD tid Pc.returned <;> simp only <;> try exact ⟨hq, hth⟩
    rename_i l
    have hp := part2_hostSide c a sys.sched l hq (hth tid l · hpc)
    rcases hr : part2 c a sys.sched l with ⟨s1, calls, ok⟩
    rw [hr] at hp
    cases ok <;> simp only
    · exact ⟨hp, hostSide_threads _ _ _ hth (by intro l t hx; cases hx)⟩
    · exact ⟨hp, hostSide_threads _ _ _ hth (by intro l t hx; cases hx)⟩
  | outside o =>
    simp only [System.step]
    obtain ⟨e1, e2⟩ := outside_hostSide c sys.sched o
    refine ⟨?_, hth⟩
    show ∀ t ∈ (o.apply c sys.sched).dts.finalizeHostPreparation ++
      (o.apply c sys.sched).dts.initiallyReadyHost, t.usesDevice = false
    rw [e1, e2]
    exact hq

theorem run_hostSide (c : Config) (localTasks : List DetailedTask) (numPhases : Nat) :
    ∀ (es : List Event) (sys : System), Inv localTasks numPhases sys → HostSideOk sys →
      HostSideOk (sys.run c es) := by
  intro es
  induction es with
  | nil => intro sys _ h; exact h
  | cons e es ih =>
    intro sys hI h
    simp only [System.run, List.foldl_cons]
    exact ih _ (step_inv c localTasks numPhases sys e hI) (step_hostSide c sys e hI.2.2.1.1 h)

theorem reach_hostSide (c : Config) (localTasks : List DetailedTask) (numPhases : Nat)
    (d : DetailedTasks) (pending n : Nat) (es : List Event) (hd : d.atStart) :
    HostSideOk (reached c localTasks numPhases d pending n es) := by
  refine run_hostSide c localTasks numPhases es _ (start_inv localTasks numPhases d pending n hd)
    ?_
  constructor
  · intro t ht
    have hq : d.queued = [] := hd.1
    simp only [DetailedTasks.queued, List.append_eq_nil] at hq
    simp only [System.start, execute, List.mem_append] at ht
    rcases ht with ht | ht
    · rw [hq.1.1.2] at ht; cases ht
    · rw [hq.1.2] at ht; cases ht
  · intro tid l t hpc
    simp only [System.start] at hpc
    by_cases hlt : tid < n
    · rw [List.getD_eq_getElem _ _ (by simpa using hlt)] at hpc
      simp at hpc
    · rw [List.getD_eq_default _ _ (by simpa using hlt)] at hpc
      cases hpc

/-! ### The way of a device task through the pipeline -/

theorem pipeline_external (c : Config) (a : Answers) (t : DetailedTask)
    (hc : c.haveCuda = true) (hdev : t.usesDevice = true) (hty : t.type ≠ TaskType.Reduction)
    (s : UnifiedScheduler) (l : Locals) (rest : List DetailedTask) (s2 : UnifiedScheduler)
    (hi : l.initTask = none) (hs : syncTaskReady s = none)
    (hq : s.dts.externalReady = t :: rest) :
    (selectionPass c s l).2.1.readyTask = some t ∧
    (selectionPass c s l).2.1.gpuInitReady = true ∧
    (selectionPass c s l).1.consumed = s.consumed ∧
    (selectionPass c s l).1.dts.queued = s.dts.queued ∧
    part2 c a s2 (selectionPass c s l).2.1 =
      ({ s2 with dts := s2.dts.add c DeviceQueue.verifyDataTransferCompletion t },
        [Call.assignDevicesAndStreams t, Call.initiateH2DCopies t, Call.syncTaskGpuDWs t],
        true) := by
  rw [selectionPass_ext c s l t rest hs hq]
  simp [externalReadyStep, hc, hdev, part2, hi, readyTaskPart, hty, DetailedTasks.queued]

theorem pipeline_verify (c : Config) (a : Answers) (t : DetailedTask)
    (hc : c.haveCuda = true) (hty : t.type ≠ TaskType.Reduction)
    (s : UnifiedScheduler) (l : Locals) (rest : List DetailedTask) (s2 : UnifiedScheduler)
    (hl : l.stage = false) (hi : l.initTask = none) (hs : syncTaskReady s = none)
    (he : s.dts.externalReady = []) (hn : s.dts.internalReady = [])
    (h1 : deviceHead c s s.dts.verifyDataTransferCompletion = some (t, rest)) :
    (selectionPass c s l).2.1.readyTask = some t ∧
    (selectionPass c s l).1.consumed = s.consumed ∧
    (selectionPass c s l).1.dts.verifyDataTransferCompletion = rest ∧
    part2 c a s2 (selectionPass c s l).2.1 =
      (if a.ghostCellsProcessingReady = false then
        ({ s2 with dts := s2.dts.add c DeviceQueue.verifyDataTransferCompletion t },
          [Call.markDeviceRequiresDataAsValid t], true)
      else
        ({ s2 with dts := s2.dts.add c DeviceQueue.finalizeDevicePreparation t },
          [Call.markDeviceRequiresDataAsValid t, Call.performInternalGhostCellCopies t],
          true)) := by
  obtain ⟨f1, f2, f3, f4, f5, f6⟩ := stage_false l hl
  rw [selectionPass_dev c s l hs he hn]
  cases hg : a.ghostCellsProcessingReady <;>
    simp [deviceAndRecvStep, h1, part2, hi, readyTaskPart, hty, hc, f1, hg]

theorem pipeline_finalize (c : Config) (a : Answers) (t : DetailedTask)
    (hc : c.haveCuda = true) (hty : t.type ≠ TaskType.Reduction)
    (s : UnifiedScheduler) (l : Locals) (rest : List DetailedTask) (s2 : UnifiedScheduler)
    (hl : l.stage = false) (hi : l.initTask = none) (hs : syncTaskReady s = none)
    (he : s.dts.externalReady = []) (hn : s.dts.internalReady = [])
    (h1 : deviceHead c s s.dts.verifyDataTransferCompletion = none)
    (h2 : deviceHead c s s.dts.finalizeDevicePreparation = some (t, rest)) :
    (selectionPass c s l).2.1.readyTask = some t ∧
    (selectionPass c s l).1.consumed = s.consumed ∧
    (selectionPass c s l).1.dts.finalizeDevicePreparation = rest ∧
    part2 c a s2 (selectionPass c s l).2.1 =
      (if a.allGPUVarsProcessingReady = false then
        ({ s2 with dts := s2.dts.add c DeviceQueue.finalizeDevicePreparation t },
          [Call.markDeviceGhostsAsValid t], true)
      else
        ({ s2 with dts := s2.dts.add c DeviceQueue.initiallyReadyDevice t },
          [Call.markDeviceGhostsAsValid t], true)) := by
  obtain ⟨f1, f2, f3, f4, f5, f6⟩ := stage_false l hl
  rw [selectionPass_dev c s l hs he hn]
  cases hg : a.allGPUVarsProcessingReady <;>
    simp [deviceAndRecvStep, h1, h2, part2, hi, readyTaskPart, hty, hc, f1, f2, hg]

theorem pipeline_run (c : Config) (a : Answers) (t : DetailedTask)
    (hc : c.haveCuda = true) (hty : t.type ≠ TaskType.Reduction)
    (s : UnifiedScheduler) (l : Locals) (rest : List DetailedTask) (s2 : UnifiedScheduler)
    (hl : l.stage = false) (hi : l.initTask = none) (hs : syncTaskReady s = none)
    (he : s.dts.externalReady = []) (hn : s.dts.internalReady = [])
    (h1 : deviceHead c s s.dts.verifyDataTransferCompletion = none)
    (h2 : deviceHead c s s.dts.finalizeDevicePreparation = none)
    (h3 : deviceHead c s s.dts.initiallyReadyDevice = some (t, rest)) :
    (selectionPass c s l).2.1.readyTask = some t ∧
    (selectionPass c s l).1.consumed = s.consumed ∧
    (selectionPass c s l).1.dts.initiallyReadyDevice = rest ∧
    part2 c a s2 (selectionPass c s l).2.1 =
      ({ s2 with dts := s2.dts.add c DeviceQueue.completionPendingDevice t },
        [Call.runTask t CallBackEvent.GPU], true) := by
  obtain ⟨f1, f2, f3, f4, f5, f6⟩ := stage_false l hl
  rw [selectionPass_dev c s l hs he hn]
  simp [deviceAndRecvStep, h1, h2, h3, part2, hi, readyTaskPart, hty, hc, f1, f2, f3]

theorem pipeline_pending (c : Config) (a : Answers) (t : DetailedTask)
    (hc : c.haveCuda = true) (hty : t.type ≠ TaskType.Reduction)
    (s : UnifiedScheduler) (l : Locals) (rest : List DetailedTask) (s2 : UnifiedScheduler)
    (hl : l.stage = false) (hi : l.initTask = none) (hs : syncTaskReady s = none)
    (he : s.dts.externalReady = []) (hn : s.dts.internalReady = [])
    (h1 : deviceHead c s s.dts.verifyDataTransferCompletion = none)
    (h2 : deviceHead c s s.dts.finalizeDevicePreparation = none)
    (h3 : deviceHead c s s.dts.initiallyReadyDevice = none)
    (h4 : deviceHead c s s.dts.finalizeHostPreparation = none)
    (h5 : deviceHead c s s.dts.initiallyReadyHost = none)
    (h6 : deviceHead c s s.dts.completionPendingDevice = some (t, rest)) :
    (selectionPass c s l).2.1.readyTask = some t ∧
    (selectionPass c s l).1.consumed = s.consumed ++ [t] ∧
    (selectionPass c s l).1.dts.completionPendingDevice = rest ∧
    part2 c a s2 (selectionPass c s l).2.1 =
      (s2, [Call.markDeviceComputesDataAsValid t, Call.deleteTaskGpuDataWarehouses t,
        Call.runTask t CallBackEvent.postGPU, Call.reclaimCudaStreamsIntoPool t], true) := by
  obtain ⟨f1, f2, f3, f4, f5, f6⟩ := stage_false l hl
  rw [selectionPass_dev c s l hs he hn]
  simp [deviceAndRecvStep, h1, h2, h3, h4, h5, h6, part2, hi, readyTaskPart, hty, hc, f1, f2,
    f3, f4]

theorem selectionPass_device_consumed (c : Config) (s : UnifiedScheduler) (l : Locals)
    (t : DetailedTask) (hc : c.haveCuda = true) (hdev : t.usesDevice = true)
    (hk : ¬ t.syncKind) (hs : SyncOk s)
    (hq : ∀ u ∈ s.dts.finalizeHostPreparation ++ s.dts.initiallyReadyHost,
      u.usesDevice = false)
    (hcons : (selectionPass c s l).1.consumed = s.consumed ++ [t]) :
    ∃ rest, deviceHead c s s.dts.completionPendingDevice = some (t, rest) ∧
      (selectionPass c s l).1.dts.completionPendingDevice = rest ∧
      (selectionPass c s l).2.1.readyTask = some t ∧
      (selectionPass c s l).2.1.gpuPending = true := by
  revert hcons
  refine selectionPass_cases c s l (fun r => r.1.consumed = s.consumed ++ [t] →
    ∃ rest, deviceHead c s s.dts.completionPendingDevice = some (t, rest) ∧
      r.1.dts.completionPendingDevice = rest ∧ r.2.1.readyTask = some t ∧
      r.2.1.gpuPending = true) ?_ ?_ ?_ ?_
  · intro u hu h
    exfalso
    simp only [markTaskConsumed_consumed, List.append_cancel_left_eq, List.cons.injEq,
      and_true] at h
    subst h
    exact hk (hs _ _ (syncTaskReady_some s u hu).1).2.1
  · intro u rest _ _ h
    exfalso
    unfold externalReadyStep at h
    simp only [hc, if_true] at h
    split_ifs at h <;>
      simp only [markTaskConsumed_consumed, List.append_cancel_left_eq, List.cons.injEq,
        and_true, List.self_eq_append_right] at h <;> simp_all
  · intro u rest _ _ _ h
    exfalso
    unfold internalReadyStep at h
    simp only [endOfPass] at h
    split_ifs at h <;> simp at h
  · intro _ _ _
    unfold deviceAndRecvStep
    repeat' split
    all_goals try simp only [endOfPass, markTaskConsumed_consumed, List.append_cancel_left_eq,
      List.cons.injEq, and_true, List.self_eq_append_right, markTaskConsumed_dts]
    all_goals intro h
    all_goals try (exfalso; exact absurd h (by simp))
    all_goals try simp only [deviceHead_some] at *
    all_goals subst h
    · exfalso
      have h7 := (‹s.dts.initiallyReadyHost = _ :: _ ∧ _›).1
      rename_i u rest _
      have h8 := hq u (by rw [h7]; simp)
      rw [hdev] at h8
      cases h8
    · exact ⟨_, ‹_›, rfl, rfl⟩

/-- Claim C13: the way of a device task `t` (one that is not a reduction or
MPI task, which are run as sync tasks) through the pipeline in a build with
`HAVE_CUDA`. (1) Taken from the external-ready queue, it is not marked consumed
and Part 2 adds it to the verify-transfer queue. (2) Taken from the
verify-transfer queue, it is added to the same queue again when the ghost
staging is not ready, and to the finalize-device-preparation queue otherwise.
(3) Taken from that queue, it is added to the same queue again or to the
initially-ready queue. (4) Taken from the initially-ready queue, it is run
(`runTask` with `GPU`) and added to the completion-pending queue. (5) Taken
from the completion-pending queue, it is marked consumed, and Part 2 calls
`runTask` with `postGPU`, which calls `done` and does not run the body, and
adds it to no queue. (6) In every run from the state set up by `execute`, a
pass marks `t` consumed only by taking it from the completion-pending queue,
and (7) when the ready queues hand out local tasks only and the external-ready
queue no task twice and no sync task, `t` is marked consumed at most once. -/
theorem device_task_pipeline (c : Config) (a : Answers) (t : DetailedTask)
    (hc : c.haveCuda = true) (hdev : t.usesDevice = true) (hk : ¬ t.syncKind) :
    (∀ s l rest s2, l.initTask = none → syncTaskReady s = none →
      s.dts.externalReady = t :: rest →
      (selectionPass c s l).2.1.readyTask = some t ∧
      (selectionPass c s l).2.1.gpuInitReady = true ∧
      (selectionPass c s l).1.consumed = s.consumed ∧
      (selectionPass c s l).1.dts.queued = s.dts.queued ∧
      part2 c a s2 (selectionPass c s l).2.1 =
        ({ s2 with dts := s2.dts.add c DeviceQueue.verifyDataTransferCompletion t },
          [Call.assignDevicesAndStreams t, Call.initiateH2DCopies t, Call.syncTaskGpuDWs t],
          true)) ∧
    (∀ s l rest s2, l.stage = false → l.initTask = none → syncTaskReady s = none →
      s.dts.externalReady = [] → s.dts.internalReady = [] →
      deviceHead c s s.dts.verifyDataTransferCompletion = some (t, rest) →
      (selectionPass c s l).2.1.readyTask = some t ∧
      (selectionPass c s l).1.consumed = s.consumed ∧
      (selectionPass c s l).1.dts.verifyDataTransferCompletion = rest ∧
      part2 c a s2 (selectionPass c s l).2.1 =
        (if a.ghostCellsProcessingReady = false then
          ({ s2 with dts := s2.dts.add c DeviceQueue.verifyDataTransferCompletion t },
            [Call.markDeviceRequiresDataAsValid t], true)
        else
          ({ s2 with dts := s2.dts.add c DeviceQueue.finalizeDevicePreparation t },
            [Call.markDeviceRequiresDataAsValid t, Call.performInternalGhostCellCopies t],
            true))) ∧
    (∀ s l rest s2, l.stage = false → l.initTask = none → syncTaskReady s = none →
      s.dts.externalReady = [] → s.dts.internalReady = [] →
      deviceHead c s s.dts.verifyDataTransferCompletion = none →
      deviceHead c s s.dts.finalizeDevicePreparation = some (t, rest) →
      (selectionPass c s l).2.1.readyTask = some t ∧
      (selectionPass c s l).1.consumed = s.consumed ∧
      (selectionPass c s l).1.dts.finalizeDevicePreparation = rest ∧
      part2 c a s2 (selectionPass c s l).2.1 =
        (if a.allGPUVarsProcessingReady = false then
          ({ s2 with dts := s2.dts.add c DeviceQueue.finalizeDevicePreparation t },
            [Call.markDeviceGhostsAsValid t], true)
        else
          ({ s2 with dts := s2.dts.add c DeviceQueue.initiallyReadyDevice t },
            [Call.markDeviceGhostsAsValid t], true))) ∧
    (∀ s l rest s2, l.stage = false → l.initTask = none → syncTaskReady s = none →
      s.dts.externalReady = [] → s.dts.internalReady = [] →
      deviceHead c s s.dts.verifyDataTransferCompletion = none →
      deviceHead c s s.dts.finalizeDevicePreparation = none →
      deviceHead c s s.dts.initiallyReadyDevice = some (t, rest) →
      (selectionPass c s l).2.1.readyTask = some t ∧
      (selectionPass c s l).1.consumed = s.consumed ∧
      (selectionPass c s l).1.dts.initiallyReadyDevice = rest ∧
      part2 c a s2 (selectionPass c s l).2.1 =
        ({ s2 with dts := s2.dts.add c DeviceQueue.completionPendingDevice t },
          [Call.runTask t CallBackEvent.GPU], true)) ∧
    (∀ s l rest s2, l.stage = false → l.initTask = none → syncTaskReady s = none →
      s.dts.externalReady = [] → s.dts.internalReady = [] →
      deviceHead c s s.dts.verifyDataTransferCompletion = none →
      deviceHead c s s.dts.finalizeDevicePreparation = none →
      deviceHead c s s.dts.initiallyReadyDevice = none →
      deviceHead c s s.dts.finalizeHostPreparation = none →
      deviceHead c s s.dts.initiallyReadyHost = none →
      deviceHead c s s.dts.completionPendingDevice = some (t, rest) →
      (selectionPass c s l).2.1.readyTask = some t ∧
      (selectionPass c s l).1.consumed = s.consumed ++ [t] ∧
      (selectionPass c s l).1.dts.completionPendingDevice = rest ∧
      part2 c a s2 (selectionPass c s l).2.1 =
        (s2, [Call.markDeviceComputesDataAsValid t, Call.deleteTaskGpuDataWarehouses t,
          Call.runTask t CallBackEvent.postGPU, Call.reclaimCudaStreamsIntoPool t], true)) ∧
    (∀ e : RunTaskEnv,
      (∀ ev, RunTaskStep.doit ev ∉ runTask c e t CallBackEvent.postGPU) ∧
      RunTaskStep.done ∈ runTask c e t CallBackEvent.postGPU ∧
      (∃ ev, RunTaskStep.doit ev ∈ runTask c e t CallBackEvent.GPU) ∧
      RunTaskStep.done ∉ runTask c e t CallBackEvent.GPU) ∧
    (∀ localTasks numPhases d pending n es tid l, d.atStart →
      (reached c localTasks numPhases d pending n es).threads.getD tid Pc.returned
        = Pc.selecting l →
      (selectionPass c (reached c localTasks numPhases d pending n es).sched l).1.consumed
        = (reached c localTasks numPhases d pending n es).sched.consumed ++ [t] →
      ∃ rest,
        deviceHead c (reached c localTasks numPhases d pending n es).sched
          (reached c localTasks numPhases d pending n es).sched.dts.completionPendingDevice
          = some (t, rest) ∧
        (selectionPass c (reached c localTasks numPhases d pending n es).sched
          l).1.dts.completionPendingDevice = rest ∧
        (selectionPass c (reached c localTasks numPhases d pending n es).sched l).2.1.readyTask
          = some t ∧
        (selectionPass c (reached c localTasks numPhases d pending n es).sched l).2.1.gpuPending
          = true) ∧
    (∀ localTasks numPhases d pending n es, d.atStart → localTasks.Nodup →
      HandedOutOnce localTasks (reached c localTasks numPhases d pending n es).sched →
      (reached c localTasks numPhases d pending n es).sched.consumed.count t ≤ 1) := by
  have hty : t.type ≠ TaskType.Reduction := fun h => hk (Or.inl h)
  refine ⟨?_, ?_, ?_, ?_, ?_, ?_, ?_, ?_⟩
  · intro s l rest s2 hi hs hq
    exact pipeline_external c a t hc hdev hty s l rest s2 hi hs hq
  · intro s l rest s2 hl hi hs he hn h1
    exact pipeline_verify c a t hc hty s l rest s2 hl hi hs he hn h1
  · intro s l rest s2 hl hi hs he hn h1 h2
    exact pipeline_finalize c a t hc hty s l rest s2 hl hi hs he hn h1 h2
  · intro s l rest s2 hl hi hs he hn h1 h2 h3
    exact pipeline_run c a t hc hty s l rest s2 hl hi hs he hn h1 h2 h3
  · intro s l rest s2 hl hi hs he hn h1 h2 h3 h4 h5 h6
    exact pipeline_pending c a t hc hty s l rest s2 hl hi hs he hn h1 h2 h3 h4 h5 h6
  · intro e
    refine ⟨?_, ?_, ?_, ?_⟩
    · intro ev
      rw [mem_filter_core (RunTaskStep.doit ev) _ rfl, runTask_core]
      simp
    · rw [mem_filter_core RunTaskStep.done _ rfl, runTask_core]
      simp
    · refine ⟨CallBackEvent.GPU, ?_⟩
      rw [mem_filter_core (RunTaskStep.doit CallBackEvent.GPU) _ rfl, runTask_core]
      simp
    · rw [mem_filter_core RunTaskStep.done _ rfl, runTask_core]
      simp
  · intro localTasks numPhases d pending n es tid l hd hpc hcons
    have hI := reach_inv c localTasks numPhases d pending n es hd
    have hH := reach_hostSide c localTasks numPhases d pending n es hd
    exact selectionPass_device_consumed c _ l t hc hdev hk hI.2.1 hH.1 hcons
  · intro localTasks numPhases d pending n es hd _ ⟨hlocal, honce, hplain⟩
    have hI := reach_inv c localTasks numPhases d pending n es hd
    exact List.nodup_iff_count_le_one.mp
      (consumed_nodup localTasks numPhases _ hI hlocal honce hplain).1 t

/-- An instance of `device_task_pipeline`: one thread has taken a device task
from the external-ready, the verify-transfer, the finalize-device-preparation
and the initially-ready queue in turn; the task now waits in the
completion-pending queue, nothing is consumed yet, and the pass that marks it
consumed takes it from there. -/
theorem device_task_pipeline_witness :
    (reached Config.withDevice [deviceTask 0 0] 1 deviceTaskQueues 0 1
      deviceTaskRun).sched.dts.completionPendingDevice = [deviceTask 0 0] ∧
    (reached Config.withDevice [deviceTask 0 0] 1 deviceTaskQueues 0 1
      deviceTaskRun).sched.consumed = [] ∧
    ∃ rest,
      deviceHead Config.withDevice
        (reached Config.withDevice [deviceTask 0 0] 1 deviceTaskQueues 0 1 deviceTaskRun).sched
        (reached Config.withDevice [deviceTask 0 0] 1 deviceTaskQueues 0 1
          deviceTaskRun).sched.dts.completionPendingDevice = some (deviceTask 0 0, rest) ∧
      (selectionPass Config.withDevice
        (reached Config.withDevice [deviceTask 0 0] 1 deviceTaskQueues 0 1 deviceTaskRun).sched
        Locals.fresh).1.dts.completionPendingDevice = rest ∧
      (selectionPass Config.withDevice
        (reached Config.withDevice [deviceTask 0 0] 1 deviceTaskQueues 0 1 deviceTaskRun).sched
        Locals.fresh).2.1.readyTask = some (deviceTask 0 0) ∧
      (selectionPass Config.withDevice
        (reached Config.withDevice [deviceTask 0 0] 1 deviceTaskQueues 0 1 deviceTaskRun).sched
        Locals.fresh).2.1.gpuPending = true :=
  ⟨by decide, by decide,
    (device_task_pipeline Config.withDevice Answers.yes (deviceTask 0 0) (by decide) (by decide)
      (by decide)).2.2.2.2.2.2.1 [deviceTask 0 0] 1 deviceTaskQueues 0 1 deviceTaskRun 0
      Locals.fresh (by decide) (by decide) (by decide)⟩

/-! ### The claim on the ghost cells of a variable -/

theorem put_apply (g : GPUDataWarehouse) (k k1 : VarKey) (st : Option VarStatus) :
    (g.put k st) k1 = if k1 = k then st else g k1 := rfl

theorem ghostsClaimed_putUnallocated (g : GPUDataWarehouse) (k k1 : VarKey) :
    (g.putUnallocatedIfNotExists k).ghostsClaimed k1 = g.ghostsClaimed k1 := by
  unfold GPUDataWarehouse.putUnallocatedIfNotExists GPUDataWarehouse.ghostsClaimed
  cases h : g k with
  | some st => simp
  | none =>
    simp only [put_apply]
    by_cases hk : k1 = k
    · subst hk; simp [h]
    · simp [hk]

theorem testAndSet_true (g : GPUDataWarehouse) (k : VarKey)
    (h : (g.testAndSetAwaitingGhostDataOnGPU k).1 = true) :
    g.ghostsClaimed k = false ∧
    (g.testAndSetAwaitingGhostDataOnGPU k).2.ghostsClaimed k = true ∧
    ∀ k1, k1 ≠ k → (g.testAndSetAwaitingGhostDataOnGPU k).2 k1 = g k1 := by
  unfold GPUDataWarehouse.testAndSetAwaitingGhostDataOnGPU at h ⊢
  unfold GPUDataWarehouse.ghostsClaimed
  cases hg : g k with
  | none => simp [hg] at h
  | some st =>
    simp only [hg] at h ⊢
    split_ifs at h ⊢ with hc
    simp only [not_or, Bool.not_eq_true] at hc
    refine ⟨by simp [hc.1, hc.2], by simp [put_apply], ?_⟩
    intro k1 hk
    simp [put_apply, hk]

theorem testAndSet_false (g : GPUDataWarehouse) (k : VarKey)
    (h : (g.testAndSetAwaitingGhostDataOnGPU k).1 = false) :
    (g.testAndSetAwaitingGhostDataOnGPU k).2 = g := by
  unfold GPUDataWarehouse.testAndSetAwaitingGhostDataOnGPU at h ⊢
  cases hg : g k with
  | none => rfl
  | some st =>
    simp only [hg] at h ⊢
    split_ifs at h ⊢
    rfl

theorem claimGhostCells_true (g : GPUDataWarehouse) (v : RequiresVar)
    (h : (claimGhostCells g v).1 = true) :
    v.gtype ≠ GhostType.None ∧ v.numGhostCells > 0 ∧
    ((g.putUnallocatedIfNotExists v.key).testAndSetAwaitingGhostDataOnGPU v.key).1 = true ∧
    g.ghostsClaimed v.key = false ∧ (claimGhostCells g v).2.ghostsClaimed v.key = true ∧
    ∀ k, k ≠ v.key → (claimGhostCells g v).2.ghostsClaimed k = g.ghostsClaimed k := by
  unfold claimGhostCells at h ⊢
  split_ifs at h ⊢ with hc
  · obtain ⟨h1, h2, h3⟩ := testAndSet_true _ _ h
    rw [ghostsClaimed_putUnallocated] at h1
    refine ⟨hc.1, hc.2, h, h1, h2, ?_⟩
    intro k hk
    have e := h3 k hk
    unfold GPUDataWarehouse.ghostsClaimed at *
    rw [e]
    exact ghostsClaimed_putUnallocated g v.key k

theorem claimGhostCells_false (g : GPUDataWarehouse) (v : RequiresVar)
    (h : (claimGhostCells g v).1 = false) (k : VarKey) :
    (claimGhostCells g v).2.ghostsClaimed k = g.ghostsClaimed k := by
  unfold claimGhostCells at h ⊢
  split_ifs at h ⊢ with hc
  · rw [testAndSet_false _ _ h]
    exact ghostsClaimed_putUnallocated g v.key k
  · rfl

theorem mem_ghostReadyOf (k : VarKey) :
    ∀ steps : List H2DStep, k ∈ ghostReadyOf steps ↔ H2DStep.addVarToBeGhostReady k ∈ steps := by
  intro steps
  induction steps with
  | nil => simp [ghostReadyOf]
  | cons s rest ih =>
    cases s <;> simp [ghostReadyOf, ih]

theorem ghostReadyOf_requires (g : GPUDataWarehouse) (v : RequiresVar) :
    ghostReadyOf (initiateH2DCopies.requires g v).2.1 = [] ∨
    (ghostReadyOf (initiateH2DCopies.requires g v).2.1 = [v.key] ∧
      (claimGhostCells g v).1 = true ∧ (initiateH2DCopies.requires g v).2.2 = true ∧
      (initiateH2DCopies.requires g v).1 = (claimGhostCells g v).2) := by
  unfold initiateH2DCopies.requires
  simp only
  cases hb : (claimGhostCells g v).1 <;> split_ifs <;> simp_all [ghostReadyOf]

theorem requires_gpudw (g : GPUDataWarehouse) (v : RequiresVar) :
    (initiateH2DCopies.requires g v).2.2 = true →
      (initiateH2DCopies.requires g v).1 = (claimGhostCells g v).2 := by
  unfold initiateH2DCopies.requires
  simp only
  split_ifs <;> simp

theorem ghostsClaimed_setValid (g : GPUDataWarehouse) (k k1 : VarKey)
    (h : g.ghostsClaimed k1 = true) : (g.setValidWithGhostsOnGPU k).ghostsClaimed k1 = true := by
  unfold GPUDataWarehouse.setValidWithGhostsOnGPU
  cases hg : g k with
  | none => exact h
  | some st =>
    simp only
    unfold GPUDataWarehouse.ghostsClaimed at h ⊢
    simp only [put_apply]
    by_cases hk : k1 = k
    · simp [hk]
    · simpa [hk] using h

theorem ghostsClaimed_markValid (ks : List VarKey) (k1 : VarKey) :
    ∀ g : GPUDataWarehouse, g.ghostsClaimed k1 = true →
      (markDeviceGhostsAsValid g ks).ghostsClaimed k1 = true := by
  induction ks with
  | nil => intro g h; exact h
  | cons k rest ih =>
    intro g h
    simp only [markDeviceGhostsAsValid, List.foldl_cons]
    exact ih _ (ghostsClaimed_setValid g k k1 h)

theorem setValid_other (g : GPUDataWarehouse) (k k1 : VarKey) (h : k1 ≠ k) :
    (g.setValidWithGhostsOnGPU k) k1 = g k1 := by
  unfold GPUDataWarehouse.setValidWithGhostsOnGPU
  cases hg : g k with
  | none => rfl
  | some st => simp [put_apply, h]

theorem markValid_only (ks : List VarKey) (k1 : VarKey) (h : k1 ∉ ks) :
    ∀ g : GPUDataWarehouse, (markDeviceGhostsAsValid g ks) k1 = g k1 := by
  induction ks with
  | nil => intro g; rfl
  | cons k rest ih =>
    intro g
    simp only [List.mem_cons, not_or] at h
    simp only [markDeviceGhostsAsValid, List.foldl_cons]
    have e := ih h.2 (g.setValidWithGhostsOnGPU k)
    simp only [markDeviceGhostsAsValid] at e
    rw [e]
    exact setValid_other g k k1 h.1

theorem step_ghostOk (st : GhostState) (e : GhostEvent) (h : GhostOk st) :
    GhostOk (st.step e) := by
  obtain ⟨h1, h2, h3⟩ := h
  cases e with
  | markDeviceGhostsAsValid task =>
    simp only [GhostState.step]
    by_cases hx : st.exited = true
    · simp only [hx, if_true]
      exact ⟨h1, h2, h3⟩
    · simp only [hx, if_false, Bool.false_eq_true]
      have hx3 : st.exited = false := by simpa using hx
      refine ⟨h1, ?_, h3⟩
      intro _ k
      show st.claims.countP (fun p => decide (p.2 = k)) ≤
        if (markDeviceGhostsAsValid st.gpudw (st.varsToBeGhostReady task)).ghostsClaimed k
        then 1 else 0
      have h4 := h2 hx3 k
      by_cases hc : st.gpudw.ghostsClaimed k = true
      · rw [ghostsClaimed_markValid _ k _ hc]
        exact h1 k
      · simp only [hc, if_false, Bool.false_eq_true] at h4
        omega
  | requires task v =>
    simp only [GhostState.step]
    by_cases hx : st.exited = true
    · simp only [hx, if_true]
      exact ⟨h1, h2, h3⟩
    · simp only [hx, if_false, Bool.false_eq_true]
      have hx2 : st.exited = false := by simpa using hx
      cases hb : (claimGhostCells st.gpudw v).1 with
      | false =>
        have hr : ghostReadyOf (initiateH2DCopies.requires st.gpudw v).2.1 = [] := by
          rcases ghostReadyOf_requires st.gpudw v with e | ⟨_, e, _⟩
          · exact e
          · rw [hb] at e; cases e
        simp only [Bool.false_eq_true, if_false, hr, List.append_nil]
        refine ⟨h1, ?_, ?_⟩
        · intro hex k
          simp only [Bool.not_eq_eq_eq_not, Bool.not_false] at hex
          rw [requires_gpudw st.gpudw v hex, claimGhostCells_false st.gpudw v hb k]
          exact h2 hx2 k
        · intro i k
          by_cases hi : i = task
          · simp only [hi, if_true]; rw [← hi]; exact h3 i k
          · simp only [hi, if_false]; exact h3 i k
      | true =>
        obtain ⟨_, _, _, c1, c2, c3⟩ := claimGhostCells_true st.gpudw v hb
        have h0 : st.claims.countP (fun p => decide (p.2 = v.key)) = 0 := by
          have := h2 hx2 v.key
          simp only [c1, if_false, Bool.false_eq_true] at this
          omega
        simp only [if_true]
        refine ⟨?_, ?_, ?_⟩
        · intro k
          simp only [List.countP_append, List.countP_cons, List.countP_nil, zero_add]
          by_cases hk : v.key = k
          · subst hk; simp [h0]
          · simp [hk]; exact h1 k
        · intro hex k
          simp only [Bool.not_eq_eq_eq_not, Bool.not_false] at hex
          rw [requires_gpudw st.gpudw v hex]
          simp only [List.countP_append, List.countP_cons, List.countP_nil, zero_add]
          by_cases hk : v.key = k
          · subst hk; simp [h0, c2]
          · have hk2 : k ≠ v.key := fun e => hk e.symm
            rw [c3 k hk2]
            simp [hk]
            exact h2 hx2 k
        · intro i k
          have h5 := h3 i k
          rcases ghostReadyOf_requires st.gpudw v with e | ⟨e, _⟩
          · rw [e]
            by_cases hi : i = task
            · simp only [hi, if_true, List.append_nil, List.count_append]
              rw [hi] at h5; omega
            · simp only [hi, if_false, List.count_append]
              omega
          · rw [e]
            by_cases hi : i = task
            · subst hi
              simp only [if_true, List.count_append, List.count_cons, List.count_nil, zero_add]
              by_cases hk : v.key = k
              · subst hk; simp; omega
              · have : ¬ ((i, v.key) = (i, k)) := by simp [hk]
                simp [hk, this]; omega
            · simp only [hi, if_false, List.count_append]
              omega

theorem run_ghostOk : ∀ (es : List GhostEvent) (st : GhostState), GhostOk st →
    GhostOk (st.run es) := by
  intro es
  induction es with
  | nil => intro st h; exact h
  | cons e es ih =>
    intro st h
    simp only [GhostState.run, List.foldl_cons]
    exact ih _ (step_ghostOk st e h)

theorem start_ghostOk (g : GPUDataWarehouse) : GhostOk (GhostState.start g) := by
  refine ⟨?_, ?_, ?_⟩ <;> simp [GhostState.start]

theorem count_pair_le (claims : List (Nat × VarKey)) (i : Nat) (k : VarKey) :
    claims.count (i, k) ≤ claims.countP (fun p => decide (p.2 = k)) := by
  rw [List.count_eq_countP]
  apply List.countP_mono_left
  intro x _ hx
  simp only [beq_iff_eq] at hx
  simp [hx]

theorem two_claims (claims : List (Nat × VarKey)) (i j : Nat) (k : VarKey) (hij : i ≠ j) :
    claims.count (i, k) + claims.count (j, k) ≤ claims.countP (fun p => decide (p.2 = k)) := by
  induction claims with
  | nil => simp
  | cons p rest ih =>
    rw [List.count_cons, List.count_cons, List.countP_cons]
    have key : (if (p == (i, k)) = true then 1 else 0) + (if (p == (j, k)) = true then 1 else 0)
        ≤ (if decide (p.2 = k) = true then 1 else 0) := by
      obtain ⟨a, b⟩ := p
      by_cases hb : b = k
      · by_cases ha : a = i
        · have hj : a ≠ j := fun e => hij (ha.symm.trans e)
          simp [hb, ha, hj, hij]
        · simp [hb, ha]
          split_ifs <;> omega
      · simp [hb]
    omega

/-- Claim C15: (1) the loop body of `initiateH2DCopies` records a required
variable in the task's to-be-ghost-ready set only if the variable needs ghost
cells and the task's test-and-set claim on it returned true. (2) Hence, for
every sequence of tasks that run this loop body and `markDeviceGhostsAsValid`
in any order on the same device data warehouse: every variable a task has
recorded is one this task has claimed, every variable is claimed at most once,
no two tasks have recorded the same variable and no task has recorded it
twice. (3) `markDeviceGhostsAsValid` changes the status of the variables the
task has recorded only, so it marks a variable valid with ghost cells only for
the task that claimed it. -/
theorem ghost_assembly_claimed_once (g : GPUDataWarehouse) :
    (∀ (v : RequiresVar) (k : VarKey),
      H2DStep.addVarToBeGhostReady k ∈ (initiateH2DCopies.requires g v).2.1 →
      k = v.key ∧ v.gtype ≠ GhostType.None ∧ v.numGhostCells > 0 ∧
      ((g.putUnallocatedIfNotExists v.key).testAndSetAwaitingGhostDataOnGPU v.key).1 = true) ∧
    (∀ es i k, k ∈ ((GhostState.start g).run es).varsToBeGhostReady i →
      (i, k) ∈ ((GhostState.start g).run es).claims) ∧
    (∀ es k, ((GhostState.start g).run es).claims.countP (fun p => decide (p.2 = k)) ≤ 1) ∧
    (∀ es i j k, k ∈ ((GhostState.start g).run es).varsToBeGhostReady i →
      k ∈ ((GhostState.start g).run es).varsToBeGhostReady j → i = j) ∧
    (∀ es i k, (((GhostState.start g).run es).varsToBeGhostReady i).count k ≤ 1) ∧
    (∀ (ks : List VarKey) (k : VarKey), (markDeviceGhostsAsValid g ks) k ≠ g k → k ∈ ks) ∧
    (∀ es task k,
      ((GhostState.start g).run (es ++ [GhostEvent.markDeviceGhostsAsValid task])).gpudw k
        ≠ ((GhostState.start g).run es).gpudw k →
      (task, k) ∈ ((GhostState.start g).run es).claims) := by
  have hrec : ∀ es i k, k ∈ ((GhostState.start g).run es).varsToBeGhostReady i →
      (i, k) ∈ ((GhostState.start g).run es).claims := by
    intro es i k hk
    have h3 := (run_ghostOk es _ (start_ghostOk g)).2.2 i k
    have h4 : 0 < (((GhostState.start g).run es).varsToBeGhostReady i).count k :=
      List.count_pos_iff.mpr hk
    exact List.count_pos_iff.mp (by omega)
  refine ⟨?_, hrec, ?_, ?_, ?_, ?_, ?_⟩
  · intro v k hk
    have hm := (mem_ghostReadyOf k _).mpr hk
    rcases ghostReadyOf_requires g v with e | ⟨e, hb, _⟩
    · rw [e] at hm; cases hm
    · rw [e] at hm
      simp only [List.mem_singleton] at hm
      obtain ⟨c1, c2, c3, _⟩ := claimGhostCells_true g v hb
      exact ⟨hm, c1, c2, c3⟩
  · intro es k
    exact (run_ghostOk es _ (start_ghostOk g)).1 k
  · intro es i j k hi hj
    by_contra hij
    have h1 := List.count_pos_iff.mpr (hrec es i k hi)
    have h2 := List.count_pos_iff.mpr (hrec es j k hj)
    have h3 := two_claims ((GhostState.start g).run es).claims i j k hij
    have h4 := (run_ghostOk es _ (start_ghostOk g)).1 k
    omega
  · intro es i k
    have h3 := (run_ghostOk es _ (start_ghostOk g)).2.2 i k
    have h4 := count_pair_le ((GhostState.start g).run es).claims i k
    have h5 := (run_ghostOk es _ (start_ghostOk g)).1 k
    omega
  · intro ks k hne
    by_contra hk
    exact hne (markValid_only ks k hk g)
  · intro es task k hne
    apply hrec es task k
    by_contra hk
    apply hne
    simp only [GhostState.run, List.foldl_append, List.foldl_cons, List.foldl_nil,
      GhostState.step]
    split_ifs
    · rfl
    · exact markValid_only _ k hk _

/-- An instance of `ghost_assembly_claimed_once`: three tasks require the same
variable with ghost cells; the first one gets the claim and records the
variable, the other two do not. -/
theorem ghost_assembly_claimed_once_witness :
    ((GhostState.start GPUDataWarehouse.empty).run threeTasks).varsToBeGhostReady 0
      = [phiOnPatch0] ∧
    ((GhostState.start GPUDataWarehouse.empty).run threeTasks).varsToBeGhostReady 1 = [] ∧
    ((GhostState.start GPUDataWarehouse.empty).run threeTasks).varsToBeGhostReady 2 = [] ∧
    (0, phiOnPatch0) ∈ ((GhostState.start GPUDataWarehouse.empty).run threeTasks).claims :=
  ⟨by decide, by decide, by decide,
    (ghost_assembly_claimed_once GPUDataWarehouse.empty).2.1 threeTasks 0 phiOnPatch0
      (by decide)⟩

/-! ### Concurrent claims -/

theorem isSome_putUnallocated (g : GPUDataWarehouse) (k : VarKey) :
    ((g.putUnallocatedIfNotExists k) k).isSome = true := by
  unfold GPUDataWarehouse.putUnallocatedIfNotExists
  cases h : g k with
  | some st => simp [h]
  | none => simp [put_apply]

theorem isSome_testAndSet (g : GPUDataWarehouse) (k : VarKey) (h : (g k).isSome = true) :
    ((g.testAndSetAwaitingGhostDataOnGPU k).2 k).isSome = true := by
  unfold GPUDataWarehouse.testAndSetAwaitingGhostDataOnGPU
  cases hg : g k with
  | none => rw [hg] at h; cases h
  | some st =>
    simp only
    split_ifs
    · simp [hg]
    · simp [put_apply]

theorem testAndSet_claimed (g : GPUDataWarehouse) (k : VarKey) (h : (g k).isSome = true) :
    (g.testAndSetAwaitingGhostDataOnGPU k).2.ghostsClaimed k = true := by
  cases hb : (g.testAndSetAwaitingGhostDataOnGPU k).1 with
  | true => exact (testAndSet_true g k hb).2.1
  | false =>
    rw [testAndSet_false g k hb]
    unfold GPUDataWarehouse.testAndSetAwaitingGhostDataOnGPU at hb
    unfold GPUDataWarehouse.ghostsClaimed
    cases hg : g k with
    | none => rw [hg] at h; cases h
    | some st =>
      simp only [hg] at hb ⊢
      split_ifs at hb with hc
      · rcases hc with hc | hc <;> simp [hc]

theorem step_raceOk (n : Nat) (k : VarKey) (g0 : GPUDataWarehouse) (r : ClaimRace) (tid : Nat)
    (h : RaceOk n k g0 r) : RaceOk n k g0 (ClaimRace.step n k r tid) := by
  obtain ⟨ha, hb, hc, hf, hd, he⟩ := h
  unfold ClaimRace.step
  by_cases hn : tid < n
  · simp only [hn, if_true]
    by_cases h0 : r.pc tid = 0
    · simp only [h0, if_true]
      have hnot : tid ∉ r.gathered.map Prod.fst := by
        intro hm
        have := (hb tid).mpr hm
        omega
      refine ⟨fun _ => isSome_putUnallocated _ _, ?_, hc, hf, ?_, ?_⟩
      · intro i
        by_cases hi : i = tid
        · subst hi
          simp only [if_true]
          constructor
          · intro e; cases e
          · intro hm; exact absurd hm hnot
        · simp only [hi, if_false]
          exact hb i
      · show r.successes + _ = if (r.gpudw.putUnallocatedIfNotExists k).ghostsClaimed k then 1 else 0
        rw [ghostsClaimed_putUnallocated]
        exact hd
      · intro hg
        show (r.gpudw.putUnallocatedIfNotExists k).ghostsClaimed k = true
        rw [ghostsClaimed_putUnallocated]
        exact he hg
    · simp only [h0, if_false]
      by_cases h1 : r.pc tid = 1
      · simp only [h1, if_true]
        have hsome : (r.gpudw k).isSome = true := ha ⟨tid, by omega⟩
        have hnot : tid ∉ r.gathered.map Prod.fst := by
          intro hm
          have := (hb tid).mpr hm
          omega
        refine ⟨fun _ => isSome_testAndSet _ _ hsome, ?_, ?_, ?_, ?_, ?_⟩
        · intro i
          simp only [List.map_append, List.map_cons, List.map_nil, List.mem_append,
            List.mem_singleton]
          by_cases hi : i = tid
          · subst hi; simp
          · simp only [hi, if_false, or_false]
            exact hb i
        · simp only [List.map_append, List.map_cons, List.map_nil]
          rw [List.nodup_append]
          refine ⟨hc, by simp, ?_⟩
          intro x hx hy
          simp only [List.mem_singleton] at hy
          subst hy
          exact hnot hx
        · intro i hi
          simp only [List.map_append, List.map_cons, List.map_nil, List.mem_append,
            List.mem_singleton] at hi
          rcases hi with hi | hi
          · exact hf i hi
          · rw [hi]; exact hn
        · show (r.gathered ++ [(tid, (r.gpudw.testAndSetAwaitingGhostDataOnGPU k).1)]).countP
              (fun p => p.2) + _ =
            if (r.gpudw.testAndSetAwaitingGhostDataOnGPU k).2.ghostsClaimed k then 1 else 0
          rw [testAndSet_claimed _ _ hsome]
          simp only [List.countP_append, List.countP_cons, List.countP_nil, zero_add, if_true]
          unfold ClaimRace.successes at hd
          cases hres : (r.gpudw.testAndSetAwaitingGhostDataOnGPU k).1 with
          | true =>
            have hcl := (testAndSet_true _ _ hres).1
            simp only [hcl, if_false, Bool.false_eq_true] at hd
            simp only [if_true]
            omega
          | false =>
            have hcl : r.gpudw.ghostsClaimed k = true := by
              have := testAndSet_claimed _ _ hsome
              rw [testAndSet_false _ _ hres] at this
              exact this
            simp only [hcl, if_true] at hd
            simp only [Bool.false_eq_true, if_false]
            omega
        · intro _
          exact testAndSet_claimed _ _ hsome
      · simp only [h1, if_false]
        exact ⟨ha, hb, hc, hf, hd, he⟩
  · simp only [hn, if_false]
    exact ⟨ha, hb, hc, hf, hd, he⟩

theorem run_raceOk (n : Nat) (k : VarKey) (g0 : GPUDataWarehouse) :
    ∀ (schedule : List Nat) (r : ClaimRace), RaceOk n k g0 r →
      RaceOk n k g0 (ClaimRace.run n k r schedule) := by
  intro schedule
  induction schedule with
  | nil => intro r h; exact h
  | cons tid rest ih =>
    intro r h
    simp only [ClaimRace.run, List.foldl_cons]
    exact ih _ (step_raceOk n k g0 r tid h)

theorem start_raceOk (n : Nat) (k : VarKey) (g : GPUDataWarehouse) :
    RaceOk n k g (ClaimRace.start g) := by
  refine ⟨?_, ?_, ?_, ?_, ?_, ?_⟩ <;> simp [ClaimRace.start, ClaimRace.successes]

theorem step_pc (n : Nat) (k : VarKey) (r : ClaimRace) (t tid : Nat) :
    (ClaimRace.step n k r t).pc tid =
      if t = tid ∧ tid < n ∧ r.pc tid < 2 then r.pc tid + 1 else r.pc tid := by
  unfold ClaimRace.step
  by_cases ht : t = tid
  · subst ht
    by_cases hn : t < n
    · by_cases h0 : r.pc t = 0
      · simp [hn, h0]
      · by_cases h1 : r.pc t = 1
        · simp [hn, h1]
        · have : ¬ r.pc t < 2 := by omega
          simp [hn, h0, h1, this]
    · simp [hn]
  · have ht2 : ¬ tid = t := fun e => ht e.symm
    simp only [ht, false_and, if_false]
    split_ifs <;> simp [ht2]

theorem run_pc (n : Nat) (k : VarKey) (tid : Nat) (hn : tid < n) :
    ∀ (schedule : List Nat) (r : ClaimRace), r.pc tid ≤ 2 →
      2 ≤ r.pc tid + schedule.count tid → (ClaimRace.run n k r schedule).pc tid = 2 := by
  intro schedule
  induction schedule with
  | nil =>
    intro r h1 h2
    simp only [List.count_nil, add_zero] at h2
    simp only [ClaimRace.run, List.foldl_nil]
    omega
  | cons t rest ih =>
    intro r h1 h2
    simp only [ClaimRace.run, List.foldl_cons]
    have hp := step_pc n k r t tid
    rw [List.count_cons] at h2
    apply ih
    · rw [hp]; split_ifs <;> omega
    · rw [hp]
      by_cases ht : t = tid
      · subst ht
        simp only [beq_self_eq_true, if_true] at h2
        split_ifs <;> omega
      · have hb : (t == tid) = false := by simpa using ht
        simp only [hb, Bool.false_eq_true, if_false, add_zero] at h2
        simp only [ht, false_and, if_false]
        omega

theorem countP_not (l : List (Nat × Bool)) :
    l.countP (fun p => p.2) + l.countP (fun p => !p.2) = l.length := by
  induction l with
  | nil => rfl
  | cons p rest ih =>
    simp only [List.countP_cons, List.length_cons]
    cases p.2 <;> simp <;> omega

/-- Claim C19: `n` device tasks need the ghost cells of the same variable and
make their claim (`putUnallocatedIfNotExists` followed by
`testAndSetAwaitingGhostDataOnGPU`) on different threads, the two calls of each
task being interleaved with those of the others in any order. (1) In every
interleaving at most one claim succeeds. (2) An interleaving in which every
task gets to make both of its calls ends with every task past its claim. (3)
When the variable is not yet claimed at the start, there is at least one task
and all tasks are past their claim, exactly one claim has succeeded and
`n - 1` have failed. -/
theorem exactly_one_claim_succeeds (g : GPUDataWarehouse) (k : VarKey) (n : Nat)
    (schedule : List Nat) :
    (ClaimRace.run n k (ClaimRace.start g) schedule).successes ≤ 1 ∧
    ((∀ tid, tid < n → 2 ≤ schedule.count tid) →
      ∀ tid, tid < n → (ClaimRace.run n k (ClaimRace.start g) schedule).pc tid = 2) ∧
    (g.ghostsClaimed k = false → 0 < n →
      (∀ tid, tid < n → (ClaimRace.run n k (ClaimRace.start g) schedule).pc tid = 2) →
      (ClaimRace.run n k (ClaimRace.start g) schedule).successes = 1 ∧
      (ClaimRace.run n k (ClaimRace.start g) schedule).failures = n - 1 ∧
      (ClaimRace.run n k (ClaimRace.start g) schedule).gathered.length = n) := by
  obtain ⟨_, hb, hc, hf, hd, he⟩ := run_raceOk n k g schedule _ (start_raceOk n k g)
  refine ⟨?_, ?_, ?_⟩
  · split_ifs at hd <;> omega
  · intro hs tid hn
    exact run_pc n k tid hn schedule _ (by simp [ClaimRace.start])
      (by simpa [ClaimRace.start] using hs tid hn)
  · intro hg hn hall
    have hperm : ((ClaimRace.run n k (ClaimRace.start g) schedule).gathered.map Prod.fst).Perm
        (List.range n) := by
      rw [List.perm_ext_iff_of_nodup hc (List.nodup_range n)]
      intro tid
      rw [List.mem_range]
      constructor
      · exact hf tid
      · intro h; exact (hb tid).mp (hall tid h)
    have hlen : (ClaimRace.run n k (ClaimRace.start g) schedule).gathered.length = n := by
      have := hperm.length_eq
      simpa using this
    have hne : (ClaimRace.run n k (ClaimRace.start g) schedule).gathered ≠ [] := by
      intro e
      rw [e] at hlen
      simp at hlen
      omega
    have hcl := he hne
    simp only [hg, hcl, if_true, if_false, Bool.false_eq_true, add_zero] at hd
    have hcount := countP_not (ClaimRace.run n k (ClaimRace.start g) schedule).gathered
    refine ⟨hd, ?_, hlen⟩
    unfold ClaimRace.failures
    unfold ClaimRace.successes at hd
    omega

/-- An instance of `exactly_one_claim_succeeds`: eight tasks, interleaved,
claim the ghost cells of a variable that has no entry yet; one claim succeeds
and seven fail. -/
theorem exactly_one_claim_succeeds_witness :
    (∀ tid, tid < 8 → 2 ≤ eightTasks.count tid) ∧
    (ClaimRace.run 8 phiOnPatch0 (ClaimRace.start GPUDataWarehouse.empty) eightTasks).successes
      = 1 ∧
    (ClaimRace.run 8 phiOnPatch0 (ClaimRace.start GPUDataWarehouse.empty) eightTasks).failures
      = 8 - 1 :=
  ⟨by decide,
    ((exactly_one_claim_succeeds GPUDataWarehouse.empty phiOnPatch0 8 eightTasks).2.2
      (by decide) (by decide)
      ((exactly_one_claim_succeeds GPUDataWarehouse.empty phiOnPatch0 8 eightTasks).2.1
        (by decide))).1,
    ((exactly_one_claim_succeeds GPUDataWarehouse.empty phiOnPatch0 8 eightTasks).2.2
      (by decide) (by decide)
      ((exactly_one_claim_succeeds GPUDataWarehouse.empty phiOnPatch0 8 eightTasks).2.1
        (by decide))).2.1⟩

/-! ### The current phase -/

theorem advancePhase_spec (phaseTasks phaseTasksDone : List Int) (numPhases : Nat) :
    ∀ (fuel currphase : Nat), numPhases ≤ fuel + currphase + 1 →
      currphase ≤ advancePhase phaseTasks phaseTasksDone numPhases fuel currphase ∧
      (∀ p, currphase ≤ p →
        p < advancePhase phaseTasks phaseTasksDone numPhases fuel currphase →
        phaseTasks.getD p 0 = phaseTasksDone.getD p 0) ∧
      (phaseTasks.getD (advancePhase phaseTasks phaseTasksDone numPhases fuel currphase) 0
          ≠ phaseTasksDone.getD
            (advancePhase phaseTasks phaseTasksDone numPhases fuel currphase) 0 ∨
        numPhases ≤ advancePhase phaseTasks phaseTasksDone numPhases fuel currphase + 1) ∧
      (advancePhase phaseTasks phaseTasksDone numPhases fuel currphase = currphase ∨
        advancePhase phaseTasks phaseTasksDone numPhases fuel currphase < numPhases) := by
  intro fuel
  induction fuel with
  | zero =>
    intro c h
    simp only [advancePhase]
    exact ⟨le_refl _, fun p h1 h2 => absurd h2 (by omega), Or.inr (by omega), by simp⟩
  | succ k ih =>
    intro c h
    simp only [advancePhase]
    split_ifs with hc
    · obtain ⟨i1, i2, i3, i4⟩ := ih (c + 1) (by omega)
      refine ⟨by omega, ?_, i3, ?_⟩
      · intro p h1 h2
        by_cases hp : p = c
        · subst hp; exact hc.1
        · exact i2 p (by omega) h2
      · rcases i4 with i4 | i4
        · right; rw [i4]; exact hc.2
        · right; exact i4
    · refine ⟨le_refl _, fun p h1 h2 => absurd h2 (by omega), ?_, by simp⟩
      by_cases h1 : phaseTasks.getD c 0 = phaseTasksDone.getD c 0
      · right
        by_contra h2
        exact hc ⟨h1, by omega⟩
      · left; exact h1

/-- What `markTaskConsumed` does to the counters and to the current phase. -/
theorem markTaskConsumed_phase (s : UnifiedScheduler) (t : DetailedTask) :
    (t.d_phase < s.phaseTasksDone.length →
      (markTaskConsumed s t).phaseTasksDone.getD t.d_phase 0
        = s.phaseTasksDone.getD t.d_phase 0 + 1) ∧
    (∀ p, p ≠ t.d_phase →
      (markTaskConsumed s t).phaseTasksDone.getD p 0 = s.phaseTasksDone.getD p 0) ∧
    (∀ p, s.phaseTasksDone.getD p 0 ≤ (markTaskConsumed s t).phaseTasksDone.getD p 0) ∧
    s.currphase ≤ (markTaskConsumed s t).currphase ∧
    (∀ p, s.currphase ≤ p → p < (markTaskConsumed s t).currphase →
      (markTaskConsumed s t).phaseTasks.getD p 0
        = (markTaskConsumed s t).phaseTasksDone.getD p 0) ∧
    ((markTaskConsumed s t).phaseTasks.getD (markTaskConsumed s t).currphase 0
        ≠ (markTaskConsumed s t).phaseTasksDone.getD (markTaskConsumed s t).currphase 0 ∨
      s.numPhases ≤ (markTaskConsumed s t).currphase + 1) ∧
    ((markTaskConsumed s t).currphase = s.currphase ∨
      (markTaskConsumed s t).currphase < s.numPhases) := by
  have h := advancePhase_spec s.phaseTasks
    (s.phaseTasksDone.set t.d_phase (s.phaseTasksDone.getD t.d_phase 0 + 1)) s.numPhases
    s.numPhases s.currphase (by omega)
  refine ⟨?_, ?_, ?_, h.1, h.2.1, h.2.2.1, h.2.2.2⟩
  · intro hlt
    exact getD_set_self _ _ _ _ hlt
  · intro p hp
    exact getD_set_other _ _ _ _ _ hp
  · intro p
    show s.phaseTasksDone.getD p 0
      ≤ (s.phaseTasksDone.set t.d_phase (s.phaseTasksDone.getD t.d_phase 0 + 1)).getD p 0
    rw [getD_set]
    split_ifs with hc
    · rw [hc.1]; omega
    · exact le_refl _

theorem markTaskConsumed_phaseOk (s : UnifiedScheduler) (t : DetailedTask) (h : PhaseOk s) :
    PhaseOk (markTaskConsumed s t) := by
  obtain ⟨_, _, m3, m4, m5, _, m7⟩ := markTaskConsumed_phase s t
  obtain ⟨h1, h2⟩ := h
  constructor
  · rcases m7 with m7 | m7
    · rw [m7]; exact h1
    · exact Or.inr m7
  · intro p hp
    by_cases hlt : p < s.currphase
    · exact le_trans (h2 p hlt) (m3 p)
    · exact le_of_eq (m5 p (by omega) hp)

/-- The fields of the scheduler that `PhaseOk` reads are the same in both
states. -/
theorem phaseOk_congr (s s1 : UnifiedScheduler) (h : PhaseOk s)
    (e1 : s1.currphase = s.currphase) (e2 : s1.numPhases = s.numPhases)
    (e3 : s1.phaseTasks = s.phaseTasks) (e4 : s1.phaseTasksDone = s.phaseTasksDone) :
    PhaseOk s1 := by
  unfold PhaseOk at h ⊢
  rw [e1, e2, e3, e4]
  exact h

/-- A pass leaves the current phase and the phase counters alone, or changes
them as `markTaskConsumed` does for some task. -/
theorem selectionPass_phase (c : Config) (s : UnifiedScheduler) (l : Locals) :
    ((selectionPass c s l).1.currphase = s.currphase ∧
      (selectionPass c s l).1.numPhases = s.numPhases ∧
      (selectionPass c s l).1.phaseTasks = s.phaseTasks ∧
      (selectionPass c s l).1.phaseTasksDone = s.phaseTasksDone) ∨
    ∃ t, (selectionPass c s l).1.currphase = (markTaskConsumed s t).currphase ∧
      (selectionPass c s l).1.numPhases = s.numPhases ∧
      (selectionPass c s l).1.phaseTasks = s.phaseTasks ∧
      (selectionPass c s l).1.phaseTasksDone = (markTaskConsumed s t).phaseTasksDone := by
  refine selectionPass_cases c s l (fun r =>
    (r.1.currphase = s.currphase ∧ r.1.numPhases = s.numPhases ∧
      r.1.phaseTasks = s.phaseTasks ∧ r.1.phaseTasksDone = s.phaseTasksDone) ∨
    ∃ t, r.1.currphase = (markTaskConsumed s t).currphase ∧ r.1.numPhases = s.numPhases ∧
      r.1.phaseTasks = s.phaseTasks ∧
      r.1.phaseTasksDone = (markTaskConsumed s t).phaseTasksDone) ?_ ?_ ?_ ?_
  · intro t _
    exact Or.inr ⟨t, rfl, rfl, rfl, rfl⟩
  · intro t rest _ _
    unfold externalReadyStep
    repeat' split
    all_goals first
      | exact Or.inl ⟨rfl, rfl, rfl, rfl⟩
      | exact Or.inr ⟨t, rfl, rfl, rfl, rfl⟩
  · intro t rest _ _ _
    unfold internalReadyStep
    repeat' split
    all_goals exact Or.inl ⟨rfl, rfl, rfl, rfl⟩
  · intro _ _ _
    unfold deviceAndRecvStep
    repeat' split
    all_goals first
      | exact Or.inl ⟨rfl, rfl, rfl, rfl⟩
      | (rename_i t rest heq
         exact Or.inr ⟨t, rfl, rfl, rfl, rfl⟩)

theorem part2_phase (c : Config) (a : Answers) (s : UnifiedScheduler) (l : Locals) :
    (part2 c a s l).1.currphase = s.currphase := by
  unfold part2
  cases hi : l.initTask with
  | some t => simp
  | none =>
    cases hr : l.readyTask with
    | some t =>
      rcases hq : readyTaskPart c a l t with ⟨calls, _ | q⟩ <;> simp [hq]
    | none =>
      by_cases hp : l.pendingMPIMsgs > 0 <;> simp [hp]

theorem outside_phase (c : Config) (s : UnifiedScheduler) (o : Outside) :
    (o.apply c s).currphase = s.currphase := by
  cases o <;> simp [Outside.apply]

/-- A step of the system keeps `PhaseOk` and the number of phases and does not
lower the current phase. -/
theorem step_phase (c : Config) (sys : System) (e : Event) :
    sys.sched.currphase ≤ (sys.step c e).sched.currphase ∧
    (PhaseOk sys.sched → PhaseOk (sys.step c e).sched) ∧
    (sys.step c e).sched.numPhases = sys.sched.numPhases := by
  rcases step_sched c sys e with h1 | ⟨l, h1⟩ | ⟨a, l, h1⟩ | ⟨o, h1⟩
  · rw [h1]; exact ⟨le_refl _, id, rfl⟩
  · rw [h1]
    rcases selectionPass_phase c sys.sched l with ⟨e1, e2, e3, e4⟩ | ⟨t, e1, e2, e3, e4⟩
    · exact ⟨by rw [e1], fun h => phaseOk_congr _ _ h e1 e2 e3 e4, e2⟩
    · refine ⟨by rw [e1]; exact (markTaskConsumed_phase sys.sched t).2.2.2.1, fun h => ?_, e2⟩
      exact phaseOk_congr _ _ (markTaskConsumed_phaseOk sys.sched t h) e1 e2 e3 e4
  · rw [h1]
    obtain ⟨_, e2, e3, _, _, e6, _⟩ := part2_records c a sys.sched l
    have e1 := part2_phase c a sys.sched l
    exact ⟨by rw [e1], fun h => phaseOk_congr _ _ h e1 e2 e3 e6, e2⟩
  · rw [h1]
    obtain ⟨_, e2, e3, _, _, e6, _⟩ := (outside_records c sys.sched o).1
    have e1 := outside_phase c sys.sched o
    exact ⟨by rw [e1], fun h => phaseOk_congr _ _ h e1 e2 e3 e6, e2⟩

theorem run_phase (c : Config) :
    ∀ (es : List Event) (sys : System),
      sys.sched.currphase ≤ (sys.run c es).sched.currphase ∧
      (PhaseOk sys.sched → PhaseOk (sys.run c es).sched) ∧
      (sys.run c es).sched.numPhases = sys.sched.numPhases := by
  intro es
  induction es with
  | nil => intro sys; exact ⟨le_refl _, id, rfl⟩
  | cons e es ih =>
    intro sys
    simp only [System.run, List.foldl_cons]
    obtain ⟨s1, s2, s3⟩ := step_phase c sys e
    obtain ⟨r1, r2, r3⟩ := ih (sys.step c e)
    exact ⟨le_trans s1 r1, fun h => r2 (s2 h), r3.trans s3⟩

theorem run_append (c : Config) (sys : System) (es1 es2 : List Event) :
    sys.run c (es1 ++ es2) = (sys.run c es1).run c es2 := by
  simp [System.run, List.foldl_append]

theorem start_phaseOk (localTasks : List DetailedTask) (numPhases : Nat) (d : DetailedTasks)
    (pending n : Nat) : PhaseOk (System.start localTasks numPhases d pending n).sched :=
  ⟨Or.inl rfl, fun p hp => absurd hp (by simp [System.start, execute])⟩

theorem phase_members (p : Nat) (l1 l2 : List DetailedTask) (h : l1.Subperm l2)
    (hc : phaseCount p l2 ≤ phaseCount p l1) :
    ∀ t ∈ l2, t.d_phase = p → t ∈ l1 := by
  intro t ht hp
  have hf : (l1.filter (fun t => decide (t.d_phase = p))).Subperm
      (l2.filter (fun t => decide (t.d_phase = p))) := h.filter _
  have hl : (l2.filter (fun t => decide (t.d_phase = p))).length
      ≤ (l1.filter (fun t => decide (t.d_phase = p))).length := by
    unfold phaseCount at hc
    rw [← List.countP_eq_length_filter, ← List.countP_eq_length_filter]
    exact_mod_cast hc
  have hperm := hf.perm_of_length_le hl
  have hm : t ∈ l2.filter (fun t => decide (t.d_phase = p)) := by
    simp [List.mem_filter, ht, hp]
  exact (List.mem_filter.mp (hperm.mem_iff.mpr hm)).1

/-- Claim C21: (1) `markTaskConsumed` adds one to `numTasksDone` and to the
entry of the task's phase in `phaseTasksDone` and leaves the entries of the
other phases and `phaseTasks` as they are; the new `currphase` is not below the
old one, every phase from the old `currphase` up to the new one (exclusive) has
`phaseTasks[p] == phaseTasksDone[p]`, the new `currphase` is a phase whose
counters differ or the last phase, and it is below `numPhases` when the old one
was. (2) In every run from the state set up by `execute`, `currphase` never
decreases; (3) it stays below `numPhases` (in a graph with at least one phase);
(4) when the ready queues hand out local tasks only and the external-ready
queue no task twice and no sync task (so that no task is consumed twice), every
phase below `currphase` has `phaseTasksDone[p] == phaseTasks[p]` and all its
local tasks are among the consumed ones. -/
theorem markTaskConsumed_currphase (c : Config) (localTasks : List DetailedTask)
    (numPhases : Nat) (d : DetailedTasks) (pending n : Nat) (es : List Event) :
    (∀ (s : UnifiedScheduler) (t : DetailedTask),
      (markTaskConsumed s t).numTasksDone = s.numTasksDone + 1 ∧
      (markTaskConsumed s t).phaseTasks = s.phaseTasks ∧
      (t.d_phase < s.phaseTasksDone.length →
        (markTaskConsumed s t).phaseTasksDone.getD t.d_phase 0
          = s.phaseTasksDone.getD t.d_phase 0 + 1) ∧
      (∀ p, p ≠ t.d_phase →
        (markTaskConsumed s t).phaseTasksDone.getD p 0 = s.phaseTasksDone.getD p 0) ∧
      s.currphase ≤ (markTaskConsumed s t).currphase ∧
      (∀ p, s.currphase ≤ p → p < (markTaskConsumed s t).currphase →
        (markTaskConsumed s t).phaseTasks.getD p 0
          = (markTaskConsumed s t).phaseTasksDone.getD p 0) ∧
      ((markTaskConsumed s t).phaseTasks.getD (markTaskConsumed s t).currphase 0
          ≠ (markTaskConsumed s t).phaseTasksDone.getD (markTaskConsumed s t).currphase 0 ∨
        s.numPhases ≤ (markTaskConsumed s t).currphase + 1) ∧
      (s.currphase < s.numPhases → (markTaskConsumed s t).currphase < s.numPhases)) ∧
    (∀ es2 : List Event, (reached c localTasks numPhases d pending n es).sched.currphase
      ≤ (reached c localTasks numPhases d pending n (es ++ es2)).sched.currphase) ∧
    (0 < numPhases → (reached c localTasks numPhases d pending n es).sched.currphase
      < numPhases) ∧
    (d.atStart → localTasks.Nodup →
      HandedOutOnce localTasks (reached c localTasks numPhases d pending n es).sched →
      ∀ p, p < (reached c localTasks numPhases d pending n es).sched.currphase →
        (reached c localTasks numPhases d pending n es).sched.phaseTasksDone.getD p 0
          = (reached c localTasks numPhases d pending n es).sched.phaseTasks.getD p 0 ∧
        ∀ t ∈ localTasks, t.d_phase = p →
          t ∈ (reached c localTasks numPhases d pending n es).sched.consumed) := by
  obtain ⟨_, hP, hN⟩ := run_phase c es (System.start localTasks numPhases d pending n)
  have hP := hP (start_phaseOk localTasks numPhases d pending n)
  have hN : ((System.start localTasks numPhases d pending n).run c es).sched.numPhases
      = numPhases := hN
  refine ⟨?_, ?_, ?_, ?_⟩
  · intro s t
    obtain ⟨m1, m2, _, m4, m5, m6, m7⟩ := markTaskConsumed_phase s t
    refine ⟨rfl, rfl, m1, m2, m4, m5, m6, ?_⟩
    intro hlt
    rcases m7 with m7 | m7
    · rw [m7]; exact hlt
    · exact m7
  · intro es2
    unfold reached
    rw [run_append]
    exact (run_phase c es2 _).1
  · intro hpos
    unfold reached
    rcases hP.1 with h0 | h0
    · rw [h0]; exact hpos
    · rw [hN] at h0; exact h0
  · intro hd hnd ⟨hlocal, honce, hplain⟩ p hp
    have hI := reach_inv c localTasks numPhases d pending n es hd
    obtain ⟨hND, hS⟩ := consumed_nodup localTasks numPhases _ hI hlocal honce hplain
    obtain ⟨⟨_, _, c3, _, _, _, c7⟩, _⟩ := hI
    have hsub : ((System.start localTasks numPhases d pending n).run c es).sched.consumed.Subperm
        localTasks := List.subperm_of_subset hND hS
    have hp2 : p < ((System.start localTasks numPhases d pending n).run c es).sched.currphase :=
      hp
    have hpn : p < numPhases := by
      rcases hP.1 with h0 | h0
      · omega
      · rw [hN] at h0; omega
    have hle := hP.2 p hp2
    have hup := phaseCount_le_of_subperm p _ _ hsub
    have ht : ((System.start localTasks numPhases d pending n).run c es).sched.phaseTasks.getD p 0
        = phaseCount p localTasks := by
      rw [c3, countPhaseTasks_getD _ _ p (by simpa using hpn), getD_replicate]
      simp
    have hdn := c7 p hpn
    refine ⟨?_, ?_⟩
    · show ((System.start localTasks numPhases d pending n).run c es).sched.phaseTasksDone.getD p 0
        = ((System.start localTasks numPhases d pending n).run c es).sched.phaseTasks.getD p 0
      omega
    · have hcnt : phaseCount p localTasks ≤ phaseCount p
          ((System.start localTasks numPhases d pending n).run c es).sched.consumed := by omega
      exact phase_members p _ _ hsub hcnt

/-- An instance of `markTaskConsumed_currphase`: one thread works off two tasks
of phase 0 and one of phase 1, the task of phase 1 first. While phase 0 is
unfinished `currphase` stays 0, although the task of phase 1 is consumed; after
the second task of phase 0 it is 1, the last phase, and phase 0 is fully
consumed. -/
theorem markTaskConsumed_currphase_witness :
    laterPhaseFirstQueues.atStart ∧ [plainTask 0 0, plainTask 1 0, plainTask 2 1].Nodup ∧
    HandedOutOnce [plainTask 0 0, plainTask 1 0, plainTask 2 1]
      (reached Config.hostOnly [plainTask 0 0, plainTask 1 0, plainTask 2 1] 2
        laterPhaseFirstQueues 0 1 laterPhaseFirstRun).sched ∧
    (reached Config.hostOnly [plainTask 0 0, plainTask 1 0, plainTask 2 1] 2
      laterPhaseFirstQueues 0 1 (laterPhaseFirstRun.take 8)).sched.currphase = 0 ∧
    (reached Config.hostOnly [plainTask 0 0, plainTask 1 0, plainTask 2 1] 2
      laterPhaseFirstQueues 0 1 (laterPhaseFirstRun.take 8)).sched.consumed
      = [plainTask 2 1, plainTask 0 0] ∧
    (reached Config.hostOnly [plainTask 0 0, plainTask 1 0, plainTask 2 1] 2
      laterPhaseFirstQueues 0 1 laterPhaseFirstRun).sched.currphase = 1 ∧
    (reached Config.hostOnly [plainTask 0 0, plainTask 1 0, plainTask 2 1] 2
      laterPhaseFirstQueues 0 1 laterPhaseFirstRun).sched.currphase < 2 ∧
    (reached Config.hostOnly [plainTask 0 0, plainTask 1 0, plainTask 2 1] 2
      laterPhaseFirstQueues 0 1 laterPhaseFirstRun).sched.phaseTasksDone.getD 0 0
      = (reached Config.hostOnly [plainTask 0 0, plainTask 1 0, plainTask 2 1] 2
        laterPhaseFirstQueues 0 1 laterPhaseFirstRun).sched.phaseTasks.getD 0 0 :=
  ⟨by decide, by decide, by decide, by decide, by decide, by decide,
    (markTaskConsumed_currphase Config.hostOnly [plainTask 0 0, plainTask 1 0, plainTask 2 1] 2
      laterPhaseFirstQueues 0 1 laterPhaseFirstRun).2.2.1 (by decide),
    ((markTaskConsumed_currphase Config.hostOnly [plainTask 0 0, plainTask 1 0, plainTask 2 1] 2
      laterPhaseFirstQueues 0 1 laterPhaseFirstRun).2.2.2 (by decide) (by decide) (by decide)
      0 (by decide)).1⟩

/-! ### The number of worker threads -/

/-- Claim C23 against the code: with `-nthreads 2` on rank 0, `numThreads_` is
1 and `init_threads(this, 1)` creates no worker thread (its loops run over
`1 <= i < 1`), so the main thread alone executes tasks, while the message
announces 1 additional thread and 2 task execution threads; with
`-nthreads 4`, two workers are created and three threads execute tasks, while
the message announces 3 and 4. For every thread count the call
`init_threads(this, N - 1)` creates `N - 2` threads, not `N - 1`. -/
theorem problemSetup_creates_one_thread_less :
    problemSetup (threadsRequested 2) = SetupResult.threads 1 0 ∧
    taskExecutionThreads 1 = 1 ∧
    problemSetup.output (threadsRequested 2) = some
      "   WARNING: Multi-threaded Unified scheduler is EXPERIMENTAL, not all tasks are thread safe yet.\n   Creating 1 additional  thread for task execution (total task execution threads = 2)." ∧
    problemSetup (threadsRequested 4) = SetupResult.threads 3 2 ∧
    taskExecutionThreads 3 = 3 ∧
    problemSetup.output (threadsRequested 4) = some
      "   WARNING: Multi-threaded Unified scheduler is EXPERIMENTAL, not all tasks are thread safe yet.\n   Creating 3 additional  threads for task execution (total task execution threads = 4)." ∧
    ∀ N : Int, init_threads (N - 1) = (N - 2).toNat := by
  refine ⟨by decide, by decide, by rfl, by decide, by decide, by rfl, ?_⟩
  intro N
  unfold init_threads
  congr 1
  omega

/-! ### The source of a neighbour's ghost cells -/

/-- Claim C24, as the code has it, for a region without staging variable.
(1) When the state of the source variable does not change during the decision:
nothing is done for the neighbour exactly when the source is on another device
and not valid in host memory; otherwise the host copy is used exactly when the
source is not allocated or not valid on its GPU (also when it is valid in host
memory neither), or is valid in host memory and on another device; the GPU copy
is used exactly when the source is on the destination's device, allocated and
valid on its GPU; and there is no abort. (2) Whatever the answers, the abort
with "Needed ghost cell data not found on the CPU or a GPU" happens exactly
when the variable is allocated and valid on the GPU at the first test and valid
neither on the GPU nor in host memory at the third, the first two tests having
been passed. -/
theorem ghostSource_decision :
    (∀ (sourceDeviceNum destDeviceNum : Nat) (isAllocatedOnGPU isValidOnGPU isValidOnCPU : Bool),
      (initiateH2DCopies.ghostSource (GhostSourceQuery.ofState false sourceDeviceNum
          destDeviceNum isAllocatedOnGPU isValidOnGPU isValidOnCPU) = GhostSource.skipped ↔
        (sourceDeviceNum ≠ destDeviceNum ∧ isValidOnCPU = false)) ∧
      (initiateH2DCopies.ghostSource (GhostSourceQuery.ofState false sourceDeviceNum
          destDeviceNum isAllocatedOnGPU isValidOnGPU isValidOnCPU)
          = GhostSource.useCpuGhostCells ↔
        ((sourceDeviceNum = destDeviceNum ∨ isValidOnCPU = true) ∧
          (isAllocatedOnGPU = false ∨ isValidOnGPU = false ∨
            (isValidOnCPU = true ∧ sourceDeviceNum ≠ destDeviceNum)))) ∧
      (initiateH2DCopies.ghostSource (GhostSourceQuery.ofState false sourceDeviceNum
          destDeviceNum isAllocatedOnGPU isValidOnGPU isValidOnCPU)
          = GhostSource.useGpuGhostCells ↔
        (sourceDeviceNum = destDeviceNum ∧ isAllocatedOnGPU = true ∧ isValidOnGPU = true)) ∧
      ∀ message : String,
        initiateH2DCopies.ghostSource (GhostSourceQuery.ofState false sourceDeviceNum
          destDeviceNum isAllocatedOnGPU isValidOnGPU isValidOnCPU)
          ≠ GhostSource.exit message) ∧
    ∀ (q : GhostSourceQuery) (message : String),
      initiateH2DCopies.ghostSource q = GhostSource.exit message ↔
        (message = "ERROR: Needed ghost cell data not found on the CPU or a GPU\n" ∧
          q.useGpuStaging = false ∧
          (q.sourceDeviceNum = q.destDeviceNum ∨ q.isValidOnCPU_1883 = true) ∧
          q.isAllocatedOnGPU_1904 = true ∧ q.isValidOnGPU_1907 = true ∧
          ¬ (q.isValidOnCPU_1911 = true ∧ q.sourceDeviceNum ≠ q.destDeviceNum) ∧
          q.isValidOnCPU_1916 = false ∧ q.isValidOnGPU_1919 = false) := by
  constructor
  · intro sd dd al vg vc
    unfold initiateH2DCopies.ghostSource GhostSourceQuery.ofState
    cases al <;> cases vg <;> cases vc <;> by_cases hd : sd = dd <;> simp [hd]
  · intro q message
    rcases q with ⟨st, sd, dd, c1, al, g1, c2, c3, g2⟩
    unfold initiateH2DCopies.ghostSource
    cases st <;> cases c1 <;> cases al <;> cases g1 <;> cases c2 <;> cases c3 <;> cases g2 <;>
      by_cases hd : sd = dd <;> simp [hd, eq_comm]

/-- Claim C24 fails as stated. For a neighbour on the destination's device
whose source variable is valid neither in host memory nor on the GPU, the
decision is the host copy, not the abort: the first test takes every variable
that is not valid on the GPU. For a neighbour on another device whose source
variable is allocated and valid on its GPU only, nothing is done, instead of
the GPU copy. -/
theorem ghostSource_counterexample :
    initiateH2DCopies.ghostSource GhostSourceQuery.validNowhere
      = GhostSource.useCpuGhostCells ∧
    initiateH2DCopies.ghostSource GhostSourceQuery.validNowhere
      ≠ GhostSource.exit "ERROR: Needed ghost cell data not found on the CPU or a GPU\n" ∧
    initiateH2DCopies.ghostSource GhostSourceQuery.otherDeviceOnly = GhostSource.skipped := by
  decide

/-- An instance of `ghostSource_decision`: with an unchanging state, a source
variable on the destination's device that is valid nowhere is taken from host
memory; the abort is reached when the variable is valid on the GPU at the call
of line 1907 and not valid any more at the call of line 1919. -/
theorem ghostSource_decision_witness :
    initiateH2DCopies.ghostSource (GhostSourceQuery.ofState false 0 0 true false false)
      = GhostSource.useCpuGhostCells ∧
    initiateH2DCopies.ghostSource GhostSourceQuery.invalidatedMeanwhile
      = GhostSource.exit "ERROR: Needed ghost cell data not found on the CPU or a GPU\n" :=
  ⟨(ghostSource_decision.1 0 0 true false false).2.1.mpr ⟨Or.inl rfl, Or.inr (Or.inl rfl)⟩,
    (ghostSource_decision.2 GhostSourceQuery.invalidatedMeanwhile
      "ERROR: Needed ghost cell data not found on the CPU or a GPU\n").mpr
      ⟨rfl, rfl, Or.inl rfl, rfl, rfl, by decide, rfl, rfl⟩⟩

/-! ### Activation of the worker threads by `execute` -/

theorem mem_workerIndices (numThreads_ : Int) (i : Nat) :
    i ∈ workerIndices numThreads_ ↔ 1 ≤ i ∧ (i : Int) < numThreads_ := by
  unfold workerIndices
  rw [List.mem_range']
  constructor
  · rintro ⟨k, hk, rfl⟩
    omega
  · rintro ⟨h1, h2⟩
    exact ⟨i - 1, by omega, by omega⟩

/-- Claim C22, as the code has it. On a copy-data timestep `execute` sets no
thread state: with MPI its only step is the call of `MPIScheduler::execute`
(the counters are not set up), and without MPI, for a graph with detailed
tasks, it sets up the counters and the calling thread runs `runTasks`. On any
other timestep for which the graph has detailed tasks, the steps are: counter
set-up, `g_run_tasks = 1`, state `Active` for the workers `1 <= i <
numThreads_`, `runTasks`, `g_run_tasks = 0`, `thread_fence`, state `Inactive`
for the same workers. When the graph has no detailed tasks (and the call is not
handed to `MPIScheduler`), `execute` only reports that it skips: no thread
state is set and `runTasks` is not called. -/
theorem execute_worker_activation (p : ExecuteCall) :
    (p.isCopyDataTimestep = true →
      ∀ i st, ExecuteStep.setThreadState i st ∉ execute.steps p) ∧
    (p.usingMPI = true → p.isCopyDataTimestep = true →
      execute.steps p = [ExecuteStep.mpiSchedulerExecute]) ∧
    (p.usingMPI = false → p.isCopyDataTimestep = true → p.hasDetailedTasks = true →
      execute.steps p = [ExecuteStep.setCounters, ExecuteStep.runTasks]) ∧
    (p.isCopyDataTimestep = false → p.hasDetailedTasks = true →
      execute.steps p =
        ExecuteStep.setCounters :: ExecuteStep.setRunTasks 1 ::
          ((workerIndices p.numThreads_).map (fun i =>
              ExecuteStep.setThreadState i ThreadState.Active)
            ++ ExecuteStep.runTasks :: ExecuteStep.setRunTasks 0 :: ExecuteStep.thread_fence ::
              (workerIndices p.numThreads_).map (fun i =>
                ExecuteStep.setThreadState i ThreadState.Inactive))) ∧
    (∀ i, i ∈ workerIndices p.numThreads_ ↔ 1 ≤ i ∧ (i : Int) < p.numThreads_) ∧
    (¬ (p.usingMPI = true ∧ p.isCopyDataTimestep = true) → p.hasDetailedTasks = false →
      execute.steps p = [ExecuteStep.skipping]) := by
  rcases p with ⟨mpi, cp, dts, n⟩
  refine ⟨?_, ?_, ?_, ?_, mem_workerIndices n, ?_⟩
  · intro h i st
    simp only at h
    subst h
    cases mpi <;> cases dts <;> simp [execute.steps]
  · intro h1 h2
    simp only at h1 h2
    subst h1 h2
    simp [execute.steps]
  · intro h1 h2 h3
    simp only at h1 h2 h3
    subst h1 h2 h3
    simp [execute.steps]
  · intro h2 h3
    simp only at h2 h3
    subst h2 h3
    simp [execute.steps]
  · intro h1 h3
    simp only at h1 h3
    subst h3
    cases mpi <;> cases cp <;> simp_all [execute.steps]

/-- An instance of `execute_worker_activation`: with `numThreads_ = 3`, on a
timestep that is not a copy-data timestep, workers 1 and 2 are set `Active`
before `runTasks` and `Inactive` after it; on a copy-data timestep without MPI
no thread state is set. -/
theorem execute_worker_activation_witness :
    execute.steps ExecuteCall.ordinary =
      [ExecuteStep.setCounters, ExecuteStep.setRunTasks 1,
        ExecuteStep.setThreadState 1 ThreadState.Active,
        ExecuteStep.setThreadState 2 ThreadState.Active,
        ExecuteStep.runTasks, ExecuteStep.setRunTasks 0, ExecuteStep.thread_fence,
        ExecuteStep.setThreadState 1 ThreadState.Inactive,
        ExecuteStep.setThreadState 2 ThreadState.Inactive] ∧
    ExecuteStep.setThreadState 1 ThreadState.Active ∉ execute.steps ExecuteCall.copyData :=
  ⟨(execute_worker_activation ExecuteCall.ordinary).2.2.2.1 rfl rfl,
    (execute_worker_activation ExecuteCall.copyData).1 rfl 1 ThreadState.Active⟩

/-- Claim C22 fails as stated: on a timestep that is not a copy-data timestep,
for a task graph without detailed tasks, `execute` returns after the message
that it skips: no worker is set `Active` and `runTasks` is not called. -/
theorem execute_counterexample :
    ExecuteCall.noTasks.isCopyDataTimestep = false ∧
    execute.steps ExecuteCall.noTasks = [ExecuteStep.skipping] ∧
    ExecuteStep.runTasks ∉ execute.steps ExecuteCall.noTasks ∧
    ExecuteStep.setThreadState 1 ThreadState.Active ∉ execute.steps ExecuteCall.noTasks := by
  decide

/-! ### Ordinates and intensity labels -/

theorem wrapInt_id (x : Int) (h1 : -2 ^ 31 ≤ x) (h2 : x < 2 ^ 31) : wrapInt x = x := by
  unfold wrapInt
  omega

theorem computeOrdinatesOPL_exact (sn : Int) (h1 : 1 ≤ sn) (h2 : sn * (sn + 2) < 2 ^ 31) :
    computeOrdinatesOPL sn = sn * (sn + 2) := by
  unfold computeOrdinatesOPL
  have h3 : sn + 2 ≤ sn * (sn + 2) := by nlinarith
  have h4 : 0 ≤ sn * (sn + 2) := by nlinarith
  rw [wrapInt_id (sn + 2) (by omega) (by omega), wrapInt_id _ (by omega) h2]

theorem intensityLabelsLoop_all (d_totalOrds : Int) :
    ∀ (fuel ix : Nat), (ix : Int) + fuel = d_totalOrds →
      intensityLabelsLoop d_totalOrds true fuel ix = (List.range' ix fuel).map intensityLabel := by
  intro fuel
  induction fuel with
  | zero => intro ix _; rfl
  | succ k ih =>
    intro ix h
    have hlt : (ix : Int) < d_totalOrds := by omega
    simp only [intensityLabelsLoop, hlt, if_true, List.range'_succ, List.map_cons]
    rw [ih (ix + 1) (by push_cast; omega)]
    simp

theorem intensityLabelsLoop_one (d_totalOrds : Int) (fuel : Nat) (h1 : 0 < d_totalOrds)
    (h2 : 0 < fuel) : intensityLabelsLoop d_totalOrds false fuel 0 = [intensityLabel 0] := by
  cases fuel with
  | zero => omega
  | succ k => simp [intensityLabelsLoop, h1]

theorem setw4_length (ix : Nat) (h : ix < 10000) : (setw4 ix).length = 4 := by
  have h1 : (Nat.repr ix).length ≤ 4 := Nat.repr_length ix 4 (by decide) (by omega)
  unfold setw4
  rw [String.length_append]
  show (List.replicate (4 - (Nat.repr ix).length) '0').length + (Nat.repr ix).length = 4
  rw [List.length_replicate]
  omega

theorem problemSetup_switches (p : RadiationSpec) (s : RadiationSetup)
    (h : DORadiationModel.problemSetup p = SetupOutcome.ok s) :
    (s._usePreviousIntensity = true ↔ p.initialGuess = some "prevRadSolve") ∧
    (s._scatteringOn = true ↔ p.ScatteringOn = some true) := by
  unfold DORadiationModel.problemSetup at h
  simp only at h
  split_ifs at h with hg
  cases hm : modelLoop p "" p.models with
  | ProblemSetupException m => rw [hm] at h; simp at h
  | nullHandle => rw [hm] at h; simp at h
  | ok r =>
    rw [hm] at h
    simp only at h
    split_ifs at h with hsc
    simp only [SetupOutcome.ok.injEq] at h
    subst h
    constructor
    · cases hi : p.initialGuess with
      | none => simp
      | some g => simp
    · cases hi : p.ScatteringOn with
      | none => simp
      | some g => simp

/-- Claim C25, as the code has it: when the first part of `problemSetup`
completes and `<ordinates>` is `sn >= 1` with `sn * (sn + 2)` in the range of
`int`, then `getIntOrdinates()` is `sn * (sn + 2)`; `needIntensitiesBool()`
holds exactly when the initial guess is `prevRadSolve` or scattering is on;
there are `sn * (sn + 2)` intensity labels when it holds and one label
otherwise; label `ix` is named "Intensity" followed by the decimal digits of
`ix`, with zeros in front of them up to a width of four, which makes four
characters for every `ix < 10000`. -/
theorem problemSetup_intensity_labels (p : RadiationSpec) (s : RadiationSetup) (sn : Int)
    (hs : DORadiationModel.problemSetup p = SetupOutcome.ok s)
    (h1 : 1 ≤ sn) (h2 : sn * (sn + 2) < 2 ^ 31) :
    ∃ r, DORadiationModel.problemSetup.labels p (some sn) = SetupOutcome.ok r ∧
      r.getIntOrdinates = sn * (sn + 2) ∧
      (s.needIntensitiesBool = true ↔
        (p.initialGuess = some "prevRadSolve" ∨ p.ScatteringOn = some true)) ∧
      (r._IntensityLabels.length : Int)
        = (if s.needIntensitiesBool = true then sn * (sn + 2) else 1) ∧
      (∀ ix, ix < r._IntensityLabels.length →
        r._IntensityLabels.getD ix "" = "Intensity" ++ setw4 ix) ∧
      (∀ ix, setw4 ix
        = String.mk (List.replicate (4 - (toString ix).length) (Char.ofNat 48)) ++ toString ix) ∧
      ∀ ix, ix < 10000 → (setw4 ix).length = 4 := by
  have hT := computeOrdinatesOPL_exact sn h1 h2
  have hpos : 0 < sn * (sn + 2) := by nlinarith
  obtain ⟨w1, w2⟩ := problemSetup_switches p s hs
  refine ⟨_, by simp only [DORadiationModel.problemSetup.labels, hs]; rfl, ?_, ?_, ?_, ?_,
    fun ix => rfl, setw4_length⟩
  · simp only [OrdinateSetup.getIntOrdinates, Option.getD_some, hT]
  · unfold RadiationSetup.needIntensitiesBool
    rw [Bool.or_eq_true, w1, w2]
  · simp only [Option.getD_some, hT]
    cases hn : s.needIntensitiesBool with
    | true =>
      rw [intensityLabelsLoop_all _ _ 0 (by simp; omega)]
      simp
      omega
    | false =>
      rw [intensityLabelsLoop_one _ _ hpos (by omega)]
      simp
  · intro ix hix
    simp only [Option.getD_some, hT] at hix ⊢
    cases hn : s.needIntensitiesBool with
    | true =>
      rw [hn, intensityLabelsLoop_all _ _ 0 (by simp; omega)] at hix
      rw [intensityLabelsLoop_all _ _ 0 (by simp; omega)]
      simp only [List.length_map, List.length_range'] at hix
      simp [List.getD_eq_getElem?_getD, List.getElem?_map, List.getElem?_range', hix,
        intensityLabel]
    | false =>
      rw [hn, intensityLabelsLoop_one _ _ hpos (by omega)] at hix
      rw [intensityLabelsLoop_one _ _ hpos (by omega)]
      simp only [List.length_singleton, Nat.lt_one_iff] at hix
      subst hix
      simp [intensityLabel]

/-- An instance of `problemSetup_intensity_labels`: with the previous
radiation solve as initial guess and `<ordinates>` 2 there are 8 directions and
8 labels. -/
theorem problemSetup_intensity_labels_witness :
    ∃ r, DORadiationModel.problemSetup.labels prevRadSolveGuess (some 2) = SetupOutcome.ok r ∧
      r.getIntOrdinates = 8 ∧ r._IntensityLabels.length = 8 ∧
      r._IntensityLabels.getD 7 "" = "Intensity0007" := by
  obtain ⟨r, e1, e2, e3, e4, e5, _⟩ := problemSetup_intensity_labels prevRadSolveGuess
    { _zeroInitialGuess := false, _usePreviousIntensity := true, _scatteringOn := false
      _nQn_part := 0, _radiateAtGasTemp := true, _abskp_name_vector := []
      _temperature_name_vector := [] } 2 (by decide) (by decide) (by decide)
  have h8 : r._IntensityLabels.length = 8 := by
    have : (r._IntensityLabels.length : Int) = 8 := by simpa [RadiationSetup.needIntensitiesBool] using e4
    exact_mod_cast this
  refine ⟨r, e1, by simpa using e2, h8, ?_⟩
  rw [e5 7 (by omega)]
  rfl

/-- Claim C25 fails as stated. With `<ordinates>` 100 and the previous
radiation solve as initial guess there are 10200 labels, and the label of
direction 10000 is "Intensity10000": its index has five digits. With
`<ordinates>` 46340 the product `sn * (sn + 2)` is 2147488280, which no `int`
holds, so `getIntOrdinates()` differs from it. -/
theorem problemSetup_intensity_labels_counterexample :
    (∃ r, DORadiationModel.problemSetup.labels prevRadSolveGuess (some 100) = SetupOutcome.ok r ∧
      r.getIntOrdinates = 10200 ∧ r._IntensityLabels.length = 10200 ∧
      r._IntensityLabels.getD 10000 "" = "Intensity10000") ∧
    (∀ v : Int, -2 ^ 31 ≤ v → v < 2 ^ 31 → v ≠ 46340 * (46340 + 2)) ∧
    computeOrdinatesOPL 46340 ≠ 46340 * (46340 + 2) := by
  refine ⟨⟨_, rfl, by decide, ?_, ?_⟩, by intro v h1 h2; omega, by decide⟩
  · show (intensityLabelsLoop (computeOrdinatesOPL 100) true (computeOrdinatesOPL 100).toNat
      0).length = 10200
    have e : computeOrdinatesOPL 100 = 10200 := by decide
    rw [e, intensityLabelsLoop_all _ _ 0 (by decide)]
    simp
  · show (intensityLabelsLoop (computeOrdinatesOPL 100) true (computeOrdinatesOPL 100).toNat
      0).getD 10000 "" = "Intensity10000"
    have e : computeOrdinatesOPL 100 = 10200 := by decide
    rw [e, intensityLabelsLoop_all _ _ 0 (by decide)]
    have h : ((List.range' 0 (10200 : Int).toNat).map intensityLabel).getD 10000 ""
        = intensityLabel 10000 := by
      simp [List.getD_eq_getElem?_getD, List.getElem?_map, List.getElem?_range']
    rw [h]
    simp only [intensityLabel, setw4]
    decide

/-! ### Boundary enumerations and their names -/

/-- Claim C28: parsing the name of a value gives the value back, for all
three values of `BndCondTypeEnum` and all six of `BndTypeEnum`; a string other
than "Dirichlet" and "Neumann" parses to `UNSUPPORTED`; a string other than
"Wall", "Velocity", "Open", "Outflow", "None" and "User" parses to `INVALID`;
and "None" parses to `USER`. -/
theorem select_enum_of_to_string :
    (∀ e : BndCondTypeEnum, select_bc_type_enum (bc_type_enum_to_string e) = e) ∧
    (∀ b : BndTypeEnum, select_bnd_type_enum (bnd_type_enum_to_string b) = b) ∧
    (∀ s : String, s ≠ "Dirichlet" → s ≠ "Neumann" →
      select_bc_type_enum s = BndCondTypeEnum.UNSUPPORTED) ∧
    (∀ s : String, s ≠ "Wall" → s ≠ "Velocity" → s ≠ "Open" → s ≠ "Outflow" → s ≠ "None" →
      s ≠ "User" → select_bnd_type_enum s = BndTypeEnum.INVALID) ∧
    select_bnd_type_enum "None" = BndTypeEnum.USER := by
  refine ⟨?_, ?_, ?_, ?_, by decide⟩
  · intro e; cases e <;> decide
  · intro b; cases b <;> decide
  · intro s h1 h2
    simp [select_bc_type_enum, h1, h2]
  · intro s h1 h2 h3 h4 h5 h6
    simp [select_bnd_type_enum, h1, h2, h3, h4, h5, h6]

/-- An instance of `select_enum_of_to_string`: the strings "Unsupported",
"Invalid", "wall" and the empty string are not recognised names. -/
theorem select_enum_of_to_string_witness :
    select_bc_type_enum "Unsupported" = BndCondTypeEnum.UNSUPPORTED ∧
    select_bc_type_enum "" = BndCondTypeEnum.UNSUPPORTED ∧
    select_bnd_type_enum "Invalid" = BndTypeEnum.INVALID ∧
    select_bnd_type_enum "wall" = BndTypeEnum.INVALID :=
  ⟨select_enum_of_to_string.2.2.1 "Unsupported" (by decide) (by decide),
    select_enum_of_to_string.2.2.1 "" (by decide) (by decide),
    select_enum_of_to_string.2.2.2.1 "Invalid" (by decide) (by decide) (by decide) (by decide)
      (by decide) (by decide),
    select_enum_of_to_string.2.2.2.1 "wall" (by decide) (by decide) (by decide) (by decide)
      (by decide) (by decide)⟩

/-! ### `WBCHelper::add_boundary` -/

/-- Claim C26: (1) for a name not in the map, `add_boundary` inserts a boundary
with the given name, face and type, the one patch ID and no conditions; its
particle spec is the given one with `bndType = WALL`, `wallType = ELASTIC` and
`restitutionCoef = 1.0` when the boundary is a `WALL` and the given particle
spec is `NOTSET`, and the given one otherwise. (2) For a name in the map it
appends the patch ID to that boundary and changes nothing else of it. (3) Every
other boundary stays as it is. (4) Afterwards the boundary has the patch. -/
theorem add_boundary_spec {V : Type} (m : BndMapT V) (bndName : String) (face : FaceType)
    (bndType : BndTypeEnum) (patchID : Int) (pBndSpec : ParticleBndSpec) :
    (m bndName = none →
      (bndType = BndTypeEnum.WALL → pBndSpec.bndType = ParticleBndTypeEnum.NOTSET →
        WBCHelper.add_boundary m bndName face bndType patchID pBndSpec bndName = some
          { name := bndName, face := face, type := bndType, patchIDs := [patchID]
            particleBndSpec :=
              { pBndSpec with
                bndType := ParticleBndTypeEnum.WALL
                wallType := ParticleWallTypeEnum.ELASTIC
                restitutionCoef := 1 }
            bcSpecVec := [] }) ∧
      (¬ (bndType = BndTypeEnum.WALL ∧ pBndSpec.bndType = ParticleBndTypeEnum.NOTSET) →
        WBCHelper.add_boundary m bndName face bndType patchID pBndSpec bndName = some
          { name := bndName, face := face, type := bndType, patchIDs := [patchID]
            particleBndSpec := pBndSpec, bcSpecVec := [] })) ∧
    (∀ b, m bndName = some b →
      WBCHelper.add_boundary m bndName face bndType patchID pBndSpec bndName
        = some { b with patchIDs := b.patchIDs ++ [patchID] }) ∧
    (∀ other, other ≠ bndName →
      WBCHelper.add_boundary m bndName face bndType patchID pBndSpec other = m other) ∧
    ∃ b, WBCHelper.add_boundary m bndName face bndType patchID pBndSpec bndName = some b ∧
      b.has_patch patchID = true := by
  refine ⟨?_, ?_, ?_, ?_⟩
  · intro h
    constructor
    · intro h1 h2
      simp [WBCHelper.add_boundary, h, h1, h2]
    · intro h1
      simp only [WBCHelper.add_boundary, h, if_true]
      rw [if_neg h1]
  · intro b h
    simp [WBCHelper.add_boundary, h]
  · intro other ho
    unfold WBCHelper.add_boundary
    cases m bndName <;> simp [ho]
  · unfold WBCHelper.add_boundary
    cases hm : m bndName with
    | none =>
      simp only [if_true]
      exact ⟨_, rfl, by simp [BndSpec.has_patch]⟩
    | some b =>
      simp only [if_true]
      exact ⟨_, rfl, by simp [BndSpec.has_patch]⟩

/-- An instance of `add_boundary_spec`: a wall without particle spec, added on
patch 3 and then on patch 5 with another face and type, is an elastic wall on
the first face with the patches 3 and 5. -/
theorem add_boundary_spec_witness :
    WBCHelper.add_boundary (BndMapT.empty Int) "floor" FaceType.zminus BndTypeEnum.WALL 3
        ParticleBndSpec.notSet "floor" = some
      { name := "floor", face := FaceType.zminus, type := BndTypeEnum.WALL, patchIDs := [3]
        particleBndSpec :=
          { bndType := ParticleBndTypeEnum.WALL, wallType := ParticleWallTypeEnum.ELASTIC
            restitutionCoef := 1 }
        bcSpecVec := [] } ∧
    WBCHelper.add_boundary inletOnly "inlet" FaceType.zplus BndTypeEnum.OPEN 5
        ParticleBndSpec.notSet "inlet" = some
      { name := "inlet", face := FaceType.xminus, type := BndTypeEnum.VELOCITY
        patchIDs := [3, 5], particleBndSpec := ParticleBndSpec.notSet, bcSpecVec := [] } :=
  ⟨((add_boundary_spec (BndMapT.empty Int) "floor" FaceType.zminus BndTypeEnum.WALL 3
      ParticleBndSpec.notSet).1 rfl).1 rfl rfl,
    (add_boundary_spec inletOnly "inlet" FaceType.zplus BndTypeEnum.OPEN 5
      ParticleBndSpec.notSet).2.1 _ rfl⟩

/-! ### `WBCHelper::add_boundary_condition` -/

theorem find_eq_none_iff {V : Type} [BEq V] (l : List (BndCondSpec V)) (bcSpec : BndCondSpec V) :
    l.find? (fun e => e.eq bcSpec) = none ↔ ∀ e ∈ l, e.eq bcSpec = false := by
  rw [List.find?_eq_none]
  constructor
  · intro h e he
    simpa using h e he
  · intro h e he
    simp [h e he]

theorem add_boundary_condition_held {V : Type} [BEq V] (m : BndMapT V) (bndName : String)
    (bcSpec : BndCondSpec V) (b : BndSpec V) (hb : m bndName = some b)
    (h : ∃ e ∈ b.bcSpecVec, e.eq bcSpec = true) :
    WBCHelper.add_boundary_condition m bndName bcSpec = m := by
  unfold WBCHelper.add_boundary_condition
  rw [hb]
  cases hf : b.bcSpecVec.find? (fun e => e.eq bcSpec) with
  | some _ => simp only [hf]
  | none =>
    exfalso
    obtain ⟨e, he, h1⟩ := h
    have := (find_eq_none_iff _ _).mp hf e he
    rw [this] at h1
    exact absurd h1 (by simp)

theorem add_boundary_condition_new {V : Type} [BEq V] (m : BndMapT V) (bndName : String)
    (bcSpec : BndCondSpec V) (b : BndSpec V) (hb : m bndName = some b)
    (h : ∀ e ∈ b.bcSpecVec, e.eq bcSpec = false) :
    WBCHelper.add_boundary_condition m bndName bcSpec = fun k =>
      if k = bndName then some { b with bcSpecVec := b.bcSpecVec ++ [bcSpec] } else m k := by
  unfold WBCHelper.add_boundary_condition
  rw [hb]
  simp only [(find_eq_none_iff _ _).mpr h]

theorem add_boundary_condition_unknown {V : Type} [BEq V] (m : BndMapT V) (bndName : String)
    (bcSpec : BndCondSpec V) (hb : m bndName = none) :
    WBCHelper.add_boundary_condition m bndName bcSpec = m := by
  unfold WBCHelper.add_boundary_condition
  rw [hb]

/-- In each case `add_boundary_condition` leaves the spec list of the named
boundary as it is or appends the spec, which no spec of the list is `==`
to. -/
theorem add_boundary_condition_cases {V : Type} [BEq V] (m : BndMapT V) (bndName : String)
    (bcSpec : BndCondSpec V) :
    WBCHelper.add_boundary_condition m bndName bcSpec = m ∨
    ∃ b, m bndName = some b ∧ (∀ e ∈ b.bcSpecVec, e.eq bcSpec = false) ∧
      WBCHelper.add_boundary_condition m bndName bcSpec = fun k =>
        if k = bndName then some { b with bcSpecVec := b.bcSpecVec ++ [bcSpec] } else m k := by
  cases hb : m bndName with
  | none => exact Or.inl (add_boundary_condition_unknown m bndName bcSpec hb)
  | some b =>
    by_cases h : ∀ e ∈ b.bcSpecVec, e.eq bcSpec = false
    · exact Or.inr ⟨b, rfl, h, add_boundary_condition_new m bndName bcSpec b hb h⟩
    · left
      push_neg at h
      obtain ⟨e, he, h1⟩ := h
      exact add_boundary_condition_held m bndName bcSpec b hb ⟨e, he, by simpa using h1⟩

theorem apply_noEqualSpecs {V : Type} [BEq V] (m : BndMapT V) (call : BndCall V)
    (h : NoEqualSpecs m) : NoEqualSpecs (call.apply m) := by
  cases call with
  | add_boundary bndName face bndType patchID pBndSpec =>
    intro name b hb
    simp only [BndCall.apply, WBCHelper.add_boundary] at hb
    by_cases hk : name = bndName
    · subst hk
      cases hm : m name with
      | none =>
        rw [hm] at hb
        simp only [if_true, Option.some.injEq] at hb
        subst hb
        exact List.Pairwise.nil
      | some b0 =>
        rw [hm] at hb
        simp only [if_true, Option.some.injEq] at hb
        subst hb
        exact h name b0 hm
    · cases hm : m bndName with
      | none =>
        rw [hm] at hb
        simp only [hk, if_false] at hb
        exact h name b hb
      | some b0 =>
        rw [hm] at hb
        simp only [hk, if_false] at hb
        exact h name b hb
  | add_boundary_condition bndName bcSpec =>
    simp only [BndCall.apply]
    rcases add_boundary_condition_cases m bndName bcSpec with e | ⟨b0, hb0, hne, e⟩
    · rw [e]; exact h
    · rw [e]
      intro name b hb
      simp only at hb
      split_ifs at hb with hk
      · simp only [Option.some.injEq] at hb
        subst hb
        simp only
        rw [List.pairwise_append]
        refine ⟨h bndName b0 hb0, List.pairwise_singleton _ _, ?_⟩
        intro x hx y hy
        simp only [List.mem_singleton] at hy
        subst hy
        exact hne x hx
      · exact h name b hb

theorem after_noEqualSpecs {V : Type} [BEq V] (calls : List (BndCall V)) :
    ∀ m : BndMapT V, NoEqualSpecs m → NoEqualSpecs (calls.foldl BndCall.apply m) := by
  induction calls with
  | nil => intro m h; exact h
  | cons c cs ih =>
    intro m h
    simp only [List.foldl_cons]
    exact ih _ (apply_noEqualSpecs m c h)

theorem find_append {V : Type} (b : BndSpec V) (rest : List (BndCondSpec V)) (varName : String)
    (s : BndCondSpec V) (h : b.find varName = some s) :
    ({ b with bcSpecVec := b.bcSpecVec ++ rest } : BndSpec V).find varName = some s := by
  unfold BndSpec.find at h ⊢
  simp [List.find?_append, h]

theorem find_earliest {V : Type} (b : BndSpec V) (varName : String) (s : BndCondSpec V)
    (h : b.find varName = some s) :
    ∃ pre post, b.bcSpecVec = pre ++ s :: post ∧ s.varName = varName ∧
      ∀ e ∈ pre, e.varName ≠ varName := by
  unfold BndSpec.find at h
  rw [List.find?_eq_some] at h
  obtain ⟨h1, pre, post, h2, h3⟩ := h
  refine ⟨pre, post, h2, ?_, ?_⟩
  · exact (of_decide_eq_true h1).symm
  · intro e he heq
    have := h3 e he
    simp [BndCondSpec.eqName, heq] at this

/-- Claim C27, with "equal" read as `BndCondSpec::operator==`: (1) when the
named boundary holds a spec that is `==` to the given one, the map stays as it
is; (2) when it holds none, the spec is appended at the end of the boundary's
list and nothing else changes; (3) for a name that is not in the map, the map
stays as it is; (4) after any calls of `add_boundary` and
`add_boundary_condition`, no spec list holds two specs of which the earlier
is `==` to the later; (5) the specs a boundary had come first, in their order,
in the list it has afterwards, and `find` on a variable that had a spec gives
the same spec as before; (6) `find` gives the first spec of the list with the
variable's name; (7) a second call with the same arguments changes nothing,
for a spec that is `==` to itself. -/
theorem add_boundary_condition_spec {V : Type} [BEq V] (m : BndMapT V) (bndName : String)
    (bcSpec : BndCondSpec V) (calls : List (BndCall V)) :
    (∀ b, m bndName = some b → (∃ e ∈ b.bcSpecVec, e.eq bcSpec = true) →
      WBCHelper.add_boundary_condition m bndName bcSpec = m) ∧
    (∀ b, m bndName = some b → (∀ e ∈ b.bcSpecVec, e.eq bcSpec = false) →
      WBCHelper.add_boundary_condition m bndName bcSpec bndName
        = some { b with bcSpecVec := b.bcSpecVec ++ [bcSpec] } ∧
      ∀ other, other ≠ bndName →
        WBCHelper.add_boundary_condition m bndName bcSpec other = m other) ∧
    (m bndName = none → WBCHelper.add_boundary_condition m bndName bcSpec = m) ∧
    NoEqualSpecs (BndMapT.after calls) ∧
    (∀ b, m bndName = some b →
      ∃ b1 rest, WBCHelper.add_boundary_condition m bndName bcSpec bndName = some b1 ∧
        b1.bcSpecVec = b.bcSpecVec ++ rest ∧
        ∀ varName s, b.find varName = some s → b1.find varName = some s) ∧
    (∀ (b : BndSpec V) (varName : String) (s : BndCondSpec V), b.find varName = some s →
      ∃ pre post, b.bcSpecVec = pre ++ s :: post ∧ s.varName = varName ∧
        ∀ e ∈ pre, e.varName ≠ varName) ∧
    (bcSpec.eq bcSpec = true →
      WBCHelper.add_boundary_condition (WBCHelper.add_boundary_condition m bndName bcSpec)
        bndName bcSpec = WBCHelper.add_boundary_condition m bndName bcSpec) := by
  refine ⟨add_boundary_condition_held m bndName bcSpec, ?_,
    add_boundary_condition_unknown m bndName bcSpec, ?_, ?_, find_earliest, ?_⟩
  · intro b hb h
    rw [add_boundary_condition_new m bndName bcSpec b hb h]
    exact ⟨by simp, fun other ho => by simp [ho]⟩
  · exact after_noEqualSpecs calls _ (fun name b hb => by simp [BndMapT.empty] at hb)
  · intro b hb
    rcases add_boundary_condition_cases m bndName bcSpec with e | ⟨b0, hb0, _, e⟩
    · rw [e]
      exact ⟨b, [], hb, by simp, fun _ _ h => h⟩
    · rw [hb] at hb0
      simp only [Option.some.injEq] at hb0
      subst hb0
      rw [e]
      exact ⟨_, [bcSpec], by simp, rfl, fun varName s h => find_append b [bcSpec] varName s h⟩
  · intro hrefl
    rcases add_boundary_condition_cases m bndName bcSpec with e | ⟨b0, hb0, _, e⟩
    · rw [e, e]
    · rw [e]
      exact add_boundary_condition_held _ bndName bcSpec
        { b0 with bcSpecVec := b0.bcSpecVec ++ [bcSpec] } (by simp) ⟨bcSpec, by simp, hrefl⟩

/-- An instance of `add_boundary_condition_spec`: the boundary `inlet` gets a
condition on `u`, the same again, one on `v` and another one on `u`; it ends
with three conditions, in the order in which they were first added, `find`
gives the first condition on `u`, and the call for the boundary `outlet`, which
does not exist, changes nothing. -/
theorem add_boundary_condition_spec_witness :
    ((BndMapT.after inletCalls "inlet").map (fun b => b.bcSpecVec))
      = some [dirichletSpec "u" 1, dirichletSpec "v" 0, dirichletSpec "u" 2] ∧
    ((BndMapT.after inletCalls "inlet").bind (fun b => b.find "u")) = some (dirichletSpec "u" 1) ∧
    BndMapT.after inletCalls "outlet" = none ∧
    WBCHelper.add_boundary_condition inletOnly "outlet" (dirichletSpec "u" 1) = inletOnly ∧
    WBCHelper.add_boundary_condition
        (WBCHelper.add_boundary_condition inletOnly "inlet" (dirichletSpec "u" 1)) "inlet"
        (dirichletSpec "u" 1)
      = WBCHelper.add_boundary_condition inletOnly "inlet" (dirichletSpec "u" 1) :=
  ⟨by decide, by decide, by decide,
    (add_boundary_condition_spec inletOnly "outlet" (dirichletSpec "u" 1) []).2.2.1 (by decide),
    (add_boundary_condition_spec inletOnly "inlet" (dirichletSpec "u" 1) []).2.2.2.2.2.2
      (by decide)⟩

/-! ### The transfer matrix -/

/-- Number of pairs of the first `k` elements. -/
theorem lengthSum_take_succ {α : Type} (vs : List (List α)) (k : Nat) (hk : k < vs.length) :
    ((vs.take (k + 1)).map List.length).sum
      = ((vs.take k).map List.length).sum + (vs.get ⟨k, hk⟩).length := by
  rw [List.take_succ, List.getElem?_eq_getElem hk]
  simp only [Option.toList_some, List.map_append, List.map_cons, List.map_nil, List.sum_append,
    List.sum_cons, List.sum_nil, Nat.add_zero, List.get_eq_getElem]

/-- The state of the loop after the elements `vs`. -/
theorem foldl_element {I W : Type} (toInt : I → Int) (sort : List (Int × W) → List (Int × W))
    (vs : List (List (I × W))) :
    (vs.foldl (Interp2TransferAlgoT.element toInt sort)
        { counter := 0, rowdata := [0], coldatav := [], datav := [] }).counter = vs.length ∧
    (vs.foldl (Interp2TransferAlgoT.element toInt sort)
        { counter := 0, rowdata := [0], coldatav := [], datav := [] }).rowdata.length
      = vs.length + 1 ∧
    (∀ k, k ≤ vs.length →
      (vs.foldl (Interp2TransferAlgoT.element toInt sort)
        { counter := 0, rowdata := [0], coldatav := [], datav := [] }).rowdata.getD k 0
      = ((((vs.take k).map List.length).sum : Nat) : Int)) ∧
    (vs.foldl (Interp2TransferAlgoT.element toInt sort)
        { counter := 0, rowdata := [0], coldatav := [], datav := [] }).coldatav
      = ((vs.map (fun vtmp => sort (vtmp.map (fun p => (toInt p.1, p.2))))).flatten).map
          Prod.fst ∧
    (vs.foldl (Interp2TransferAlgoT.element toInt sort)
        { counter := 0, rowdata := [0], coldatav := [], datav := [] }).datav
      = ((vs.map (fun vtmp => sort (vtmp.map (fun p => (toInt p.1, p.2))))).flatten).map
          Prod.snd := by
  induction vs using List.reverseRecOn with
  | nil =>
    refine ⟨rfl, rfl, ?_, rfl, rfl⟩
    intro k hk
    have : k = 0 := by simpa using hk
    subst this
    rfl
  | append_singleton vs v ih =>
    obtain ⟨i1, i2, i3, i4, i5⟩ := ih
    rw [List.foldl_append]
    simp only [List.foldl_cons, List.foldl_nil, Interp2TransferAlgoT.element]
    refine ⟨?_, ?_, ?_, ?_, ?_⟩
    · simp [i1]
    · simp [i2]
    · intro k hk
      rw [i1]
      by_cases hle : k ≤ vs.length
      · rw [List.getD_eq_getElem?_getD, List.getElem?_append_left (by omega),
          ← List.getD_eq_getElem?_getD, i3 k hle, List.take_append_of_le_length hle]
      · have hk2 : k = vs.length + 1 := by
          simp only [List.length_append, List.length_singleton] at hk
          omega
        subst hk2
        rw [List.getD_eq_getElem?_getD, List.getElem?_append_right (by omega)]
        simp only [i2, Nat.sub_self, List.getElem?_cons_zero, Option.getD_some, List.length_map]
        rw [i3 vs.length (le_refl _)]
        have e1 : List.take (vs.length + 1) (vs ++ [v]) = vs ++ [v] := by
          apply List.take_of_length_le
          simp
        rw [e1, List.take_length]
        simp
    · rw [i4]
      simp
    · rw [i5]
      simp

theorem drop_take_flatten {α : Type} (rows : List (List α)) (k : Nat) (hk : k < rows.length) :
    (rows.flatten.drop ((rows.take k).map List.length).sum).take (rows.get ⟨k, hk⟩).length
      = rows.get ⟨k, hk⟩ := by
  have h1 : rows = rows.take k ++ rows.get ⟨k, hk⟩ :: rows.drop (k + 1) := by
    rw [List.get_eq_getElem, ← List.drop_eq_getElem_cons hk, List.take_append_drop]
  have h2 := congrArg List.flatten h1
  simp only [List.flatten_append, List.flatten_cons] at h2
  have h3 : ((rows.take k).map List.length).sum = (rows.take k).flatten.length := by
    rw [List.length_flatten]
  rw [h2, h3, List.drop_left, List.take_left]

theorem sortByFirst_spec {W : Type} (l : List (Int × W)) :
    (sortByFirst l).Perm l ∧ (sortByFirst l).Pairwise (fun a b => pair_less b a = false) := by
  haveI : IsTotal (Int × W) (fun a b => a.1 ≤ b.1) := ⟨fun a b => le_total a.1 b.1⟩
  haveI : IsTrans (Int × W) (fun a b => a.1 ≤ b.1) := ⟨fun a b c h1 h2 => le_trans h1 h2⟩
  refine ⟨List.perm_insertionSort _ l, ?_⟩
  have h := List.sorted_insertionSort (fun a b : Int × W => a.1 ≤ b.1) l
  unfold sortByFirst
  refine List.Pairwise.imp ?_ h
  intro a b hab
  simp only [pair_less, decide_eq_false_iff_not, not_lt]
  exact hab

/-- Claim C29: let `sort` be any procedure that, like `std::sort` with
`pair_less`, returns a permutation of its argument in which no pair is
`pair_less` than an earlier one. Without the property "interp-source-range"
`execute` returns no matrix. With it, the matrix has one row per element and
`range` columns; `rowdata` has one entry more than there are rows, starts with
0, grows from each row to the next by the number of pairs of the element, and
ends with the number of stored entries, which is the length of both `coldata`
and `data`; the stored (column, weight) pairs of row `k` are a permutation of
the pairs of element `k` (with the index cast to `int`), and their columns are
in non-decreasing order. -/
theorem execute_builds_csr {I W : Type} (toInt : I → Int)
    (sort : List (Int × W) → List (Int × W)) (fitp : InterpField I W)
    (hsort : ∀ l, (sort l).Perm l ∧ (sort l).Pairwise (fun a b => pair_less b a = false)) :
    (fitp.range = none → Interp2TransferAlgoT.execute toInt sort fitp = none) ∧
    ∀ range, fitp.range = some range →
      ∃ m, Interp2TransferAlgoT.execute toInt sort fitp = some m ∧
        m.nrows = fitp.values.length ∧ m.ncols = range ∧
        m.rowdata.length = m.nrows + 1 ∧ m.rowdata.getD 0 0 = 0 ∧
        (∀ k (hk : k < fitp.values.length), m.rowdata.getD (k + 1) 0
          = m.rowdata.getD k 0 + ((fitp.values.get ⟨k, hk⟩).length : Int)) ∧
        m.rowdata.getD m.nrows 0 = (m.nnz : Int) ∧
        m.coldata.length = m.nnz ∧ m.data.length = m.nnz ∧
        ∀ k (hk : k < fitp.values.length),
          (m.row k).Perm ((fitp.values.get ⟨k, hk⟩).map (fun p => (toInt p.1, p.2))) ∧
          ((m.row k).map Prod.fst).Pairwise (fun a b => a ≤ b) := by
  constructor
  · intro h
    simp [Interp2TransferAlgoT.execute, h]
  intro range hr
  obtain ⟨_, f2, f3, f4, f5⟩ := foldl_element toInt sort fitp.values
  generalize hst : fitp.values.foldl (Interp2TransferAlgoT.element toInt sort)
    { counter := 0, rowdata := [0], coldatav := [], datav := [] } = st at f2 f3 f4 f5
  have hlen : ∀ v : List (I × W), (sort (v.map (fun p => (toInt p.1, p.2)))).length = v.length := by
    intro v
    rw [(hsort _).1.length_eq, List.length_map]
  have hsum : ∀ k, (((fitp.values.map (fun vtmp =>
      sort (vtmp.map (fun p => (toInt p.1, p.2))))).take k).map List.length).sum
      = ((fitp.values.take k).map List.length).sum := by
    intro k
    rw [← List.map_take, List.map_map]
    congr 1
    apply List.map_congr_left
    intro v _
    exact hlen v
  have hzip : st.coldatav.zip st.datav
      = (fitp.values.map (fun vtmp => sort (vtmp.map (fun p => (toInt p.1, p.2))))).flatten :=
    (List.zip_of_prod f4.symm f5.symm).symm
  have hstep : ∀ k (hk : k < fitp.values.length),
      st.rowdata.getD (k + 1) 0
        = st.rowdata.getD k 0 + ((fitp.values.get ⟨k, hk⟩).length : Int) := by
    intro k hk
    rw [f3 (k + 1) (by omega), f3 k (by omega), lengthSum_take_succ _ k hk]
    push_cast
    rfl
  refine ⟨{ nrows := fitp.values.length, ncols := range, rowdata := st.rowdata
            coldata := st.coldatav, nnz := st.datav.length, data := st.datav },
    by simp only [Interp2TransferAlgoT.execute, hr, hst], rfl, rfl, f2, ?_, hstep, ?_, ?_,
    rfl, ?_⟩
  · rw [f3 0 (by omega)]
    simp
  · show st.rowdata.getD fitp.values.length 0 = ((st.datav.length : Nat) : Int)
    rw [f3 _ (le_refl _), f5, List.take_length, List.length_map, List.length_flatten,
      List.map_map]
    congr 2
    apply List.map_congr_left
    intro v _
    exact (hlen v).symm
  · show st.coldatav.length = st.datav.length
    rw [f4, f5, List.length_map, List.length_map]
  · intro k hk
    have hk2 : k < (fitp.values.map (fun vtmp =>
        sort (vtmp.map (fun p => (toInt p.1, p.2))))).length := by simpa using hk
    have hrow : SparseRowMatrix.row
        { nrows := fitp.values.length, ncols := range, rowdata := st.rowdata
          coldata := st.coldatav, nnz := st.datav.length, data := st.datav } k
        = sort ((fitp.values.get ⟨k, hk⟩).map (fun p => (toInt p.1, p.2))) := by
      unfold SparseRowMatrix.row
      simp only
      rw [hzip, hstep k hk, f3 k (by omega)]
      have e1 : ((((fitp.values.take k).map List.length).sum : Nat) : Int).toNat
          = (((fitp.values.map (fun vtmp =>
              sort (vtmp.map (fun p => (toInt p.1, p.2))))).take k).map List.length).sum := by
        rw [hsum k]
        omega
      have e2 : (((((fitp.values.take k).map List.length).sum : Nat) : Int)
          + ((fitp.values.get ⟨k, hk⟩).length : Int)
          - ((((fitp.values.take k).map List.length).sum : Nat) : Int)).toNat
          = ((fitp.values.map (fun vtmp =>
              sort (vtmp.map (fun p => (toInt p.1, p.2))))).get ⟨k, hk2⟩).length := by
        simp only [List.get_eq_getElem, List.getElem_map]
        rw [hlen]
        omega
      rw [e1, e2, drop_take_flatten _ k hk2]
      simp
    rw [hrow]
    refine ⟨(hsort _).1, ?_⟩
    rw [List.pairwise_map]
    refine List.Pairwise.imp ?_ (hsort _).2
    intro a b hab
    simpa [pair_less] using hab

/-- An instance of `execute_builds_csr`: for a field of three elements, the
second without pairs, sorted by `sortByFirst`, the row pointers are 0, 3, 3, 5
and the rows hold the elements' pairs by column. -/
theorem execute_builds_csr_witness :
    Interp2TransferAlgoT.execute (fun i : Nat => (i : Int)) sortByFirst smallInterpField = some
      { nrows := 3, ncols := 4, rowdata := [0, 3, 3, 5], coldata := [0, 3, 3, 1, 2], nnz := 5
        data := [7, 5, 1, 8, 9] } ∧
    ∃ m, Interp2TransferAlgoT.execute (fun i : Nat => (i : Int)) sortByFirst smallInterpField
        = some m ∧ m.rowdata.getD m.nrows 0 = (m.nnz : Int) :=
  ⟨by decide,
    match (execute_builds_csr (fun i : Nat => (i : Int)) sortByFirst smallInterpField
      sortByFirst_spec).2 4 rfl with
    | ⟨m, h1, _, _, _, _, _, h7, _⟩ => ⟨m, h1, h7⟩⟩

/-! ### Debug streams -/

theorem startsWith_iff (needle : List Char) :
    ∀ haystack : List Char, startsWith haystack needle = true ↔ ∃ post, haystack = needle ++ post := by
  induction needle with
  | nil =>
    intro haystack
    cases haystack <;> simp [startsWith]
  | cons n ns ih =>
    intro haystack
    cases haystack with
    | nil => simp [startsWith]
    | cons h hs =>
      simp only [startsWith, Bool.and_eq_true, decide_eq_true_eq, ih hs, List.cons_append,
        List.cons.injEq]
      constructor
      · rintro ⟨rfl, post, rfl⟩
        exact ⟨post, rfl, rfl⟩
      · rintro ⟨post, rfl, rfl⟩
        exact ⟨rfl, post, rfl⟩

theorem strstr_none (needle : List Char) :
    ∀ haystack : List Char, strstr haystack needle = none → ¬ Occurs needle haystack := by
  intro haystack
  induction haystack with
  | nil =>
    intro h ⟨pre, post, e⟩
    simp only [strstr] at h
    split_ifs at h with hn
    apply hn
    have := congrArg List.length e
    simp only [List.length_nil, List.length_append] at this
    exact List.length_eq_zero.mp (by omega)
  | cons x hs ih =>
    intro h ⟨pre, post, e⟩
    simp only [strstr] at h
    split_ifs at h with hs1
    simp only [Option.map_eq_none'] at h
    cases pre with
    | nil =>
      apply hs1
      rw [startsWith_iff]
      exact ⟨post, by simpa using e⟩
    | cons y pre2 =>
      simp only [List.cons_append, List.cons.injEq] at e
      exact ih h ⟨pre2, post, e.2⟩

theorem strstr_some (needle : List Char) :
    ∀ (haystack : List Char) (k : Nat), strstr haystack needle = some k →
      ∃ pre post, haystack = pre ++ needle ++ post ∧ pre.length = k ∧
        ∀ pre2 post2, haystack = pre2 ++ needle ++ post2 → k ≤ pre2.length := by
  intro haystack
  induction haystack with
  | nil =>
    intro k h
    simp only [strstr] at h
    split_ifs at h with hn
    simp only [Option.some.injEq] at h
    subst h
    subst hn
    exact ⟨[], [], rfl, rfl, fun _ _ _ => Nat.zero_le _⟩
  | cons x hs ih =>
    intro k h
    simp only [strstr] at h
    split_ifs at h with hs1
    · simp only [Option.some.injEq] at h
      subst h
      obtain ⟨post, e⟩ := (startsWith_iff needle _).mp hs1
      exact ⟨[], post, by simpa using e, rfl, fun _ _ _ => Nat.zero_le _⟩
    · simp only [Option.map_eq_some'] at h
      obtain ⟨k1, h1, rfl⟩ := h
      obtain ⟨pre, post, e, hl, hmin⟩ := ih k1 h1
      refine ⟨x :: pre, post, by simp [e], by simp [hl], ?_⟩
      intro pre2 post2 e2
      cases pre2 with
      | nil =>
        exfalso
        apply hs1
        rw [startsWith_iff]
        exact ⟨post2, by simpa using e2⟩
      | cons y p2 =>
        simp only [List.cons_append, List.cons.injEq] at e2
        have := hmin p2 post2 e2.2
        simp only [List.length_cons]
        omega

theorem charAt_append (pre needle post : List Char) :
    charAt (pre ++ needle ++ post) (pre.length + needle.length) = charAt post 0 := by
  unfold charAt
  rw [List.getD_eq_getElem?_getD, List.getD_eq_getElem?_getD,
    List.getElem?_append_right (by simp)]
  simp

theorem charAt_zero_plus (post : List Char) :
    (charAt post 0 = '+') ↔ post.head? = some '+' := by
  cases post with
  | nil => simp [charAt]
  | cons c cs => simp [charAt]

theorem strstr_of_startsWith (haystack needle : List Char)
    (h : startsWith haystack needle = true) : strstr haystack needle = some 0 := by
  cases haystack with
  | nil =>
    cases needle with
    | nil => simp [strstr]
    | cons n ns => simp [startsWith] at h
  | cons x hs => simp [strstr, h]

theorem strstr_none_of_not_occurs (haystack needle : List Char)
    (h : ¬ Occurs needle haystack) : strstr haystack needle = none := by
  cases hs : strstr haystack needle with
  | none => rfl
  | some k =>
    obtain ⟨pre, post, e, _, _⟩ := strstr_some needle haystack k hs
    exact absurd ⟨pre, post, e⟩ h

theorem needle_data (name : String) :
    ("," ++ name ++ ":").data = (Char.ofNat 44) :: (name ++ ":").data ∧
    ("," ++ name ++ ":").length = (name ++ ":").data.length + 1 := by
  have h1 : ("," ++ name ++ ":").data = (Char.ofNat 44) :: (name ++ ":").data := by
    simp [String.data_append]
  refine ⟨h1, ?_⟩
  show (("," ++ name ++ ":").data).length = _
  rw [h1]
  simp

/-- Claim C30: (1) without `SCI_DEBUG` the stream has its default; (2) when
`SCI_DEBUG` contains ",name:", the stream is active exactly when the character
right after the first occurrence is `+`; (3) when it does not contain ",name:"
but begins with "name:", the stream is active exactly when the character after
that is `+`; (4) when it neither contains ",name:" nor begins with "name:", the
stream has its default; (5) `name()` is the given name followed by ":+" when
the stream is active and by ":-" when it is not. -/
theorem dout_is_active (sci_debug : Option String) (name : String) (default_active : Bool) :
    (sci_debug = none → Dout.is_active sci_debug name default_active = default_active) ∧
    (∀ (env : String) (pre post : List Char), sci_debug = some env →
      env.data = pre ++ ("," ++ name ++ ":").data ++ post →
      (∀ pre2 post2, env.data = pre2 ++ ("," ++ name ++ ":").data ++ post2 →
        pre.length ≤ pre2.length) →
      (Dout.is_active sci_debug name default_active = true ↔ post.head? = some '+')) ∧
    (∀ (env : String) (post : List Char), sci_debug = some env →
      ¬ Occurs ("," ++ name ++ ":").data env.data →
      env.data = (name ++ ":").data ++ post →
      (Dout.is_active sci_debug name default_active = true ↔ post.head? = some '+')) ∧
    (∀ env : String, sci_debug = some env →
      ¬ Occurs ("," ++ name ++ ":").data env.data →
      (¬ ∃ post, env.data = (name ++ ":").data ++ post) →
      Dout.is_active sci_debug name default_active = default_active) ∧
    (Dout.new sci_debug name default_active).name
      = name ++ (if Dout.is_active sci_debug name default_active = true then ":+" else ":-") ∧
    (Dout.new sci_debug name default_active).toBool
      = Dout.is_active sci_debug name default_active := by
  obtain ⟨hd, hl⟩ := needle_data name
  refine ⟨?_, ?_, ?_, ?_, rfl, rfl⟩
  · intro h
    subst h
    rfl
  · intro env pre post h e hmin
    subst h
    simp only [Dout.is_active]
    cases hs : strstr env.data ("," ++ name ++ ":").data with
    | none => exact absurd ⟨pre, post, e⟩ (strstr_none _ _ hs)
    | some k =>
      obtain ⟨pre0, post0, e0, hl0, hmin0⟩ := strstr_some _ _ k hs
      have h1 := hmin0 pre post e
      have h2 := hmin pre0 post0 e0
      have hk : k = pre.length := by omega
      simp only [decide_eq_true_eq]
      rw [e, hk]
      have hn : ("," ++ name ++ ":").length = ("," ++ name ++ ":").data.length := rfl
      rw [hn, charAt_append]
      exact charAt_zero_plus post
  · intro env post h hno e
    subst h
    simp only [Dout.is_active]
    rw [strstr_none_of_not_occurs _ _ hno]
    simp only [hd, hl, List.drop_succ_cons, List.drop_zero]
    rw [strstr_of_startsWith _ _ ((startsWith_iff _ _).mpr ⟨post, e⟩)]
    simp only [ne_eq, not_true_eq_false, if_false, Nat.zero_add, Nat.add_sub_cancel,
      decide_eq_true_eq]
    have e2 : env.data = [] ++ (name ++ ":").data ++ post := by simpa using e
    have h0 := charAt_append [] (name ++ ":").data post
    rw [← e2] at h0
    simp only [List.length_nil, Nat.zero_add] at h0
    rw [h0]
    exact charAt_zero_plus post
  · intro env h hno hnb
    subst h
    simp only [Dout.is_active]
    rw [strstr_none_of_not_occurs _ _ hno]
    simp only [hd, List.drop_succ_cons, List.drop_zero]
    cases hs : strstr env.data (name ++ ":").data with
    | none => rfl
    | some k =>
      simp only
      by_cases hk : k = 0
      · exfalso
        subst hk
        obtain ⟨pre0, post0, e0, hl0, _⟩ := strstr_some _ _ 0 hs
        have : pre0 = [] := List.length_eq_zero.mp hl0
        subst this
        exact hnb ⟨post0, by simpa using e0⟩
      · simp [hk]

/-- An instance of `dout_is_active`: with `SCI_DEBUG` being ",name:+" the
stream `name` is active; with "name:-,x:+" it is not, whatever the default;
with "xname:+", where the name is the tail of another name, it keeps its
default and is printed as "name:-". -/
theorem dout_is_active_witness :
    Dout.is_active (some ",name:+") "name" false = true ∧
    Dout.is_active (some "name:-,x:+") "name" true = false ∧
    Dout.is_active (some "xname:+") "name" false = false ∧
    (Dout.new (some "xname:+") "name" false).name = "name:-" :=
  ⟨((dout_is_active (some ",name:+") "name" false).2.1 ",name:+" [] "+".data rfl (by decide)
      (fun _ _ _ => Nat.zero_le _)).mpr (by decide),
    Bool.eq_false_iff.mpr (fun h =>
      absurd (((dout_is_active (some "name:-,x:+") "name" true).2.2.1 "name:-,x:+" "-,x:+".data
        rfl (strstr_none _ _ (by decide)) (by decide)).mp h) (by decide)),
    (dout_is_active (some "xname:+") "name" false).2.2.2.1 "xname:+" rfl
      (strstr_none _ _ (by decide))
      (fun h => absurd ((startsWith_iff _ _).mpr h) (by decide)),
    by decide⟩

end Uintah
